import Mathlib

/-!
# JavaScriptCore script debugger (`Debugger.cpp`)

A shallow embedding of the decision logic of `JSC::Debugger`: the breakpoint
store, the blackbox table, the pause-request state and `pauseIfNeeded` with the
program-point callbacks that drive it.  Pointers are opaque handles, hash maps
are association lists, and every call that leaves the debugger (observers,
virtual hooks, the script evaluator) is recorded in a log.
-/

namespace JSC

/-! ## Basic types -/

abbrev SourceID := Nat
abbrev BreakpointID := Nat
abbrev BreakpointActionID := Nat
/-- A `CallFrame*` is an opaque handle; what it points at is read through `Env`. -/
abbrev CallFrame := Nat
abbrev GlobalObject := Nat
abbrev Observer := Nat
abbrev JSValue := Nat

/-- Modelled from the spec: the constant `noSourceID` of `SourceID.h`, the
identifier no script has. -/
def noSourceID : SourceID := 0

/-- Modelled from the spec: the constant `noBreakpointID` of `Breakpoint.h`, the
identifier no breakpoint registered by a client has. -/
def noBreakpointID : BreakpointID := 0

def UINT_MAX : Nat := 4294967295

/-- Conversion of an `int` to `unsigned`, as in `unsigned line = position.m_line.zeroBasedInt()`. -/
def toUnsigned (i : Int) : Nat := (i % 4294967296).toNat

/-- Modelled from the spec: `WTF::TextPosition`, a zero-based line and column. -/
structure TextPosition where
  m_line : Int
  m_column : Int
  deriving DecidableEq, Repr

/-- Modelled from the spec: `operator<` of `WTF::TextPosition`, which orders
positions by line and then by column, so that a range is `[first, second)`. -/
def TextPosition.lt (a b : TextPosition) : Bool :=
  if a.m_line = b.m_line then decide (a.m_column < b.m_column) else decide (a.m_line < b.m_line)

/-- Modelled from the spec: `operator>=` of `WTF::TextPosition`. -/
def TextPosition.ge (a b : TextPosition) : Bool := !(TextPosition.lt a b)

inductive ActionType
  | Log | Evaluate | Sound | Probe
  deriving DecidableEq, Repr

/-- Modelled from the spec: `Breakpoint::Action` of `Breakpoint.h`. -/
structure Action where
  type : ActionType
  data : String
  id : BreakpointActionID
  deriving DecidableEq, Repr

/-- Modelled from the spec: `JSC::Breakpoint` of `Breakpoint.h`.  A breakpoint
object is represented by its value: `&a == &b` is equality of the records. -/
structure Breakpoint where
  id : BreakpointID
  sourceID : SourceID
  lineNumber : Nat
  columnNumber : Nat
  condition : String := ""
  actions : List Action := []
  autoContinue : Bool := false
  linked : Bool := true
  resolved : Bool := true
  deriving DecidableEq, Repr

def Breakpoint.isLinked (b : Breakpoint) : Bool := b.linked
def Breakpoint.isResolved (b : Breakpoint) : Bool := b.resolved
def Breakpoint.isAutoContinue (b : Breakpoint) : Bool := b.autoContinue

inductive BlackboxFlag
  | Ignore | Defer
  deriving DecidableEq, Repr

/-- An `OptionSet<BlackboxFlag>`. -/
structure BlackboxFlags where
  ignore : Bool := false
  defer : Bool := false
  deriving DecidableEq, Repr

def BlackboxFlags.add (a b : BlackboxFlags) : BlackboxFlags :=
  { ignore := a.ignore || b.ignore, defer := a.defer || b.defer }

def BlackboxFlags.contains (a : BlackboxFlags) : BlackboxFlag → Bool
  | BlackboxFlag.Ignore => a.ignore
  | BlackboxFlag.Defer => a.defer

/-- A `BlackboxRange` is `std::pair<TextPosition, TextPosition>`. -/
abbrev BlackboxRange := TextPosition × TextPosition

/-- A `BlackboxConfiguration` maps ranges to flags; it is traversed entry by entry. -/
abbrev BlackboxConfiguration := List (BlackboxRange × BlackboxFlags)

inductive SteppingMode
  | SteppingModeDisabled | SteppingModeEnabled
  deriving DecidableEq, Repr

inductive ReasonForPause
  | NotPaused
  | PausedForException
  | PausedAtStatement
  | PausedAtExpression
  | PausedBeforeReturn
  | PausedAtEndOfProgram
  | PausedForBreakpoint
  | PausedForDebuggerStatement
  | PausedAfterBlackboxedScript
  deriving DecidableEq, Repr

inductive ReasonForDetach
  | TerminatingDebuggingSession | GlobalObjectIsDestructing
  deriving DecidableEq, Repr

inductive CallFrameUpdateAction
  | AttemptPause | NoPause
  deriving DecidableEq, Repr

inductive BreakpointState
  | BreakpointDisabled | BreakpointEnabled
  deriving DecidableEq, Repr

/-! ## Containers -/

/-- A `WTF::HashMap` with integer keys, as an association list with one entry per key. -/
abbrev HashMap (V : Type) := List (Nat × V)

namespace HashMap

variable {V : Type}

def find : HashMap V → Nat → Option V
  | [], _ => none
  | (k, v) :: rest, key => if k = key then some v else find rest key

def contains (m : HashMap V) (key : Nat) : Bool := (find m key).isSome

/-- The map after `set(key, value)`: the entry is overwritten in place, or added. -/
def set : HashMap V → Nat → V → HashMap V
  | [], key, value => [(key, value)]
  | (k, v) :: rest, key, value =>
    if k = key then (k, value) :: rest else (k, v) :: set rest key value

/-- The map after `ensure(key, functor)`: an absent key is added with the functor's value. -/
def ensure (m : HashMap V) (key : Nat) (value : V) : HashMap V :=
  if contains m key then m else set m key value

def remove : HashMap V → Nat → HashMap V
  | [], _ => []
  | (k, v) :: rest, key => if k = key then remove rest key else (k, v) :: remove rest key

end HashMap

/-- The list after `HashSet::add` or `ListHashSet::add`: an element is held once. -/
def hashSetAdd {α : Type} [DecidableEq α] (s : List α) (a : α) : List α :=
  if a ∈ s then s else s ++ [a]

/-- The list after `HashSet::remove`. -/
def hashSetRemove {α : Type} [DecidableEq α] (s : List α) (a : α) : List α :=
  s.filter (fun x => !decide (x = a))

/-- Modelled from the spec: `WTF::Vector::removeAllMatching`, which removes every
element the predicate accepts and returns how many it removed. -/
def removeAllMatching {α : Type} (v : List α) (p : α → Bool) : List α × Nat :=
  (v.filter (fun x => !p x), (v.filter p).length)

abbrev BreakpointsVector := List Breakpoint
abbrev LineToBreakpointsMap := HashMap BreakpointsVector

/-! ## The log of calls that leave the debugger -/

/-- A `UChar`, one code unit of a source text. -/
abbrev UChar := Nat

/-- Modelled from the spec: `Debugger::Script` of `Debugger.h`, of which the source
text and the start and end positions are kept. -/
structure Script where
  source : List UChar
  startLine : Int
  startColumn : Int
  endLine : Int
  endColumn : Int
  deriving DecidableEq, Repr

inductive Event
  /-- `Observer::didPause`, with the reason for the pause that is in force. -/
  | observerDidPause (o : Observer) (reason : ReasonForPause)
  | observerDidContinue (o : Observer)
  | observerDidDeferBreakpointPause (o : Observer) (id : BreakpointID)
  | observerBreakpointActionLog (o : Observer) (data : String)
  | observerBreakpointActionSound (o : Observer) (id : BreakpointActionID)
  | observerBreakpointActionProbe (o : Observer) (id : BreakpointActionID)
      (batchId sampleId : Nat) (value : JSValue)
  | observerWillEnter (o : Observer) (frame : CallFrame)
  /-- The virtual hook `didPause(globalObject)` that `handlePause` calls. -/
  | hookDidPause (g : Option GlobalObject)
  /-- The virtual hook `didContinue(globalObject)` that `handlePause` calls. -/
  | hookDidContinue (g : Option GlobalObject)
  | attachDebugger
  | detachDebugger (isBeingDestroyed : Bool)
  | recompileAllJSFunctions
  /-- A call of `evaluateWithScopeExtension` on the expression text. -/
  | evaluate (expression : String)
  | reportException (g : Option GlobalObject) (exception : JSValue)
  | clientWillEvaluate (action : Action)
  | clientDidEvaluate (action : Action)
  | observerFailedToParseSource (o : Observer) (data : List UChar) (firstLine errorLine : Int)
      (errorMessage : String)
  | observerDidParseSource (o : Observer) (sourceID : SourceID) (script : Script)
  deriving DecidableEq, Repr

/-- Modelled from the spec: `DebuggerCallFrame`, the wrapper of the paused frame
that `currentDebuggerCallFrame` caches. -/
structure DebuggerCallFrame where
  callFrame : Option CallFrame
  deriving DecidableEq, Repr

/-! ## The debugger state -/

/-- The fields of `JSC::Debugger` that `Debugger.cpp` reads and writes, with the
values the constructor gives them (for the fields it does not list, the empty
container, the null pointer, and for the probe counters 0 and 1), and the log.
`m_hasClient` stands for `m_client` being non-null, `m_parseDataMap` for the keys
of the parse data cache. -/
structure Debugger where
  m_globalObjects : List GlobalObject := []
  m_parseDataMap : List SourceID := []
  m_blackboxBreakpointEvaluations : Bool := false
  m_pauseAtNextOpportunity : Bool := false
  m_pastFirstExpressionInStatement : Bool := false
  m_isPaused : Bool := false
  m_breakpointsActivated : Bool := false
  m_hasHandlerForExceptionCallback : Bool := false
  m_suppressAllPauses : Bool := false
  m_steppingMode : SteppingMode := SteppingMode.SteppingModeDisabled
  m_reasonForPause : ReasonForPause := ReasonForPause.NotPaused
  m_currentException : Option JSValue := none
  m_pauseOnCallFrame : Option CallFrame := none
  m_currentCallFrame : Option CallFrame := none
  m_lastExecutedLine : Nat := UINT_MAX
  m_lastExecutedSourceID : SourceID := noSourceID
  m_pauseOnStepNext : Bool := false
  m_pauseOnStepOut : Bool := false
  m_afterBlackboxedScript : Bool := false
  m_pausingBreakpointID : BreakpointID := noBreakpointID
  m_breakpointsForSourceID : HashMap LineToBreakpointsMap := []
  m_breakpoints : List Breakpoint := []
  m_specialBreakpoint : Option Breakpoint := none
  m_deferredBreakpoints : List Breakpoint := []
  m_pauseOnAllExceptionsBreakpoint : Option Breakpoint := none
  m_pauseOnUncaughtExceptionsBreakpoint : Option Breakpoint := none
  m_pauseOnDebuggerStatementsBreakpoint : Option Breakpoint := none
  m_blackboxConfigurations : HashMap BlackboxConfiguration := []
  m_currentDebuggerCallFrame : Option DebuggerCallFrame := none
  m_observers : List Observer := []
  m_hasClient : Bool := false
  m_doneProcessingDebuggerEvents : Bool := true
  m_currentProbeBatchId : Nat := 0
  m_nextProbeSampleId : Nat := 1
  log : List Event := []
  deriving DecidableEq, Repr

namespace Debugger

/-- The state `Debugger::Debugger(VM&)` constructs. -/
def initial : Debugger := {}

def logEvent (e : Event) (d : Debugger) : Debugger := { d with log := d.log ++ [e] }

/-! ## The breakpoint store -/

/-- What `toggleBreakpoint(breakpoint, state)` does: it visits code blocks of the
heap and touches no field of the debugger. -/
def toggleBreakpoint (_breakpoint : Breakpoint) (_enabledOrNot : BreakpointState)
    (d : Debugger) : Debugger := d

/-- The vector a `(sourceID, line)` bucket of the index holds, empty when there is none. -/
def bucket (d : Debugger) (sourceID : SourceID) (line : Nat) : BreakpointsVector :=
  match HashMap.find d.m_breakpointsForSourceID sourceID with
  | none => []
  | some breakpointsForLine =>
    match HashMap.find breakpointsForLine line with
    | none => []
    | some breakpoints => breakpoints

/-- The function `setBreakpoint`: both `ensure` calls come before the search for a
breakpoint at the same column. -/
def setBreakpoint (breakpoint : Breakpoint) (d : Debugger) : Bool × Debugger :=
  let forSourceID := HashMap.ensure d.m_breakpointsForSourceID breakpoint.sourceID []
  let breakpointsForLine := (HashMap.find forSourceID breakpoint.sourceID).getD []
  let breakpointsForLine := HashMap.ensure breakpointsForLine breakpoint.lineNumber []
  let breakpoints := (HashMap.find breakpointsForLine breakpoint.lineNumber).getD []
  let ensured := HashMap.set forSourceID breakpoint.sourceID breakpointsForLine
  let d := { d with m_breakpointsForSourceID := ensured }
  if breakpoints.any (fun existingBreakpoint =>
      decide (existingBreakpoint.columnNumber = breakpoint.columnNumber)) then
    (false, d)
  else
    let breakpoints := breakpoints ++ [breakpoint]
    let appended := HashMap.set forSourceID breakpoint.sourceID
      (HashMap.set breakpointsForLine breakpoint.lineNumber breakpoints)
    let d := { d with m_breakpointsForSourceID := appended,
                      m_breakpoints := hashSetAdd d.m_breakpoints breakpoint }
    (true, toggleBreakpoint breakpoint BreakpointState.BreakpointEnabled d)

/-- The function `removeBreakpoint`; `removed |= !removeAllMatching(...)` is kept as
written. -/
def removeBreakpoint (breakpoint : Breakpoint) (d : Debugger) : Bool × Debugger :=
  match HashMap.find d.m_breakpointsForSourceID breakpoint.sourceID with
  | none => (false, d)
  | some breakpointsForLine =>
    match HashMap.find breakpointsForLine breakpoint.lineNumber with
    | none => (false, d)
    | some breakpoints =>
      let d := toggleBreakpoint breakpoint BreakpointState.BreakpointDisabled d
      let removed := decide (breakpoint ∈ d.m_breakpoints)
      let d := { d with m_breakpoints := hashSetRemove d.m_breakpoints breakpoint }
      let (breakpoints, count) := removeAllMatching breakpoints
        (fun existingBreakpoint => decide (breakpoint = existingBreakpoint))
      let removed := removed || !(decide (count ≠ 0))
      let breakpointsForLine :=
        if breakpoints.isEmpty then HashMap.remove breakpointsForLine breakpoint.lineNumber
        else HashMap.set breakpointsForLine breakpoint.lineNumber breakpoints
      let forSourceID :=
        if breakpoints.isEmpty && breakpointsForLine.isEmpty then
          HashMap.remove d.m_breakpointsForSourceID breakpoint.sourceID
        else HashMap.set d.m_breakpointsForSourceID breakpoint.sourceID breakpointsForLine
      (removed, { d with m_breakpointsForSourceID := forSourceID })

/-- The loop of `didHitBreakpoint` over the breakpoints of the line. -/
def didHitBreakpointLoop (lastExecutedLine line column : Nat) :
    BreakpointsVector → Option Breakpoint
  | [] => none
  | breakpoint :: rest =>
    let breakLine := breakpoint.lineNumber
    let breakColumn := breakpoint.columnNumber
    if (line ≠ lastExecutedLine ∧ line = breakLine ∧ breakColumn = 0)
        ∨ (line = breakLine ∧ column = breakColumn) then
      some breakpoint
    else didHitBreakpointLoop lastExecutedLine line column rest

def didHitBreakpoint (d : Debugger) (sourceID : SourceID) (position : TextPosition) :
    Option Breakpoint :=
  if !d.m_breakpointsActivated then none
  else
    match HashMap.find d.m_breakpointsForSourceID sourceID with
    | none => none
    | some breakpointsForLine =>
      let line := toUnsigned position.m_line
      let column := toUnsigned position.m_column
      match HashMap.find breakpointsForLine line with
      | none => none
      | some breakpoints => didHitBreakpointLoop d.m_lastExecutedLine line column breakpoints

/-- What `clearBreakpoints` does to the debugger; the sweep over code blocks
touches no field of it. -/
def clearBreakpoints (d : Debugger) : Debugger :=
  { d with m_breakpointsForSourceID := [], m_breakpoints := [], m_specialBreakpoint := none }


/-! ## Requests of the client -/

/-- Modelled from the spec: `isStepping()` of `Debugger.h`, true when the stepping
mode is enabled. -/
def isStepping (d : Debugger) : Bool :=
  decide (d.m_steppingMode = SteppingMode.SteppingModeEnabled)

/-- What `setSteppingMode` does to the debugger; the sweep over code blocks
touches no other field of it. -/
def setSteppingMode (mode : SteppingMode) (d : Debugger) : Debugger :=
  if mode = d.m_steppingMode then d else { d with m_steppingMode := mode }

def recompileAllJSFunctions (d : Debugger) : Debugger :=
  logEvent Event.recompileAllJSFunctions d

def clearParsedData (d : Debugger) : Debugger := { d with m_parseDataMap := [] }

def setBreakpointsActivated (activated : Bool) (d : Debugger) : Debugger :=
  if activated = d.m_breakpointsActivated then d
  else recompileAllJSFunctions { d with m_breakpointsActivated := activated }

def schedulePauseAtNextOpportunity (d : Debugger) : Debugger :=
  setSteppingMode SteppingMode.SteppingModeEnabled { d with m_pauseAtNextOpportunity := true }

def cancelPauseAtNextOpportunity (d : Debugger) : Debugger :=
  { d with m_pauseAtNextOpportunity := false }

def schedulePauseForSpecialBreakpoint (breakpoint : Breakpoint) (d : Debugger) :
    Bool × Debugger :=
  if d.m_specialBreakpoint.isSome then (false, d)
  else
    (true, setSteppingMode SteppingMode.SteppingModeEnabled
      { d with m_specialBreakpoint := some breakpoint })

def cancelPauseForSpecialBreakpoint (breakpoint : Breakpoint) (d : Debugger) :
    Bool × Debugger :=
  if some breakpoint ≠ d.m_specialBreakpoint then (false, d)
  else (true, { d with m_specialBreakpoint := none })

def resetImmediatePauseState (d : Debugger) : Debugger :=
  { d with m_pauseAtNextOpportunity := false, m_afterBlackboxedScript := false,
           m_specialBreakpoint := none }

def resetEventualPauseState (d : Debugger) : Debugger :=
  { d with m_pauseOnCallFrame := none, m_pauseOnStepNext := false, m_pauseOnStepOut := false }

def continueProgram (d : Debugger) : Debugger :=
  let d := resetImmediatePauseState d
  let d := resetEventualPauseState d
  let d := { d with m_deferredBreakpoints := [] }
  if !d.m_isPaused then d
  else { d with m_doneProcessingDebuggerEvents := true }

def stepNextExpression (d : Debugger) : Debugger :=
  if !d.m_isPaused then d
  else
    let d := { d with m_pauseOnCallFrame := d.m_currentCallFrame, m_pauseOnStepNext := true }
    let d := setSteppingMode SteppingMode.SteppingModeEnabled d
    { d with m_doneProcessingDebuggerEvents := true }

def stepIntoStatement (d : Debugger) : Debugger :=
  if !d.m_isPaused then d
  else
    let d := { d with m_pauseAtNextOpportunity := true }
    let d := setSteppingMode SteppingMode.SteppingModeEnabled d
    { d with m_doneProcessingDebuggerEvents := true }

def stepOverStatement (d : Debugger) : Debugger :=
  if !d.m_isPaused then d
  else
    let d := { d with m_pauseOnCallFrame := d.m_currentCallFrame }
    let d := setSteppingMode SteppingMode.SteppingModeEnabled d
    { d with m_doneProcessingDebuggerEvents := true }

def setBlackboxConfiguration (sourceID : SourceID)
    (blackboxConfiguration : BlackboxConfiguration) (d : Debugger) : Debugger :=
  if blackboxConfiguration.isEmpty then
    { d with m_blackboxConfigurations := HashMap.remove d.m_blackboxConfigurations sourceID }
  else
    { d with m_blackboxConfigurations :=
        HashMap.set d.m_blackboxConfigurations sourceID blackboxConfiguration }

def setBlackboxBreakpointEvaluations (blackboxBreakpointEvaluations : Bool) (d : Debugger) :
    Debugger :=
  { d with m_blackboxBreakpointEvaluations := blackboxBreakpointEvaluations }

def clearBlackbox (d : Debugger) : Debugger := { d with m_blackboxConfigurations := [] }

/-- The pure virtual hook `attachDebugger`. -/
def attachDebugger (d : Debugger) : Debugger := logEvent Event.attachDebugger d

/-- The pure virtual hook `detachDebugger`. -/
def detachDebugger (isBeingDestroyed : Bool) (d : Debugger) : Debugger :=
  logEvent (Event.detachDebugger isBeingDestroyed) d

def addObserver (observer : Observer) (d : Debugger) : Debugger :=
  let wasEmpty := d.m_observers.isEmpty
  let d := { d with m_observers := hashSetAdd d.m_observers observer }
  if wasEmpty then attachDebugger d else d

def removeObserver (observer : Observer) (isBeingDestroyed : Bool) (d : Debugger) : Debugger :=
  let d := { d with m_observers := hashSetRemove d.m_observers observer }
  if d.m_observers.isEmpty then detachDebugger isBeingDestroyed d else d

def canDispatchFunctionToObservers (d : Debugger) : Bool := !d.m_observers.isEmpty

def dispatchFunctionToObservers (func : Observer → Debugger → Debugger) (d : Debugger) :
    Debugger :=
  if !canDispatchFunctionToObservers d then d
  else d.m_observers.foldl (fun acc observer => func observer acc) d

end Debugger

/-! ## The collaborators -/

/-- An operation of the debugger's client interface, as delivered to a paused
debugger by the nested event loop or performed by a script under evaluation. -/
inductive ClientCommand
  | setBreakpoint (breakpoint : Breakpoint)
  | removeBreakpoint (breakpoint : Breakpoint)
  | clearBreakpoints
  | setBreakpointsActivated (activated : Bool)
  | schedulePauseAtNextOpportunity
  | cancelPauseAtNextOpportunity
  | schedulePauseForSpecialBreakpoint (breakpoint : Breakpoint)
  | cancelPauseForSpecialBreakpoint (breakpoint : Breakpoint)
  | continueProgram
  | stepNextExpression
  | stepIntoStatement
  | stepOverStatement
  | stepOutOfFunction
  | setBlackboxConfiguration (sourceID : SourceID) (configuration : BlackboxConfiguration)
  | setBlackboxBreakpointEvaluations (value : Bool)
  | clearBlackbox
  | addObserver (observer : Observer)
  | removeObserver (observer : Observer) (isBeingDestroyed : Bool)
  | detach (globalObject : GlobalObject) (reason : ReasonForDetach)
  deriving DecidableEq, Repr

/-- Modelled from the spec: what one call of the script evaluator
(`DebuggerCallFrame::evaluateWithScopeExtension`) yields: the value, the thrown
exception if any, and the debugger operations the script performed while it ran. -/
structure EvalOutcome where
  result : JSValue := 0
  exception : Option JSValue := none
  reentrant : List ClientCommand := []

/-- Modelled from the spec: the runtime the debugger is embedded in (frames, the
evaluator, the nested event loop), of which `Debugger.cpp` only holds handles. -/
structure Env where
  /-- `DebuggerCallFrame::sourceIDForCallFrame`. -/
  sourceIDForCallFrame : Option CallFrame → SourceID
  /-- `DebuggerCallFrame::positionForCallFrame`. -/
  positionForCallFrame : Option CallFrame → TextPosition
  /-- `CallFrame::callerFrame(topEntryFrame)`. -/
  callerFrame : CallFrame → Option CallFrame
  /-- `CallFrame::lexicalGlobalObject`. -/
  lexicalGlobalObject : CallFrame → GlobalObject
  /-- `vm.isEntered()`. -/
  vmIsEntered : Bool
  /-- `vm.entryScope->globalObject()`. -/
  entryScopeGlobalObject : GlobalObject
  /-- `evaluateWithScopeExtension` on an expression text. -/
  evaluate : String → EvalOutcome
  /-- `JSValue::toBoolean`. -/
  toBoolean : JSValue → Bool
  /-- The commands the client delivers while `runEventLoopWhilePaused` runs. -/
  eventLoopCommands : List ClientCommand
  /-- `m_vm.topCallFrame`. -/
  topCallFrame : Option CallFrame := none
  /-- Whether the value is an error instance for which `isStackOverflowError()` or
  `isOutOfMemoryError()` holds. -/
  isStackOverflowOrOutOfMemoryError : JSValue → Bool := fun _ => false
  /-- The frame that `EmptyTopLevelCallFrameForDebugger` builds. -/
  emptyTopLevelCallFrame : CallFrame := 0

namespace Debugger

def lexicalGlobalObjectForCallFrame (env : Env) (callFrame : Option CallFrame) :
    Option GlobalObject :=
  match callFrame with
  | none => none
  | some frame => some (env.lexicalGlobalObject frame)

/-- Modelled from the spec: `isAttached(globalObject)` compares
`globalObject->debugger()` with this debugger, which `attach` and `detach` keep
equal to membership in `m_globalObjects`. -/
def isAttached (globalObject : Option GlobalObject) (d : Debugger) : Bool :=
  match globalObject with
  | none => false
  | some g => decide (g ∈ d.m_globalObjects)

def stepOutOfFunction (env : Env) (d : Debugger) : Debugger :=
  if !d.m_isPaused then d
  else
    let d := { d with m_pauseOnCallFrame := d.m_currentCallFrame.bind env.callerFrame,
                      m_pauseOnStepOut := true }
    let d := setSteppingMode SteppingMode.SteppingModeEnabled d
    { d with m_doneProcessingDebuggerEvents := true }

/-- What `detach` does to the debugger; clearing the requests of code blocks and
`globalObject->setDebugger(nullptr)` touch no other field of it. -/
def detach (env : Env) (globalObject : GlobalObject) (_reason : ReasonForDetach)
    (d : Debugger) : Debugger :=
  let d :=
    if d.m_isPaused && d.m_currentCallFrame.isSome
        && (!env.vmIsEntered || decide (env.entryScopeGlobalObject = globalObject)) then
      continueProgram { d with m_currentCallFrame := none, m_pauseOnCallFrame := none }
    else d
  let d := { d with m_globalObjects := hashSetRemove d.m_globalObjects globalObject }
  if d.m_globalObjects.isEmpty then clearParsedData d else d

def runCommand (env : Env) : ClientCommand → Debugger → Debugger
  | ClientCommand.setBreakpoint b, d => (setBreakpoint b d).2
  | ClientCommand.removeBreakpoint b, d => (removeBreakpoint b d).2
  | ClientCommand.clearBreakpoints, d => clearBreakpoints d
  | ClientCommand.setBreakpointsActivated a, d => setBreakpointsActivated a d
  | ClientCommand.schedulePauseAtNextOpportunity, d => schedulePauseAtNextOpportunity d
  | ClientCommand.cancelPauseAtNextOpportunity, d => cancelPauseAtNextOpportunity d
  | ClientCommand.schedulePauseForSpecialBreakpoint b, d =>
    (schedulePauseForSpecialBreakpoint b d).2
  | ClientCommand.cancelPauseForSpecialBreakpoint b, d =>
    (cancelPauseForSpecialBreakpoint b d).2
  | ClientCommand.continueProgram, d => continueProgram d
  | ClientCommand.stepNextExpression, d => stepNextExpression d
  | ClientCommand.stepIntoStatement, d => stepIntoStatement d
  | ClientCommand.stepOverStatement, d => stepOverStatement d
  | ClientCommand.stepOutOfFunction, d => stepOutOfFunction env d
  | ClientCommand.setBlackboxConfiguration s c, d => setBlackboxConfiguration s c d
  | ClientCommand.setBlackboxBreakpointEvaluations v, d => setBlackboxBreakpointEvaluations v d
  | ClientCommand.clearBlackbox, d => clearBlackbox d
  | ClientCommand.addObserver o, d => addObserver o d
  | ClientCommand.removeObserver o b, d => removeObserver o b d
  | ClientCommand.detach g r, d => detach env g r d

def runCommands (env : Env) (commands : List ClientCommand) (d : Debugger) : Debugger :=
  commands.foldl (fun acc command => runCommand env command acc) d

/-- Modelled from the spec: the pure virtual `runEventLoopWhilePaused`, which
processes the client's commands one by one until one of them sets
`m_doneProcessingDebuggerEvents` or the event loop stops delivering them. -/
def runEventLoopWhilePaused (env : Env) : List ClientCommand → Debugger → Debugger
  | [], d => d
  | command :: rest, d =>
    if d.m_doneProcessingDebuggerEvents then d
    else runEventLoopWhilePaused env rest (runCommand env command d)


/-! ## Evaluation of conditions and actions -/

def currentDebuggerCallFrame (d : Debugger) : Debugger :=
  if d.m_currentDebuggerCallFrame.isNone then
    { d with m_currentDebuggerCallFrame := some { callFrame := d.m_currentCallFrame } }
  else d

/-- One call of `evaluateWithScopeExtension` on the current debugger call frame:
the call is logged and the script's own debugger operations take effect. -/
def evaluateWithScopeExtension (env : Env) (expression : String) (d : Debugger) :
    EvalOutcome × Debugger :=
  let outcome := env.evaluate expression
  (outcome, runCommands env outcome.reentrant (logEvent (Event.evaluate expression) d))

def reportException (globalObject : Option GlobalObject) (exception : JSValue)
    (d : Debugger) : Debugger :=
  logEvent (Event.reportException globalObject exception) d

/-- The scope extension object that the client supplies is only handed to the
evaluator. -/
def evaluateBreakpointCondition (env : Env) (breakpoint : Breakpoint)
    (globalObject : Option GlobalObject) (d : Debugger) : Bool × Debugger :=
  let condition := breakpoint.condition
  if condition.isEmpty then (true, d)
  else
    let d := currentDebuggerCallFrame d
    let (result, d) := evaluateWithScopeExtension env condition d
    if d.m_currentCallFrame.isNone then (false, d)
    else
      match result.exception with
      | some exception => (false, reportException globalObject exception d)
      | none => (env.toBoolean result.result, d)

/-- Modelled from the spec: `Breakpoint::shouldPause`, which asks the debugger to
evaluate the breakpoint's condition. -/
def shouldPause (env : Env) (breakpoint : Breakpoint) (globalObject : Option GlobalObject)
    (d : Debugger) : Bool × Debugger :=
  evaluateBreakpointCondition env breakpoint globalObject d

/-- The body of the loop of `evaluateBreakpointActions` for one action, up to the
check of `isAttached`. -/
def evaluateBreakpointAction (env : Env) (action : Action)
    (globalObject : Option GlobalObject) (d : Debugger) : Debugger :=
  let d := if d.m_hasClient then logEvent (Event.clientWillEvaluate action) d else d
  let d := currentDebuggerCallFrame d
  let d :=
    match action.type with
    | ActionType.Log =>
      dispatchFunctionToObservers
        (fun observer => logEvent (Event.observerBreakpointActionLog observer action.data)) d
    | ActionType.Evaluate =>
      let (result, d) := evaluateWithScopeExtension env action.data d
      match result.exception with
      | some exception => reportException globalObject exception d
      | none => d
    | ActionType.Sound =>
      dispatchFunctionToObservers
        (fun observer => logEvent (Event.observerBreakpointActionSound observer action.id)) d
    | ActionType.Probe =>
      let (result, d) := evaluateWithScopeExtension env action.data d
      let d :=
        match result.exception with
        | some exception => reportException globalObject exception d
        | none => d
      let value := match result.exception with
        | some exception => exception
        | none => result.result
      dispatchFunctionToObservers
        (fun observer acc =>
          let sampleId := acc.m_nextProbeSampleId
          let acc := { acc with m_nextProbeSampleId := (sampleId + 1) % 4294967296 }
          logEvent (Event.observerBreakpointActionProbe observer action.id
            acc.m_currentProbeBatchId sampleId value) acc) d
  if d.m_hasClient then logEvent (Event.clientDidEvaluate action) d else d

def evaluateBreakpointActionsLoop (env : Env) (globalObject : Option GlobalObject) :
    List Action → Debugger → Debugger
  | [], d => d
  | action :: rest, d =>
    let d := evaluateBreakpointAction env action globalObject d
    if !isAttached globalObject d then d
    else evaluateBreakpointActionsLoop env globalObject rest d

def evaluateBreakpointActions (env : Env) (breakpoint : Breakpoint)
    (globalObject : Option GlobalObject) (d : Debugger) : Debugger :=
  let d := { d with m_currentProbeBatchId := (d.m_currentProbeBatchId + 1) % 4294967296 }
  evaluateBreakpointActionsLoop env globalObject breakpoint.actions d

/-! ## Pausing -/

/-- The value `exceptionOrCaughtValue` computes for the observers is only read
from the frame. -/
def handlePause (env : Env) (globalObject : Option GlobalObject) (d : Debugger) : Debugger :=
  let d := dispatchFunctionToObservers
    (fun observer acc =>
      let acc := currentDebuggerCallFrame acc
      logEvent (Event.observerDidPause observer acc.m_reasonForPause) acc) d
  let d := logEvent (Event.hookDidPause globalObject) d
  let d := { d with m_doneProcessingDebuggerEvents := false }
  let d := runEventLoopWhilePaused env env.eventLoopCommands d
  let d := logEvent (Event.hookDidContinue globalObject) d
  dispatchFunctionToObservers (fun observer => logEvent (Event.observerDidContinue observer)) d

/-- The loop of `pauseIfNeeded` over the ranges of the script: the flags of the
ranges that hold the position, or `none` when `pauseIfNeeded` returns from
inside the loop because of `Ignore`. -/
def blackboxLoop (position : TextPosition) :
    BlackboxConfiguration → BlackboxFlags → Option BlackboxFlags
  | [], relevantBlackboxFlags => some relevantBlackboxFlags
  | (blackboxRange, blackboxFlags) :: rest, relevantBlackboxFlags =>
    if TextPosition.lt position blackboxRange.1 || TextPosition.ge position blackboxRange.2 then
      blackboxLoop position rest relevantBlackboxFlags
    else
      let relevantBlackboxFlags := relevantBlackboxFlags.add blackboxFlags
      if relevantBlackboxFlags.contains BlackboxFlag.Ignore then none
      else blackboxLoop position rest relevantBlackboxFlags

def relevantBlackboxFlags (d : Debugger) (sourceID : SourceID) (position : TextPosition) :
    Option BlackboxFlags :=
  match HashMap.find d.m_blackboxConfigurations sourceID with
  | none => some {}
  | some configuration => blackboxLoop position configuration {}

/-- The lambda `shouldDeferPause` of `pauseIfNeeded`. -/
def shouldDeferPause (relevantBlackboxFlags : BlackboxFlags) (d : Debugger) : Bool × Debugger :=
  if !relevantBlackboxFlags.contains BlackboxFlag.Defer then (false, d)
  else
    let d := { d with m_afterBlackboxedScript := true }
    let d :=
      if d.m_pausingBreakpointID ≠ noBreakpointID then
        let d := dispatchFunctionToObservers
          (fun observer acc =>
            logEvent (Event.observerDidDeferBreakpointPause observer acc.m_pausingBreakpointID)
              acc) d
        { d with m_pausingBreakpointID := noBreakpointID }
      else d
    (true, schedulePauseAtNextOpportunity d)

/-- The locals of the loop of `pauseIfNeeded` over the deferred breakpoints. -/
structure DeferredLoopState where
  pausingBreakpointID : Option BreakpointID := none
  hasEvaluatedSpecialBreakpoint : Bool := false
  shouldContinue : Bool := true
  deriving DecidableEq, Repr

/-- The loop of `pauseIfNeeded` over the deferred breakpoints; `none` when
`pauseIfNeeded` returns from inside the loop because the frame was lost. -/
def deferredBreakpointsLoop (env : Env) (globalObject : Option GlobalObject) :
    List Breakpoint → DeferredLoopState → Debugger → Option DeferredLoopState × Debugger
  | [], state, d => (some state, d)
  | deferredBreakpoint :: rest, state, d =>
    let (pause, d) := shouldPause env deferredBreakpoint globalObject d
    if d.m_currentCallFrame.isNone then (none, d)
    else if !pause then deferredBreakpointsLoop env globalObject rest state d
    else
      let d := evaluateBreakpointActions env deferredBreakpoint globalObject d
      if d.m_currentCallFrame.isNone then (none, d)
      else if deferredBreakpoint.isAutoContinue then
        deferredBreakpointsLoop env globalObject rest state d
      else
        let state := { state with shouldContinue := false }
        let state :=
          if !deferredBreakpoint.isLinked then
            { state with hasEvaluatedSpecialBreakpoint := true }
          else if !state.hasEvaluatedSpecialBreakpoint && state.pausingBreakpointID.isNone then
            { state with pausingBreakpointID := some deferredBreakpoint.id }
          else state
        deferredBreakpointsLoop env globalObject rest state d

/-- The block `if (!m_deferredBreakpoints.isEmpty())` of `pauseIfNeeded`: whether
control goes on past it, and the debugger. -/
def evaluateDeferredBreakpoints (env : Env) (globalObject : Option GlobalObject)
    (didPauseForStep : Bool) (d : Debugger) : Bool × Debugger :=
  if d.m_deferredBreakpoints.isEmpty then (true, d)
  else
    let deferredBreakpoints := d.m_deferredBreakpoints
    let d := { d with m_deferredBreakpoints := [] }
    match deferredBreakpointsLoop env globalObject deferredBreakpoints {} d with
    | (none, d) => (false, d)
    | (some state, d) =>
      if state.shouldContinue then
        if !didPauseForStep then (false, d) else (true, d)
      else
        match state.pausingBreakpointID with
        | some pausingBreakpointID => (true, { d with m_pausingBreakpointID := pausingBreakpointID })
        | none => (true, d)

/-- The end of `pauseIfNeeded`, from the comment "Clear `m_pauseOnCallFrame` as
we're actually pausing at this point" on. -/
def pauseNow (env : Env) (globalObject : Option GlobalObject)
    (afterBlackboxedScript atDesiredCallFrame : Bool) (d : Debugger) : Debugger :=
  let d := if !atDesiredCallFrame then resetEventualPauseState d else d
  let reason :=
    if afterBlackboxedScript then ReasonForPause.PausedAfterBlackboxedScript
    else if d.m_pausingBreakpointID ≠ 0 then ReasonForPause.PausedForBreakpoint
    else d.m_reasonForPause
  let d := { d with m_reasonForPause := reason }
  let d := handlePause env globalObject d
  let d := { d with m_reasonForPause := ReasonForPause.NotPaused }
  let d := { d with m_pausingBreakpointID := noBreakpointID }
  if !d.m_pauseAtNextOpportunity && d.m_pauseOnCallFrame.isNone
      && d.m_specialBreakpoint.isNone then
    { setSteppingMode SteppingMode.SteppingModeDisabled d with m_currentCallFrame := none }
  else d

/-- The part of `pauseIfNeeded` from the first call of `shouldDeferPause` on: the
deferred breakpoints are evaluated and the debugger pauses, unless the pause is
deferred or nothing demands it. -/
def pauseIfNeededEvaluate (env : Env) (globalObject : Option GlobalObject)
    (relevantBlackboxFlags : BlackboxFlags)
    (afterBlackboxedScript didPauseForStep atDesiredCallFrame : Bool) (d : Debugger) : Debugger :=
  let (deferred, d) :=
    if d.m_blackboxBreakpointEvaluations then shouldDeferPause relevantBlackboxFlags d
    else (false, d)
  if deferred then d
  else
    let (goOn, d) := evaluateDeferredBreakpoints env globalObject didPauseForStep d
    if !goOn then d
    else
      let (deferred, d) :=
        if !d.m_blackboxBreakpointEvaluations then shouldDeferPause relevantBlackboxFlags d
        else (false, d)
      if deferred then d
      else pauseNow env globalObject afterBlackboxedScript atDesiredCallFrame d

/-- The part of `pauseIfNeeded` between the construction of the two scope guards
and their destruction: the requests are reset, `m_isPaused` is set by
`TemporaryPausedState`, and the rest runs. -/
def pauseIfNeededGuarded (env : Env) (globalObject : Option GlobalObject)
    (relevantBlackboxFlags : BlackboxFlags) (afterBlackboxedScript didPauseForStep : Bool)
    (d : Debugger) : Debugger :=
  let d := resetImmediatePauseState d
  let atDesiredCallFrame :=
    d.m_pauseOnCallFrame.isNone || decide (d.m_pauseOnCallFrame = d.m_currentCallFrame)
  let d := if atDesiredCallFrame then resetEventualPauseState d else d
  let d := { d with m_isPaused := true }
  pauseIfNeededEvaluate env globalObject relevantBlackboxFlags afterBlackboxedScript
    didPauseForStep atDesiredCallFrame d

/-- The destructors of `TemporaryPausedState` and `DebuggerPausedScope`. -/
def leavePausedScopes (d : Debugger) : Debugger :=
  { d with m_isPaused := false, m_currentDebuggerCallFrame := none }

/-- The function `pauseIfNeeded`; its `DeferTermination` and throw scope touch no
field of the debugger. -/
def pauseIfNeeded (env : Env) (globalObject : Option GlobalObject) (d : Debugger) : Debugger :=
  if d.m_isPaused then d
  else if d.m_suppressAllPauses then d
  else
    let sourceID := env.sourceIDForCallFrame d.m_currentCallFrame
    let position := env.positionForCallFrame d.m_currentCallFrame
    match relevantBlackboxFlags d sourceID position with
    | none => d
    | some relevantBlackboxFlags =>
      let afterBlackboxedScript := d.m_afterBlackboxedScript
      let stepPause : Bool × Bool :=
        if d.m_pauseAtNextOpportunity then (true, !afterBlackboxedScript)
        else if d.m_pauseOnCallFrame = d.m_currentCallFrame then (true, true)
        else (false, false)
      let didPauseForStep := stepPause.2
      let hit : Bool × Debugger :=
        match didHitBreakpoint d sourceID position with
        | some breakpoint =>
          (true, { d with m_deferredBreakpoints := hashSetAdd d.m_deferredBreakpoints breakpoint })
        | none => (stepPause.1, d)
      let special : Bool × Debugger :=
        match hit.2.m_specialBreakpoint with
        | some breakpoint =>
          (true, { hit.2 with
            m_deferredBreakpoints := hashSetAdd hit.2.m_deferredBreakpoints breakpoint,
            m_specialBreakpoint := none })
        | none => hit
      let d := { special.2 with m_lastExecutedLine := toUnsigned position.m_line }
      if !special.1 then d
      else
        leavePausedScopes (pauseIfNeededGuarded env globalObject relevantBlackboxFlags
          afterBlackboxedScript didPauseForStep d)

/-! ## Program-point callbacks -/

def updateCallFrameInternal (env : Env) (callFrame : CallFrame) (d : Debugger) : Debugger :=
  let d := { d with m_currentCallFrame := some callFrame }
  let sourceID := env.sourceIDForCallFrame (some callFrame)
  if d.m_lastExecutedSourceID ≠ sourceID then
    { d with m_lastExecutedLine := UINT_MAX, m_lastExecutedSourceID := sourceID }
  else d

def updateCallFrame (env : Env) (globalObject : Option GlobalObject)
    (callFrame : Option CallFrame) (action : CallFrameUpdateAction) (d : Debugger) : Debugger :=
  match callFrame with
  | none => { d with m_currentCallFrame := none }
  | some frame =>
    let d := updateCallFrameInternal env frame d
    let d :=
      if action = CallFrameUpdateAction.AttemptPause then pauseIfNeeded env globalObject d
      else d
    if !isStepping d then { d with m_currentCallFrame := none } else d

/-- Modelled from the spec: `PauseReasonDeclaration` of `Debugger.h`, built around
a callback's body: the reason is declared on entry and is `NotPaused` on exit. -/
def withPauseReason (reason : ReasonForPause) (body : Debugger → Debugger) (d : Debugger) :
    Debugger :=
  { body { d with m_reasonForPause := reason } with m_reasonForPause := ReasonForPause.NotPaused }

def atStatement (env : Env) (callFrame : Option CallFrame) (d : Debugger) : Debugger :=
  if d.m_isPaused then d
  else
    let d := { d with m_pastFirstExpressionInStatement := false }
    withPauseReason ReasonForPause.PausedAtStatement
      (updateCallFrame env (lexicalGlobalObjectForCallFrame env callFrame) callFrame
        CallFrameUpdateAction.AttemptPause) d

end Debugger

end JSC
namespace JSC

/-- The `(sourceID, lineNumber, columnNumber)` of a breakpoint. -/
def Breakpoint.location (b : Breakpoint) : SourceID × Nat × Nat :=
  (b.sourceID, b.lineNumber, b.columnNumber)

namespace Debugger

/-- A breakpoint is held in the index when it is in the vector of some
`(sourceID, line)` key of `m_breakpointsForSourceID`. -/
def held (d : Debugger) (b : Breakpoint) : Prop :=
  ∃ sourceID line, b ∈ bucket d sourceID line

/-- The vectors of the index hold breakpoints of their own script and line, at
pairwise different columns. -/
def StoreInvariant (d : Debugger) : Prop :=
  ∀ sourceID line,
    (∀ b ∈ bucket d sourceID line, b.sourceID = sourceID ∧ b.lineNumber = line) ∧
    ((bucket d sourceID line).map Breakpoint.columnNumber).Nodup

/-- The operations of the client on the breakpoint store. -/
inductive StoreOp
  | setBreakpoint (breakpoint : Breakpoint)
  | removeBreakpoint (breakpoint : Breakpoint)
  | clearBreakpoints
  deriving DecidableEq, Repr

def applyStoreOp : StoreOp → Debugger → Debugger
  | StoreOp.setBreakpoint b, d => (setBreakpoint b d).2
  | StoreOp.removeBreakpoint b, d => (removeBreakpoint b d).2
  | StoreOp.clearBreakpoints, d => clearBreakpoints d

def runStoreOps (ops : List StoreOp) (d : Debugger) : Debugger :=
  ops.foldl (fun acc op => applyStoreOp op acc) d

end Debugger
end JSC

namespace JSC
namespace Debugger

/-- A breakpoint without a column at line 5 of script 7. -/
def lineBreakpoint : Breakpoint := { id := 1, sourceID := 7, lineNumber := 5, columnNumber := 0 }

/-- A breakpoint at column 3 of line 5 of script 7. -/
def columnBreakpoint : Breakpoint :=
  { id := 2, sourceID := 7, lineNumber := 5, columnNumber := 3 }

/-- A second breakpoint object at the location of `lineBreakpoint`. -/
def duplicateBreakpoint : Breakpoint :=
  { id := 3, sourceID := 7, lineNumber := 5, columnNumber := 0 }

/-- The store after `setBreakpoint(lineBreakpoint)` on a new debugger. -/
def storeWithLineBreakpoint : Debugger := (setBreakpoint lineBreakpoint initial).2

end Debugger
end JSC

namespace JSC
namespace Debugger

/-- The index `removeBreakpoint` leaves when the line of the breakpoint has a vector. -/
def indexAfterRemove (B : Breakpoint) (d : Debugger) (inner : LineToBreakpointsMap)
    (bs : BreakpointsVector) : HashMap LineToBreakpointsMap :=
  let kept := bs.filter (fun e => !decide (B = e))
  if kept.isEmpty then
    if (HashMap.remove inner B.lineNumber).isEmpty then
      HashMap.remove d.m_breakpointsForSourceID B.sourceID
    else HashMap.set d.m_breakpointsForSourceID B.sourceID (HashMap.remove inner B.lineNumber)
  else HashMap.set d.m_breakpointsForSourceID B.sourceID (HashMap.set inner B.lineNumber kept)

end Debugger
end JSC
namespace JSC
namespace Debugger

/-- The script and line the debugger saw last: `m_lastExecutedSourceID` and
`m_lastExecutedLine`. -/
def lastExecuted (d : Debugger) : SourceID × Nat :=
  (d.m_lastExecutedSourceID, d.m_lastExecutedLine)

end Debugger
end JSC

namespace JSC

/-- The events that record a decision of `pauseIfNeeded`: the hook `didPause` that
`handlePause` calls, and the notification that a breakpoint pause was deferred. -/
def Event.isDecision : Event → Bool
  | Event.hookDidPause _ => true
  | Event.observerDidDeferBreakpointPause _ _ => true
  | _ => false

namespace Debugger

/-- The decisions recorded in the log, oldest first. -/
def decisions (d : Debugger) : List Event := d.log.filter Event.isDecision

end Debugger
end JSC

namespace JSC

/-- The position `p` lies in the range `[first, second)`: `first <= p < second` in
the order by line and then by column. -/
def covers (range : BlackboxRange) (p : TextPosition) : Prop :=
  (range.1.m_line < p.m_line ∨ (range.1.m_line = p.m_line ∧ range.1.m_column ≤ p.m_column)) ∧
  (p.m_line < range.2.m_line ∨ (p.m_line = range.2.m_line ∧ p.m_column < range.2.m_column))

instance (range : BlackboxRange) (p : TextPosition) : Decidable (covers range p) := by
  unfold covers
  infer_instance

namespace Debugger

/-- The ranges the blackbox table holds for a script, none when it has no entry. -/
def blackboxRanges (d : Debugger) (sourceID : SourceID) : BlackboxConfiguration :=
  (HashMap.find d.m_blackboxConfigurations sourceID).getD []

/-- A debugger with breakpoints activated that holds `lineBreakpoint` and last
executed line 5 of script 7. -/
def pausedOnLineFive : Debugger :=
  { storeWithLineBreakpoint with
    m_breakpointsActivated := true, m_lastExecutedLine := 5, m_lastExecutedSourceID := 7 }

end Debugger
end JSC

namespace JSC
namespace Debugger

/-- A runtime in which every frame runs script 7 at the given position, no
expression has a value other than 0 or throws, and the client answers a pause
with `continueProgram`. -/
def scriptEnv (position : TextPosition) : Env :=
  { sourceIDForCallFrame := fun _ => 7
    positionForCallFrame := fun _ => position
    callerFrame := fun _ => none
    lexicalGlobalObject := fun _ => 1
    vmIsEntered := true
    entryScopeGlobalObject := 1
    evaluate := fun _ => {}
    toBoolean := fun value => decide (value ≠ 0)
    eventLoopCommands := [ClientCommand.continueProgram] }

/-- A new debugger after `setBreakpoint(lineBreakpoint)` and
`setBreakpointsActivated(true)`. -/
def activatedWithLineBreakpoint : Debugger :=
  setBreakpointsActivated true storeWithLineBreakpoint

/-- The debugger `activatedWithLineBreakpoint` once a frame of script 7 is tracked. -/
def onScriptSeven : Debugger :=
  { activatedWithLineBreakpoint with m_lastExecutedSourceID := 7, m_currentCallFrame := some 100 }

end Debugger
end JSC

namespace JSC
namespace Debugger

/-- Whether a pause request alone makes `pauseIfNeeded` set `pauseNow`: the
immediate request is armed or the current frame is the target of the eventual one. -/
def pauseRequested (d : Debugger) : Bool :=
  d.m_pauseAtNextOpportunity || decide (d.m_pauseOnCallFrame = d.m_currentCallFrame)

/-- The value `pauseIfNeeded` gives `didPauseForStep`. -/
def stepPause (d : Debugger) : Bool :=
  if d.m_pauseAtNextOpportunity then !d.m_afterBlackboxedScript
  else decide (d.m_pauseOnCallFrame = d.m_currentCallFrame)

/-- The deferred breakpoints once `pauseIfNeeded` has added the breakpoint that
was hit and the special breakpoint. -/
def deferredAtEntry (d : Debugger) (hit : Option Breakpoint) : List Breakpoint :=
  let deferred :=
    match hit with
    | some breakpoint => hashSetAdd d.m_deferredBreakpoints breakpoint
    | none => d.m_deferredBreakpoints
  match d.m_specialBreakpoint with
  | some breakpoint => hashSetAdd deferred breakpoint
  | none => deferred

/-- The debugger when `pauseIfNeeded` tests `pauseNow`: the breakpoints to evaluate
are collected, the special breakpoint is taken and the line is recorded. -/
def atPauseTest (d : Debugger) (hit : Option Breakpoint) (line : Nat) : Debugger :=
  { d with m_deferredBreakpoints := deferredAtEntry d hit,
           m_specialBreakpoint := none,
           m_lastExecutedLine := line }

end Debugger
end JSC

namespace JSC
namespace Debugger

/-- The debugger `onScriptSeven` with lines 4 and 5 of script 7 blackboxed with
`Ignore`, the immediate request armed and a special breakpoint armed. -/
def ignoringLineFive : Debugger :=
  { onScriptSeven with
    m_blackboxConfigurations :=
      [(7, [((TextPosition.mk 4 0, TextPosition.mk 6 0), { ignore := true })])],
    m_pauseAtNextOpportunity := true,
    m_steppingMode := SteppingMode.SteppingModeEnabled,
    m_specialBreakpoint := some { id := 9, sourceID := 0, lineNumber := 0, columnNumber := 0,
                                  linked := false } }

end Debugger
end JSC

namespace JSC

/-- The scripts the evaluator runs perform no debugger operation of their own. -/
def Env.noReentrancy (env : Env) : Prop :=
  ∀ expression, (env.evaluate expression).reentrant = []

namespace Debugger

/-- The condition of the breakpoint holds: it is empty, or its evaluation throws
nothing and yields a value that converts to true. -/
def conditionHolds (env : Env) (breakpoint : Breakpoint) : Bool :=
  breakpoint.condition.isEmpty ||
    (match (env.evaluate breakpoint.condition).exception with
     | some _ => false
     | none => env.toBoolean (env.evaluate breakpoint.condition).result)

/-- The breakpoint demands a real pause: its condition holds and it is not
`autoContinue`. -/
def demandsPause (env : Env) (breakpoint : Breakpoint) : Bool :=
  conditionHolds env breakpoint && !breakpoint.isAutoContinue

/-- The locals of the loop over the deferred breakpoints when no evaluation loses
the frame. -/
def loopState (env : Env) : List Breakpoint → DeferredLoopState → DeferredLoopState
  | [], state => state
  | breakpoint :: rest, state =>
    if !conditionHolds env breakpoint then loopState env rest state
    else if breakpoint.isAutoContinue then loopState env rest state
    else
      let state := { state with shouldContinue := false }
      let state :=
        if !breakpoint.isLinked then { state with hasEvaluatedSpecialBreakpoint := true }
        else if !state.hasEvaluatedSpecialBreakpoint && state.pausingBreakpointID.isNone then
          { state with pausingBreakpointID := some breakpoint.id }
        else state
      loopState env rest state

end Debugger
end JSC

namespace JSC
namespace Debugger

/-- A breakpoint at line 9 of script 7 with the condition `false`. -/
def falseConditionBreakpoint : Breakpoint :=
  { id := 4, sourceID := 7, lineNumber := 9, columnNumber := 0, condition := "false" }

/-- A debugger with two observers, breakpoints activated, lines 4 and 5 of script 7
blackboxed with `Defer`, and breakpoints at line 5 and at line 9. -/
def deferScenario : Debugger :=
  runCommands (scriptEnv (TextPosition.mk 0 0))
    [ClientCommand.addObserver 11, ClientCommand.addObserver 12,
     ClientCommand.setBreakpointsActivated true,
     ClientCommand.setBlackboxConfiguration 7
       [((TextPosition.mk 4 0, TextPosition.mk 6 0), { defer := true })],
     ClientCommand.setBreakpoint lineBreakpoint,
     ClientCommand.setBreakpoint falseConditionBreakpoint] initial

/-- The debugger `deferScenario` with a frame of script 7 tracked, as `pauseIfNeeded`
finds it. -/
def deferScenarioTracked : Debugger :=
  { deferScenario with m_currentCallFrame := some 100, m_lastExecutedSourceID := 7 }

/-- The debugger after the statement at line 5 of `deferScenario`, whose pause is
deferred. -/
def afterDeferral : Debugger := atStatement (scriptEnv (TextPosition.mk 5 0)) (some 100) deferScenario

/-- The debugger `afterDeferral` with a frame of script 7 tracked. -/
def afterDeferralTracked : Debugger := { afterDeferral with m_currentCallFrame := some 100 }

end Debugger
end JSC

namespace JSC
namespace Debugger

/-! ## The other program-point callbacks -/

def atExpression (env : Env) (callFrame : Option CallFrame) (d : Debugger) : Debugger :=
  if d.m_isPaused then d
  else if !d.m_pastFirstExpressionInStatement then
    { d with m_pastFirstExpressionInStatement := true }
  else
    let shouldAttemptPause :=
      d.m_pauseAtNextOpportunity || d.m_pauseOnStepNext || d.m_pauseOnStepOut
        || d.m_specialBreakpoint.isSome
    withPauseReason ReasonForPause.PausedAtExpression
      (updateCallFrame env (lexicalGlobalObjectForCallFrame env callFrame) callFrame
        (if shouldAttemptPause then CallFrameUpdateAction.AttemptPause
         else CallFrameUpdateAction.NoPause)) d

def callEvent (env : Env) (callFrame : Option CallFrame) (d : Debugger) : Debugger :=
  if d.m_isPaused then d
  else
    let d := updateCallFrame env (lexicalGlobalObjectForCallFrame env callFrame) callFrame
      CallFrameUpdateAction.NoPause d
    match callFrame with
    | some frame =>
      dispatchFunctionToObservers
        (fun observer => logEvent (Event.observerWillEnter observer frame)) d
    | none => d

def returnEvent (env : Env) (callFrame : Option CallFrame) (d : Debugger) : Debugger :=
  if d.m_isPaused then d
  else
    let d := withPauseReason ReasonForPause.PausedBeforeReturn
      (updateCallFrame env (lexicalGlobalObjectForCallFrame env callFrame) callFrame
        CallFrameUpdateAction.AttemptPause) d
    match d.m_currentCallFrame with
    | none => d
    | some currentCallFrame =>
      let callerFrame := env.callerFrame currentCallFrame
      let d := { d with m_pastFirstExpressionInStatement := true }
      let d :=
        if d.m_currentCallFrame = d.m_pauseOnCallFrame then
          { d with m_pauseOnCallFrame := callerFrame, m_pauseOnStepOut := true }
        else d
      updateCallFrame env (lexicalGlobalObjectForCallFrame env callerFrame) callerFrame
        CallFrameUpdateAction.NoPause d

def unwindEvent (env : Env) (callFrame : Option CallFrame) (d : Debugger) : Debugger :=
  if d.m_isPaused then d
  else
    let d := updateCallFrame env (lexicalGlobalObjectForCallFrame env callFrame) callFrame
      CallFrameUpdateAction.NoPause d
    match d.m_currentCallFrame with
    | none => d
    | some currentCallFrame =>
      let callerFrame := env.callerFrame currentCallFrame
      let d :=
        if d.m_currentCallFrame = d.m_pauseOnCallFrame then
          { d with m_pauseOnCallFrame := callerFrame }
        else d
      updateCallFrame env (lexicalGlobalObjectForCallFrame env callerFrame) callerFrame
        CallFrameUpdateAction.NoPause d

def willExecuteProgram (env : Env) (callFrame : Option CallFrame) (d : Debugger) : Debugger :=
  if d.m_isPaused then d
  else
    updateCallFrame env (lexicalGlobalObjectForCallFrame env callFrame) callFrame
      CallFrameUpdateAction.NoPause d

/-- The body of `didExecuteProgram` after the declaration of the pause reason. -/
def didExecuteProgramBody (env : Env) (callFrame : Option CallFrame) (d : Debugger) :
    Debugger :=
  let d := updateCallFrame env (lexicalGlobalObjectForCallFrame env callFrame) callFrame
    CallFrameUpdateAction.AttemptPause d
  match d.m_currentCallFrame with
  | none => d
  | some currentCallFrame =>
    let callerFrame := env.callerFrame currentCallFrame
    let d := { d with m_pastFirstExpressionInStatement := true }
    let d :=
      if d.m_currentCallFrame = d.m_pauseOnCallFrame then
        { d with m_pauseOnCallFrame := callerFrame, m_pauseAtNextOpportunity := true }
      else d
    let d := updateCallFrame env (lexicalGlobalObjectForCallFrame env callerFrame) callerFrame
      CallFrameUpdateAction.NoPause d
    if d.m_currentCallFrame.isNone then
      let d := resetImmediatePauseState d
      let d := resetEventualPauseState d
      { d with m_deferredBreakpoints := [] }
    else d

def didExecuteProgram (env : Env) (callFrame : Option CallFrame) (d : Debugger) : Debugger :=
  if d.m_isPaused then d
  else
    withPauseReason ReasonForPause.PausedAtEndOfProgram (didExecuteProgramBody env callFrame) d

/-- The lines of `exception` that arm the special breakpoint: the breakpoint for all
exceptions if it is set, otherwise the one for uncaught exceptions when no
catch handler is present. -/
def armExceptionBreakpoint (hasCatchHandler : Bool) (d : Debugger) : Debugger :=
  if d.m_pauseOnAllExceptionsBreakpoint.isSome
      || (d.m_pauseOnUncaughtExceptionsBreakpoint.isSome && !hasCatchHandler) then
    let d := { d with m_specialBreakpoint :=
      if d.m_pauseOnAllExceptionsBreakpoint.isSome then d.m_pauseOnAllExceptionsBreakpoint
      else d.m_pauseOnUncaughtExceptionsBreakpoint }
    setSteppingMode SteppingMode.SteppingModeEnabled d
  else d

/-- The body of `exception` after the declaration of the pause reason. -/
def exceptionBody (env : Env) (globalObject : Option GlobalObject)
    (callFrame : Option CallFrame) (exception : JSValue) (hasCatchHandler : Bool)
    (d : Debugger) : Debugger :=
  let d := armExceptionBreakpoint hasCatchHandler d
  let callFrameWasNull := callFrame.isNone
  let callFrame := if callFrameWasNull then some env.emptyTopLevelCallFrame else callFrame
  let d := { d with m_hasHandlerForExceptionCallback := true, m_currentException := some exception }
  let d := updateCallFrame env globalObject callFrame CallFrameUpdateAction.AttemptPause d
  let d := { d with m_currentException := none, m_hasHandlerForExceptionCallback := false }
  if callFrameWasNull then { d with m_currentCallFrame := none } else d

def exception (env : Env) (globalObject : Option GlobalObject) (callFrame : Option CallFrame)
    (exception : JSValue) (hasCatchHandler : Bool) (d : Debugger) : Debugger :=
  if d.m_isPaused then d
  else if env.isStackOverflowOrOutOfMemoryError exception then d
  else
    withPauseReason ReasonForPause.PausedForException
      (exceptionBody env globalObject callFrame exception hasCatchHandler) d

def didReachDebuggerStatement (env : Env) (callFrame : Option CallFrame) (d : Debugger) :
    Debugger :=
  if d.m_isPaused then d
  else if d.m_pauseOnDebuggerStatementsBreakpoint.isNone then d
  else
    withPauseReason ReasonForPause.PausedForDebuggerStatement
      (fun d =>
        let d := { d with m_specialBreakpoint := d.m_pauseOnDebuggerStatementsBreakpoint }
        let d := setSteppingMode SteppingMode.SteppingModeEnabled d
        updateCallFrame env (lexicalGlobalObjectForCallFrame env callFrame) callFrame
          CallFrameUpdateAction.AttemptPause d) d

def breakProgram (env : Env) (specialBreakpoint : Option Breakpoint) (d : Debugger) : Debugger :=
  if d.m_isPaused then d
  else
    match env.topCallFrame with
    | none => d
    | some topCallFrame =>
      let d :=
        match specialBreakpoint with
        | some breakpoint => { d with m_specialBreakpoint := some breakpoint }
        | none => { d with m_pauseAtNextOpportunity := true }
      let d := setSteppingMode SteppingMode.SteppingModeEnabled d
      let d := { d with m_currentCallFrame := some topCallFrame }
      pauseIfNeeded env (some (env.lexicalGlobalObject topCallFrame)) d

end Debugger
end JSC

namespace JSC
namespace Debugger

/-- The debugger `onScriptSeven` in the middle of a pause. -/
def pausedDebugger : Debugger :=
  { onScriptSeven with m_isPaused := true, m_pauseOnStepNext := true,
                       m_reasonForPause := ReasonForPause.PausedForBreakpoint }

/-- The runtime `scriptEnv` at line 5 in which the value 99 is the stack-overflow
error instance and frame 100 is on top of the stack. -/
def overflowEnv : Env :=
  { scriptEnv (TextPosition.mk 5 0) with
    topCallFrame := some 100
    isStackOverflowOrOutOfMemoryError := fun value => decide (value = 99) }

/-- The breakpoint of the policy that pauses on every exception. -/
def allExceptionsBreakpoint : Breakpoint :=
  { id := 21, sourceID := noSourceID, lineNumber := 0, columnNumber := 0, linked := false }

/-- The breakpoint of the policy that pauses on uncaught exceptions. -/
def uncaughtExceptionsBreakpoint : Breakpoint :=
  { id := 22, sourceID := noSourceID, lineNumber := 0, columnNumber := 0, linked := false }

/-- A debugger with both exception policies active. -/
def pausingOnExceptions : Debugger :=
  { initial with
    m_pauseOnAllExceptionsBreakpoint := some allExceptionsBreakpoint,
    m_pauseOnUncaughtExceptionsBreakpoint := some uncaughtExceptionsBreakpoint,
    m_pauseAtNextOpportunity := true }

/-- The policy of `exception` asks for a pause: the breakpoint for all exceptions
is set, or the one for uncaught exceptions is set and no catch handler is present. -/
def exceptionPolicyApplies (hasCatchHandler : Bool) (d : Debugger) : Bool :=
  d.m_pauseOnAllExceptionsBreakpoint.isSome
    || (d.m_pauseOnUncaughtExceptionsBreakpoint.isSome && !hasCatchHandler)

/-- The debugger `exception` hands to the decision algorithm (`updateCallFrame`
with `AttemptPause`): the reason is declared, the special breakpoint is armed if
the policy asks for it, and the exception is recorded. -/
def exceptionAtDecision (exception : JSValue) (hasCatchHandler : Bool) (d : Debugger) :
    Debugger :=
  { armExceptionBreakpoint hasCatchHandler
      { d with m_reasonForPause := ReasonForPause.PausedForException } with
    m_hasHandlerForExceptionCallback := true, m_currentException := some exception }

/-- The frame `exception` hands to the decision algorithm. -/
def exceptionFrame (env : Env) (callFrame : Option CallFrame) : Option CallFrame :=
  if callFrame.isNone then some env.emptyTopLevelCallFrame else callFrame

/-- The lines of `exception` after the decision algorithm: the exception and the
handler flag are cleared, the tracked frame is cleared when no frame was given,
and the declared reason goes out of scope. -/
def exceptionCleanUp (callFrameWasNull : Bool) (d : Debugger) : Debugger :=
  let d := { d with m_currentException := none, m_hasHandlerForExceptionCallback := false }
  let d := if callFrameWasNull then { d with m_currentCallFrame := none } else d
  { d with m_reasonForPause := ReasonForPause.NotPaused }

end Debugger
end JSC

namespace JSC

/-- The union of the flags of every range of the configuration that holds the
position: a flag is in it when some range `[first, second)` with
`first <= p < second` carries it. -/
def unionOfCoveringFlags (configuration : BlackboxConfiguration) (p : TextPosition) :
    BlackboxFlags :=
  { ignore := configuration.any (fun entry => decide (covers entry.1 p) && entry.2.ignore)
    defer := configuration.any (fun entry => decide (covers entry.1 p) && entry.2.defer) }

namespace Debugger

/-- A debugger whose blackbox table has overlapping `Defer` ranges for script 7
and an entry for script 8. -/
def overlappingBlackbox : Debugger :=
  { initial with
    m_blackboxConfigurations :=
      [(7, [((TextPosition.mk 4 0, TextPosition.mk 6 0), { defer := true }),
            ((TextPosition.mk 5 0, TextPosition.mk 9 0), {}),
            ((TextPosition.mk 6 0, TextPosition.mk 7 0), { ignore := true })]),
       (8, [((TextPosition.mk 0 0, TextPosition.mk 1 0), { ignore := true })])] }

end Debugger
end JSC

namespace JSC

/-- The event that records a call of `handlePause`: the hook `didPause`. -/
def Event.isPause : Event → Bool
  | Event.hookDidPause _ => true
  | _ => false

/-- The event that records a call of `reportException`. -/
def Event.isReport : Event → Bool
  | Event.reportException _ _ => true
  | _ => false

end JSC

namespace JSC
namespace Debugger

/-- The debugger once `evaluateBreakpointCondition` has had the condition
evaluated on the current debugger call frame. -/
def afterConditionEvaluation (env : Env) (breakpoint : Breakpoint) (d : Debugger) : Debugger :=
  (evaluateWithScopeExtension env breakpoint.condition (currentDebuggerCallFrame d)).2

/-- A breakpoint at line 9 of script 7 with the condition `true`. -/
def trueConditionBreakpoint : Breakpoint :=
  { id := 5, sourceID := 7, lineNumber := 9, columnNumber := 0, condition := "true" }

/-- The runtime `scriptEnv` at line 9 in which every expression has the value 1 and
the script under evaluation detaches global object 1 from the debugger. -/
def detachingEnv : Env :=
  { scriptEnv (TextPosition.mk 9 0) with
    evaluate := fun _ =>
      { result := 1,
        reentrant := [ClientCommand.detach 1 ReasonForDetach.TerminatingDebuggingSession] } }

/-- The runtime `scriptEnv` at line 9 in which every expression throws the value 13. -/
def throwingEnv : Env :=
  { scriptEnv (TextPosition.mk 9 0) with evaluate := fun _ => { exception := some 13 } }

/-- The debugger `onScriptSeven`, attached to global object 1, while `pauseIfNeeded`
evaluates breakpoints. -/
def evaluatingDebugger : Debugger :=
  { onScriptSeven with m_isPaused := true, m_globalObjects := [1] }

end Debugger
end JSC

namespace JSC

/-- The command arms a special breakpoint. -/
def ClientCommand.armsSpecialBreakpoint : ClientCommand → Bool
  | ClientCommand.schedulePauseForSpecialBreakpoint _ => true
  | _ => false

/-- Neither the client, in the nested event loop, nor a script under evaluation
arms a special breakpoint. -/
def Env.armsNoSpecialBreakpoint (env : Env) : Prop :=
  (∀ command ∈ env.eventLoopCommands, command.armsSpecialBreakpoint = false) ∧
  ∀ expression, ∀ command ∈ (env.evaluate expression).reentrant,
    command.armsSpecialBreakpoint = false

end JSC

namespace JSC

/-- The event that records a call of `willEnter` on an observer. -/
def Event.isEnter : Event → Bool
  | Event.observerWillEnter _ _ => true
  | _ => false

/-- The notifications of a pause and of a resume: `didPause` and `didContinue` on an
observer, and the hooks `didPause` and `didContinue`. -/
def Event.isPauseOrResume : Event → Bool
  | Event.observerDidPause _ _ => true
  | Event.observerDidContinue _ => true
  | Event.hookDidPause _ => true
  | Event.hookDidContinue _ => true
  | _ => false

end JSC

namespace JSC
namespace Debugger

/-- The debugger once `pauseIfNeeded` has built its scope guards: the immediate
request is reset, the eventual one too if the frame is the desired one, and
`TemporaryPausedState` has set `m_isPaused`. -/
def guardedEntry (d : Debugger) : Debugger :=
  let d := resetImmediatePauseState d
  let atDesiredCallFrame :=
    d.m_pauseOnCallFrame.isNone || decide (d.m_pauseOnCallFrame = d.m_currentCallFrame)
  let d := if atDesiredCallFrame then resetEventualPauseState d else d
  { d with m_isPaused := true }

/-- The value `pauseIfNeeded` gives `atDesiredCallFrame`. -/
def atDesiredCallFrame (d : Debugger) : Bool :=
  d.m_pauseOnCallFrame.isNone || decide (d.m_pauseOnCallFrame = d.m_currentCallFrame)

/-- The debugger `deferScenario` with breakpoint evaluations blackboxed, after the
statement at line 5, whose pause is deferred before `lineBreakpoint` is
evaluated, and after the client has cancelled the pause that the deferral
scheduled. -/
def leftoverDeferred : Debugger :=
  cancelPauseAtNextOpportunity
    (atStatement (scriptEnv (TextPosition.mk 5 0)) (some 100)
      (setBlackboxBreakpointEvaluations true deferScenario))

end Debugger
end JSC

namespace JSC
namespace Debugger

/-- The debugger `afterDeferral`, in which the breakpoint of line 5 was evaluated
and its pause deferred, after the client has cancelled the pause that the
deferral scheduled: no breakpoint is left in `m_deferredBreakpoints`. -/
def afterDeferralCancelled : Debugger := cancelPauseAtNextOpportunity afterDeferral

end Debugger
end JSC

namespace JSC
namespace Debugger

/-- A logpoint at line 9 of script 7 with the condition `false`: `autoContinue` is
set and its action logs a message. -/
def falseConditionLogpoint : Breakpoint :=
  { id := 6, sourceID := 7, lineNumber := 9, columnNumber := 0, condition := "false",
    actions := [{ type := ActionType.Log, data := "hit", id := 1 }], autoContinue := true }

/-- A logpoint at line 5 of script 7 without a condition. -/
def logpoint : Breakpoint :=
  { id := 7, sourceID := 7, lineNumber := 5, columnNumber := 0,
    actions := [{ type := ActionType.Log, data := "hit", id := 1 }], autoContinue := true }

/-- A debugger with one observer, breakpoints activated and the two logpoints set,
with a frame of script 7 tracked, as `pauseIfNeeded` finds it. -/
def logpointTracked : Debugger :=
  { runCommands (scriptEnv (TextPosition.mk 0 0))
      [ClientCommand.addObserver 11, ClientCommand.setBreakpointsActivated true,
       ClientCommand.setBreakpoint falseConditionLogpoint,
       ClientCommand.setBreakpoint logpoint] initial with
    m_currentCallFrame := some 100, m_lastExecutedSourceID := 7 }

end Debugger
end JSC

namespace JSC
namespace Debugger

/-- The debugger on which `pauseIfNeeded`, called for the statement at line 5 of
`onScriptSeven`, goes on to pause after it has evaluated `lineBreakpoint`. -/
def pausedAtLineBreakpoint : Debugger :=
  (evaluateDeferredBreakpoints (scriptEnv (TextPosition.mk 5 0)) (some 1) false
    (guardedEntry (atPauseTest onScriptSeven (some lineBreakpoint) 5))).2

end Debugger
end JSC

namespace JSC
namespace Debugger

/-- The debugger `pausedDebugger` inside the nested event loop, with a target frame
for the eventual request. -/
def waitingDebugger : Debugger :=
  { pausedDebugger with m_doneProcessingDebuggerEvents := false, m_pauseOnCallFrame := some 100,
                        m_globalObjects := [1] }

end Debugger
end JSC

namespace JSC

/-! ## Resolution of breakpoints -/

/-- The value of an `unsigned` converted to `int`. -/
def toInt (n : Nat) : Int :=
  if n % 4294967296 < 2147483648 then ((n % 4294967296 : Nat) : Int)
  else ((n % 4294967296 : Nat) : Int) - 4294967296

/-- The result of `int` arithmetic, which wraps at 32 bits. -/
def wrapInt (i : Int) : Int := (i + 2147483648) % 4294967296 - 2147483648

/-- Modelled from the spec: a `JSTextPosition` of the parser, read through `line` and
`column()`. -/
structure JSTextPosition where
  line : Int
  column : Int
  deriving DecidableEq, Repr

/-- Modelled from the spec: a `SourceProvider` with the parse data gathered from it
(`gatherDebuggerParseDataForSource`): its start position, as `oneBasedInt` line and
`zeroBasedInt` column, and `pausePositions.breakpointLocationForLineColumn`. -/
structure SourceProvider where
  startLine : Int
  startColumn : Int
  breakpointLocationForLineColumn : Int → Int → Option JSTextPosition
  /-- The positions `pausePositions.forEachBreakpointLocation` reports for a range. -/
  forEachBreakpointLocation : Int → Int → Int → Int → List JSTextPosition :=
    fun _ _ _ _ => []
  /-- The text `source()` returns, as code units. -/
  source : List UChar := []
  /-- The identifier `asID()` returns. -/
  asID : SourceID := 0

/-- Modelled from the spec: `Breakpoint::resolve` of `Breakpoint.cpp`, which records
the resolved line and column, marks the breakpoint resolved and returns true. -/
def Breakpoint.resolve (breakpoint : Breakpoint) (lineNumber columnNumber : Nat) :
    Bool × Breakpoint :=
  (true, { breakpoint with lineNumber := lineNumber, columnNumber := columnNumber,
                           resolved := true })

namespace Debugger

/-- The function `debuggerParseData`: the parse data of a source is gathered once
and kept in `m_parseDataMap` under the source identifier. -/
def debuggerParseData (sourceID : SourceID) (d : Debugger) : Debugger :=
  if sourceID ∈ d.m_parseDataMap then d
  else { d with m_parseDataMap := d.m_parseDataMap ++ [sourceID] }

/-- The line and column at which `resolveBreakpoint` queries the parse data: the
line is one-based, and the start column of the provider is subtracted on its
first line. -/
def resolveBreakpointQuery (breakpoint : Breakpoint) (sourceProvider : SourceProvider) :
    Int × Int :=
  let line := toInt ((breakpoint.lineNumber + 1) % 4294967296)
  let column := toInt breakpoint.columnNumber
  let providerStartLine := sourceProvider.startLine
  let providerStartColumn := sourceProvider.startColumn
  if line = providerStartLine ∧ breakpoint.columnNumber ≠ 0 then
    if providerStartColumn ≠ 0 then (line, wrapInt (column - providerStartColumn))
    else (line, column)
  else (line, column)

/-- The function `resolveBreakpoint`: the result, the breakpoint after the call and
the debugger. -/
def resolveBreakpoint (breakpoint : Breakpoint) (sourceProvider : SourceProvider)
    (d : Debugger) : (Bool × Breakpoint) × Debugger :=
  let query := resolveBreakpointQuery breakpoint sourceProvider
  let providerStartLine := sourceProvider.startLine
  let providerStartColumn := sourceProvider.startColumn
  let d := debuggerParseData breakpoint.sourceID d
  match sourceProvider.breakpointLocationForLineColumn query.1 query.2 with
  | none => ((false, breakpoint), d)
  | some resolvedPosition =>
    let resolvedLine := resolvedPosition.line
    let resolvedColumn := resolvedPosition.column
    let resolvedColumn :=
      if resolvedLine = providerStartLine ∧ breakpoint.columnNumber ≠ 0 then
        if providerStartColumn ≠ 0 then wrapInt (resolvedColumn + providerStartColumn)
        else resolvedColumn
      else resolvedColumn
    (breakpoint.resolve (toUnsigned (wrapInt (resolvedLine - 1))) (toUnsigned resolvedColumn), d)

/-- A provider of an inline script that starts at line 10 (one-based), column 8,
whose first pause position is at line 10, column 2 of the script. -/
def inlineScriptProvider : SourceProvider :=
  { startLine := 10, startColumn := 8,
    breakpointLocationForLineColumn := fun line column =>
      if line < 10 ∨ (line = 10 ∧ column ≤ 2) then some { line := 10, column := 2 }
      else if line = 10 ∧ column ≤ 20 then some { line := 10, column := column }
      else none }

/-- An unresolved breakpoint requested at zero-based line 5, column 3 of script 7. -/
def requestBeforeScript : Breakpoint :=
  { id := 31, sourceID := 7, lineNumber := 5, columnNumber := 3, resolved := false }

/-- An unresolved breakpoint requested at zero-based line 9 (the first line of
`inlineScriptProvider`), column 12 of script 7. -/
def requestOnFirstLine : Breakpoint :=
  { id := 32, sourceID := 7, lineNumber := 9, columnNumber := 12, resolved := false }

/-- An unresolved breakpoint requested at zero-based line 12 of script 7, after the
last pause position of `inlineScriptProvider`. -/
def requestAfterScript : Breakpoint :=
  { id := 33, sourceID := 7, lineNumber := 12, columnNumber := 4, resolved := false }

end Debugger
end JSC

namespace JSC
namespace Debugger

/-- A breakpoint at line 5 of script 7 whose one action is a probe of the
expression `x`. -/
def probeBreakpoint : Breakpoint :=
  { id := 8, sourceID := 7, lineNumber := 5, columnNumber := 0,
    actions := [{ type := ActionType.Probe, data := "x", id := 3 }] }

/-- A paused debugger attached to global object 1, with a tracked frame and the two
observers 11 and 12. -/
def pausedWithTwoObservers : Debugger :=
  runCommands (scriptEnv (TextPosition.mk 5 0))
    [ClientCommand.addObserver 11, ClientCommand.addObserver 12]
    { initial with m_globalObjects := [1], m_isPaused := true, m_currentCallFrame := some 100 }

end Debugger
end JSC

namespace JSC
namespace Debugger

/-- Evaluating the condition of the breakpoint, or its actions after a condition
that holds, makes the tracked frame disappear. -/
def losesFrame (env : Env) (globalObject : Option GlobalObject) (breakpoint : Breakpoint)
    (d : Debugger) : Bool :=
  (shouldPause env breakpoint globalObject d).2.m_currentCallFrame.isNone ||
    ((shouldPause env breakpoint globalObject d).1 &&
      (evaluateBreakpointActions env breakpoint globalObject
        (shouldPause env breakpoint globalObject d).2).m_currentCallFrame.isNone)

/-- The debugger when the loop over the deferred breakpoints finds the tracked
frame gone after the condition of the breakpoint or after its actions. -/
def afterLostFrame (env : Env) (globalObject : Option GlobalObject) (breakpoint : Breakpoint)
    (d : Debugger) : Debugger :=
  if (shouldPause env breakpoint globalObject d).2.m_currentCallFrame.isNone then
    (shouldPause env breakpoint globalObject d).2
  else
    evaluateBreakpointActions env breakpoint globalObject
      (shouldPause env breakpoint globalObject d).2

/-- The debugger on which the loop over the deferred breakpoints starts: the list
has been taken out of `m_deferredBreakpoints`. -/
def loopEntry (d : Debugger) : Debugger := { d with m_deferredBreakpoints := [] }

/-- A debugger attached to global object 1 with breakpoints activated and
`trueConditionBreakpoint` and `lineBreakpoint` set, with a frame of script 7
tracked, as `pauseIfNeeded` finds it. -/
def attachedWithCondition : Debugger :=
  { runCommands (scriptEnv (TextPosition.mk 0 0))
      [ClientCommand.addObserver 11, ClientCommand.setBreakpointsActivated true,
       ClientCommand.setBreakpoint trueConditionBreakpoint,
       ClientCommand.setBreakpoint lineBreakpoint] initial with
    m_globalObjects := [1], m_currentCallFrame := some 100, m_lastExecutedSourceID := 7,
    m_steppingMode := SteppingMode.SteppingModeEnabled,
    m_specialBreakpoint := some { id := 9, sourceID := 0, lineNumber := 0, columnNumber := 0,
                                  linked := false } }

end Debugger
end JSC

namespace JSC
namespace Debugger

/-- The debugger `deferScenarioTracked` in frame 100 while a step-over that was
asked for in frame 200 is pending. -/
def stepOverPending : Debugger :=
  { deferScenarioTracked with
    m_pauseOnCallFrame := some 200, m_pauseOnStepNext := true,
    m_steppingMode := SteppingMode.SteppingModeEnabled }

/-- The runtime `scriptEnv` at line 9 in which the script under evaluation calls
`continueProgram`. -/
def continuingEnv : Env :=
  { scriptEnv (TextPosition.mk 9 0) with
    evaluate := fun _ => { reentrant := [ClientCommand.continueProgram] } }

end Debugger
end JSC

namespace JSC
namespace Debugger

/-- The debugger when the nested event loop that `handlePause` runs has ended. -/
def waitLoopEnded (env : Env) (globalObject : Option GlobalObject) (d : Debugger) : Debugger :=
  let d := dispatchFunctionToObservers
    (fun observer acc =>
      let acc := currentDebuggerCallFrame acc
      logEvent (Event.observerDidPause observer acc.m_reasonForPause) acc) d
  let d := logEvent (Event.hookDidPause globalObject) d
  let d := { d with m_doneProcessingDebuggerEvents := false }
  runEventLoopWhilePaused env env.eventLoopCommands d

/-- The debugger on which `pauseNow` calls `handlePause`: the eventual request is
reset if the frame was not the desired one, and the reason is declared. -/
def pauseEntry (afterBlackboxedScript atDesiredCallFrame : Bool) (d : Debugger) : Debugger :=
  let d := if !atDesiredCallFrame then resetEventualPauseState d else d
  let reason :=
    if afterBlackboxedScript then ReasonForPause.PausedAfterBlackboxedScript
    else if d.m_pausingBreakpointID ≠ 0 then ReasonForPause.PausedForBreakpoint
    else d.m_reasonForPause
  { d with m_reasonForPause := reason }

/-- A request is armed: the immediate request, a target frame of the eventual
request, or a special breakpoint. -/
def requestArmed (d : Debugger) : Bool :=
  d.m_pauseAtNextOpportunity || d.m_pauseOnCallFrame.isSome || d.m_specialBreakpoint.isSome

/-- The runtime `scriptEnv` at line 5 in which the client answers a pause with
`stepIntoStatement`. -/
def steppingEnv : Env :=
  { scriptEnv (TextPosition.mk 5 0) with eventLoopCommands := [ClientCommand.stepIntoStatement] }

end Debugger
end JSC

namespace JSC
namespace Debugger

/-- Stepping is enabled whenever a request is armed. -/
def armedImpliesStepping (d : Debugger) : Prop :=
  requestArmed d = true → d.m_steppingMode = SteppingMode.SteppingModeEnabled

end Debugger
end JSC

namespace JSC
namespace Debugger

/-- A request other than the eventual request for the given target frame is
armed. -/
def armedBeyond (d : Debugger) (target : Option CallFrame) : Bool :=
  d.m_pauseAtNextOpportunity || d.m_specialBreakpoint.isSome ||
    (d.m_pauseOnCallFrame.isSome && !decide (d.m_pauseOnCallFrame = target))

/-- Stepping is enabled whenever a request other than the eventual request for the
given target frame is armed. -/
def steppingIfArmedBeyond (d : Debugger) (target : Option CallFrame) : Bool :=
  !armedBeyond d target || decide (d.m_steppingMode = SteppingMode.SteppingModeEnabled)

end Debugger
end JSC

namespace JSC
namespace Debugger

/-! ## The scope that disables the exception breakpoints -/

/-- The scope object `Debugger::TemporarilyDisableExceptionBreakpoints`: the two
members in which `replace` keeps the breakpoints it takes from the debugger; the
constructor leaves both null. -/
structure TemporarilyDisableExceptionBreakpoints where
  m_pauseOnAllExceptionsBreakpoint : Option Breakpoint := none
  m_pauseOnUncaughtExceptionsBreakpoint : Option Breakpoint := none
  deriving DecidableEq, Repr

namespace TemporarilyDisableExceptionBreakpoints

/-- The function `replace`: each breakpoint the debugger holds is moved into the
scope, which leaves the member of the debugger null. -/
def replace (scope : TemporarilyDisableExceptionBreakpoints) (d : Debugger) :
    TemporarilyDisableExceptionBreakpoints × Debugger :=
  let (scope, d) :=
    if d.m_pauseOnAllExceptionsBreakpoint.isSome then
      ({ scope with m_pauseOnAllExceptionsBreakpoint := d.m_pauseOnAllExceptionsBreakpoint },
       { d with m_pauseOnAllExceptionsBreakpoint := none })
    else (scope, d)
  if d.m_pauseOnUncaughtExceptionsBreakpoint.isSome then
    ({ scope with
        m_pauseOnUncaughtExceptionsBreakpoint := d.m_pauseOnUncaughtExceptionsBreakpoint },
     { d with m_pauseOnUncaughtExceptionsBreakpoint := none })
  else (scope, d)

/-- The function `restore`, which the destructor of the scope calls: each
breakpoint the scope holds is moved back into the debugger. -/
def restore (scope : TemporarilyDisableExceptionBreakpoints) (d : Debugger) :
    TemporarilyDisableExceptionBreakpoints × Debugger :=
  let (scope, d) :=
    if scope.m_pauseOnAllExceptionsBreakpoint.isSome then
      ({ scope with m_pauseOnAllExceptionsBreakpoint := none },
       { d with m_pauseOnAllExceptionsBreakpoint := scope.m_pauseOnAllExceptionsBreakpoint })
    else (scope, d)
  if scope.m_pauseOnUncaughtExceptionsBreakpoint.isSome then
    ({ scope with m_pauseOnUncaughtExceptionsBreakpoint := none },
     { d with
        m_pauseOnUncaughtExceptionsBreakpoint := scope.m_pauseOnUncaughtExceptionsBreakpoint })
  else (scope, d)

end TemporarilyDisableExceptionBreakpoints

/-! ## Parsed sources -/

/-- The loop of `sourceParsed` over the code units from index `i` on: the values of
`lineCount` and `lastLineStart`. -/
def countLines : List UChar → Int → Int × Int → Int × Int
  | [], _, counts => counts
  | c :: rest, i, (lineCount, lastLineStart) =>
    if c = 10 then countLines rest (wrapInt (i + 1)) (wrapInt (lineCount + 1), wrapInt (i + 1))
    else countLines rest (wrapInt (i + 1)) (lineCount, lastLineStart)

/-- The record `sourceParsed` builds for the observers; the URLs and
`isContentScript` are copied from the provider and the global object and are
left out. -/
def parsedScript (sourceProvider : SourceProvider) : Script :=
  let source := sourceProvider.source
  let startLine := wrapInt (sourceProvider.startLine - 1)
  let startColumn := sourceProvider.startColumn
  let sourceLength := toInt source.length
  let counts := countLines source 0 (1, 0)
  let lineCount := counts.1
  let lastLineStart := counts.2
  let endLine := wrapInt (wrapInt (startLine + lineCount) - 1)
  let endColumn :=
    if lineCount = 1 then wrapInt (startColumn + sourceLength)
    else wrapInt (sourceLength - lastLineStart)
  { source := source, startLine := startLine, startColumn := startColumn,
    endLine := endLine, endColumn := endColumn }

/-- The function `sourceParsed`; `startLine` of the provider is the one-based line
of its start position, so the zero-based line is one less. -/
def sourceParsed (sourceProvider : SourceProvider) (errorLine : Int) (errorMessage : String)
    (d : Debugger) : Debugger :=
  if !canDispatchFunctionToObservers d then d
  else if errorLine ≠ -1 then
    let data := sourceProvider.source
    let firstLine := sourceProvider.startLine
    dispatchFunctionToObservers
      (fun observer =>
        logEvent (Event.observerFailedToParseSource observer data firstLine errorLine
          errorMessage)) d
  else
    let sourceID := sourceProvider.asID
    let script := parsedScript sourceProvider
    dispatchFunctionToObservers
      (fun observer => logEvent (Event.observerDidParseSource observer sourceID script)) d

/-- The script text `a`, newline, `bc` at line 4 (one-based), column 6. -/
def twoLineProvider : SourceProvider :=
  { startLine := 4, startColumn := 6, breakpointLocationForLineColumn := fun _ _ => none,
    source := [97, 10, 98, 99], asID := 7 }

/-- The script text `abc` at line 4 (one-based), column 6. -/
def oneLineProvider : SourceProvider :=
  { startLine := 4, startColumn := 6, breakpointLocationForLineColumn := fun _ _ => none,
    source := [97, 98, 99], asID := 8 }

/-! ## Breakpoint locations of a range -/

/-- The range at which `forEachBreakpointLocation` queries the parse data:
`adjustedStartLine`, `adjustedStartColumn`, `adjustedEndLine` and
`adjustedEndColumn`. -/
def forEachBreakpointLocationQuery (sourceProvider : SourceProvider)
    (startLine startColumn endLine endColumn : Int) : (Int × Int) × (Int × Int) :=
  let providerStartLine := sourceProvider.startLine
  let providerStartColumn := sourceProvider.startColumn
  let adjustedStartLine := wrapInt (startLine + 1)
  let adjustedStartColumn := startColumn
  let adjustedEndLine := wrapInt (endLine + 1)
  let adjustedEndColumn := endColumn
  let adjustedStartColumn :=
    if startLine = providerStartLine ∧ startColumn ≠ 0 then
      if providerStartColumn ≠ 0 then wrapInt (adjustedStartColumn - providerStartColumn)
      else adjustedStartColumn
    else adjustedStartColumn
  let adjustedEndColumn :=
    if endLine = providerStartLine ∧ endColumn ≠ 0 then
      if providerStartColumn ≠ 0 then wrapInt (adjustedEndColumn - providerStartColumn)
      else adjustedEndColumn
    else adjustedEndColumn
  ((adjustedStartLine, adjustedStartColumn), (adjustedEndLine, adjustedEndColumn))

/-- The lambda of `forEachBreakpointLocation`: the line and column it hands to the
callback for a position the parse data reports. -/
def reportedLocation (sourceProvider : SourceProvider)
    (startColumn endLine endColumn : Int) (resolvedPosition : JSTextPosition) : Int × Int :=
  let providerStartLine := sourceProvider.startLine
  let providerStartColumn := sourceProvider.startColumn
  let resolvedLine := resolvedPosition.line
  let resolvedColumn := resolvedPosition.column
  let resolvedColumn :=
    if resolvedLine = providerStartLine
        ∧ (startColumn ≠ 0 ∨ (endLine = providerStartLine ∧ endColumn ≠ 0)) then
      if providerStartColumn ≠ 0 then wrapInt (resolvedColumn + providerStartColumn)
      else resolvedColumn
    else resolvedColumn
  (wrapInt (resolvedLine - 1), resolvedColumn)

/-- The function `forEachBreakpointLocation`: the calls of the callback, in order,
and the debugger. -/
def forEachBreakpointLocation (sourceID : SourceID) (sourceProvider : SourceProvider)
    (startLine startColumn endLine endColumn : Int) (d : Debugger) :
    List (Int × Int) × Debugger :=
  let query := forEachBreakpointLocationQuery sourceProvider startLine startColumn endLine
    endColumn
  let d := debuggerParseData sourceID d
  ((sourceProvider.forEachBreakpointLocation query.1.1 query.1.2 query.2.1 query.2.2).map
      (reportedLocation sourceProvider startColumn endLine endColumn), d)

/-- The provider `inlineScriptProvider` (first line 10, one-based, at column 8) with
pause positions at columns 2, 6 and 10 of its first line and at column 4 of its
second line; a range is reported from its start, inclusive, to its end,
exclusive. -/
def inlineScriptPositions : SourceProvider :=
  { inlineScriptProvider with
    forEachBreakpointLocation := fun startLine startColumn endLine endColumn =>
      [({ line := 10, column := 2 } : JSTextPosition), { line := 10, column := 6 },
        { line := 10, column := 10 }, { line := 11, column := 4 }].filter
        (fun position =>
          (decide (startLine < position.line)
            || (decide (startLine = position.line) && decide (startColumn ≤ position.column)))
          && (decide (position.line < endLine)
            || (decide (position.line = endLine) && decide (position.column < endColumn)))) }

end Debugger
end JSC

namespace JSC
namespace Debugger

/-- A debugger with breakpoints activated in which `columnBreakpoint` (line 5,
column 3) was set before `lineBreakpoint` (line 5, no column), and which executed
line 5 of script 8 last. -/
def cameFromOtherScript : Debugger :=
  { runCommands (scriptEnv (TextPosition.mk 0 0))
      [ClientCommand.setBreakpointsActivated true,
       ClientCommand.setBreakpoint columnBreakpoint,
       ClientCommand.setBreakpoint lineBreakpoint] initial with
    m_lastExecutedSourceID := 8, m_lastExecutedLine := 5 }

/-- The debugger `onScriptSeven`, which holds `lineBreakpoint` alone, after it
executed line 5 of script 8 last. -/
def lineFiveOfOtherScript : Debugger :=
  { onScriptSeven with m_lastExecutedSourceID := 8, m_lastExecutedLine := 5 }

end Debugger
end JSC

namespace JSC
namespace Debugger

/-- The debugger when `updateCallFrame`, called with a frame, tests `isStepping`:
the frame is tracked and the pause was attempted if the action asks for it. -/
def afterPauseAttempt (env : Env) (globalObject : Option GlobalObject) (frame : CallFrame)
    (action : CallFrameUpdateAction) (d : Debugger) : Debugger :=
  if action = CallFrameUpdateAction.AttemptPause then
    pauseIfNeeded env globalObject (updateCallFrameInternal env frame d)
  else updateCallFrameInternal env frame d

/-- The tracked frame is null or the given frame, and it is not null when the
eventual request has a target frame. -/
def trackedOrDropped (d : Debugger) (frame : CallFrame) : Bool :=
  (d.m_currentCallFrame.isNone || decide (d.m_currentCallFrame = some frame))
    && (d.m_pauseOnCallFrame.isNone || d.m_currentCallFrame.isSome)

end Debugger
end JSC

namespace JSC
namespace Debugger

/-! ## Operations on the debugger -/

/-- The function `attach`; the providers are those of the functions of the global
object that the iteration over the heap finds. -/
def attach (globalObject : GlobalObject) (sourceProviders : List SourceProvider)
    (d : Debugger) : Debugger :=
  let d := { d with m_globalObjects := hashSetAdd d.m_globalObjects globalObject }
  sourceProviders.foldl (fun acc sourceProvider => sourceParsed sourceProvider (-1) "" acc) d

/-- Modelled from the spec: the setter `setPauseOnAllExceptionsBreakpoint` of
`Debugger.h`. -/
def setPauseOnAllExceptionsBreakpoint (breakpoint : Option Breakpoint) (d : Debugger) :
    Debugger :=
  { d with m_pauseOnAllExceptionsBreakpoint := breakpoint }

/-- Modelled from the spec: the setter `setPauseOnUncaughtExceptionsBreakpoint` of
`Debugger.h`. -/
def setPauseOnUncaughtExceptionsBreakpoint (breakpoint : Option Breakpoint) (d : Debugger) :
    Debugger :=
  { d with m_pauseOnUncaughtExceptionsBreakpoint := breakpoint }

/-- Modelled from the spec: the setter `setPauseOnDebuggerStatementsBreakpoint` of
`Debugger.h`. -/
def setPauseOnDebuggerStatementsBreakpoint (breakpoint : Option Breakpoint) (d : Debugger) :
    Debugger :=
  { d with m_pauseOnDebuggerStatementsBreakpoint := breakpoint }

/-- Modelled from the spec: the setter `setSuppressAllPauses` of `Debugger.h`. -/
def setSuppressAllPauses (suppress : Bool) (d : Debugger) : Debugger :=
  { d with m_suppressAllPauses := suppress }

end Debugger

/-- A call into the debugger from outside: an operation of the client, a setter, or
a callback of the runtime at a program point. -/
inductive Operation
  | command (command : ClientCommand)
  | attach (globalObject : GlobalObject) (sourceProviders : List SourceProvider)
  | sourceParsed (sourceProvider : SourceProvider) (errorLine : Int) (errorMessage : String)
  | resolveBreakpoint (breakpoint : Breakpoint) (sourceProvider : SourceProvider)
  | setPauseOnAllExceptionsBreakpoint (breakpoint : Option Breakpoint)
  | setPauseOnUncaughtExceptionsBreakpoint (breakpoint : Option Breakpoint)
  | setPauseOnDebuggerStatementsBreakpoint (breakpoint : Option Breakpoint)
  | setSuppressAllPauses (suppress : Bool)
  | breakProgram (specialBreakpoint : Option Breakpoint)
  | atStatement (callFrame : Option CallFrame)
  | atExpression (callFrame : Option CallFrame)
  | callEvent (callFrame : Option CallFrame)
  | returnEvent (callFrame : Option CallFrame)
  | unwindEvent (callFrame : Option CallFrame)
  | willExecuteProgram (callFrame : Option CallFrame)
  | didExecuteProgram (callFrame : Option CallFrame)
  | exception (globalObject : Option GlobalObject) (callFrame : Option CallFrame)
      (exception : JSValue) (hasCatchHandler : Bool)
  | didReachDebuggerStatement (callFrame : Option CallFrame)

namespace Debugger

/-- The debugger after an operation, in the runtime as it is when the operation is
performed. -/
def applyOperation (env : Env) : Operation → Debugger → Debugger
  | Operation.command command, d => runCommand env command d
  | Operation.attach globalObject sourceProviders, d => attach globalObject sourceProviders d
  | Operation.sourceParsed sourceProvider errorLine errorMessage, d =>
    sourceParsed sourceProvider errorLine errorMessage d
  | Operation.resolveBreakpoint breakpoint sourceProvider, d =>
    (resolveBreakpoint breakpoint sourceProvider d).2
  | Operation.setPauseOnAllExceptionsBreakpoint breakpoint, d =>
    setPauseOnAllExceptionsBreakpoint breakpoint d
  | Operation.setPauseOnUncaughtExceptionsBreakpoint breakpoint, d =>
    setPauseOnUncaughtExceptionsBreakpoint breakpoint d
  | Operation.setPauseOnDebuggerStatementsBreakpoint breakpoint, d =>
    setPauseOnDebuggerStatementsBreakpoint breakpoint d
  | Operation.setSuppressAllPauses suppress, d => setSuppressAllPauses suppress d
  | Operation.breakProgram specialBreakpoint, d => breakProgram env specialBreakpoint d
  | Operation.atStatement callFrame, d => atStatement env callFrame d
  | Operation.atExpression callFrame, d => atExpression env callFrame d
  | Operation.callEvent callFrame, d => callEvent env callFrame d
  | Operation.returnEvent callFrame, d => returnEvent env callFrame d
  | Operation.unwindEvent callFrame, d => unwindEvent env callFrame d
  | Operation.willExecuteProgram callFrame, d => willExecuteProgram env callFrame d
  | Operation.didExecuteProgram callFrame, d => didExecuteProgram env callFrame d
  | Operation.exception globalObject callFrame exception hasCatchHandler, d =>
    Debugger.exception env globalObject callFrame exception hasCatchHandler d
  | Operation.didReachDebuggerStatement callFrame, d => didReachDebuggerStatement env callFrame d

/-- The debugger after a sequence of operations, each in the runtime as it is then. -/
def runOperations (steps : List (Env × Operation)) (d : Debugger) : Debugger :=
  steps.foldl (fun acc step => applyOperation step.1 step.2 acc) d

/-- A session: a breakpoint for all exceptions is set, the client asks for a pause,
a statement pauses and the client steps over it, the function returns, an
exception is thrown in the caller and the client continues. -/
def steppingSession : List (Env × Operation) :=
  [(scriptEnv (TextPosition.mk 5 0),
      Operation.setPauseOnAllExceptionsBreakpoint (some allExceptionsBreakpoint)),
   (scriptEnv (TextPosition.mk 5 0), Operation.command (ClientCommand.addObserver 11)),
   (scriptEnv (TextPosition.mk 5 0),
      Operation.command ClientCommand.schedulePauseAtNextOpportunity),
   ({ scriptEnv (TextPosition.mk 5 0) with
        eventLoopCommands := [ClientCommand.stepOverStatement],
        callerFrame := fun _ => some 50 },
      Operation.atStatement (some 100)),
   ({ scriptEnv (TextPosition.mk 6 0) with callerFrame := fun _ => some 50 },
      Operation.returnEvent (some 100)),
   (scriptEnv (TextPosition.mk 9 0), Operation.exception (some 1) (some 50) 13 false)]

end Debugger
end JSC

namespace JSC
namespace Debugger

/-- The debugger after the pause attempt of `returnEvent` for a frame: the frame is
tracked and `pauseIfNeeded` has run with the reason `PausedBeforeReturn`. -/
def returnAttempt (env : Env) (frame : CallFrame) (d : Debugger) : Debugger :=
  withPauseReason ReasonForPause.PausedBeforeReturn
    (updateCallFrame env (lexicalGlobalObjectForCallFrame env (some frame)) (some frame)
      CallFrameUpdateAction.AttemptPause) d

/-- The runtime `scriptEnv` at line 5 in which frame 50 is the caller of frame 100
and has no caller itself. -/
def callerEnv : Env :=
  { scriptEnv (TextPosition.mk 5 0) with
    callerFrame := fun frame => if frame = 100 then some 50 else none }

/-- A debugger in which stepping is enabled and a step-over that was asked for in
frame 100 is pending: the frame is the target and neither step flag is set. -/
def steppingOverFrame : Debugger :=
  { initial with
    m_steppingMode := SteppingMode.SteppingModeEnabled, m_pauseOnCallFrame := some 100 }

/-- The runtime `callerEnv` in which the client answers a pause with
`stepOverStatement`. -/
def stepOverEnv : Env :=
  { callerEnv with eventLoopCommands := [ClientCommand.stepOverStatement] }

end Debugger
end JSC

namespace JSC
namespace Debugger

/-- The debugger after the pause attempt of `didExecuteProgram` for a frame: the
frame is tracked and `pauseIfNeeded` has run with the reason
`PausedAtEndOfProgram`. -/
def programEndAttempt (env : Env) (frame : CallFrame) (d : Debugger) : Debugger :=
  updateCallFrame env (lexicalGlobalObjectForCallFrame env (some frame)) (some frame)
    CallFrameUpdateAction.AttemptPause
    { d with m_reasonForPause := ReasonForPause.PausedAtEndOfProgram }

/-- A debugger in which stepping is enabled and the immediate request is armed. -/
def pauseRequestedDebugger : Debugger :=
  { initial with
    m_steppingMode := SteppingMode.SteppingModeEnabled, m_pauseAtNextOpportunity := true }

/-- The runtime `scriptEnv` at line 5, in which no frame has a caller, with a client
that answers a pause with `stepOutOfFunction`. -/
def stepOutEnv : Env :=
  { scriptEnv (TextPosition.mk 5 0) with eventLoopCommands := [ClientCommand.stepOutOfFunction] }

/-- The runtime `scriptEnv` at line 5, in which no frame has a caller, with a client
that answers a pause with `stepOverStatement`. -/
def stepOverTopEnv : Env :=
  { scriptEnv (TextPosition.mk 5 0) with eventLoopCommands := [ClientCommand.stepOverStatement] }

end Debugger
end JSC

namespace JSC
namespace Debugger

/-- The reason that is declared and the identifier of the pausing breakpoint. -/
def reportedState (d : Debugger) : ReasonForPause × BreakpointID :=
  (d.m_reasonForPause, d.m_pausingBreakpointID)

/-- The reason `pauseIfNeeded` declares for `handlePause` when the loop over the
deferred breakpoints has run through the list: `PausedAfterBlackboxedScript` if
the marker was set on entry, `PausedForBreakpoint` if the loop has recorded a
pausing breakpoint identifier, and otherwise the reason the callback declared. -/
def pauseReason (env : Env) (afterBlackboxedScript : Bool) (deferred : List Breakpoint)
    (declared : ReasonForPause) : ReasonForPause :=
  if afterBlackboxedScript then ReasonForPause.PausedAfterBlackboxedScript
  else
    match (loopState env deferred {}).pausingBreakpointID with
    | some pausingBreakpointID =>
      if pausingBreakpointID ≠ noBreakpointID then ReasonForPause.PausedForBreakpoint
      else declared
    | none => declared

/-- The breakpoint of the policy that pauses on `debugger` statements. -/
def debuggerStatementsBreakpoint : Breakpoint :=
  { id := 23, sourceID := noSourceID, lineNumber := 0, columnNumber := 0, linked := false }

/-- A debugger with observer 11, breakpoints activated, `lineBreakpoint` set at line 5
of script 7, and the policy that pauses on `debugger` statements. -/
def pausingOnDebuggerStatements : Debugger :=
  { addObserver 11 activatedWithLineBreakpoint with
    m_pauseOnDebuggerStatementsBreakpoint := some debuggerStatementsBreakpoint }

/-- The debugger on which `pauseIfNeeded` runs when `didReachDebuggerStatement` is
called for a statement on line 5 in `pausingOnDebuggerStatements`: the reason is
declared, the special breakpoint is armed and the frame is tracked. -/
def atDebuggerStatement : Debugger :=
  updateCallFrameInternal (scriptEnv (TextPosition.mk 5 0)) 100
    { pausingOnDebuggerStatements with
      m_reasonForPause := ReasonForPause.PausedForDebuggerStatement,
      m_specialBreakpoint := some debuggerStatementsBreakpoint,
      m_steppingMode := SteppingMode.SteppingModeEnabled }

end Debugger
end JSC

/-! # Theorems -/

namespace JSC
namespace HashMap
variable {V : Type}

theorem find_set_self (m : HashMap V) (k : Nat) (v : V) : find (set m k v) k = some v := by
  induction m with
  | nil => simp [set, find]
  | cons e rest ih =>
    obtain ⟨k0, v0⟩ := e
    by_cases h : k0 = k <;> simp [set, find, h, ih]

theorem find_set_ne (m : HashMap V) {k k0 : Nat} (v : V) (h : k0 ≠ k) :
    find (set m k v) k0 = find m k0 := by
  induction m with
  | nil => simp [set, find, Ne.symm h]
  | cons e rest ih =>
    obtain ⟨k1, v1⟩ := e
    by_cases h1 : k1 = k
    · subst h1
      simp [set, find, Ne.symm h]
    · by_cases h2 : k1 = k0
      · subst h2
        simp [set, find, h1]
      · simp [set, find, h1, h2, ih]

theorem find_remove_self (m : HashMap V) (k : Nat) : find (remove m k) k = none := by
  induction m with
  | nil => simp [remove, find]
  | cons e rest ih =>
    obtain ⟨k0, v0⟩ := e
    by_cases h : k0 = k <;> simp [remove, find, h, ih]

theorem find_remove_ne (m : HashMap V) {k k0 : Nat} (h : k0 ≠ k) :
    find (remove m k) k0 = find m k0 := by
  induction m with
  | nil => simp [remove, find]
  | cons e rest ih =>
    obtain ⟨k1, v1⟩ := e
    by_cases h1 : k1 = k
    · subst h1
      simp [remove, find, Ne.symm h, ih]
    · by_cases h2 : k1 = k0
      · subst h2
        simp [remove, find, h1]
      · simp [remove, find, h1, h2, ih]

theorem set_eq_self_of_find (m : HashMap V) {k : Nat} {v : V} (h : find m k = some v) :
    set m k v = m := by
  induction m with
  | nil => simp [find] at h
  | cons e rest ih =>
    obtain ⟨k0, v0⟩ := e
    by_cases h0 : k0 = k
    · simp [find, h0] at h
      simp [set, h0, h]
    · simp [find, h0] at h
      simp [set, h0, ih h]

theorem find_ensure_self (m : HashMap V) (k : Nat) (v : V) :
    find (ensure m k v) k = some ((find m k).getD v) := by
  unfold ensure contains
  cases h : find m k with
  | none => simp [find_set_self]
  | some w => simp [h]

theorem find_ensure_ne (m : HashMap V) {k k0 : Nat} (v : V) (h : k0 ≠ k) :
    find (ensure m k v) k0 = find m k0 := by
  unfold ensure
  split
  · rfl
  · exact find_set_ne m v h

theorem ensure_eq_self_of_find (m : HashMap V) {k : Nat} {v w : V} (h : find m k = some w) :
    ensure m k v = m := by
  simp [ensure, contains, h]

end HashMap
end JSC
namespace JSC
namespace Debugger

/-- The vector a map of maps holds for a script and a line. -/
theorem bucket_eq (d : Debugger) (s l : Nat) :
    bucket d s l
      = ((HashMap.find ((HashMap.find d.m_breakpointsForSourceID s).getD []) l).getD []) := by
  unfold bucket
  cases h : HashMap.find d.m_breakpointsForSourceID s with
  | none => simp [HashMap.find]
  | some inner =>
    cases h2 : HashMap.find inner l <;> simp [h2]

theorem bucket_setBreakpoint (B : Breakpoint) (d : Debugger) (s l : Nat) :
    bucket (setBreakpoint B d).2 s l
      = if s = B.sourceID ∧ l = B.lineNumber ∧
            ((bucket d s l).any (fun e => decide (e.columnNumber = B.columnNumber))) = false
        then bucket d s l ++ [B] else bucket d s l := by
  simp only [bucket_eq]
  unfold setBreakpoint
  simp only [HashMap.find_ensure_self, Option.getD_some, toggleBreakpoint]
  by_cases hs : s = B.sourceID
  · subst hs
    by_cases hl : l = B.lineNumber
    · subst hl
      split <;> rename_i hany
      · simp [HashMap.find_set_self, HashMap.find_ensure_self, hany]
      · simp [HashMap.find_set_self, HashMap.find_ensure_self, hany]
    · split <;>
        simp [HashMap.find_set_self, HashMap.find_set_ne, HashMap.find_ensure_ne, hl]
  · split <;> simp [HashMap.find_set_ne, HashMap.find_ensure_ne, hs]

end Debugger
end JSC

namespace JSC
namespace Debugger

theorem removeBreakpoint_no_script (B : Breakpoint) (d : Debugger)
    (hm : HashMap.find d.m_breakpointsForSourceID B.sourceID = none) :
    removeBreakpoint B d = (false, d) := by
  simp only [removeBreakpoint, hm]

theorem removeBreakpoint_no_line (B : Breakpoint) (d : Debugger) (inner : LineToBreakpointsMap)
    (hm : HashMap.find d.m_breakpointsForSourceID B.sourceID = some inner)
    (hi : HashMap.find inner B.lineNumber = none) :
    removeBreakpoint B d = (false, d) := by
  simp only [removeBreakpoint, hm, hi]

theorem removeBreakpoint_line (B : Breakpoint) (d : Debugger) (inner : LineToBreakpointsMap)
    (bs : BreakpointsVector)
    (hm : HashMap.find d.m_breakpointsForSourceID B.sourceID = some inner)
    (hi : HashMap.find inner B.lineNumber = some bs) :
    removeBreakpoint B d
      = (decide (B ∈ d.m_breakpoints) || !decide (B ∈ bs),
         { d with m_breakpoints := hashSetRemove d.m_breakpoints B,
                  m_breakpointsForSourceID := indexAfterRemove B d inner bs }) := by
  simp only [removeBreakpoint, hm, hi, toggleBreakpoint, removeAllMatching, indexAfterRemove]
  congr 1
  · simp
  · by_cases hempty : (bs.filter (fun x => !decide (B = x))).isEmpty = true <;>
      by_cases hinner : (HashMap.remove inner B.lineNumber).isEmpty = true <;>
      simp [hempty, hinner]

theorem bucket_removeBreakpoint (B : Breakpoint) (d : Debugger) (s l : Nat) :
    bucket (removeBreakpoint B d).2 s l
      = if s = B.sourceID ∧ l = B.lineNumber
        then (bucket d s l).filter (fun e => !decide (B = e)) else bucket d s l := by
  cases hm : HashMap.find d.m_breakpointsForSourceID B.sourceID with
  | none =>
    rw [removeBreakpoint_no_script B d hm]
    by_cases hs : s = B.sourceID
    · subst hs; simp [bucket_eq, hm, HashMap.find]
    · simp [hs]
  | some inner =>
    cases hi : HashMap.find inner B.lineNumber with
    | none =>
      rw [removeBreakpoint_no_line B d inner hm hi]
      by_cases hs : s = B.sourceID
      · subst hs
        by_cases hl : l = B.lineNumber
        · subst hl; simp [bucket_eq, hm, hi]
        · simp [hl]
      · simp [hs]
    | some bs =>
      rw [removeBreakpoint_line B d inner bs hm hi]
      simp only [bucket_eq, indexAfterRemove]
      by_cases hs : s = B.sourceID
      · subst hs
        by_cases hempty : (bs.filter (fun x => !decide (B = x))).isEmpty = true
        · have hnil : bs.filter (fun x => !decide (B = x)) = [] := by
            simpa [List.isEmpty_iff] using hempty
          by_cases hinner : (HashMap.remove inner B.lineNumber).isEmpty = true
          · have hinil : HashMap.remove inner B.lineNumber = [] := by
              simpa [List.isEmpty_iff] using hinner
            by_cases hl : l = B.lineNumber
            · subst hl
              simp [hempty, hinner, HashMap.find_remove_self, hm, hi, hnil, HashMap.find]
            · have h1 := HashMap.find_remove_ne inner hl
              rw [hinil] at h1
              simp [hempty, hinner, HashMap.find_remove_self, hm, hl, ← h1, HashMap.find]
          · by_cases hl : l = B.lineNumber
            · subst hl
              simp [hempty, hinner, HashMap.find_set_self, HashMap.find_remove_self, hm, hi, hnil]
            · simp [hempty, hinner, HashMap.find_set_self, HashMap.find_remove_ne, hm, hl]
        · by_cases hl : l = B.lineNumber
          · subst hl
            simp [hempty, HashMap.find_set_self, hm, hi]
          · simp [hempty, HashMap.find_set_self, HashMap.find_set_ne, hm, hl]
      · by_cases hempty : (bs.filter (fun x => !decide (B = x))).isEmpty = true
        · by_cases hinner : (HashMap.remove inner B.lineNumber).isEmpty = true
          · simp [hempty, hinner, HashMap.find_remove_ne, hs]
          · simp [hempty, hinner, HashMap.find_set_ne, hs]
        · simp [hempty, HashMap.find_set_ne, hs]

theorem bucket_clearBreakpoints (d : Debugger) (s l : Nat) :
    bucket (clearBreakpoints d) s l = [] := by
  simp [bucket, clearBreakpoints, HashMap.find]

end Debugger
end JSC

namespace JSC
namespace Debugger

theorem storeInvariant_of_empty (d : Debugger) (h : d.m_breakpointsForSourceID = []) :
    StoreInvariant d := by
  intro s l
  simp [bucket, h, HashMap.find]

theorem storeInvariant_congr (d d2 : Debugger)
    (h : d2.m_breakpointsForSourceID = d.m_breakpointsForSourceID) (hinv : StoreInvariant d) :
    StoreInvariant d2 := by
  intro s l
  have hb : bucket d2 s l = bucket d s l := by simp [bucket, h]
  rw [hb]
  exact hinv s l

theorem storeInvariant_setBreakpoint (B : Breakpoint) (d : Debugger) (h : StoreInvariant d) :
    StoreInvariant (setBreakpoint B d).2 := by
  intro s l
  rw [bucket_setBreakpoint]
  obtain ⟨hkey, hnodup⟩ := h s l
  split
  · rename_i hc
    obtain ⟨hs, hl, hany⟩ := hc
    constructor
    · intro b hb
      rcases List.mem_append.mp hb with hb | hb
      · exact hkey b hb
      · simp only [List.mem_singleton] at hb
        subst hb
        exact ⟨hs.symm, hl.symm⟩
    · rw [List.map_append, List.nodup_append]
      refine ⟨hnodup, by simp, ?_⟩
      intro c hc1 hc2
      simp only [List.map_cons, List.map_nil, List.mem_singleton] at hc2
      subst hc2
      obtain ⟨e, he, hec⟩ := List.mem_map.mp hc1
      have hfalse := List.any_eq_false.mp hany e he
      simp [hec] at hfalse
  · exact ⟨hkey, hnodup⟩

theorem storeInvariant_removeBreakpoint (B : Breakpoint) (d : Debugger) (h : StoreInvariant d) :
    StoreInvariant (removeBreakpoint B d).2 := by
  intro s l
  rw [bucket_removeBreakpoint]
  obtain ⟨hkey, hnodup⟩ := h s l
  split
  · constructor
    · intro b hb
      exact hkey b (List.mem_of_mem_filter hb)
    · exact (List.filter_sublist _).map _ |>.nodup hnodup
  · exact ⟨hkey, hnodup⟩

theorem storeInvariant_clearBreakpoints (d : Debugger) : StoreInvariant (clearBreakpoints d) := by
  intro s l
  simp [bucket_clearBreakpoints]

theorem storeInvariant_applyStoreOp (op : StoreOp) (d : Debugger) (h : StoreInvariant d) :
    StoreInvariant (applyStoreOp op d) := by
  cases op with
  | setBreakpoint b => exact storeInvariant_setBreakpoint b d h
  | removeBreakpoint b => exact storeInvariant_removeBreakpoint b d h
  | clearBreakpoints => exact storeInvariant_clearBreakpoints d

theorem storeInvariant_runStoreOps (ops : List StoreOp) (d : Debugger) (h : StoreInvariant d) :
    StoreInvariant (runStoreOps ops d) := by
  induction ops generalizing d with
  | nil => exact h
  | cons op rest ih =>
    simp only [runStoreOps, List.foldl_cons]
    exact ih _ (storeInvariant_applyStoreOp op d h)

theorem eq_of_held_of_location (d : Debugger) (h : StoreInvariant d) (b1 b2 : Breakpoint)
    (h1 : held d b1) (h2 : held d b2) (hloc : b1.location = b2.location) : b1 = b2 := by
  obtain ⟨s1, l1, hb1⟩ := h1
  obtain ⟨s2, l2, hb2⟩ := h2
  simp only [Breakpoint.location, Prod.mk.injEq] at hloc
  obtain ⟨hs, hl, hc⟩ := hloc
  obtain ⟨hk1, hn1⟩ := h s1 l1
  obtain ⟨hk2, _⟩ := h s2 l2
  have e1 := hk1 b1 hb1
  have e2 := hk2 b2 hb2
  have hs12 : s2 = s1 := by rw [← e1.1, ← e2.1, hs]
  have hl12 : l2 = l1 := by rw [← e1.2, ← e2.2, hl]
  subst hs12 hl12
  exact List.inj_on_of_nodup_map hn1 hb1 hb2 hc

/-- C2: starting from an empty store, after any sequence of `setBreakpoint`,
`removeBreakpoint` and `clearBreakpoints` calls, two breakpoints held in the
index at the same `(sourceID, lineNumber, columnNumber)` are one and the same
breakpoint, and no vector of the index holds a location twice. -/
theorem store_holds_one_breakpoint_per_location (ops : List StoreOp) (d : Debugger)
    (hempty : d.m_breakpointsForSourceID = []) :
    (∀ b1 b2, held (runStoreOps ops d) b1 → held (runStoreOps ops d) b2 →
        b1.location = b2.location → b1 = b2) ∧
      ∀ sourceID line,
        ((bucket (runStoreOps ops d) sourceID line).map Breakpoint.location).Nodup := by
  have hinv := storeInvariant_runStoreOps ops d (storeInvariant_of_empty d hempty)
  refine ⟨fun b1 b2 h1 h2 hloc => eq_of_held_of_location _ hinv b1 b2 h1 h2 hloc, ?_⟩
  intro s l
  obtain ⟨_, hn⟩ := hinv s l
  have hcomp : Breakpoint.columnNumber = (fun p : SourceID × Nat × Nat => p.2.2) ∘ Breakpoint.location := by
    funext b; rfl
  rw [hcomp, ← List.map_map] at hn
  exact hn.of_map _

end Debugger
end JSC

namespace JSC
namespace Debugger

theorem mem_hashSetAdd {α : Type} [DecidableEq α] (s : List α) (a : α) : a ∈ hashSetAdd s a := by
  unfold hashSetAdd
  split <;> simp_all

theorem setBreakpoint_fst (B : Breakpoint) (d : Debugger) :
    (setBreakpoint B d).1
      = !((bucket d B.sourceID B.lineNumber).any
            (fun e => decide (e.columnNumber = B.columnNumber))) := by
  simp only [bucket_eq]
  unfold setBreakpoint
  simp only [HashMap.find_ensure_self, Option.getD_some]
  split <;> rename_i hany <;> simp [hany]

theorem setBreakpoint_duplicate (B : Breakpoint) (d : Debugger)
    (hany : (bucket d B.sourceID B.lineNumber).any
      (fun e => decide (e.columnNumber = B.columnNumber)) = true) :
    setBreakpoint B d = (false, d) := by
  have hany2 := hany
  rw [bucket_eq] at hany2
  cases hm : HashMap.find d.m_breakpointsForSourceID B.sourceID with
  | none => simp [bucket, hm] at hany
  | some inner =>
    cases hi : HashMap.find inner B.lineNumber with
    | none => simp [bucket, hm, hi] at hany
    | some bs =>
      unfold setBreakpoint
      simp only [HashMap.find_ensure_self, Option.getD_some]
      rw [if_pos hany2]
      simp only [hm, Option.getD_some, HashMap.ensure_eq_self_of_find _ hm,
        HashMap.ensure_eq_self_of_find _ hi, HashMap.set_eq_self_of_find _ hm]

theorem setBreakpoint_m_breakpoints (B : Breakpoint) (d : Debugger)
    (hany : (bucket d B.sourceID B.lineNumber).any
      (fun e => decide (e.columnNumber = B.columnNumber)) = false) :
    (setBreakpoint B d).2.m_breakpoints = hashSetAdd d.m_breakpoints B := by
  rw [bucket_eq] at hany
  unfold setBreakpoint
  simp only [HashMap.find_ensure_self, Option.getD_some]
  rw [if_neg (by simp [hany])]
  simp [toggleBreakpoint]

/-- The breakpoints of a script and line that sit at the column of `B`. -/
theorem any_column_iff_held (B : Breakpoint) (d : Debugger) (hinv : StoreInvariant d) :
    (bucket d B.sourceID B.lineNumber).any
        (fun e => decide (e.columnNumber = B.columnNumber)) = true
      ↔ ∃ b, held d b ∧ b.location = B.location := by
  constructor
  · intro h
    obtain ⟨e, he, hc⟩ := List.any_eq_true.mp h
    have hk := (hinv B.sourceID B.lineNumber).1 e he
    refine ⟨e, ⟨_, _, he⟩, ?_⟩
    simp only [Breakpoint.location, Prod.mk.injEq]
    exact ⟨hk.1, hk.2, by simpa using hc⟩
  · rintro ⟨b, ⟨s, l, hb⟩, hloc⟩
    simp only [Breakpoint.location, Prod.mk.injEq] at hloc
    have hk := (hinv s l).1 b hb
    have hs : s = B.sourceID := by rw [← hk.1, hloc.1]
    have hl : l = B.lineNumber := by rw [← hk.2, hloc.2.1]
    subst hs hl
    exact List.any_eq_true.mpr ⟨b, hb, by simp [hloc.2.2]⟩

/-- C1: in a store whose vectors hold breakpoints of their own script and line,
`setBreakpoint(B)` returns false and leaves the debugger, hence the index and
the breakpoint set, as it was when a breakpoint at the location of `B` is
already held; otherwise it returns true and `B` is afterwards in the vector of
`(B.sourceID, B.lineNumber)` and in `m_breakpoints`. -/
theorem setBreakpoint_duplicate_or_insert (B : Breakpoint) (d : Debugger)
    (hinv : StoreInvariant d) :
    ((∃ b, held d b ∧ b.location = B.location) →
        (setBreakpoint B d).1 = false ∧ (setBreakpoint B d).2 = d ∧
        (setBreakpoint B d).2.m_breakpointsForSourceID = d.m_breakpointsForSourceID ∧
        (setBreakpoint B d).2.m_breakpoints = d.m_breakpoints) ∧
    ((¬ ∃ b, held d b ∧ b.location = B.location) →
        (setBreakpoint B d).1 = true ∧
        B ∈ bucket (setBreakpoint B d).2 B.sourceID B.lineNumber ∧
        B ∈ (setBreakpoint B d).2.m_breakpoints) := by
  constructor
  · intro hdup
    have hany := (any_column_iff_held B d hinv).mpr hdup
    rw [setBreakpoint_duplicate B d hany]
    exact ⟨rfl, rfl, rfl, rfl⟩
  · intro hnodup
    have hany : (bucket d B.sourceID B.lineNumber).any
        (fun e => decide (e.columnNumber = B.columnNumber)) = false := by
      cases h : (bucket d B.sourceID B.lineNumber).any
          (fun e => decide (e.columnNumber = B.columnNumber)) with
      | false => rfl
      | true => exact absurd ((any_column_iff_held B d hinv).mp h) hnodup
    refine ⟨by rw [setBreakpoint_fst, hany]; rfl, ?_, ?_⟩
    · rw [bucket_setBreakpoint, if_pos ⟨rfl, rfl, hany⟩]
      simp
    · rw [setBreakpoint_m_breakpoints B d hany]
      exact mem_hashSetAdd _ _

end Debugger
end JSC

namespace JSC
namespace Debugger

theorem storeInvariant_storeWithLineBreakpoint : StoreInvariant storeWithLineBreakpoint :=
  storeInvariant_setBreakpoint _ _ (storeInvariant_of_empty initial rfl)

theorem not_held_initial (b : Breakpoint) : ¬ held initial b := by
  rintro ⟨s, l, h⟩
  simp [bucket, initial, HashMap.find] at h

theorem setBreakpoint_duplicate_or_insert_witness :
    ((setBreakpoint lineBreakpoint initial).1 = true ∧
        lineBreakpoint ∈ bucket (setBreakpoint lineBreakpoint initial).2
          lineBreakpoint.sourceID lineBreakpoint.lineNumber ∧
        lineBreakpoint ∈ (setBreakpoint lineBreakpoint initial).2.m_breakpoints) ∧
      ((setBreakpoint duplicateBreakpoint storeWithLineBreakpoint).1 = false ∧
        (setBreakpoint duplicateBreakpoint storeWithLineBreakpoint).2 = storeWithLineBreakpoint ∧
        (setBreakpoint duplicateBreakpoint storeWithLineBreakpoint).2.m_breakpointsForSourceID
          = storeWithLineBreakpoint.m_breakpointsForSourceID ∧
        (setBreakpoint duplicateBreakpoint storeWithLineBreakpoint).2.m_breakpoints
          = storeWithLineBreakpoint.m_breakpoints) :=
  ⟨(setBreakpoint_duplicate_or_insert lineBreakpoint initial
      (storeInvariant_of_empty initial rfl)).2
      (fun ⟨b, hb, _⟩ => not_held_initial b hb),
   (setBreakpoint_duplicate_or_insert duplicateBreakpoint storeWithLineBreakpoint
      storeInvariant_storeWithLineBreakpoint).1
      ⟨lineBreakpoint, ⟨7, 5, by decide⟩, by decide⟩⟩

theorem store_holds_one_breakpoint_per_location_witness :
    (∀ b1 b2,
        held (runStoreOps [StoreOp.setBreakpoint lineBreakpoint,
          StoreOp.setBreakpoint duplicateBreakpoint, StoreOp.setBreakpoint columnBreakpoint,
          StoreOp.removeBreakpoint columnBreakpoint] initial) b1 →
        held (runStoreOps [StoreOp.setBreakpoint lineBreakpoint,
          StoreOp.setBreakpoint duplicateBreakpoint, StoreOp.setBreakpoint columnBreakpoint,
          StoreOp.removeBreakpoint columnBreakpoint] initial) b2 →
        b1.location = b2.location → b1 = b2) ∧
      ∀ sourceID line,
        ((bucket (runStoreOps [StoreOp.setBreakpoint lineBreakpoint,
          StoreOp.setBreakpoint duplicateBreakpoint, StoreOp.setBreakpoint columnBreakpoint,
          StoreOp.removeBreakpoint columnBreakpoint] initial) sourceID line).map
            Breakpoint.location).Nodup :=
  store_holds_one_breakpoint_per_location _ initial rfl

/-- C3: with `lineBreakpoint` registered at line 5 of script 7, `columnBreakpoint`
(same line, column 3) is held neither in the index nor in `m_breakpoints`, and
`removeBreakpoint(columnBreakpoint)` removes nothing, yet it returns true. -/
theorem removeBreakpoint_of_absent_breakpoint_returns_true :
    bucket storeWithLineBreakpoint columnBreakpoint.sourceID columnBreakpoint.lineNumber
        = [lineBreakpoint] ∧
      columnBreakpoint ∉ storeWithLineBreakpoint.m_breakpoints ∧
      (removeBreakpoint columnBreakpoint storeWithLineBreakpoint).2 = storeWithLineBreakpoint ∧
      (removeBreakpoint columnBreakpoint storeWithLineBreakpoint).1 = true := by
  decide

/-- C4: with `lineBreakpoint` registered, `setBreakpoint(columnBreakpoint)` returns
true and the following `removeBreakpoint(columnBreakpoint)` restores the store,
but a second `removeBreakpoint(columnBreakpoint)` returns true and not false. -/
theorem second_removeBreakpoint_returns_true :
    (setBreakpoint columnBreakpoint storeWithLineBreakpoint).1 = true ∧
      (removeBreakpoint columnBreakpoint
        (setBreakpoint columnBreakpoint storeWithLineBreakpoint).2).2 = storeWithLineBreakpoint ∧
      (removeBreakpoint columnBreakpoint
        (removeBreakpoint columnBreakpoint
          (setBreakpoint columnBreakpoint storeWithLineBreakpoint).2).2).1 = true := by
  decide

end Debugger
end JSC

namespace JSC
namespace Debugger

/-! ### Fields that the operations do not touch -/

theorem foldl_preserves {α β : Type} (p : Debugger → α) (f : β → Debugger → Debugger)
    (h : ∀ b d, p (f b d) = p d) (l : List β) (d : Debugger) :
    p (l.foldl (fun acc b => f b acc) d) = p d := by
  induction l generalizing d with
  | nil => rfl
  | cons b rest ih => simp only [List.foldl_cons]; rw [ih, h]

theorem dispatchFunctionToObservers_preserves {α : Type} (p : Debugger → α)
    (func : Observer → Debugger → Debugger) (h : ∀ o d, p (func o d) = p d) (d : Debugger) :
    p (dispatchFunctionToObservers func d) = p d := by
  unfold dispatchFunctionToObservers
  split
  · rfl
  · exact foldl_preserves p func h _ d

/-- The function `setSteppingMode` writes the mode; the test for equality only
saves the sweep over the code blocks. -/
theorem setSteppingMode_eq (mode : SteppingMode) (d : Debugger) :
    setSteppingMode mode d = { d with m_steppingMode := mode } := by
  unfold setSteppingMode
  split
  · rename_i h
    cases d
    simp only at h
    subst h
    rfl
  · rfl

end Debugger
end JSC

namespace JSC
namespace Debugger

theorem m_lastExecutedLine_ite (c : Prop) [Decidable c] (a b : Debugger) :
    (if c then a else b).m_lastExecutedLine = if c then a.m_lastExecutedLine else b.m_lastExecutedLine := by
  split <;> rfl

@[simp] theorem m_lastExecutedLine_logEvent (e : Event) (d : Debugger) :
    (logEvent e d).m_lastExecutedLine = d.m_lastExecutedLine := rfl

@[simp] theorem m_lastExecutedLine_dispatchFunctionToObservers (func : Observer → Debugger → Debugger)
    (d : Debugger) (h : ∀ o x, (func o x).m_lastExecutedLine = x.m_lastExecutedLine) :
    (dispatchFunctionToObservers func d).m_lastExecutedLine = d.m_lastExecutedLine :=
  dispatchFunctionToObservers_preserves (fun y => y.m_lastExecutedLine) func h d

@[simp] theorem m_lastExecutedLine_setSteppingMode (m : SteppingMode) (d : Debugger) :
    (setSteppingMode m d).m_lastExecutedLine = d.m_lastExecutedLine := by
  unfold setSteppingMode; split <;> rfl

@[simp] theorem m_lastExecutedLine_setBreakpoint (b : Breakpoint) (d : Debugger) :
    (setBreakpoint b d).2.m_lastExecutedLine = d.m_lastExecutedLine := by
  unfold setBreakpoint; simp only []; split <;> rfl

@[simp] theorem m_lastExecutedLine_removeBreakpoint (b : Breakpoint) (d : Debugger) :
    (removeBreakpoint b d).2.m_lastExecutedLine = d.m_lastExecutedLine := by
  unfold removeBreakpoint
  split
  · rfl
  · split <;> rfl

@[simp] theorem m_lastExecutedLine_clearBreakpoints (d : Debugger) :
    (clearBreakpoints d).m_lastExecutedLine = d.m_lastExecutedLine := rfl

@[simp] theorem m_lastExecutedLine_setBreakpointsActivated (a : Bool) (d : Debugger) :
    (setBreakpointsActivated a d).m_lastExecutedLine = d.m_lastExecutedLine := by
  unfold setBreakpointsActivated; split <;> rfl

@[simp] theorem m_lastExecutedLine_schedulePauseAtNextOpportunity (d : Debugger) :
    (schedulePauseAtNextOpportunity d).m_lastExecutedLine = d.m_lastExecutedLine := by
  simp [schedulePauseAtNextOpportunity]

@[simp] theorem m_lastExecutedLine_cancelPauseAtNextOpportunity (d : Debugger) :
    (cancelPauseAtNextOpportunity d).m_lastExecutedLine = d.m_lastExecutedLine := rfl

@[simp] theorem m_lastExecutedLine_schedulePauseForSpecialBreakpoint (b : Breakpoint) (d : Debugger) :
    (schedulePauseForSpecialBreakpoint b d).2.m_lastExecutedLine = d.m_lastExecutedLine := by
  unfold schedulePauseForSpecialBreakpoint; split <;> simp

@[simp] theorem m_lastExecutedLine_cancelPauseForSpecialBreakpoint (b : Breakpoint) (d : Debugger) :
    (cancelPauseForSpecialBreakpoint b d).2.m_lastExecutedLine = d.m_lastExecutedLine := by
  unfold cancelPauseForSpecialBreakpoint; split <;> rfl

@[simp] theorem m_lastExecutedLine_resetImmediatePauseState (d : Debugger) :
    (resetImmediatePauseState d).m_lastExecutedLine = d.m_lastExecutedLine := rfl

@[simp] theorem m_lastExecutedLine_resetEventualPauseState (d : Debugger) :
    (resetEventualPauseState d).m_lastExecutedLine = d.m_lastExecutedLine := rfl

@[simp] theorem m_lastExecutedLine_continueProgram (d : Debugger) :
    (continueProgram d).m_lastExecutedLine = d.m_lastExecutedLine := by
  unfold continueProgram; simp only []; split <;> rfl

@[simp] theorem m_lastExecutedLine_stepNextExpression (d : Debugger) :
    (stepNextExpression d).m_lastExecutedLine = d.m_lastExecutedLine := by
  unfold stepNextExpression; split <;> simp

@[simp] theorem m_lastExecutedLine_stepIntoStatement (d : Debugger) :
    (stepIntoStatement d).m_lastExecutedLine = d.m_lastExecutedLine := by
  unfold stepIntoStatement; split <;> simp

@[simp] theorem m_lastExecutedLine_stepOverStatement (d : Debugger) :
    (stepOverStatement d).m_lastExecutedLine = d.m_lastExecutedLine := by
  unfold stepOverStatement; split <;> simp

@[simp] theorem m_lastExecutedLine_stepOutOfFunction (env : Env) (d : Debugger) :
    (stepOutOfFunction env d).m_lastExecutedLine = d.m_lastExecutedLine := by
  unfold stepOutOfFunction; split <;> simp

@[simp] theorem m_lastExecutedLine_setBlackboxConfiguration (s : SourceID) (c : BlackboxConfiguration)
    (d : Debugger) : (setBlackboxConfiguration s c d).m_lastExecutedLine = d.m_lastExecutedLine := by
  unfold setBlackboxConfiguration; split <;> rfl

@[simp] theorem m_lastExecutedLine_setBlackboxBreakpointEvaluations (v : Bool) (d : Debugger) :
    (setBlackboxBreakpointEvaluations v d).m_lastExecutedLine = d.m_lastExecutedLine := rfl

@[simp] theorem m_lastExecutedLine_clearBlackbox (d : Debugger) :
    (clearBlackbox d).m_lastExecutedLine = d.m_lastExecutedLine := rfl

@[simp] theorem m_lastExecutedLine_addObserver (o : Observer) (d : Debugger) :
    (addObserver o d).m_lastExecutedLine = d.m_lastExecutedLine := by
  unfold addObserver; simp only []; split <;> rfl

@[simp] theorem m_lastExecutedLine_removeObserver (o : Observer) (b : Bool) (d : Debugger) :
    (removeObserver o b d).m_lastExecutedLine = d.m_lastExecutedLine := by
  unfold removeObserver; simp only []; split <;> rfl

@[simp] theorem m_lastExecutedLine_detach (env : Env) (g : GlobalObject) (r : ReasonForDetach)
    (d : Debugger) : (detach env g r d).m_lastExecutedLine = d.m_lastExecutedLine := by
  unfold detach
  simp only []
  split <;> split <;> simp [clearParsedData]

@[simp] theorem m_lastExecutedLine_runCommand (env : Env) (c : ClientCommand) (d : Debugger) :
    (runCommand env c d).m_lastExecutedLine = d.m_lastExecutedLine := by
  cases c <;> simp [runCommand]

@[simp] theorem m_lastExecutedLine_runCommands (env : Env) (cs : List ClientCommand) (d : Debugger) :
    (runCommands env cs d).m_lastExecutedLine = d.m_lastExecutedLine :=
  foldl_preserves (fun x => x.m_lastExecutedLine) (runCommand env) (m_lastExecutedLine_runCommand env) cs d

@[simp] theorem m_lastExecutedLine_runEventLoopWhilePaused (env : Env) (cs : List ClientCommand)
    (d : Debugger) : (runEventLoopWhilePaused env cs d).m_lastExecutedLine = d.m_lastExecutedLine := by
  induction cs generalizing d with
  | nil => rfl
  | cons c rest ih =>
    unfold runEventLoopWhilePaused
    split
    · rfl
    · rw [ih]; simp

@[simp] theorem m_lastExecutedLine_currentDebuggerCallFrame (d : Debugger) :
    (currentDebuggerCallFrame d).m_lastExecutedLine = d.m_lastExecutedLine := by
  unfold currentDebuggerCallFrame; split <;> rfl

@[simp] theorem m_lastExecutedLine_evaluateWithScopeExtension (env : Env) (s : String) (d : Debugger) :
    (evaluateWithScopeExtension env s d).2.m_lastExecutedLine = d.m_lastExecutedLine := by
  simp [evaluateWithScopeExtension]

@[simp] theorem m_lastExecutedLine_reportException (g : Option GlobalObject) (e : JSValue) (d : Debugger) :
    (reportException g e d).m_lastExecutedLine = d.m_lastExecutedLine := rfl

@[simp] theorem m_lastExecutedLine_evaluateBreakpointCondition (env : Env) (b : Breakpoint)
    (g : Option GlobalObject) (d : Debugger) :
    (evaluateBreakpointCondition env b g d).2.m_lastExecutedLine = d.m_lastExecutedLine := by
  unfold evaluateBreakpointCondition
  simp only []
  split
  · rfl
  · split
    · simp
    · split <;> simp

@[simp] theorem m_lastExecutedLine_shouldPause (env : Env) (b : Breakpoint)
    (g : Option GlobalObject) (d : Debugger) :
    (shouldPause env b g d).2.m_lastExecutedLine = d.m_lastExecutedLine := by
  simp [shouldPause]

@[simp] theorem m_lastExecutedLine_evaluateBreakpointAction (env : Env) (a : Action)
    (g : Option GlobalObject) (d : Debugger) :
    (evaluateBreakpointAction env a g d).m_lastExecutedLine = d.m_lastExecutedLine := by
  unfold evaluateBreakpointAction
  simp only []
  have hclient : ∀ (e : Event) (x : Debugger),
      (if x.m_hasClient = true then logEvent e x else x).m_lastExecutedLine = x.m_lastExecutedLine := by
    intro e x; split <;> rfl
  rw [hclient]
  cases a.type with
  | Log => simp [hclient]
  | Evaluate =>
    simp only []
    split <;> simp [hclient]
  | Sound => simp [hclient]
  | Probe =>
    simp only []
    split <;> simp [hclient]

@[simp] theorem m_lastExecutedLine_evaluateBreakpointActionsLoop (env : Env) (g : Option GlobalObject)
    (actions : List Action) (d : Debugger) :
    (evaluateBreakpointActionsLoop env g actions d).m_lastExecutedLine = d.m_lastExecutedLine := by
  induction actions generalizing d with
  | nil => rfl
  | cons a rest ih =>
    unfold evaluateBreakpointActionsLoop
    simp only []
    split
    · simp
    · rw [ih]; simp

@[simp] theorem m_lastExecutedLine_evaluateBreakpointActions (env : Env) (b : Breakpoint)
    (g : Option GlobalObject) (d : Debugger) :
    (evaluateBreakpointActions env b g d).m_lastExecutedLine = d.m_lastExecutedLine := by
  simp [evaluateBreakpointActions]

@[simp] theorem m_lastExecutedLine_handlePause (env : Env) (g : Option GlobalObject) (d : Debugger) :
    (handlePause env g d).m_lastExecutedLine = d.m_lastExecutedLine := by
  simp [handlePause]

@[simp] theorem m_lastExecutedLine_shouldDeferPause (f : BlackboxFlags) (d : Debugger) :
    (shouldDeferPause f d).2.m_lastExecutedLine = d.m_lastExecutedLine := by
  unfold shouldDeferPause
  split
  · rfl
  · simp only [m_lastExecutedLine_schedulePauseAtNextOpportunity]
    split <;> simp

@[simp] theorem m_lastExecutedLine_deferredBreakpointsLoop (env : Env) (g : Option GlobalObject)
    (bps : List Breakpoint) (st : DeferredLoopState) (d : Debugger) :
    (deferredBreakpointsLoop env g bps st d).2.m_lastExecutedLine = d.m_lastExecutedLine := by
  induction bps generalizing st d with
  | nil => rfl
  | cons b rest ih =>
    unfold deferredBreakpointsLoop
    simp only []
    split
    · simp
    · split
      · rw [ih]; simp
      · split
        · simp
        · split <;> (rw [ih]; simp)

@[simp] theorem m_lastExecutedLine_evaluateDeferredBreakpoints (env : Env) (g : Option GlobalObject)
    (step : Bool) (d : Debugger) :
    (evaluateDeferredBreakpoints env g step d).2.m_lastExecutedLine = d.m_lastExecutedLine := by
  unfold evaluateDeferredBreakpoints
  split
  · rfl
  · simp only []
    have h := m_lastExecutedLine_deferredBreakpointsLoop env g d.m_deferredBreakpoints {}
      { d with m_deferredBreakpoints := [] }
    split
    · rename_i heq; rw [heq] at h; exact h
    · rename_i heq; rw [heq] at h
      split
      · split <;> exact h
      · split <;> exact h

@[simp] theorem m_lastExecutedLine_pauseNow (env : Env) (g : Option GlobalObject) (a b : Bool)
    (d : Debugger) : (pauseNow env g a b d).m_lastExecutedLine = d.m_lastExecutedLine := by
  simp [pauseNow, m_lastExecutedLine_ite]

@[simp] theorem m_lastExecutedLine_pauseIfNeededEvaluate (env : Env) (g : Option GlobalObject)
    (f : BlackboxFlags) (a s t : Bool) (d : Debugger) :
    (pauseIfNeededEvaluate env g f a s t d).m_lastExecutedLine = d.m_lastExecutedLine := by
  unfold pauseIfNeededEvaluate
  simp only []
  repeat' split
  all_goals simp_all

@[simp] theorem m_lastExecutedLine_pauseIfNeededGuarded (env : Env) (g : Option GlobalObject)
    (f : BlackboxFlags) (a s : Bool) (d : Debugger) :
    (pauseIfNeededGuarded env g f a s d).m_lastExecutedLine = d.m_lastExecutedLine := by
  unfold pauseIfNeededGuarded
  simp only [m_lastExecutedLine_pauseIfNeededEvaluate]
  split <;> rfl

theorem m_lastExecutedSourceID_ite (c : Prop) [Decidable c] (a b : Debugger) :
    (if c then a else b).m_lastExecutedSourceID = if c then a.m_lastExecutedSourceID else b.m_lastExecutedSourceID := by
  split <;> rfl

@[simp] theorem m_lastExecutedSourceID_logEvent (e : Event) (d : Debugger) :
    (logEvent e d).m_lastExecutedSourceID = d.m_lastExecutedSourceID := rfl

@[simp] theorem m_lastExecutedSourceID_dispatchFunctionToObservers (func : Observer → Debugger → Debugger)
    (d : Debugger) (h : ∀ o x, (func o x).m_lastExecutedSourceID = x.m_lastExecutedSourceID) :
    (dispatchFunctionToObservers func d).m_lastExecutedSourceID = d.m_lastExecutedSourceID :=
  dispatchFunctionToObservers_preserves (fun y => y.m_lastExecutedSourceID) func h d

@[simp] theorem m_lastExecutedSourceID_setSteppingMode (m : SteppingMode) (d : Debugger) :
    (setSteppingMode m d).m_lastExecutedSourceID = d.m_lastExecutedSourceID := by
  unfold setSteppingMode; split <;> rfl

@[simp] theorem m_lastExecutedSourceID_setBreakpoint (b : Breakpoint) (d : Debugger) :
    (setBreakpoint b d).2.m_lastExecutedSourceID = d.m_lastExecutedSourceID := by
  unfold setBreakpoint; simp only []; split <;> rfl

@[simp] theorem m_lastExecutedSourceID_removeBreakpoint (b : Breakpoint) (d : Debugger) :
    (removeBreakpoint b d).2.m_lastExecutedSourceID = d.m_lastExecutedSourceID := by
  unfold removeBreakpoint
  split
  · rfl
  · split <;> rfl

@[simp] theorem m_lastExecutedSourceID_clearBreakpoints (d : Debugger) :
    (clearBreakpoints d).m_lastExecutedSourceID = d.m_lastExecutedSourceID := rfl

@[simp] theorem m_lastExecutedSourceID_setBreakpointsActivated (a : Bool) (d : Debugger) :
    (setBreakpointsActivated a d).m_lastExecutedSourceID = d.m_lastExecutedSourceID := by
  unfold setBreakpointsActivated; split <;> rfl

@[simp] theorem m_lastExecutedSourceID_schedulePauseAtNextOpportunity (d : Debugger) :
    (schedulePauseAtNextOpportunity d).m_lastExecutedSourceID = d.m_lastExecutedSourceID := by
  simp [schedulePauseAtNextOpportunity]

@[simp] theorem m_lastExecutedSourceID_cancelPauseAtNextOpportunity (d : Debugger) :
    (cancelPauseAtNextOpportunity d).m_lastExecutedSourceID = d.m_lastExecutedSourceID := rfl

@[simp] theorem m_lastExecutedSourceID_schedulePauseForSpecialBreakpoint (b : Breakpoint) (d : Debugger) :
    (schedulePauseForSpecialBreakpoint b d).2.m_lastExecutedSourceID = d.m_lastExecutedSourceID := by
  unfold schedulePauseForSpecialBreakpoint; split <;> simp

@[simp] theorem m_lastExecutedSourceID_cancelPauseForSpecialBreakpoint (b : Breakpoint) (d : Debugger) :
    (cancelPauseForSpecialBreakpoint b d).2.m_lastExecutedSourceID = d.m_lastExecutedSourceID := by
  unfold cancelPauseForSpecialBreakpoint; split <;> rfl

@[simp] theorem m_lastExecutedSourceID_resetImmediatePauseState (d : Debugger) :
    (resetImmediatePauseState d).m_lastExecutedSourceID = d.m_lastExecutedSourceID := rfl

@[simp] theorem m_lastExecutedSourceID_resetEventualPauseState (d : Debugger) :
    (resetEventualPauseState d).m_lastExecutedSourceID = d.m_lastExecutedSourceID := rfl

@[simp] theorem m_lastExecutedSourceID_continueProgram (d : Debugger) :
    (continueProgram d).m_lastExecutedSourceID = d.m_lastExecutedSourceID := by
  unfold continueProgram; simp only []; split <;> rfl

@[simp] theorem m_lastExecutedSourceID_stepNextExpression (d : Debugger) :
    (stepNextExpression d).m_lastExecutedSourceID = d.m_lastExecutedSourceID := by
  unfold stepNextExpression; split <;> simp

@[simp] theorem m_lastExecutedSourceID_stepIntoStatement (d : Debugger) :
    (stepIntoStatement d).m_lastExecutedSourceID = d.m_lastExecutedSourceID := by
  unfold stepIntoStatement; split <;> simp

@[simp] theorem m_lastExecutedSourceID_stepOverStatement (d : Debugger) :
    (stepOverStatement d).m_lastExecutedSourceID = d.m_lastExecutedSourceID := by
  unfold stepOverStatement; split <;> simp

@[simp] theorem m_lastExecutedSourceID_stepOutOfFunction (env : Env) (d : Debugger) :
    (stepOutOfFunction env d).m_lastExecutedSourceID = d.m_lastExecutedSourceID := by
  unfold stepOutOfFunction; split <;> simp

@[simp] theorem m_lastExecutedSourceID_setBlackboxConfiguration (s : SourceID) (c : BlackboxConfiguration)
    (d : Debugger) : (setBlackboxConfiguration s c d).m_lastExecutedSourceID = d.m_lastExecutedSourceID := by
  unfold setBlackboxConfiguration; split <;> rfl

@[simp] theorem m_lastExecutedSourceID_setBlackboxBreakpointEvaluations (v : Bool) (d : Debugger) :
    (setBlackboxBreakpointEvaluations v d).m_lastExecutedSourceID = d.m_lastExecutedSourceID := rfl

@[simp] theorem m_lastExecutedSourceID_clearBlackbox (d : Debugger) :
    (clearBlackbox d).m_lastExecutedSourceID = d.m_lastExecutedSourceID := rfl

@[simp] theorem m_lastExecutedSourceID_addObserver (o : Observer) (d : Debugger) :
    (addObserver o d).m_lastExecutedSourceID = d.m_lastExecutedSourceID := by
  unfold addObserver; simp only []; split <;> rfl

@[simp] theorem m_lastExecutedSourceID_removeObserver (o : Observer) (b : Bool) (d : Debugger) :
    (removeObserver o b d).m_lastExecutedSourceID = d.m_lastExecutedSourceID := by
  unfold removeObserver; simp only []; split <;> rfl

@[simp] theorem m_lastExecutedSourceID_detach (env : Env) (g : GlobalObject) (r : ReasonForDetach)
    (d : Debugger) : (detach env g r d).m_lastExecutedSourceID = d.m_lastExecutedSourceID := by
  unfold detach
  simp only []
  split <;> split <;> simp [clearParsedData]

@[simp] theorem m_lastExecutedSourceID_runCommand (env : Env) (c : ClientCommand) (d : Debugger) :
    (runCommand env c d).m_lastExecutedSourceID = d.m_lastExecutedSourceID := by
  cases c <;> simp [runCommand]

@[simp] theorem m_lastExecutedSourceID_runCommands (env : Env) (cs : List ClientCommand) (d : Debugger) :
    (runCommands env cs d).m_lastExecutedSourceID = d.m_lastExecutedSourceID :=
  foldl_preserves (fun x => x.m_lastExecutedSourceID) (runCommand env) (m_lastExecutedSourceID_runCommand env) cs d

@[simp] theorem m_lastExecutedSourceID_runEventLoopWhilePaused (env : Env) (cs : List ClientCommand)
    (d : Debugger) : (runEventLoopWhilePaused env cs d).m_lastExecutedSourceID = d.m_lastExecutedSourceID := by
  induction cs generalizing d with
  | nil => rfl
  | cons c rest ih =>
    unfold runEventLoopWhilePaused
    split
    · rfl
    · rw [ih]; simp

@[simp] theorem m_lastExecutedSourceID_currentDebuggerCallFrame (d : Debugger) :
    (currentDebuggerCallFrame d).m_lastExecutedSourceID = d.m_lastExecutedSourceID := by
  unfold currentDebuggerCallFrame; split <;> rfl

@[simp] theorem m_lastExecutedSourceID_evaluateWithScopeExtension (env : Env) (s : String) (d : Debugger) :
    (evaluateWithScopeExtension env s d).2.m_lastExecutedSourceID = d.m_lastExecutedSourceID := by
  simp [evaluateWithScopeExtension]

@[simp] theorem m_lastExecutedSourceID_reportException (g : Option GlobalObject) (e : JSValue) (d : Debugger) :
    (reportException g e d).m_lastExecutedSourceID = d.m_lastExecutedSourceID := rfl

@[simp] theorem m_lastExecutedSourceID_evaluateBreakpointCondition (env : Env) (b : Breakpoint)
    (g : Option GlobalObject) (d : Debugger) :
    (evaluateBreakpointCondition env b g d).2.m_lastExecutedSourceID = d.m_lastExecutedSourceID := by
  unfold evaluateBreakpointCondition
  simp only []
  split
  · rfl
  · split
    · simp
    · split <;> simp

@[simp] theorem m_lastExecutedSourceID_shouldPause (env : Env) (b : Breakpoint)
    (g : Option GlobalObject) (d : Debugger) :
    (shouldPause env b g d).2.m_lastExecutedSourceID = d.m_lastExecutedSourceID := by
  simp [shouldPause]

@[simp] theorem m_lastExecutedSourceID_evaluateBreakpointAction (env : Env) (a : Action)
    (g : Option GlobalObject) (d : Debugger) :
    (evaluateBreakpointAction env a g d).m_lastExecutedSourceID = d.m_lastExecutedSourceID := by
  unfold evaluateBreakpointAction
  simp only []
  have hclient : ∀ (e : Event) (x : Debugger),
      (if x.m_hasClient = true then logEvent e x else x).m_lastExecutedSourceID = x.m_lastExecutedSourceID := by
    intro e x; split <;> rfl
  rw [hclient]
  cases a.type with
  | Log => simp [hclient]
  | Evaluate =>
    simp only []
    split <;> simp [hclient]
  | Sound => simp [hclient]
  | Probe =>
    simp only []
    split <;> simp [hclient]

@[simp] theorem m_lastExecutedSourceID_evaluateBreakpointActionsLoop (env : Env) (g : Option GlobalObject)
    (actions : List Action) (d : Debugger) :
    (evaluateBreakpointActionsLoop env g actions d).m_lastExecutedSourceID = d.m_lastExecutedSourceID := by
  induction actions generalizing d with
  | nil => rfl
  | cons a rest ih =>
    unfold evaluateBreakpointActionsLoop
    simp only []
    split
    · simp
    · rw [ih]; simp

@[simp] theorem m_lastExecutedSourceID_evaluateBreakpointActions (env : Env) (b : Breakpoint)
    (g : Option GlobalObject) (d : Debugger) :
    (evaluateBreakpointActions env b g d).m_lastExecutedSourceID = d.m_lastExecutedSourceID := by
  simp [evaluateBreakpointActions]

@[simp] theorem m_lastExecutedSourceID_handlePause (env : Env) (g : Option GlobalObject) (d : Debugger) :
    (handlePause env g d).m_lastExecutedSourceID = d.m_lastExecutedSourceID := by
  simp [handlePause]

@[simp] theorem m_lastExecutedSourceID_shouldDeferPause (f : BlackboxFlags) (d : Debugger) :
    (shouldDeferPause f d).2.m_lastExecutedSourceID = d.m_lastExecutedSourceID := by
  unfold shouldDeferPause
  split
  · rfl
  · simp only [m_lastExecutedSourceID_schedulePauseAtNextOpportunity]
    split <;> simp

@[simp] theorem m_lastExecutedSourceID_deferredBreakpointsLoop (env : Env) (g : Option GlobalObject)
    (bps : List Breakpoint) (st : DeferredLoopState) (d : Debugger) :
    (deferredBreakpointsLoop env g bps st d).2.m_lastExecutedSourceID = d.m_lastExecutedSourceID := by
  induction bps generalizing st d with
  | nil => rfl
  | cons b rest ih =>
    unfold deferredBreakpointsLoop
    simp only []
    split
    · simp
    · split
      · rw [ih]; simp
      · split
        · simp
        · split <;> (rw [ih]; simp)

@[simp] theorem m_lastExecutedSourceID_evaluateDeferredBreakpoints (env : Env) (g : Option GlobalObject)
    (step : Bool) (d : Debugger) :
    (evaluateDeferredBreakpoints env g step d).2.m_lastExecutedSourceID = d.m_lastExecutedSourceID := by
  unfold evaluateDeferredBreakpoints
  split
  · rfl
  · simp only []
    have h := m_lastExecutedSourceID_deferredBreakpointsLoop env g d.m_deferredBreakpoints {}
      { d with m_deferredBreakpoints := [] }
    split
    · rename_i heq; rw [heq] at h; exact h
    · rename_i heq; rw [heq] at h
      split
      · split <;> exact h
      · split <;> exact h

@[simp] theorem m_lastExecutedSourceID_pauseNow (env : Env) (g : Option GlobalObject) (a b : Bool)
    (d : Debugger) : (pauseNow env g a b d).m_lastExecutedSourceID = d.m_lastExecutedSourceID := by
  simp [pauseNow, m_lastExecutedSourceID_ite]

@[simp] theorem m_lastExecutedSourceID_pauseIfNeededEvaluate (env : Env) (g : Option GlobalObject)
    (f : BlackboxFlags) (a s t : Bool) (d : Debugger) :
    (pauseIfNeededEvaluate env g f a s t d).m_lastExecutedSourceID = d.m_lastExecutedSourceID := by
  unfold pauseIfNeededEvaluate
  simp only []
  repeat' split
  all_goals simp_all

@[simp] theorem m_lastExecutedSourceID_pauseIfNeededGuarded (env : Env) (g : Option GlobalObject)
    (f : BlackboxFlags) (a s : Bool) (d : Debugger) :
    (pauseIfNeededGuarded env g f a s d).m_lastExecutedSourceID = d.m_lastExecutedSourceID := by
  unfold pauseIfNeededGuarded
  simp only [m_lastExecutedSourceID_pauseIfNeededEvaluate]
  split <;> rfl

end Debugger
end JSC


namespace JSC
namespace Debugger

theorem decisions_ite (c : Prop) [Decidable c] (a b : Debugger) :
    (if c then a else b).log.filter Event.isDecision = if c then a.log.filter Event.isDecision else b.log.filter Event.isDecision := by
  split <;> rfl

@[simp] theorem isDecision_observerDidPause (o : Observer) (r : ReasonForPause) :
    Event.isDecision (Event.observerDidPause o r) = false := rfl

@[simp] theorem isDecision_observerDidContinue (o : Observer) :
    Event.isDecision (Event.observerDidContinue o) = false := rfl

@[simp] theorem isDecision_observerBreakpointActionLog (o : Observer) (s : String) :
    Event.isDecision (Event.observerBreakpointActionLog o s) = false := rfl

@[simp] theorem isDecision_observerBreakpointActionSound (o : Observer) (i : BreakpointActionID) :
    Event.isDecision (Event.observerBreakpointActionSound o i) = false := rfl

@[simp] theorem isDecision_observerBreakpointActionProbe (o : Observer) (i : BreakpointActionID) (b s : Nat) (v : JSValue) :
    Event.isDecision (Event.observerBreakpointActionProbe o i b s v) = false := rfl

@[simp] theorem isDecision_observerWillEnter (o : Observer) (f : CallFrame) :
    Event.isDecision (Event.observerWillEnter o f) = false := rfl

@[simp] theorem isDecision_hookDidContinue (g : Option GlobalObject) :
    Event.isDecision (Event.hookDidContinue g) = false := rfl

@[simp] theorem isDecision_attachDebugger  :
    Event.isDecision Event.attachDebugger = false := rfl

@[simp] theorem isDecision_detachDebugger (b : Bool) :
    Event.isDecision (Event.detachDebugger b) = false := rfl

@[simp] theorem isDecision_recompileAllJSFunctions  :
    Event.isDecision Event.recompileAllJSFunctions = false := rfl

@[simp] theorem isDecision_evaluate (s : String) :
    Event.isDecision (Event.evaluate s) = false := rfl

@[simp] theorem isDecision_reportException (g : Option GlobalObject) (e : JSValue) :
    Event.isDecision (Event.reportException g e) = false := rfl

@[simp] theorem isDecision_clientWillEvaluate (a : Action) :
    Event.isDecision (Event.clientWillEvaluate a) = false := rfl

@[simp] theorem isDecision_clientDidEvaluate (a : Action) :
    Event.isDecision (Event.clientDidEvaluate a) = false := rfl

@[simp] theorem isDecision_observerFailedToParseSource (o : Observer) (t : List UChar) (f l : Int) (m : String) :
    Event.isDecision (Event.observerFailedToParseSource o t f l m) = false := rfl

@[simp] theorem isDecision_observerDidParseSource (o : Observer) (i : SourceID) (s : Script) :
    Event.isDecision (Event.observerDidParseSource o i s) = false := rfl

@[simp] theorem isDecision_hookDidPause (g : Option GlobalObject) :
    Event.isDecision (Event.hookDidPause g) = true := rfl

@[simp] theorem isDecision_observerDidDeferBreakpointPause (o : Observer) (i : BreakpointID) :
    Event.isDecision (Event.observerDidDeferBreakpointPause o i) = true := rfl

@[simp] theorem decisions_logEvent (e : Event) (d : Debugger) (h : e.isDecision = false) :
    (logEvent e d).log.filter Event.isDecision = d.log.filter Event.isDecision := by
  simp [logEvent, List.filter_append, h]

@[simp] theorem decisions_recompileAllJSFunctions (d : Debugger) :
    (recompileAllJSFunctions d).log.filter Event.isDecision = d.log.filter Event.isDecision := by
  simp [recompileAllJSFunctions]

@[simp] theorem decisions_attachDebugger (d : Debugger) :
    (attachDebugger d).log.filter Event.isDecision = d.log.filter Event.isDecision := by
  simp [attachDebugger]

@[simp] theorem decisions_detachDebugger (b : Bool) (d : Debugger) :
    (detachDebugger b d).log.filter Event.isDecision = d.log.filter Event.isDecision := by
  simp [detachDebugger]

@[simp] theorem decisions_dispatchFunctionToObservers (func : Observer → Debugger → Debugger)
    (d : Debugger) (h : ∀ o x, (func o x).log.filter Event.isDecision = x.log.filter Event.isDecision) :
    (dispatchFunctionToObservers func d).log.filter Event.isDecision = d.log.filter Event.isDecision :=
  dispatchFunctionToObservers_preserves (fun y => y.log.filter Event.isDecision) func h d

@[simp] theorem decisions_setSteppingMode (m : SteppingMode) (d : Debugger) :
    (setSteppingMode m d).log.filter Event.isDecision = d.log.filter Event.isDecision := by
  unfold setSteppingMode; split <;> rfl

@[simp] theorem decisions_setBreakpoint (b : Breakpoint) (d : Debugger) :
    (setBreakpoint b d).2.log.filter Event.isDecision = d.log.filter Event.isDecision := by
  unfold setBreakpoint; simp only []; split <;> rfl

@[simp] theorem decisions_removeBreakpoint (b : Breakpoint) (d : Debugger) :
    (removeBreakpoint b d).2.log.filter Event.isDecision = d.log.filter Event.isDecision := by
  unfold removeBreakpoint
  split
  · rfl
  · split <;> rfl

@[simp] theorem decisions_clearBreakpoints (d : Debugger) :
    (clearBreakpoints d).log.filter Event.isDecision = d.log.filter Event.isDecision := rfl

@[simp] theorem decisions_setBreakpointsActivated (a : Bool) (d : Debugger) :
    (setBreakpointsActivated a d).log.filter Event.isDecision = d.log.filter Event.isDecision := by
  unfold setBreakpointsActivated; split <;> simp

@[simp] theorem decisions_schedulePauseAtNextOpportunity (d : Debugger) :
    (schedulePauseAtNextOpportunity d).log.filter Event.isDecision = d.log.filter Event.isDecision := by
  simp [schedulePauseAtNextOpportunity]

@[simp] theorem decisions_cancelPauseAtNextOpportunity (d : Debugger) :
    (cancelPauseAtNextOpportunity d).log.filter Event.isDecision = d.log.filter Event.isDecision := rfl

@[simp] theorem decisions_schedulePauseForSpecialBreakpoint (b : Breakpoint) (d : Debugger) :
    (schedulePauseForSpecialBreakpoint b d).2.log.filter Event.isDecision = d.log.filter Event.isDecision := by
  unfold schedulePauseForSpecialBreakpoint; split <;> simp

@[simp] theorem decisions_cancelPauseForSpecialBreakpoint (b : Breakpoint) (d : Debugger) :
    (cancelPauseForSpecialBreakpoint b d).2.log.filter Event.isDecision = d.log.filter Event.isDecision := by
  unfold cancelPauseForSpecialBreakpoint; split <;> rfl

@[simp] theorem decisions_resetImmediatePauseState (d : Debugger) :
    (resetImmediatePauseState d).log.filter Event.isDecision = d.log.filter Event.isDecision := rfl

@[simp] theorem decisions_resetEventualPauseState (d : Debugger) :
    (resetEventualPauseState d).log.filter Event.isDecision = d.log.filter Event.isDecision := rfl

@[simp] theorem decisions_continueProgram (d : Debugger) :
    (continueProgram d).log.filter Event.isDecision = d.log.filter Event.isDecision := by
  unfold continueProgram; simp only []; split <;> rfl

@[simp] theorem decisions_stepNextExpression (d : Debugger) :
    (stepNextExpression d).log.filter Event.isDecision = d.log.filter Event.isDecision := by
  unfold stepNextExpression; split <;> simp

@[simp] theorem decisions_stepIntoStatement (d : Debugger) :
    (stepIntoStatement d).log.filter Event.isDecision = d.log.filter Event.isDecision := by
  unfold stepIntoStatement; split <;> simp

@[simp] theorem decisions_stepOverStatement (d : Debugger) :
    (stepOverStatement d).log.filter Event.isDecision = d.log.filter Event.isDecision := by
  unfold stepOverStatement; split <;> simp

@[simp] theorem decisions_stepOutOfFunction (env : Env) (d : Debugger) :
    (stepOutOfFunction env d).log.filter Event.isDecision = d.log.filter Event.isDecision := by
  unfold stepOutOfFunction; split <;> simp

@[simp] theorem decisions_setBlackboxConfiguration (s : SourceID) (c : BlackboxConfiguration)
    (d : Debugger) : (setBlackboxConfiguration s c d).log.filter Event.isDecision = d.log.filter Event.isDecision := by
  unfold setBlackboxConfiguration; split <;> rfl

@[simp] theorem decisions_setBlackboxBreakpointEvaluations (v : Bool) (d : Debugger) :
    (setBlackboxBreakpointEvaluations v d).log.filter Event.isDecision = d.log.filter Event.isDecision := rfl

@[simp] theorem decisions_clearBlackbox (d : Debugger) :
    (clearBlackbox d).log.filter Event.isDecision = d.log.filter Event.isDecision := rfl

@[simp] theorem decisions_addObserver (o : Observer) (d : Debugger) :
    (addObserver o d).log.filter Event.isDecision = d.log.filter Event.isDecision := by
  unfold addObserver; simp only []; split <;> simp

@[simp] theorem decisions_removeObserver (o : Observer) (b : Bool) (d : Debugger) :
    (removeObserver o b d).log.filter Event.isDecision = d.log.filter Event.isDecision := by
  unfold removeObserver; simp only []; split <;> simp

@[simp] theorem decisions_detach (env : Env) (g : GlobalObject) (r : ReasonForDetach)
    (d : Debugger) : (detach env g r d).log.filter Event.isDecision = d.log.filter Event.isDecision := by
  unfold detach
  simp only []
  split <;> split <;> simp [clearParsedData]

@[simp] theorem decisions_runCommand (env : Env) (c : ClientCommand) (d : Debugger) :
    (runCommand env c d).log.filter Event.isDecision = d.log.filter Event.isDecision := by
  cases c <;> simp [runCommand]

@[simp] theorem decisions_runCommands (env : Env) (cs : List ClientCommand) (d : Debugger) :
    (runCommands env cs d).log.filter Event.isDecision = d.log.filter Event.isDecision :=
  foldl_preserves (fun x => x.log.filter Event.isDecision) (runCommand env) (decisions_runCommand env) cs d

@[simp] theorem decisions_runEventLoopWhilePaused (env : Env) (cs : List ClientCommand)
    (d : Debugger) : (runEventLoopWhilePaused env cs d).log.filter Event.isDecision = d.log.filter Event.isDecision := by
  induction cs generalizing d with
  | nil => rfl
  | cons c rest ih =>
    unfold runEventLoopWhilePaused
    split
    · rfl
    · rw [ih]; simp

@[simp] theorem decisions_currentDebuggerCallFrame (d : Debugger) :
    (currentDebuggerCallFrame d).log.filter Event.isDecision = d.log.filter Event.isDecision := by
  unfold currentDebuggerCallFrame; split <;> rfl

@[simp] theorem decisions_evaluateWithScopeExtension (env : Env) (s : String) (d : Debugger) :
    (evaluateWithScopeExtension env s d).2.log.filter Event.isDecision = d.log.filter Event.isDecision := by
  simp [evaluateWithScopeExtension]

@[simp] theorem decisions_reportException (g : Option GlobalObject) (e : JSValue) (d : Debugger) :
    (reportException g e d).log.filter Event.isDecision = d.log.filter Event.isDecision := by
  simp [reportException]

@[simp] theorem decisions_evaluateBreakpointCondition (env : Env) (b : Breakpoint)
    (g : Option GlobalObject) (d : Debugger) :
    (evaluateBreakpointCondition env b g d).2.log.filter Event.isDecision = d.log.filter Event.isDecision := by
  unfold evaluateBreakpointCondition
  simp only []
  split
  · rfl
  · split
    · simp
    · split <;> simp

@[simp] theorem decisions_shouldPause (env : Env) (b : Breakpoint)
    (g : Option GlobalObject) (d : Debugger) :
    (shouldPause env b g d).2.log.filter Event.isDecision = d.log.filter Event.isDecision := by
  simp [shouldPause]

@[simp] theorem decisions_evaluateBreakpointAction (env : Env) (a : Action)
    (g : Option GlobalObject) (d : Debugger) :
    (evaluateBreakpointAction env a g d).log.filter Event.isDecision = d.log.filter Event.isDecision := by
  unfold evaluateBreakpointAction
  simp only []
  have hwill : ∀ (x : Debugger),
      (if x.m_hasClient = true then logEvent (Event.clientWillEvaluate a) x else x).log.filter
          Event.isDecision = x.log.filter Event.isDecision := by
    intro x; split <;> simp
  have hdid : ∀ (x : Debugger),
      (if x.m_hasClient = true then logEvent (Event.clientDidEvaluate a) x else x).log.filter
          Event.isDecision = x.log.filter Event.isDecision := by
    intro x; split <;> simp
  rw [hdid]
  cases a.type with
  | Log => simp [hwill]
  | Evaluate =>
    simp only []
    split <;> simp [hwill]
  | Sound => simp [hwill]
  | Probe =>
    simp only []
    split <;> simp [hwill]

@[simp] theorem decisions_evaluateBreakpointActionsLoop (env : Env) (g : Option GlobalObject)
    (actions : List Action) (d : Debugger) :
    (evaluateBreakpointActionsLoop env g actions d).log.filter Event.isDecision = d.log.filter Event.isDecision := by
  induction actions generalizing d with
  | nil => rfl
  | cons a rest ih =>
    unfold evaluateBreakpointActionsLoop
    simp only []
    split
    · simp
    · rw [ih]; simp

@[simp] theorem decisions_evaluateBreakpointActions (env : Env) (b : Breakpoint)
    (g : Option GlobalObject) (d : Debugger) :
    (evaluateBreakpointActions env b g d).log.filter Event.isDecision = d.log.filter Event.isDecision := by
  simp [evaluateBreakpointActions]


@[simp] theorem decisions_deferredBreakpointsLoop (env : Env) (g : Option GlobalObject)
    (bps : List Breakpoint) (st : DeferredLoopState) (d : Debugger) :
    (deferredBreakpointsLoop env g bps st d).2.log.filter Event.isDecision = d.log.filter Event.isDecision := by
  induction bps generalizing st d with
  | nil => rfl
  | cons b rest ih =>
    unfold deferredBreakpointsLoop
    simp only []
    split
    · simp
    · split
      · rw [ih]; simp
      · split
        · simp
        · split <;> (rw [ih]; simp)

@[simp] theorem decisions_evaluateDeferredBreakpoints (env : Env) (g : Option GlobalObject)
    (step : Bool) (d : Debugger) :
    (evaluateDeferredBreakpoints env g step d).2.log.filter Event.isDecision = d.log.filter Event.isDecision := by
  unfold evaluateDeferredBreakpoints
  split
  · rfl
  · simp only []
    have h := decisions_deferredBreakpointsLoop env g d.m_deferredBreakpoints {}
      { d with m_deferredBreakpoints := [] }
    split
    · rename_i heq; rw [heq] at h; exact h
    · rename_i heq; rw [heq] at h
      split
      · split <;> exact h
      · split <;> exact h


end Debugger
end JSC

namespace JSC
namespace Debugger

/-! ### Fields that evaluation without re-entrancy does not touch -/

theorem m_currentCallFrame_currentDebuggerCallFrame (d : Debugger) :
    (currentDebuggerCallFrame d).m_currentCallFrame = d.m_currentCallFrame := by
  unfold currentDebuggerCallFrame; split <;> rfl

theorem m_currentCallFrame_logEvent (e : Event) (d : Debugger) : (logEvent e d).m_currentCallFrame = d.m_currentCallFrame := rfl

theorem m_currentCallFrame_reportException (g : Option GlobalObject) (e : JSValue) (d : Debugger) :
    (reportException g e d).m_currentCallFrame = d.m_currentCallFrame := rfl

theorem m_currentCallFrame_evaluateWithScopeExtension_quiet (env : Env) (hre : env.noReentrancy)
    (s : String) (d : Debugger) :
    (evaluateWithScopeExtension env s d).2.m_currentCallFrame = d.m_currentCallFrame := by
  simp [evaluateWithScopeExtension, hre s, runCommands, m_currentCallFrame_logEvent]

theorem m_currentCallFrame_evaluateBreakpointCondition_quiet (env : Env) (hre : env.noReentrancy)
    (b : Breakpoint) (g : Option GlobalObject) (d : Debugger) :
    (evaluateBreakpointCondition env b g d).2.m_currentCallFrame = d.m_currentCallFrame := by
  unfold evaluateBreakpointCondition
  simp only []
  split
  · rfl
  · split
    · simp [m_currentCallFrame_evaluateWithScopeExtension_quiet env hre, m_currentCallFrame_currentDebuggerCallFrame]
    · split <;>
        simp [m_currentCallFrame_evaluateWithScopeExtension_quiet env hre, m_currentCallFrame_currentDebuggerCallFrame,
          m_currentCallFrame_reportException]

theorem m_currentCallFrame_shouldPause_quiet (env : Env) (hre : env.noReentrancy)
    (b : Breakpoint) (g : Option GlobalObject) (d : Debugger) :
    (shouldPause env b g d).2.m_currentCallFrame = d.m_currentCallFrame := by
  simp [shouldPause, m_currentCallFrame_evaluateBreakpointCondition_quiet env hre]

theorem m_currentCallFrame_evaluateBreakpointAction_quiet (env : Env) (hre : env.noReentrancy)
    (a : Action) (g : Option GlobalObject) (d : Debugger) :
    (evaluateBreakpointAction env a g d).m_currentCallFrame = d.m_currentCallFrame := by
  unfold evaluateBreakpointAction
  simp only []
  have hwill : ∀ (x : Debugger),
      (if x.m_hasClient = true then logEvent (Event.clientWillEvaluate a) x else x).m_currentCallFrame
        = x.m_currentCallFrame := by
    intro x; split <;> simp [m_currentCallFrame_logEvent]
  have hdid : ∀ (x : Debugger),
      (if x.m_hasClient = true then logEvent (Event.clientDidEvaluate a) x else x).m_currentCallFrame
        = x.m_currentCallFrame := by
    intro x; split <;> simp [m_currentCallFrame_logEvent]
  have hdisp : ∀ (func : Observer → Debugger → Debugger) (x : Debugger),
      (∀ o y, (func o y).m_currentCallFrame = y.m_currentCallFrame) →
      (dispatchFunctionToObservers func x).m_currentCallFrame = x.m_currentCallFrame :=
    fun func x h => dispatchFunctionToObservers_preserves (fun y => y.m_currentCallFrame) func h x
  rw [hdid]
  cases a.type with
  | Log =>
    simp only []
    rw [hdisp _ _ (fun o y => by simp [m_currentCallFrame_logEvent])]
    simp [hwill, m_currentCallFrame_currentDebuggerCallFrame]
  | Evaluate =>
    simp only []
    split <;>
      simp [hwill, m_currentCallFrame_evaluateWithScopeExtension_quiet env hre,
        m_currentCallFrame_currentDebuggerCallFrame, m_currentCallFrame_reportException]
  | Sound =>
    simp only []
    rw [hdisp _ _ (fun o y => by simp [m_currentCallFrame_logEvent])]
    simp [hwill, m_currentCallFrame_currentDebuggerCallFrame]
  | Probe =>
    simp only []
    rw [hdisp _ _ (fun o y => by simp [m_currentCallFrame_logEvent])]
    split <;>
      simp [hwill, m_currentCallFrame_evaluateWithScopeExtension_quiet env hre,
        m_currentCallFrame_currentDebuggerCallFrame, m_currentCallFrame_reportException]

theorem m_currentCallFrame_evaluateBreakpointActionsLoop_quiet (env : Env) (hre : env.noReentrancy)
    (g : Option GlobalObject) (actions : List Action) (d : Debugger) :
    (evaluateBreakpointActionsLoop env g actions d).m_currentCallFrame = d.m_currentCallFrame := by
  induction actions generalizing d with
  | nil => rfl
  | cons a rest ih =>
    unfold evaluateBreakpointActionsLoop
    simp only []
    split
    · exact m_currentCallFrame_evaluateBreakpointAction_quiet env hre a g d
    · rw [ih]; exact m_currentCallFrame_evaluateBreakpointAction_quiet env hre a g d

theorem m_currentCallFrame_evaluateBreakpointActions_quiet (env : Env) (hre : env.noReentrancy)
    (b : Breakpoint) (g : Option GlobalObject) (d : Debugger) :
    (evaluateBreakpointActions env b g d).m_currentCallFrame = d.m_currentCallFrame := by
  simp [evaluateBreakpointActions, m_currentCallFrame_evaluateBreakpointActionsLoop_quiet env hre]

theorem m_currentCallFrame_deferredBreakpointsLoop_quiet (env : Env) (hre : env.noReentrancy)
    (g : Option GlobalObject) (bps : List Breakpoint) (st : DeferredLoopState) (d : Debugger) :
    (deferredBreakpointsLoop env g bps st d).2.m_currentCallFrame = d.m_currentCallFrame := by
  induction bps generalizing st d with
  | nil => rfl
  | cons b rest ih =>
    unfold deferredBreakpointsLoop
    simp only []
    split
    · exact m_currentCallFrame_shouldPause_quiet env hre b g d
    · split
      · rw [ih]; exact m_currentCallFrame_shouldPause_quiet env hre b g d
      · split
        · rw [m_currentCallFrame_evaluateBreakpointActions_quiet env hre]
          exact m_currentCallFrame_shouldPause_quiet env hre b g d
        · split <;>
            (rw [ih, m_currentCallFrame_evaluateBreakpointActions_quiet env hre]
             exact m_currentCallFrame_shouldPause_quiet env hre b g d)

theorem m_observers_currentDebuggerCallFrame (d : Debugger) :
    (currentDebuggerCallFrame d).m_observers = d.m_observers := by
  unfold currentDebuggerCallFrame; split <;> rfl

theorem m_observers_logEvent (e : Event) (d : Debugger) : (logEvent e d).m_observers = d.m_observers := rfl

theorem m_observers_reportException (g : Option GlobalObject) (e : JSValue) (d : Debugger) :
    (reportException g e d).m_observers = d.m_observers := rfl

theorem m_observers_evaluateWithScopeExtension_quiet (env : Env) (hre : env.noReentrancy)
    (s : String) (d : Debugger) :
    (evaluateWithScopeExtension env s d).2.m_observers = d.m_observers := by
  simp [evaluateWithScopeExtension, hre s, runCommands, m_observers_logEvent]

theorem m_observers_evaluateBreakpointCondition_quiet (env : Env) (hre : env.noReentrancy)
    (b : Breakpoint) (g : Option GlobalObject) (d : Debugger) :
    (evaluateBreakpointCondition env b g d).2.m_observers = d.m_observers := by
  unfold evaluateBreakpointCondition
  simp only []
  split
  · rfl
  · split
    · simp [m_observers_evaluateWithScopeExtension_quiet env hre, m_observers_currentDebuggerCallFrame]
    · split <;>
        simp [m_observers_evaluateWithScopeExtension_quiet env hre, m_observers_currentDebuggerCallFrame,
          m_observers_reportException]

theorem m_observers_shouldPause_quiet (env : Env) (hre : env.noReentrancy)
    (b : Breakpoint) (g : Option GlobalObject) (d : Debugger) :
    (shouldPause env b g d).2.m_observers = d.m_observers := by
  simp [shouldPause, m_observers_evaluateBreakpointCondition_quiet env hre]

theorem m_observers_evaluateBreakpointAction_quiet (env : Env) (hre : env.noReentrancy)
    (a : Action) (g : Option GlobalObject) (d : Debugger) :
    (evaluateBreakpointAction env a g d).m_observers = d.m_observers := by
  unfold evaluateBreakpointAction
  simp only []
  have hwill : ∀ (x : Debugger),
      (if x.m_hasClient = true then logEvent (Event.clientWillEvaluate a) x else x).m_observers
        = x.m_observers := by
    intro x; split <;> simp [m_observers_logEvent]
  have hdid : ∀ (x : Debugger),
      (if x.m_hasClient = true then logEvent (Event.clientDidEvaluate a) x else x).m_observers
        = x.m_observers := by
    intro x; split <;> simp [m_observers_logEvent]
  have hdisp : ∀ (func : Observer → Debugger → Debugger) (x : Debugger),
      (∀ o y, (func o y).m_observers = y.m_observers) →
      (dispatchFunctionToObservers func x).m_observers = x.m_observers :=
    fun func x h => dispatchFunctionToObservers_preserves (fun y => y.m_observers) func h x
  rw [hdid]
  cases a.type with
  | Log =>
    simp only []
    rw [hdisp _ _ (fun o y => by simp [m_observers_logEvent])]
    simp [hwill, m_observers_currentDebuggerCallFrame]
  | Evaluate =>
    simp only []
    split <;>
      simp [hwill, m_observers_evaluateWithScopeExtension_quiet env hre,
        m_observers_currentDebuggerCallFrame, m_observers_reportException]
  | Sound =>
    simp only []
    rw [hdisp _ _ (fun o y => by simp [m_observers_logEvent])]
    simp [hwill, m_observers_currentDebuggerCallFrame]
  | Probe =>
    simp only []
    rw [hdisp _ _ (fun o y => by simp [m_observers_logEvent])]
    split <;>
      simp [hwill, m_observers_evaluateWithScopeExtension_quiet env hre,
        m_observers_currentDebuggerCallFrame, m_observers_reportException]

theorem m_observers_evaluateBreakpointActionsLoop_quiet (env : Env) (hre : env.noReentrancy)
    (g : Option GlobalObject) (actions : List Action) (d : Debugger) :
    (evaluateBreakpointActionsLoop env g actions d).m_observers = d.m_observers := by
  induction actions generalizing d with
  | nil => rfl
  | cons a rest ih =>
    unfold evaluateBreakpointActionsLoop
    simp only []
    split
    · exact m_observers_evaluateBreakpointAction_quiet env hre a g d
    · rw [ih]; exact m_observers_evaluateBreakpointAction_quiet env hre a g d

theorem m_observers_evaluateBreakpointActions_quiet (env : Env) (hre : env.noReentrancy)
    (b : Breakpoint) (g : Option GlobalObject) (d : Debugger) :
    (evaluateBreakpointActions env b g d).m_observers = d.m_observers := by
  simp [evaluateBreakpointActions, m_observers_evaluateBreakpointActionsLoop_quiet env hre]

theorem m_observers_deferredBreakpointsLoop_quiet (env : Env) (hre : env.noReentrancy)
    (g : Option GlobalObject) (bps : List Breakpoint) (st : DeferredLoopState) (d : Debugger) :
    (deferredBreakpointsLoop env g bps st d).2.m_observers = d.m_observers := by
  induction bps generalizing st d with
  | nil => rfl
  | cons b rest ih =>
    unfold deferredBreakpointsLoop
    simp only []
    split
    · exact m_observers_shouldPause_quiet env hre b g d
    · split
      · rw [ih]; exact m_observers_shouldPause_quiet env hre b g d
      · split
        · rw [m_observers_evaluateBreakpointActions_quiet env hre]
          exact m_observers_shouldPause_quiet env hre b g d
        · split <;>
            (rw [ih, m_observers_evaluateBreakpointActions_quiet env hre]
             exact m_observers_shouldPause_quiet env hre b g d)

theorem m_blackboxBreakpointEvaluations_currentDebuggerCallFrame (d : Debugger) :
    (currentDebuggerCallFrame d).m_blackboxBreakpointEvaluations = d.m_blackboxBreakpointEvaluations := by
  unfold currentDebuggerCallFrame; split <;> rfl

theorem m_blackboxBreakpointEvaluations_logEvent (e : Event) (d : Debugger) : (logEvent e d).m_blackboxBreakpointEvaluations = d.m_blackboxBreakpointEvaluations := rfl

theorem m_blackboxBreakpointEvaluations_reportException (g : Option GlobalObject) (e : JSValue) (d : Debugger) :
    (reportException g e d).m_blackboxBreakpointEvaluations = d.m_blackboxBreakpointEvaluations := rfl

theorem m_blackboxBreakpointEvaluations_evaluateWithScopeExtension_quiet (env : Env) (hre : env.noReentrancy)
    (s : String) (d : Debugger) :
    (evaluateWithScopeExtension env s d).2.m_blackboxBreakpointEvaluations = d.m_blackboxBreakpointEvaluations := by
  simp [evaluateWithScopeExtension, hre s, runCommands, m_blackboxBreakpointEvaluations_logEvent]

theorem m_blackboxBreakpointEvaluations_evaluateBreakpointCondition_quiet (env : Env) (hre : env.noReentrancy)
    (b : Breakpoint) (g : Option GlobalObject) (d : Debugger) :
    (evaluateBreakpointCondition env b g d).2.m_blackboxBreakpointEvaluations = d.m_blackboxBreakpointEvaluations := by
  unfold evaluateBreakpointCondition
  simp only []
  split
  · rfl
  · split
    · simp [m_blackboxBreakpointEvaluations_evaluateWithScopeExtension_quiet env hre, m_blackboxBreakpointEvaluations_currentDebuggerCallFrame]
    · split <;>
        simp [m_blackboxBreakpointEvaluations_evaluateWithScopeExtension_quiet env hre, m_blackboxBreakpointEvaluations_currentDebuggerCallFrame,
          m_blackboxBreakpointEvaluations_reportException]

theorem m_blackboxBreakpointEvaluations_shouldPause_quiet (env : Env) (hre : env.noReentrancy)
    (b : Breakpoint) (g : Option GlobalObject) (d : Debugger) :
    (shouldPause env b g d).2.m_blackboxBreakpointEvaluations = d.m_blackboxBreakpointEvaluations := by
  simp [shouldPause, m_blackboxBreakpointEvaluations_evaluateBreakpointCondition_quiet env hre]

theorem m_blackboxBreakpointEvaluations_evaluateBreakpointAction_quiet (env : Env) (hre : env.noReentrancy)
    (a : Action) (g : Option GlobalObject) (d : Debugger) :
    (evaluateBreakpointAction env a g d).m_blackboxBreakpointEvaluations = d.m_blackboxBreakpointEvaluations := by
  unfold evaluateBreakpointAction
  simp only []
  have hwill : ∀ (x : Debugger),
      (if x.m_hasClient = true then logEvent (Event.clientWillEvaluate a) x else x).m_blackboxBreakpointEvaluations
        = x.m_blackboxBreakpointEvaluations := by
    intro x; split <;> simp [m_blackboxBreakpointEvaluations_logEvent]
  have hdid : ∀ (x : Debugger),
      (if x.m_hasClient = true then logEvent (Event.clientDidEvaluate a) x else x).m_blackboxBreakpointEvaluations
        = x.m_blackboxBreakpointEvaluations := by
    intro x; split <;> simp [m_blackboxBreakpointEvaluations_logEvent]
  have hdisp : ∀ (func : Observer → Debugger → Debugger) (x : Debugger),
      (∀ o y, (func o y).m_blackboxBreakpointEvaluations = y.m_blackboxBreakpointEvaluations) →
      (dispatchFunctionToObservers func x).m_blackboxBreakpointEvaluations = x.m_blackboxBreakpointEvaluations :=
    fun func x h => dispatchFunctionToObservers_preserves (fun y => y.m_blackboxBreakpointEvaluations) func h x
  rw [hdid]
  cases a.type with
  | Log =>
    simp only []
    rw [hdisp _ _ (fun o y => by simp [m_blackboxBreakpointEvaluations_logEvent])]
    simp [hwill, m_blackboxBreakpointEvaluations_currentDebuggerCallFrame]
  | Evaluate =>
    simp only []
    split <;>
      simp [hwill, m_blackboxBreakpointEvaluations_evaluateWithScopeExtension_quiet env hre,
        m_blackboxBreakpointEvaluations_currentDebuggerCallFrame, m_blackboxBreakpointEvaluations_reportException]
  | Sound =>
    simp only []
    rw [hdisp _ _ (fun o y => by simp [m_blackboxBreakpointEvaluations_logEvent])]
    simp [hwill, m_blackboxBreakpointEvaluations_currentDebuggerCallFrame]
  | Probe =>
    simp only []
    rw [hdisp _ _ (fun o y => by simp [m_blackboxBreakpointEvaluations_logEvent])]
    split <;>
      simp [hwill, m_blackboxBreakpointEvaluations_evaluateWithScopeExtension_quiet env hre,
        m_blackboxBreakpointEvaluations_currentDebuggerCallFrame, m_blackboxBreakpointEvaluations_reportException]

theorem m_blackboxBreakpointEvaluations_evaluateBreakpointActionsLoop_quiet (env : Env) (hre : env.noReentrancy)
    (g : Option GlobalObject) (actions : List Action) (d : Debugger) :
    (evaluateBreakpointActionsLoop env g actions d).m_blackboxBreakpointEvaluations = d.m_blackboxBreakpointEvaluations := by
  induction actions generalizing d with
  | nil => rfl
  | cons a rest ih =>
    unfold evaluateBreakpointActionsLoop
    simp only []
    split
    · exact m_blackboxBreakpointEvaluations_evaluateBreakpointAction_quiet env hre a g d
    · rw [ih]; exact m_blackboxBreakpointEvaluations_evaluateBreakpointAction_quiet env hre a g d

theorem m_blackboxBreakpointEvaluations_evaluateBreakpointActions_quiet (env : Env) (hre : env.noReentrancy)
    (b : Breakpoint) (g : Option GlobalObject) (d : Debugger) :
    (evaluateBreakpointActions env b g d).m_blackboxBreakpointEvaluations = d.m_blackboxBreakpointEvaluations := by
  simp [evaluateBreakpointActions, m_blackboxBreakpointEvaluations_evaluateBreakpointActionsLoop_quiet env hre]

theorem m_blackboxBreakpointEvaluations_deferredBreakpointsLoop_quiet (env : Env) (hre : env.noReentrancy)
    (g : Option GlobalObject) (bps : List Breakpoint) (st : DeferredLoopState) (d : Debugger) :
    (deferredBreakpointsLoop env g bps st d).2.m_blackboxBreakpointEvaluations = d.m_blackboxBreakpointEvaluations := by
  induction bps generalizing st d with
  | nil => rfl
  | cons b rest ih =>
    unfold deferredBreakpointsLoop
    simp only []
    split
    · exact m_blackboxBreakpointEvaluations_shouldPause_quiet env hre b g d
    · split
      · rw [ih]; exact m_blackboxBreakpointEvaluations_shouldPause_quiet env hre b g d
      · split
        · rw [m_blackboxBreakpointEvaluations_evaluateBreakpointActions_quiet env hre]
          exact m_blackboxBreakpointEvaluations_shouldPause_quiet env hre b g d
        · split <;>
            (rw [ih, m_blackboxBreakpointEvaluations_evaluateBreakpointActions_quiet env hre]
             exact m_blackboxBreakpointEvaluations_shouldPause_quiet env hre b g d)

theorem m_pausingBreakpointID_currentDebuggerCallFrame (d : Debugger) :
    (currentDebuggerCallFrame d).m_pausingBreakpointID = d.m_pausingBreakpointID := by
  unfold currentDebuggerCallFrame; split <;> rfl

theorem m_pausingBreakpointID_logEvent (e : Event) (d : Debugger) : (logEvent e d).m_pausingBreakpointID = d.m_pausingBreakpointID := rfl

theorem m_pausingBreakpointID_reportException (g : Option GlobalObject) (e : JSValue) (d : Debugger) :
    (reportException g e d).m_pausingBreakpointID = d.m_pausingBreakpointID := rfl

theorem m_pausingBreakpointID_evaluateWithScopeExtension_quiet (env : Env) (hre : env.noReentrancy)
    (s : String) (d : Debugger) :
    (evaluateWithScopeExtension env s d).2.m_pausingBreakpointID = d.m_pausingBreakpointID := by
  simp [evaluateWithScopeExtension, hre s, runCommands, m_pausingBreakpointID_logEvent]

theorem m_pausingBreakpointID_evaluateBreakpointCondition_quiet (env : Env) (hre : env.noReentrancy)
    (b : Breakpoint) (g : Option GlobalObject) (d : Debugger) :
    (evaluateBreakpointCondition env b g d).2.m_pausingBreakpointID = d.m_pausingBreakpointID := by
  unfold evaluateBreakpointCondition
  simp only []
  split
  · rfl
  · split
    · simp [m_pausingBreakpointID_evaluateWithScopeExtension_quiet env hre, m_pausingBreakpointID_currentDebuggerCallFrame]
    · split <;>
        simp [m_pausingBreakpointID_evaluateWithScopeExtension_quiet env hre, m_pausingBreakpointID_currentDebuggerCallFrame,
          m_pausingBreakpointID_reportException]

theorem m_pausingBreakpointID_shouldPause_quiet (env : Env) (hre : env.noReentrancy)
    (b : Breakpoint) (g : Option GlobalObject) (d : Debugger) :
    (shouldPause env b g d).2.m_pausingBreakpointID = d.m_pausingBreakpointID := by
  simp [shouldPause, m_pausingBreakpointID_evaluateBreakpointCondition_quiet env hre]

theorem m_pausingBreakpointID_evaluateBreakpointAction_quiet (env : Env) (hre : env.noReentrancy)
    (a : Action) (g : Option GlobalObject) (d : Debugger) :
    (evaluateBreakpointAction env a g d).m_pausingBreakpointID = d.m_pausingBreakpointID := by
  unfold evaluateBreakpointAction
  simp only []
  have hwill : ∀ (x : Debugger),
      (if x.m_hasClient = true then logEvent (Event.clientWillEvaluate a) x else x).m_pausingBreakpointID
        = x.m_pausingBreakpointID := by
    intro x; split <;> simp [m_pausingBreakpointID_logEvent]
  have hdid : ∀ (x : Debugger),
      (if x.m_hasClient = true then logEvent (Event.clientDidEvaluate a) x else x).m_pausingBreakpointID
        = x.m_pausingBreakpointID := by
    intro x; split <;> simp [m_pausingBreakpointID_logEvent]
  have hdisp : ∀ (func : Observer → Debugger → Debugger) (x : Debugger),
      (∀ o y, (func o y).m_pausingBreakpointID = y.m_pausingBreakpointID) →
      (dispatchFunctionToObservers func x).m_pausingBreakpointID = x.m_pausingBreakpointID :=
    fun func x h => dispatchFunctionToObservers_preserves (fun y => y.m_pausingBreakpointID) func h x
  rw [hdid]
  cases a.type with
  | Log =>
    simp only []
    rw [hdisp _ _ (fun o y => by simp [m_pausingBreakpointID_logEvent])]
    simp [hwill, m_pausingBreakpointID_currentDebuggerCallFrame]
  | Evaluate =>
    simp only []
    split <;>
      simp [hwill, m_pausingBreakpointID_evaluateWithScopeExtension_quiet env hre,
        m_pausingBreakpointID_currentDebuggerCallFrame, m_pausingBreakpointID_reportException]
  | Sound =>
    simp only []
    rw [hdisp _ _ (fun o y => by simp [m_pausingBreakpointID_logEvent])]
    simp [hwill, m_pausingBreakpointID_currentDebuggerCallFrame]
  | Probe =>
    simp only []
    rw [hdisp _ _ (fun o y => by simp [m_pausingBreakpointID_logEvent])]
    split <;>
      simp [hwill, m_pausingBreakpointID_evaluateWithScopeExtension_quiet env hre,
        m_pausingBreakpointID_currentDebuggerCallFrame, m_pausingBreakpointID_reportException]

theorem m_pausingBreakpointID_evaluateBreakpointActionsLoop_quiet (env : Env) (hre : env.noReentrancy)
    (g : Option GlobalObject) (actions : List Action) (d : Debugger) :
    (evaluateBreakpointActionsLoop env g actions d).m_pausingBreakpointID = d.m_pausingBreakpointID := by
  induction actions generalizing d with
  | nil => rfl
  | cons a rest ih =>
    unfold evaluateBreakpointActionsLoop
    simp only []
    split
    · exact m_pausingBreakpointID_evaluateBreakpointAction_quiet env hre a g d
    · rw [ih]; exact m_pausingBreakpointID_evaluateBreakpointAction_quiet env hre a g d

theorem m_pausingBreakpointID_evaluateBreakpointActions_quiet (env : Env) (hre : env.noReentrancy)
    (b : Breakpoint) (g : Option GlobalObject) (d : Debugger) :
    (evaluateBreakpointActions env b g d).m_pausingBreakpointID = d.m_pausingBreakpointID := by
  simp [evaluateBreakpointActions, m_pausingBreakpointID_evaluateBreakpointActionsLoop_quiet env hre]

theorem m_pausingBreakpointID_deferredBreakpointsLoop_quiet (env : Env) (hre : env.noReentrancy)
    (g : Option GlobalObject) (bps : List Breakpoint) (st : DeferredLoopState) (d : Debugger) :
    (deferredBreakpointsLoop env g bps st d).2.m_pausingBreakpointID = d.m_pausingBreakpointID := by
  induction bps generalizing st d with
  | nil => rfl
  | cons b rest ih =>
    unfold deferredBreakpointsLoop
    simp only []
    split
    · exact m_pausingBreakpointID_shouldPause_quiet env hre b g d
    · split
      · rw [ih]; exact m_pausingBreakpointID_shouldPause_quiet env hre b g d
      · split
        · rw [m_pausingBreakpointID_evaluateBreakpointActions_quiet env hre]
          exact m_pausingBreakpointID_shouldPause_quiet env hre b g d
        · split <;>
            (rw [ih, m_pausingBreakpointID_evaluateBreakpointActions_quiet env hre]
             exact m_pausingBreakpointID_shouldPause_quiet env hre b g d)

end Debugger
end JSC


namespace JSC
namespace Debugger

theorem pauses_ite (c : Prop) [Decidable c] (a b : Debugger) :
    (if c then a else b).log.filter Event.isPause = if c then a.log.filter Event.isPause else b.log.filter Event.isPause := by
  split <;> rfl

@[simp] theorem isPause_observerDidPause (o : Observer) (r : ReasonForPause) :
    Event.isPause (Event.observerDidPause o r) = false := rfl

@[simp] theorem isPause_observerDidContinue (o : Observer) :
    Event.isPause (Event.observerDidContinue o) = false := rfl

@[simp] theorem isPause_observerBreakpointActionLog (o : Observer) (s : String) :
    Event.isPause (Event.observerBreakpointActionLog o s) = false := rfl

@[simp] theorem isPause_observerBreakpointActionSound (o : Observer) (i : BreakpointActionID) :
    Event.isPause (Event.observerBreakpointActionSound o i) = false := rfl

@[simp] theorem isPause_observerBreakpointActionProbe (o : Observer) (i : BreakpointActionID) (b s : Nat) (v : JSValue) :
    Event.isPause (Event.observerBreakpointActionProbe o i b s v) = false := rfl

@[simp] theorem isPause_observerWillEnter (o : Observer) (f : CallFrame) :
    Event.isPause (Event.observerWillEnter o f) = false := rfl

@[simp] theorem isPause_hookDidContinue (g : Option GlobalObject) :
    Event.isPause (Event.hookDidContinue g) = false := rfl

@[simp] theorem isPause_attachDebugger  :
    Event.isPause Event.attachDebugger = false := rfl

@[simp] theorem isPause_detachDebugger (b : Bool) :
    Event.isPause (Event.detachDebugger b) = false := rfl

@[simp] theorem isPause_recompileAllJSFunctions  :
    Event.isPause Event.recompileAllJSFunctions = false := rfl

@[simp] theorem isPause_evaluate (s : String) :
    Event.isPause (Event.evaluate s) = false := rfl

@[simp] theorem isPause_reportException (g : Option GlobalObject) (e : JSValue) :
    Event.isPause (Event.reportException g e) = false := rfl

@[simp] theorem isPause_clientWillEvaluate (a : Action) :
    Event.isPause (Event.clientWillEvaluate a) = false := rfl

@[simp] theorem isPause_clientDidEvaluate (a : Action) :
    Event.isPause (Event.clientDidEvaluate a) = false := rfl

@[simp] theorem isPause_observerFailedToParseSource (o : Observer) (t : List UChar) (f l : Int) (m : String) :
    Event.isPause (Event.observerFailedToParseSource o t f l m) = false := rfl

@[simp] theorem isPause_observerDidParseSource (o : Observer) (i : SourceID) (s : Script) :
    Event.isPause (Event.observerDidParseSource o i s) = false := rfl

@[simp] theorem isPause_hookDidPause (g : Option GlobalObject) :
    Event.isPause (Event.hookDidPause g) = true := rfl

@[simp] theorem isPause_observerDidDeferBreakpointPause (o : Observer) (i : BreakpointID) :
    Event.isPause (Event.observerDidDeferBreakpointPause o i) = false := rfl

@[simp] theorem pauses_logEvent (e : Event) (d : Debugger) (h : e.isPause = false) :
    (logEvent e d).log.filter Event.isPause = d.log.filter Event.isPause := by
  simp [logEvent, List.filter_append, h]

@[simp] theorem pauses_recompileAllJSFunctions (d : Debugger) :
    (recompileAllJSFunctions d).log.filter Event.isPause = d.log.filter Event.isPause := by
  simp [recompileAllJSFunctions]

@[simp] theorem pauses_attachDebugger (d : Debugger) :
    (attachDebugger d).log.filter Event.isPause = d.log.filter Event.isPause := by
  simp [attachDebugger]

@[simp] theorem pauses_detachDebugger (b : Bool) (d : Debugger) :
    (detachDebugger b d).log.filter Event.isPause = d.log.filter Event.isPause := by
  simp [detachDebugger]

@[simp] theorem pauses_dispatchFunctionToObservers (func : Observer → Debugger → Debugger)
    (d : Debugger) (h : ∀ o x, (func o x).log.filter Event.isPause = x.log.filter Event.isPause) :
    (dispatchFunctionToObservers func d).log.filter Event.isPause = d.log.filter Event.isPause :=
  dispatchFunctionToObservers_preserves (fun y => y.log.filter Event.isPause) func h d

@[simp] theorem pauses_setSteppingMode (m : SteppingMode) (d : Debugger) :
    (setSteppingMode m d).log.filter Event.isPause = d.log.filter Event.isPause := by
  unfold setSteppingMode; split <;> rfl

@[simp] theorem pauses_setBreakpoint (b : Breakpoint) (d : Debugger) :
    (setBreakpoint b d).2.log.filter Event.isPause = d.log.filter Event.isPause := by
  unfold setBreakpoint; simp only []; split <;> rfl

@[simp] theorem pauses_removeBreakpoint (b : Breakpoint) (d : Debugger) :
    (removeBreakpoint b d).2.log.filter Event.isPause = d.log.filter Event.isPause := by
  unfold removeBreakpoint
  split
  · rfl
  · split <;> rfl

@[simp] theorem pauses_clearBreakpoints (d : Debugger) :
    (clearBreakpoints d).log.filter Event.isPause = d.log.filter Event.isPause := rfl

@[simp] theorem pauses_setBreakpointsActivated (a : Bool) (d : Debugger) :
    (setBreakpointsActivated a d).log.filter Event.isPause = d.log.filter Event.isPause := by
  unfold setBreakpointsActivated; split <;> simp

@[simp] theorem pauses_schedulePauseAtNextOpportunity (d : Debugger) :
    (schedulePauseAtNextOpportunity d).log.filter Event.isPause = d.log.filter Event.isPause := by
  simp [schedulePauseAtNextOpportunity]

@[simp] theorem pauses_cancelPauseAtNextOpportunity (d : Debugger) :
    (cancelPauseAtNextOpportunity d).log.filter Event.isPause = d.log.filter Event.isPause := rfl

@[simp] theorem pauses_schedulePauseForSpecialBreakpoint (b : Breakpoint) (d : Debugger) :
    (schedulePauseForSpecialBreakpoint b d).2.log.filter Event.isPause = d.log.filter Event.isPause := by
  unfold schedulePauseForSpecialBreakpoint; split <;> simp

@[simp] theorem pauses_cancelPauseForSpecialBreakpoint (b : Breakpoint) (d : Debugger) :
    (cancelPauseForSpecialBreakpoint b d).2.log.filter Event.isPause = d.log.filter Event.isPause := by
  unfold cancelPauseForSpecialBreakpoint; split <;> rfl

@[simp] theorem pauses_resetImmediatePauseState (d : Debugger) :
    (resetImmediatePauseState d).log.filter Event.isPause = d.log.filter Event.isPause := rfl

@[simp] theorem pauses_resetEventualPauseState (d : Debugger) :
    (resetEventualPauseState d).log.filter Event.isPause = d.log.filter Event.isPause := rfl

@[simp] theorem pauses_continueProgram (d : Debugger) :
    (continueProgram d).log.filter Event.isPause = d.log.filter Event.isPause := by
  unfold continueProgram; simp only []; split <;> rfl

@[simp] theorem pauses_stepNextExpression (d : Debugger) :
    (stepNextExpression d).log.filter Event.isPause = d.log.filter Event.isPause := by
  unfold stepNextExpression; split <;> simp

@[simp] theorem pauses_stepIntoStatement (d : Debugger) :
    (stepIntoStatement d).log.filter Event.isPause = d.log.filter Event.isPause := by
  unfold stepIntoStatement; split <;> simp

@[simp] theorem pauses_stepOverStatement (d : Debugger) :
    (stepOverStatement d).log.filter Event.isPause = d.log.filter Event.isPause := by
  unfold stepOverStatement; split <;> simp

@[simp] theorem pauses_stepOutOfFunction (env : Env) (d : Debugger) :
    (stepOutOfFunction env d).log.filter Event.isPause = d.log.filter Event.isPause := by
  unfold stepOutOfFunction; split <;> simp

@[simp] theorem pauses_setBlackboxConfiguration (s : SourceID) (c : BlackboxConfiguration)
    (d : Debugger) : (setBlackboxConfiguration s c d).log.filter Event.isPause = d.log.filter Event.isPause := by
  unfold setBlackboxConfiguration; split <;> rfl

@[simp] theorem pauses_setBlackboxBreakpointEvaluations (v : Bool) (d : Debugger) :
    (setBlackboxBreakpointEvaluations v d).log.filter Event.isPause = d.log.filter Event.isPause := rfl

@[simp] theorem pauses_clearBlackbox (d : Debugger) :
    (clearBlackbox d).log.filter Event.isPause = d.log.filter Event.isPause := rfl

@[simp] theorem pauses_addObserver (o : Observer) (d : Debugger) :
    (addObserver o d).log.filter Event.isPause = d.log.filter Event.isPause := by
  unfold addObserver; simp only []; split <;> simp

@[simp] theorem pauses_removeObserver (o : Observer) (b : Bool) (d : Debugger) :
    (removeObserver o b d).log.filter Event.isPause = d.log.filter Event.isPause := by
  unfold removeObserver; simp only []; split <;> simp

@[simp] theorem pauses_detach (env : Env) (g : GlobalObject) (r : ReasonForDetach)
    (d : Debugger) : (detach env g r d).log.filter Event.isPause = d.log.filter Event.isPause := by
  unfold detach
  simp only []
  split <;> split <;> simp [clearParsedData]

@[simp] theorem pauses_runCommand (env : Env) (c : ClientCommand) (d : Debugger) :
    (runCommand env c d).log.filter Event.isPause = d.log.filter Event.isPause := by
  cases c <;> simp [runCommand]

@[simp] theorem pauses_runCommands (env : Env) (cs : List ClientCommand) (d : Debugger) :
    (runCommands env cs d).log.filter Event.isPause = d.log.filter Event.isPause :=
  foldl_preserves (fun x => x.log.filter Event.isPause) (runCommand env) (pauses_runCommand env) cs d

@[simp] theorem pauses_runEventLoopWhilePaused (env : Env) (cs : List ClientCommand)
    (d : Debugger) : (runEventLoopWhilePaused env cs d).log.filter Event.isPause = d.log.filter Event.isPause := by
  induction cs generalizing d with
  | nil => rfl
  | cons c rest ih =>
    unfold runEventLoopWhilePaused
    split
    · rfl
    · rw [ih]; simp

@[simp] theorem pauses_currentDebuggerCallFrame (d : Debugger) :
    (currentDebuggerCallFrame d).log.filter Event.isPause = d.log.filter Event.isPause := by
  unfold currentDebuggerCallFrame; split <;> rfl

@[simp] theorem pauses_evaluateWithScopeExtension (env : Env) (s : String) (d : Debugger) :
    (evaluateWithScopeExtension env s d).2.log.filter Event.isPause = d.log.filter Event.isPause := by
  simp [evaluateWithScopeExtension]

@[simp] theorem pauses_reportException (g : Option GlobalObject) (e : JSValue) (d : Debugger) :
    (reportException g e d).log.filter Event.isPause = d.log.filter Event.isPause := by
  simp [reportException]

@[simp] theorem pauses_evaluateBreakpointCondition (env : Env) (b : Breakpoint)
    (g : Option GlobalObject) (d : Debugger) :
    (evaluateBreakpointCondition env b g d).2.log.filter Event.isPause = d.log.filter Event.isPause := by
  unfold evaluateBreakpointCondition
  simp only []
  split
  · rfl
  · split
    · simp
    · split <;> simp

@[simp] theorem pauses_shouldPause (env : Env) (b : Breakpoint)
    (g : Option GlobalObject) (d : Debugger) :
    (shouldPause env b g d).2.log.filter Event.isPause = d.log.filter Event.isPause := by
  simp [shouldPause]

@[simp] theorem pauses_evaluateBreakpointAction (env : Env) (a : Action)
    (g : Option GlobalObject) (d : Debugger) :
    (evaluateBreakpointAction env a g d).log.filter Event.isPause = d.log.filter Event.isPause := by
  unfold evaluateBreakpointAction
  simp only []
  have hwill : ∀ (x : Debugger),
      (if x.m_hasClient = true then logEvent (Event.clientWillEvaluate a) x else x).log.filter
          Event.isPause = x.log.filter Event.isPause := by
    intro x; split <;> simp
  have hdid : ∀ (x : Debugger),
      (if x.m_hasClient = true then logEvent (Event.clientDidEvaluate a) x else x).log.filter
          Event.isPause = x.log.filter Event.isPause := by
    intro x; split <;> simp
  rw [hdid]
  cases a.type with
  | Log => simp [hwill]
  | Evaluate =>
    simp only []
    split <;> simp [hwill]
  | Sound => simp [hwill]
  | Probe =>
    simp only []
    split <;> simp [hwill]

@[simp] theorem pauses_evaluateBreakpointActionsLoop (env : Env) (g : Option GlobalObject)
    (actions : List Action) (d : Debugger) :
    (evaluateBreakpointActionsLoop env g actions d).log.filter Event.isPause = d.log.filter Event.isPause := by
  induction actions generalizing d with
  | nil => rfl
  | cons a rest ih =>
    unfold evaluateBreakpointActionsLoop
    simp only []
    split
    · simp
    · rw [ih]; simp

@[simp] theorem pauses_evaluateBreakpointActions (env : Env) (b : Breakpoint)
    (g : Option GlobalObject) (d : Debugger) :
    (evaluateBreakpointActions env b g d).log.filter Event.isPause = d.log.filter Event.isPause := by
  simp [evaluateBreakpointActions]


@[simp] theorem pauses_deferredBreakpointsLoop (env : Env) (g : Option GlobalObject)
    (bps : List Breakpoint) (st : DeferredLoopState) (d : Debugger) :
    (deferredBreakpointsLoop env g bps st d).2.log.filter Event.isPause = d.log.filter Event.isPause := by
  induction bps generalizing st d with
  | nil => rfl
  | cons b rest ih =>
    unfold deferredBreakpointsLoop
    simp only []
    split
    · simp
    · split
      · rw [ih]; simp
      · split
        · simp
        · split <;> (rw [ih]; simp)

@[simp] theorem pauses_evaluateDeferredBreakpoints (env : Env) (g : Option GlobalObject)
    (step : Bool) (d : Debugger) :
    (evaluateDeferredBreakpoints env g step d).2.log.filter Event.isPause = d.log.filter Event.isPause := by
  unfold evaluateDeferredBreakpoints
  split
  · rfl
  · simp only []
    have h := pauses_deferredBreakpointsLoop env g d.m_deferredBreakpoints {}
      { d with m_deferredBreakpoints := [] }
    split
    · rename_i heq; rw [heq] at h; exact h
    · rename_i heq; rw [heq] at h
      split
      · split <;> exact h
      · split <;> exact h


end Debugger
end JSC


namespace JSC
namespace Debugger

theorem reports_ite (c : Prop) [Decidable c] (a b : Debugger) :
    (if c then a else b).log.filter Event.isReport = if c then a.log.filter Event.isReport else b.log.filter Event.isReport := by
  split <;> rfl

@[simp] theorem isReport_observerDidPause (o : Observer) (r : ReasonForPause) :
    Event.isReport (Event.observerDidPause o r) = false := rfl

@[simp] theorem isReport_observerDidContinue (o : Observer) :
    Event.isReport (Event.observerDidContinue o) = false := rfl

@[simp] theorem isReport_observerBreakpointActionLog (o : Observer) (s : String) :
    Event.isReport (Event.observerBreakpointActionLog o s) = false := rfl

@[simp] theorem isReport_observerBreakpointActionSound (o : Observer) (i : BreakpointActionID) :
    Event.isReport (Event.observerBreakpointActionSound o i) = false := rfl

@[simp] theorem isReport_observerBreakpointActionProbe (o : Observer) (i : BreakpointActionID) (b s : Nat) (v : JSValue) :
    Event.isReport (Event.observerBreakpointActionProbe o i b s v) = false := rfl

@[simp] theorem isReport_observerWillEnter (o : Observer) (f : CallFrame) :
    Event.isReport (Event.observerWillEnter o f) = false := rfl

@[simp] theorem isReport_hookDidContinue (g : Option GlobalObject) :
    Event.isReport (Event.hookDidContinue g) = false := rfl

@[simp] theorem isReport_attachDebugger  :
    Event.isReport Event.attachDebugger = false := rfl

@[simp] theorem isReport_detachDebugger (b : Bool) :
    Event.isReport (Event.detachDebugger b) = false := rfl

@[simp] theorem isReport_recompileAllJSFunctions  :
    Event.isReport Event.recompileAllJSFunctions = false := rfl

@[simp] theorem isReport_evaluate (s : String) :
    Event.isReport (Event.evaluate s) = false := rfl

@[simp] theorem isReport_reportException (g : Option GlobalObject) (e : JSValue) :
    Event.isReport (Event.reportException g e) = true := rfl

@[simp] theorem isReport_clientWillEvaluate (a : Action) :
    Event.isReport (Event.clientWillEvaluate a) = false := rfl

@[simp] theorem isReport_clientDidEvaluate (a : Action) :
    Event.isReport (Event.clientDidEvaluate a) = false := rfl

@[simp] theorem isReport_observerFailedToParseSource (o : Observer) (t : List UChar) (f l : Int) (m : String) :
    Event.isReport (Event.observerFailedToParseSource o t f l m) = false := rfl

@[simp] theorem isReport_observerDidParseSource (o : Observer) (i : SourceID) (s : Script) :
    Event.isReport (Event.observerDidParseSource o i s) = false := rfl

@[simp] theorem isReport_hookDidPause (g : Option GlobalObject) :
    Event.isReport (Event.hookDidPause g) = false := rfl

@[simp] theorem isReport_observerDidDeferBreakpointPause (o : Observer) (i : BreakpointID) :
    Event.isReport (Event.observerDidDeferBreakpointPause o i) = false := rfl

@[simp] theorem reports_logEvent (e : Event) (d : Debugger) (h : e.isReport = false) :
    (logEvent e d).log.filter Event.isReport = d.log.filter Event.isReport := by
  simp [logEvent, List.filter_append, h]

@[simp] theorem reports_recompileAllJSFunctions (d : Debugger) :
    (recompileAllJSFunctions d).log.filter Event.isReport = d.log.filter Event.isReport := by
  simp [recompileAllJSFunctions]

@[simp] theorem reports_attachDebugger (d : Debugger) :
    (attachDebugger d).log.filter Event.isReport = d.log.filter Event.isReport := by
  simp [attachDebugger]

@[simp] theorem reports_detachDebugger (b : Bool) (d : Debugger) :
    (detachDebugger b d).log.filter Event.isReport = d.log.filter Event.isReport := by
  simp [detachDebugger]

@[simp] theorem reports_dispatchFunctionToObservers (func : Observer → Debugger → Debugger)
    (d : Debugger) (h : ∀ o x, (func o x).log.filter Event.isReport = x.log.filter Event.isReport) :
    (dispatchFunctionToObservers func d).log.filter Event.isReport = d.log.filter Event.isReport :=
  dispatchFunctionToObservers_preserves (fun y => y.log.filter Event.isReport) func h d

@[simp] theorem reports_setSteppingMode (m : SteppingMode) (d : Debugger) :
    (setSteppingMode m d).log.filter Event.isReport = d.log.filter Event.isReport := by
  unfold setSteppingMode; split <;> rfl

@[simp] theorem reports_setBreakpoint (b : Breakpoint) (d : Debugger) :
    (setBreakpoint b d).2.log.filter Event.isReport = d.log.filter Event.isReport := by
  unfold setBreakpoint; simp only []; split <;> rfl

@[simp] theorem reports_removeBreakpoint (b : Breakpoint) (d : Debugger) :
    (removeBreakpoint b d).2.log.filter Event.isReport = d.log.filter Event.isReport := by
  unfold removeBreakpoint
  split
  · rfl
  · split <;> rfl

@[simp] theorem reports_clearBreakpoints (d : Debugger) :
    (clearBreakpoints d).log.filter Event.isReport = d.log.filter Event.isReport := rfl

@[simp] theorem reports_setBreakpointsActivated (a : Bool) (d : Debugger) :
    (setBreakpointsActivated a d).log.filter Event.isReport = d.log.filter Event.isReport := by
  unfold setBreakpointsActivated; split <;> simp

@[simp] theorem reports_schedulePauseAtNextOpportunity (d : Debugger) :
    (schedulePauseAtNextOpportunity d).log.filter Event.isReport = d.log.filter Event.isReport := by
  simp [schedulePauseAtNextOpportunity]

@[simp] theorem reports_cancelPauseAtNextOpportunity (d : Debugger) :
    (cancelPauseAtNextOpportunity d).log.filter Event.isReport = d.log.filter Event.isReport := rfl

@[simp] theorem reports_schedulePauseForSpecialBreakpoint (b : Breakpoint) (d : Debugger) :
    (schedulePauseForSpecialBreakpoint b d).2.log.filter Event.isReport = d.log.filter Event.isReport := by
  unfold schedulePauseForSpecialBreakpoint; split <;> simp

@[simp] theorem reports_cancelPauseForSpecialBreakpoint (b : Breakpoint) (d : Debugger) :
    (cancelPauseForSpecialBreakpoint b d).2.log.filter Event.isReport = d.log.filter Event.isReport := by
  unfold cancelPauseForSpecialBreakpoint; split <;> rfl

@[simp] theorem reports_resetImmediatePauseState (d : Debugger) :
    (resetImmediatePauseState d).log.filter Event.isReport = d.log.filter Event.isReport := rfl

@[simp] theorem reports_resetEventualPauseState (d : Debugger) :
    (resetEventualPauseState d).log.filter Event.isReport = d.log.filter Event.isReport := rfl

@[simp] theorem reports_continueProgram (d : Debugger) :
    (continueProgram d).log.filter Event.isReport = d.log.filter Event.isReport := by
  unfold continueProgram; simp only []; split <;> rfl

@[simp] theorem reports_stepNextExpression (d : Debugger) :
    (stepNextExpression d).log.filter Event.isReport = d.log.filter Event.isReport := by
  unfold stepNextExpression; split <;> simp

@[simp] theorem reports_stepIntoStatement (d : Debugger) :
    (stepIntoStatement d).log.filter Event.isReport = d.log.filter Event.isReport := by
  unfold stepIntoStatement; split <;> simp

@[simp] theorem reports_stepOverStatement (d : Debugger) :
    (stepOverStatement d).log.filter Event.isReport = d.log.filter Event.isReport := by
  unfold stepOverStatement; split <;> simp

@[simp] theorem reports_stepOutOfFunction (env : Env) (d : Debugger) :
    (stepOutOfFunction env d).log.filter Event.isReport = d.log.filter Event.isReport := by
  unfold stepOutOfFunction; split <;> simp

@[simp] theorem reports_setBlackboxConfiguration (s : SourceID) (c : BlackboxConfiguration)
    (d : Debugger) : (setBlackboxConfiguration s c d).log.filter Event.isReport = d.log.filter Event.isReport := by
  unfold setBlackboxConfiguration; split <;> rfl

@[simp] theorem reports_setBlackboxBreakpointEvaluations (v : Bool) (d : Debugger) :
    (setBlackboxBreakpointEvaluations v d).log.filter Event.isReport = d.log.filter Event.isReport := rfl

@[simp] theorem reports_clearBlackbox (d : Debugger) :
    (clearBlackbox d).log.filter Event.isReport = d.log.filter Event.isReport := rfl

@[simp] theorem reports_addObserver (o : Observer) (d : Debugger) :
    (addObserver o d).log.filter Event.isReport = d.log.filter Event.isReport := by
  unfold addObserver; simp only []; split <;> simp

@[simp] theorem reports_removeObserver (o : Observer) (b : Bool) (d : Debugger) :
    (removeObserver o b d).log.filter Event.isReport = d.log.filter Event.isReport := by
  unfold removeObserver; simp only []; split <;> simp

@[simp] theorem reports_detach (env : Env) (g : GlobalObject) (r : ReasonForDetach)
    (d : Debugger) : (detach env g r d).log.filter Event.isReport = d.log.filter Event.isReport := by
  unfold detach
  simp only []
  split <;> split <;> simp [clearParsedData]

@[simp] theorem reports_runCommand (env : Env) (c : ClientCommand) (d : Debugger) :
    (runCommand env c d).log.filter Event.isReport = d.log.filter Event.isReport := by
  cases c <;> simp [runCommand]

@[simp] theorem reports_runCommands (env : Env) (cs : List ClientCommand) (d : Debugger) :
    (runCommands env cs d).log.filter Event.isReport = d.log.filter Event.isReport :=
  foldl_preserves (fun x => x.log.filter Event.isReport) (runCommand env) (reports_runCommand env) cs d

@[simp] theorem reports_runEventLoopWhilePaused (env : Env) (cs : List ClientCommand)
    (d : Debugger) : (runEventLoopWhilePaused env cs d).log.filter Event.isReport = d.log.filter Event.isReport := by
  induction cs generalizing d with
  | nil => rfl
  | cons c rest ih =>
    unfold runEventLoopWhilePaused
    split
    · rfl
    · rw [ih]; simp

@[simp] theorem reports_currentDebuggerCallFrame (d : Debugger) :
    (currentDebuggerCallFrame d).log.filter Event.isReport = d.log.filter Event.isReport := by
  unfold currentDebuggerCallFrame; split <;> rfl

@[simp] theorem reports_evaluateWithScopeExtension (env : Env) (s : String) (d : Debugger) :
    (evaluateWithScopeExtension env s d).2.log.filter Event.isReport = d.log.filter Event.isReport := by
  simp [evaluateWithScopeExtension]

end Debugger
end JSC


namespace JSC
namespace Debugger

theorem enters_ite (c : Prop) [Decidable c] (a b : Debugger) :
    (if c then a else b).log.filter Event.isEnter = if c then a.log.filter Event.isEnter else b.log.filter Event.isEnter := by
  split <;> rfl

@[simp] theorem isEnter_observerDidPause (o : Observer) (r : ReasonForPause) :
    Event.isEnter (Event.observerDidPause o r) = false := rfl

@[simp] theorem isEnter_observerDidContinue (o : Observer) :
    Event.isEnter (Event.observerDidContinue o) = false := rfl

@[simp] theorem isEnter_observerBreakpointActionLog (o : Observer) (s : String) :
    Event.isEnter (Event.observerBreakpointActionLog o s) = false := rfl

@[simp] theorem isEnter_observerBreakpointActionSound (o : Observer) (i : BreakpointActionID) :
    Event.isEnter (Event.observerBreakpointActionSound o i) = false := rfl

@[simp] theorem isEnter_observerBreakpointActionProbe (o : Observer) (i : BreakpointActionID) (b s : Nat) (v : JSValue) :
    Event.isEnter (Event.observerBreakpointActionProbe o i b s v) = false := rfl

@[simp] theorem isEnter_observerWillEnter (o : Observer) (f : CallFrame) :
    Event.isEnter (Event.observerWillEnter o f) = true := rfl

@[simp] theorem isEnter_hookDidContinue (g : Option GlobalObject) :
    Event.isEnter (Event.hookDidContinue g) = false := rfl

@[simp] theorem isEnter_attachDebugger  :
    Event.isEnter Event.attachDebugger = false := rfl

@[simp] theorem isEnter_detachDebugger (b : Bool) :
    Event.isEnter (Event.detachDebugger b) = false := rfl

@[simp] theorem isEnter_recompileAllJSFunctions  :
    Event.isEnter Event.recompileAllJSFunctions = false := rfl

@[simp] theorem isEnter_evaluate (s : String) :
    Event.isEnter (Event.evaluate s) = false := rfl

@[simp] theorem isEnter_reportException (g : Option GlobalObject) (e : JSValue) :
    Event.isEnter (Event.reportException g e) = false := rfl

@[simp] theorem isEnter_clientWillEvaluate (a : Action) :
    Event.isEnter (Event.clientWillEvaluate a) = false := rfl

@[simp] theorem isEnter_clientDidEvaluate (a : Action) :
    Event.isEnter (Event.clientDidEvaluate a) = false := rfl

@[simp] theorem isEnter_observerFailedToParseSource (o : Observer) (t : List UChar) (f l : Int) (m : String) :
    Event.isEnter (Event.observerFailedToParseSource o t f l m) = false := rfl

@[simp] theorem isEnter_observerDidParseSource (o : Observer) (i : SourceID) (s : Script) :
    Event.isEnter (Event.observerDidParseSource o i s) = false := rfl

@[simp] theorem isEnter_hookDidPause (g : Option GlobalObject) :
    Event.isEnter (Event.hookDidPause g) = false := rfl

@[simp] theorem isEnter_observerDidDeferBreakpointPause (o : Observer) (i : BreakpointID) :
    Event.isEnter (Event.observerDidDeferBreakpointPause o i) = false := rfl

@[simp] theorem enters_logEvent (e : Event) (d : Debugger) (h : e.isEnter = false) :
    (logEvent e d).log.filter Event.isEnter = d.log.filter Event.isEnter := by
  simp [logEvent, List.filter_append, h]

@[simp] theorem enters_recompileAllJSFunctions (d : Debugger) :
    (recompileAllJSFunctions d).log.filter Event.isEnter = d.log.filter Event.isEnter := by
  simp [recompileAllJSFunctions]

@[simp] theorem enters_attachDebugger (d : Debugger) :
    (attachDebugger d).log.filter Event.isEnter = d.log.filter Event.isEnter := by
  simp [attachDebugger]

@[simp] theorem enters_detachDebugger (b : Bool) (d : Debugger) :
    (detachDebugger b d).log.filter Event.isEnter = d.log.filter Event.isEnter := by
  simp [detachDebugger]

@[simp] theorem enters_dispatchFunctionToObservers (func : Observer → Debugger → Debugger)
    (d : Debugger) (h : ∀ o x, (func o x).log.filter Event.isEnter = x.log.filter Event.isEnter) :
    (dispatchFunctionToObservers func d).log.filter Event.isEnter = d.log.filter Event.isEnter :=
  dispatchFunctionToObservers_preserves (fun y => y.log.filter Event.isEnter) func h d

@[simp] theorem enters_setSteppingMode (m : SteppingMode) (d : Debugger) :
    (setSteppingMode m d).log.filter Event.isEnter = d.log.filter Event.isEnter := by
  unfold setSteppingMode; split <;> rfl

@[simp] theorem enters_setBreakpoint (b : Breakpoint) (d : Debugger) :
    (setBreakpoint b d).2.log.filter Event.isEnter = d.log.filter Event.isEnter := by
  unfold setBreakpoint; simp only []; split <;> rfl

@[simp] theorem enters_removeBreakpoint (b : Breakpoint) (d : Debugger) :
    (removeBreakpoint b d).2.log.filter Event.isEnter = d.log.filter Event.isEnter := by
  unfold removeBreakpoint
  split
  · rfl
  · split <;> rfl

@[simp] theorem enters_clearBreakpoints (d : Debugger) :
    (clearBreakpoints d).log.filter Event.isEnter = d.log.filter Event.isEnter := rfl

@[simp] theorem enters_setBreakpointsActivated (a : Bool) (d : Debugger) :
    (setBreakpointsActivated a d).log.filter Event.isEnter = d.log.filter Event.isEnter := by
  unfold setBreakpointsActivated; split <;> simp

@[simp] theorem enters_schedulePauseAtNextOpportunity (d : Debugger) :
    (schedulePauseAtNextOpportunity d).log.filter Event.isEnter = d.log.filter Event.isEnter := by
  simp [schedulePauseAtNextOpportunity]

@[simp] theorem enters_cancelPauseAtNextOpportunity (d : Debugger) :
    (cancelPauseAtNextOpportunity d).log.filter Event.isEnter = d.log.filter Event.isEnter := rfl

@[simp] theorem enters_schedulePauseForSpecialBreakpoint (b : Breakpoint) (d : Debugger) :
    (schedulePauseForSpecialBreakpoint b d).2.log.filter Event.isEnter = d.log.filter Event.isEnter := by
  unfold schedulePauseForSpecialBreakpoint; split <;> simp

@[simp] theorem enters_cancelPauseForSpecialBreakpoint (b : Breakpoint) (d : Debugger) :
    (cancelPauseForSpecialBreakpoint b d).2.log.filter Event.isEnter = d.log.filter Event.isEnter := by
  unfold cancelPauseForSpecialBreakpoint; split <;> rfl

@[simp] theorem enters_resetImmediatePauseState (d : Debugger) :
    (resetImmediatePauseState d).log.filter Event.isEnter = d.log.filter Event.isEnter := rfl

@[simp] theorem enters_resetEventualPauseState (d : Debugger) :
    (resetEventualPauseState d).log.filter Event.isEnter = d.log.filter Event.isEnter := rfl

@[simp] theorem enters_continueProgram (d : Debugger) :
    (continueProgram d).log.filter Event.isEnter = d.log.filter Event.isEnter := by
  unfold continueProgram; simp only []; split <;> rfl

@[simp] theorem enters_stepNextExpression (d : Debugger) :
    (stepNextExpression d).log.filter Event.isEnter = d.log.filter Event.isEnter := by
  unfold stepNextExpression; split <;> simp

@[simp] theorem enters_stepIntoStatement (d : Debugger) :
    (stepIntoStatement d).log.filter Event.isEnter = d.log.filter Event.isEnter := by
  unfold stepIntoStatement; split <;> simp

@[simp] theorem enters_stepOverStatement (d : Debugger) :
    (stepOverStatement d).log.filter Event.isEnter = d.log.filter Event.isEnter := by
  unfold stepOverStatement; split <;> simp

@[simp] theorem enters_stepOutOfFunction (env : Env) (d : Debugger) :
    (stepOutOfFunction env d).log.filter Event.isEnter = d.log.filter Event.isEnter := by
  unfold stepOutOfFunction; split <;> simp

@[simp] theorem enters_setBlackboxConfiguration (s : SourceID) (c : BlackboxConfiguration)
    (d : Debugger) : (setBlackboxConfiguration s c d).log.filter Event.isEnter = d.log.filter Event.isEnter := by
  unfold setBlackboxConfiguration; split <;> rfl

@[simp] theorem enters_setBlackboxBreakpointEvaluations (v : Bool) (d : Debugger) :
    (setBlackboxBreakpointEvaluations v d).log.filter Event.isEnter = d.log.filter Event.isEnter := rfl

@[simp] theorem enters_clearBlackbox (d : Debugger) :
    (clearBlackbox d).log.filter Event.isEnter = d.log.filter Event.isEnter := rfl

@[simp] theorem enters_addObserver (o : Observer) (d : Debugger) :
    (addObserver o d).log.filter Event.isEnter = d.log.filter Event.isEnter := by
  unfold addObserver; simp only []; split <;> simp

@[simp] theorem enters_removeObserver (o : Observer) (b : Bool) (d : Debugger) :
    (removeObserver o b d).log.filter Event.isEnter = d.log.filter Event.isEnter := by
  unfold removeObserver; simp only []; split <;> simp

@[simp] theorem enters_detach (env : Env) (g : GlobalObject) (r : ReasonForDetach)
    (d : Debugger) : (detach env g r d).log.filter Event.isEnter = d.log.filter Event.isEnter := by
  unfold detach
  simp only []
  split <;> split <;> simp [clearParsedData]

@[simp] theorem enters_runCommand (env : Env) (c : ClientCommand) (d : Debugger) :
    (runCommand env c d).log.filter Event.isEnter = d.log.filter Event.isEnter := by
  cases c <;> simp [runCommand]

@[simp] theorem enters_runCommands (env : Env) (cs : List ClientCommand) (d : Debugger) :
    (runCommands env cs d).log.filter Event.isEnter = d.log.filter Event.isEnter :=
  foldl_preserves (fun x => x.log.filter Event.isEnter) (runCommand env) (enters_runCommand env) cs d

@[simp] theorem enters_runEventLoopWhilePaused (env : Env) (cs : List ClientCommand)
    (d : Debugger) : (runEventLoopWhilePaused env cs d).log.filter Event.isEnter = d.log.filter Event.isEnter := by
  induction cs generalizing d with
  | nil => rfl
  | cons c rest ih =>
    unfold runEventLoopWhilePaused
    split
    · rfl
    · rw [ih]; simp

end Debugger
end JSC


namespace JSC
namespace Debugger

theorem notifications_ite (c : Prop) [Decidable c] (a b : Debugger) :
    (if c then a else b).log.filter Event.isPauseOrResume = if c then a.log.filter Event.isPauseOrResume else b.log.filter Event.isPauseOrResume := by
  split <;> rfl

@[simp] theorem isPauseOrResume_observerDidPause (o : Observer) (r : ReasonForPause) :
    Event.isPauseOrResume (Event.observerDidPause o r) = true := rfl

@[simp] theorem isPauseOrResume_observerDidContinue (o : Observer) :
    Event.isPauseOrResume (Event.observerDidContinue o) = true := rfl

@[simp] theorem isPauseOrResume_observerBreakpointActionLog (o : Observer) (s : String) :
    Event.isPauseOrResume (Event.observerBreakpointActionLog o s) = false := rfl

@[simp] theorem isPauseOrResume_observerBreakpointActionSound (o : Observer) (i : BreakpointActionID) :
    Event.isPauseOrResume (Event.observerBreakpointActionSound o i) = false := rfl

@[simp] theorem isPauseOrResume_observerBreakpointActionProbe (o : Observer) (i : BreakpointActionID) (b s : Nat) (v : JSValue) :
    Event.isPauseOrResume (Event.observerBreakpointActionProbe o i b s v) = false := rfl

@[simp] theorem isPauseOrResume_observerWillEnter (o : Observer) (f : CallFrame) :
    Event.isPauseOrResume (Event.observerWillEnter o f) = false := rfl

@[simp] theorem isPauseOrResume_hookDidContinue (g : Option GlobalObject) :
    Event.isPauseOrResume (Event.hookDidContinue g) = true := rfl

@[simp] theorem isPauseOrResume_attachDebugger  :
    Event.isPauseOrResume Event.attachDebugger = false := rfl

@[simp] theorem isPauseOrResume_detachDebugger (b : Bool) :
    Event.isPauseOrResume (Event.detachDebugger b) = false := rfl

@[simp] theorem isPauseOrResume_recompileAllJSFunctions  :
    Event.isPauseOrResume Event.recompileAllJSFunctions = false := rfl

@[simp] theorem isPauseOrResume_evaluate (s : String) :
    Event.isPauseOrResume (Event.evaluate s) = false := rfl

@[simp] theorem isPauseOrResume_reportException (g : Option GlobalObject) (e : JSValue) :
    Event.isPauseOrResume (Event.reportException g e) = false := rfl

@[simp] theorem isPauseOrResume_clientWillEvaluate (a : Action) :
    Event.isPauseOrResume (Event.clientWillEvaluate a) = false := rfl

@[simp] theorem isPauseOrResume_clientDidEvaluate (a : Action) :
    Event.isPauseOrResume (Event.clientDidEvaluate a) = false := rfl

@[simp] theorem isPauseOrResume_observerFailedToParseSource (o : Observer) (t : List UChar) (f l : Int) (m : String) :
    Event.isPauseOrResume (Event.observerFailedToParseSource o t f l m) = false := rfl

@[simp] theorem isPauseOrResume_observerDidParseSource (o : Observer) (i : SourceID) (s : Script) :
    Event.isPauseOrResume (Event.observerDidParseSource o i s) = false := rfl

@[simp] theorem isPauseOrResume_hookDidPause (g : Option GlobalObject) :
    Event.isPauseOrResume (Event.hookDidPause g) = true := rfl

@[simp] theorem isPauseOrResume_observerDidDeferBreakpointPause (o : Observer) (i : BreakpointID) :
    Event.isPauseOrResume (Event.observerDidDeferBreakpointPause o i) = false := rfl

@[simp] theorem notifications_logEvent (e : Event) (d : Debugger) (h : e.isPauseOrResume = false) :
    (logEvent e d).log.filter Event.isPauseOrResume = d.log.filter Event.isPauseOrResume := by
  simp [logEvent, List.filter_append, h]

@[simp] theorem notifications_recompileAllJSFunctions (d : Debugger) :
    (recompileAllJSFunctions d).log.filter Event.isPauseOrResume = d.log.filter Event.isPauseOrResume := by
  simp [recompileAllJSFunctions]

@[simp] theorem notifications_attachDebugger (d : Debugger) :
    (attachDebugger d).log.filter Event.isPauseOrResume = d.log.filter Event.isPauseOrResume := by
  simp [attachDebugger]

@[simp] theorem notifications_detachDebugger (b : Bool) (d : Debugger) :
    (detachDebugger b d).log.filter Event.isPauseOrResume = d.log.filter Event.isPauseOrResume := by
  simp [detachDebugger]

@[simp] theorem notifications_dispatchFunctionToObservers (func : Observer → Debugger → Debugger)
    (d : Debugger) (h : ∀ o x, (func o x).log.filter Event.isPauseOrResume = x.log.filter Event.isPauseOrResume) :
    (dispatchFunctionToObservers func d).log.filter Event.isPauseOrResume = d.log.filter Event.isPauseOrResume :=
  dispatchFunctionToObservers_preserves (fun y => y.log.filter Event.isPauseOrResume) func h d

@[simp] theorem notifications_setSteppingMode (m : SteppingMode) (d : Debugger) :
    (setSteppingMode m d).log.filter Event.isPauseOrResume = d.log.filter Event.isPauseOrResume := by
  unfold setSteppingMode; split <;> rfl

@[simp] theorem notifications_setBreakpoint (b : Breakpoint) (d : Debugger) :
    (setBreakpoint b d).2.log.filter Event.isPauseOrResume = d.log.filter Event.isPauseOrResume := by
  unfold setBreakpoint; simp only []; split <;> rfl

@[simp] theorem notifications_removeBreakpoint (b : Breakpoint) (d : Debugger) :
    (removeBreakpoint b d).2.log.filter Event.isPauseOrResume = d.log.filter Event.isPauseOrResume := by
  unfold removeBreakpoint
  split
  · rfl
  · split <;> rfl

@[simp] theorem notifications_clearBreakpoints (d : Debugger) :
    (clearBreakpoints d).log.filter Event.isPauseOrResume = d.log.filter Event.isPauseOrResume := rfl

@[simp] theorem notifications_setBreakpointsActivated (a : Bool) (d : Debugger) :
    (setBreakpointsActivated a d).log.filter Event.isPauseOrResume = d.log.filter Event.isPauseOrResume := by
  unfold setBreakpointsActivated; split <;> simp

@[simp] theorem notifications_schedulePauseAtNextOpportunity (d : Debugger) :
    (schedulePauseAtNextOpportunity d).log.filter Event.isPauseOrResume = d.log.filter Event.isPauseOrResume := by
  simp [schedulePauseAtNextOpportunity]

@[simp] theorem notifications_cancelPauseAtNextOpportunity (d : Debugger) :
    (cancelPauseAtNextOpportunity d).log.filter Event.isPauseOrResume = d.log.filter Event.isPauseOrResume := rfl

@[simp] theorem notifications_schedulePauseForSpecialBreakpoint (b : Breakpoint) (d : Debugger) :
    (schedulePauseForSpecialBreakpoint b d).2.log.filter Event.isPauseOrResume = d.log.filter Event.isPauseOrResume := by
  unfold schedulePauseForSpecialBreakpoint; split <;> simp

@[simp] theorem notifications_cancelPauseForSpecialBreakpoint (b : Breakpoint) (d : Debugger) :
    (cancelPauseForSpecialBreakpoint b d).2.log.filter Event.isPauseOrResume = d.log.filter Event.isPauseOrResume := by
  unfold cancelPauseForSpecialBreakpoint; split <;> rfl

@[simp] theorem notifications_resetImmediatePauseState (d : Debugger) :
    (resetImmediatePauseState d).log.filter Event.isPauseOrResume = d.log.filter Event.isPauseOrResume := rfl

@[simp] theorem notifications_resetEventualPauseState (d : Debugger) :
    (resetEventualPauseState d).log.filter Event.isPauseOrResume = d.log.filter Event.isPauseOrResume := rfl

@[simp] theorem notifications_continueProgram (d : Debugger) :
    (continueProgram d).log.filter Event.isPauseOrResume = d.log.filter Event.isPauseOrResume := by
  unfold continueProgram; simp only []; split <;> rfl

@[simp] theorem notifications_stepNextExpression (d : Debugger) :
    (stepNextExpression d).log.filter Event.isPauseOrResume = d.log.filter Event.isPauseOrResume := by
  unfold stepNextExpression; split <;> simp

@[simp] theorem notifications_stepIntoStatement (d : Debugger) :
    (stepIntoStatement d).log.filter Event.isPauseOrResume = d.log.filter Event.isPauseOrResume := by
  unfold stepIntoStatement; split <;> simp

@[simp] theorem notifications_stepOverStatement (d : Debugger) :
    (stepOverStatement d).log.filter Event.isPauseOrResume = d.log.filter Event.isPauseOrResume := by
  unfold stepOverStatement; split <;> simp

@[simp] theorem notifications_stepOutOfFunction (env : Env) (d : Debugger) :
    (stepOutOfFunction env d).log.filter Event.isPauseOrResume = d.log.filter Event.isPauseOrResume := by
  unfold stepOutOfFunction; split <;> simp

@[simp] theorem notifications_setBlackboxConfiguration (s : SourceID) (c : BlackboxConfiguration)
    (d : Debugger) : (setBlackboxConfiguration s c d).log.filter Event.isPauseOrResume = d.log.filter Event.isPauseOrResume := by
  unfold setBlackboxConfiguration; split <;> rfl

@[simp] theorem notifications_setBlackboxBreakpointEvaluations (v : Bool) (d : Debugger) :
    (setBlackboxBreakpointEvaluations v d).log.filter Event.isPauseOrResume = d.log.filter Event.isPauseOrResume := rfl

@[simp] theorem notifications_clearBlackbox (d : Debugger) :
    (clearBlackbox d).log.filter Event.isPauseOrResume = d.log.filter Event.isPauseOrResume := rfl

@[simp] theorem notifications_addObserver (o : Observer) (d : Debugger) :
    (addObserver o d).log.filter Event.isPauseOrResume = d.log.filter Event.isPauseOrResume := by
  unfold addObserver; simp only []; split <;> simp

@[simp] theorem notifications_removeObserver (o : Observer) (b : Bool) (d : Debugger) :
    (removeObserver o b d).log.filter Event.isPauseOrResume = d.log.filter Event.isPauseOrResume := by
  unfold removeObserver; simp only []; split <;> simp

@[simp] theorem notifications_detach (env : Env) (g : GlobalObject) (r : ReasonForDetach)
    (d : Debugger) : (detach env g r d).log.filter Event.isPauseOrResume = d.log.filter Event.isPauseOrResume := by
  unfold detach
  simp only []
  split <;> split <;> simp [clearParsedData]

@[simp] theorem notifications_runCommand (env : Env) (c : ClientCommand) (d : Debugger) :
    (runCommand env c d).log.filter Event.isPauseOrResume = d.log.filter Event.isPauseOrResume := by
  cases c <;> simp [runCommand]

@[simp] theorem notifications_runCommands (env : Env) (cs : List ClientCommand) (d : Debugger) :
    (runCommands env cs d).log.filter Event.isPauseOrResume = d.log.filter Event.isPauseOrResume :=
  foldl_preserves (fun x => x.log.filter Event.isPauseOrResume) (runCommand env) (notifications_runCommand env) cs d

@[simp] theorem notifications_runEventLoopWhilePaused (env : Env) (cs : List ClientCommand)
    (d : Debugger) : (runEventLoopWhilePaused env cs d).log.filter Event.isPauseOrResume = d.log.filter Event.isPauseOrResume := by
  induction cs generalizing d with
  | nil => rfl
  | cons c rest ih =>
    unfold runEventLoopWhilePaused
    split
    · rfl
    · rw [ih]; simp

@[simp] theorem notifications_currentDebuggerCallFrame (d : Debugger) :
    (currentDebuggerCallFrame d).log.filter Event.isPauseOrResume = d.log.filter Event.isPauseOrResume := by
  unfold currentDebuggerCallFrame; split <;> rfl

@[simp] theorem notifications_evaluateWithScopeExtension (env : Env) (s : String) (d : Debugger) :
    (evaluateWithScopeExtension env s d).2.log.filter Event.isPauseOrResume = d.log.filter Event.isPauseOrResume := by
  simp [evaluateWithScopeExtension]

@[simp] theorem notifications_reportException (g : Option GlobalObject) (e : JSValue) (d : Debugger) :
    (reportException g e d).log.filter Event.isPauseOrResume = d.log.filter Event.isPauseOrResume := by
  simp [reportException]

@[simp] theorem notifications_evaluateBreakpointCondition (env : Env) (b : Breakpoint)
    (g : Option GlobalObject) (d : Debugger) :
    (evaluateBreakpointCondition env b g d).2.log.filter Event.isPauseOrResume = d.log.filter Event.isPauseOrResume := by
  unfold evaluateBreakpointCondition
  simp only []
  split
  · rfl
  · split
    · simp
    · split <;> simp

@[simp] theorem notifications_shouldPause (env : Env) (b : Breakpoint)
    (g : Option GlobalObject) (d : Debugger) :
    (shouldPause env b g d).2.log.filter Event.isPauseOrResume = d.log.filter Event.isPauseOrResume := by
  simp [shouldPause]

@[simp] theorem notifications_evaluateBreakpointAction (env : Env) (a : Action)
    (g : Option GlobalObject) (d : Debugger) :
    (evaluateBreakpointAction env a g d).log.filter Event.isPauseOrResume = d.log.filter Event.isPauseOrResume := by
  unfold evaluateBreakpointAction
  simp only []
  have hwill : ∀ (x : Debugger),
      (if x.m_hasClient = true then logEvent (Event.clientWillEvaluate a) x else x).log.filter
          Event.isPauseOrResume = x.log.filter Event.isPauseOrResume := by
    intro x; split <;> simp
  have hdid : ∀ (x : Debugger),
      (if x.m_hasClient = true then logEvent (Event.clientDidEvaluate a) x else x).log.filter
          Event.isPauseOrResume = x.log.filter Event.isPauseOrResume := by
    intro x; split <;> simp
  rw [hdid]
  cases a.type with
  | Log => simp [hwill]
  | Evaluate =>
    simp only []
    split <;> simp [hwill]
  | Sound => simp [hwill]
  | Probe =>
    simp only []
    split <;> simp [hwill]

@[simp] theorem notifications_evaluateBreakpointActionsLoop (env : Env) (g : Option GlobalObject)
    (actions : List Action) (d : Debugger) :
    (evaluateBreakpointActionsLoop env g actions d).log.filter Event.isPauseOrResume = d.log.filter Event.isPauseOrResume := by
  induction actions generalizing d with
  | nil => rfl
  | cons a rest ih =>
    unfold evaluateBreakpointActionsLoop
    simp only []
    split
    · simp
    · rw [ih]; simp

@[simp] theorem notifications_evaluateBreakpointActions (env : Env) (b : Breakpoint)
    (g : Option GlobalObject) (d : Debugger) :
    (evaluateBreakpointActions env b g d).log.filter Event.isPauseOrResume = d.log.filter Event.isPauseOrResume := by
  simp [evaluateBreakpointActions]


@[simp] theorem notifications_deferredBreakpointsLoop (env : Env) (g : Option GlobalObject)
    (bps : List Breakpoint) (st : DeferredLoopState) (d : Debugger) :
    (deferredBreakpointsLoop env g bps st d).2.log.filter Event.isPauseOrResume = d.log.filter Event.isPauseOrResume := by
  induction bps generalizing st d with
  | nil => rfl
  | cons b rest ih =>
    unfold deferredBreakpointsLoop
    simp only []
    split
    · simp
    · split
      · rw [ih]; simp
      · split
        · simp
        · split <;> (rw [ih]; simp)

@[simp] theorem notifications_evaluateDeferredBreakpoints (env : Env) (g : Option GlobalObject)
    (step : Bool) (d : Debugger) :
    (evaluateDeferredBreakpoints env g step d).2.log.filter Event.isPauseOrResume = d.log.filter Event.isPauseOrResume := by
  unfold evaluateDeferredBreakpoints
  split
  · rfl
  · simp only []
    have h := notifications_deferredBreakpointsLoop env g d.m_deferredBreakpoints {}
      { d with m_deferredBreakpoints := [] }
    split
    · rename_i heq; rw [heq] at h; exact h
    · rename_i heq; rw [heq] at h
      split
      · split <;> exact h
      · split <;> exact h


end Debugger
end JSC


namespace JSC
namespace Debugger

theorem m_currentProbeBatchId_ite (c : Prop) [Decidable c] (a b : Debugger) :
    (if c then a else b).m_currentProbeBatchId = if c then a.m_currentProbeBatchId else b.m_currentProbeBatchId := by
  split <;> rfl

@[simp] theorem m_currentProbeBatchId_logEvent (e : Event) (d : Debugger) :
    (logEvent e d).m_currentProbeBatchId = d.m_currentProbeBatchId := rfl

@[simp] theorem m_currentProbeBatchId_dispatchFunctionToObservers (func : Observer → Debugger → Debugger)
    (d : Debugger) (h : ∀ o x, (func o x).m_currentProbeBatchId = x.m_currentProbeBatchId) :
    (dispatchFunctionToObservers func d).m_currentProbeBatchId = d.m_currentProbeBatchId :=
  dispatchFunctionToObservers_preserves (fun y => y.m_currentProbeBatchId) func h d

@[simp] theorem m_currentProbeBatchId_setSteppingMode (m : SteppingMode) (d : Debugger) :
    (setSteppingMode m d).m_currentProbeBatchId = d.m_currentProbeBatchId := by
  unfold setSteppingMode; split <;> rfl

@[simp] theorem m_currentProbeBatchId_setBreakpoint (b : Breakpoint) (d : Debugger) :
    (setBreakpoint b d).2.m_currentProbeBatchId = d.m_currentProbeBatchId := by
  unfold setBreakpoint; simp only []; split <;> rfl

@[simp] theorem m_currentProbeBatchId_removeBreakpoint (b : Breakpoint) (d : Debugger) :
    (removeBreakpoint b d).2.m_currentProbeBatchId = d.m_currentProbeBatchId := by
  unfold removeBreakpoint
  split
  · rfl
  · split <;> rfl

@[simp] theorem m_currentProbeBatchId_clearBreakpoints (d : Debugger) :
    (clearBreakpoints d).m_currentProbeBatchId = d.m_currentProbeBatchId := rfl

@[simp] theorem m_currentProbeBatchId_setBreakpointsActivated (a : Bool) (d : Debugger) :
    (setBreakpointsActivated a d).m_currentProbeBatchId = d.m_currentProbeBatchId := by
  unfold setBreakpointsActivated; split <;> rfl

@[simp] theorem m_currentProbeBatchId_schedulePauseAtNextOpportunity (d : Debugger) :
    (schedulePauseAtNextOpportunity d).m_currentProbeBatchId = d.m_currentProbeBatchId := by
  simp [schedulePauseAtNextOpportunity]

@[simp] theorem m_currentProbeBatchId_cancelPauseAtNextOpportunity (d : Debugger) :
    (cancelPauseAtNextOpportunity d).m_currentProbeBatchId = d.m_currentProbeBatchId := rfl

@[simp] theorem m_currentProbeBatchId_schedulePauseForSpecialBreakpoint (b : Breakpoint) (d : Debugger) :
    (schedulePauseForSpecialBreakpoint b d).2.m_currentProbeBatchId = d.m_currentProbeBatchId := by
  unfold schedulePauseForSpecialBreakpoint; split <;> simp

@[simp] theorem m_currentProbeBatchId_cancelPauseForSpecialBreakpoint (b : Breakpoint) (d : Debugger) :
    (cancelPauseForSpecialBreakpoint b d).2.m_currentProbeBatchId = d.m_currentProbeBatchId := by
  unfold cancelPauseForSpecialBreakpoint; split <;> rfl

@[simp] theorem m_currentProbeBatchId_resetImmediatePauseState (d : Debugger) :
    (resetImmediatePauseState d).m_currentProbeBatchId = d.m_currentProbeBatchId := rfl

@[simp] theorem m_currentProbeBatchId_resetEventualPauseState (d : Debugger) :
    (resetEventualPauseState d).m_currentProbeBatchId = d.m_currentProbeBatchId := rfl

@[simp] theorem m_currentProbeBatchId_continueProgram (d : Debugger) :
    (continueProgram d).m_currentProbeBatchId = d.m_currentProbeBatchId := by
  unfold continueProgram; simp only []; split <;> rfl

@[simp] theorem m_currentProbeBatchId_stepNextExpression (d : Debugger) :
    (stepNextExpression d).m_currentProbeBatchId = d.m_currentProbeBatchId := by
  unfold stepNextExpression; split <;> simp

@[simp] theorem m_currentProbeBatchId_stepIntoStatement (d : Debugger) :
    (stepIntoStatement d).m_currentProbeBatchId = d.m_currentProbeBatchId := by
  unfold stepIntoStatement; split <;> simp

@[simp] theorem m_currentProbeBatchId_stepOverStatement (d : Debugger) :
    (stepOverStatement d).m_currentProbeBatchId = d.m_currentProbeBatchId := by
  unfold stepOverStatement; split <;> simp

@[simp] theorem m_currentProbeBatchId_stepOutOfFunction (env : Env) (d : Debugger) :
    (stepOutOfFunction env d).m_currentProbeBatchId = d.m_currentProbeBatchId := by
  unfold stepOutOfFunction; split <;> simp

@[simp] theorem m_currentProbeBatchId_setBlackboxConfiguration (s : SourceID) (c : BlackboxConfiguration)
    (d : Debugger) : (setBlackboxConfiguration s c d).m_currentProbeBatchId = d.m_currentProbeBatchId := by
  unfold setBlackboxConfiguration; split <;> rfl

@[simp] theorem m_currentProbeBatchId_setBlackboxBreakpointEvaluations (v : Bool) (d : Debugger) :
    (setBlackboxBreakpointEvaluations v d).m_currentProbeBatchId = d.m_currentProbeBatchId := rfl

@[simp] theorem m_currentProbeBatchId_clearBlackbox (d : Debugger) :
    (clearBlackbox d).m_currentProbeBatchId = d.m_currentProbeBatchId := rfl

@[simp] theorem m_currentProbeBatchId_addObserver (o : Observer) (d : Debugger) :
    (addObserver o d).m_currentProbeBatchId = d.m_currentProbeBatchId := by
  unfold addObserver; simp only []; split <;> rfl

@[simp] theorem m_currentProbeBatchId_removeObserver (o : Observer) (b : Bool) (d : Debugger) :
    (removeObserver o b d).m_currentProbeBatchId = d.m_currentProbeBatchId := by
  unfold removeObserver; simp only []; split <;> rfl

@[simp] theorem m_currentProbeBatchId_detach (env : Env) (g : GlobalObject) (r : ReasonForDetach)
    (d : Debugger) : (detach env g r d).m_currentProbeBatchId = d.m_currentProbeBatchId := by
  unfold detach
  simp only []
  split <;> split <;> simp [clearParsedData]

@[simp] theorem m_currentProbeBatchId_runCommand (env : Env) (c : ClientCommand) (d : Debugger) :
    (runCommand env c d).m_currentProbeBatchId = d.m_currentProbeBatchId := by
  cases c <;> simp [runCommand]

@[simp] theorem m_currentProbeBatchId_runCommands (env : Env) (cs : List ClientCommand) (d : Debugger) :
    (runCommands env cs d).m_currentProbeBatchId = d.m_currentProbeBatchId :=
  foldl_preserves (fun x => x.m_currentProbeBatchId) (runCommand env) (m_currentProbeBatchId_runCommand env) cs d

@[simp] theorem m_currentProbeBatchId_runEventLoopWhilePaused (env : Env) (cs : List ClientCommand)
    (d : Debugger) : (runEventLoopWhilePaused env cs d).m_currentProbeBatchId = d.m_currentProbeBatchId := by
  induction cs generalizing d with
  | nil => rfl
  | cons c rest ih =>
    unfold runEventLoopWhilePaused
    split
    · rfl
    · rw [ih]; simp

@[simp] theorem m_currentProbeBatchId_currentDebuggerCallFrame (d : Debugger) :
    (currentDebuggerCallFrame d).m_currentProbeBatchId = d.m_currentProbeBatchId := by
  unfold currentDebuggerCallFrame; split <;> rfl

@[simp] theorem m_currentProbeBatchId_evaluateWithScopeExtension (env : Env) (s : String) (d : Debugger) :
    (evaluateWithScopeExtension env s d).2.m_currentProbeBatchId = d.m_currentProbeBatchId := by
  simp [evaluateWithScopeExtension]

@[simp] theorem m_currentProbeBatchId_reportException (g : Option GlobalObject) (e : JSValue) (d : Debugger) :
    (reportException g e d).m_currentProbeBatchId = d.m_currentProbeBatchId := rfl

@[simp] theorem m_currentProbeBatchId_evaluateBreakpointCondition (env : Env) (b : Breakpoint)
    (g : Option GlobalObject) (d : Debugger) :
    (evaluateBreakpointCondition env b g d).2.m_currentProbeBatchId = d.m_currentProbeBatchId := by
  unfold evaluateBreakpointCondition
  simp only []
  split
  · rfl
  · split
    · simp
    · split <;> simp

@[simp] theorem m_currentProbeBatchId_shouldPause (env : Env) (b : Breakpoint)
    (g : Option GlobalObject) (d : Debugger) :
    (shouldPause env b g d).2.m_currentProbeBatchId = d.m_currentProbeBatchId := by
  simp [shouldPause]

@[simp] theorem m_currentProbeBatchId_evaluateBreakpointAction (env : Env) (a : Action)
    (g : Option GlobalObject) (d : Debugger) :
    (evaluateBreakpointAction env a g d).m_currentProbeBatchId = d.m_currentProbeBatchId := by
  unfold evaluateBreakpointAction
  simp only []
  have hclient : ∀ (e : Event) (x : Debugger),
      (if x.m_hasClient = true then logEvent e x else x).m_currentProbeBatchId = x.m_currentProbeBatchId := by
    intro e x; split <;> rfl
  rw [hclient]
  cases a.type with
  | Log => simp [hclient]
  | Evaluate =>
    simp only []
    split <;> simp [hclient]
  | Sound => simp [hclient]
  | Probe =>
    simp only []
    split <;> simp [hclient]

@[simp] theorem m_currentProbeBatchId_evaluateBreakpointActionsLoop (env : Env) (g : Option GlobalObject)
    (actions : List Action) (d : Debugger) :
    (evaluateBreakpointActionsLoop env g actions d).m_currentProbeBatchId = d.m_currentProbeBatchId := by
  induction actions generalizing d with
  | nil => rfl
  | cons a rest ih =>
    unfold evaluateBreakpointActionsLoop
    simp only []
    split
    · simp
    · rw [ih]; simp

@[simp] theorem m_currentProbeBatchId_handlePause (env : Env) (g : Option GlobalObject) (d : Debugger) :
    (handlePause env g d).m_currentProbeBatchId = d.m_currentProbeBatchId := by
  simp [handlePause]

@[simp] theorem m_currentProbeBatchId_shouldDeferPause (f : BlackboxFlags) (d : Debugger) :
    (shouldDeferPause f d).2.m_currentProbeBatchId = d.m_currentProbeBatchId := by
  unfold shouldDeferPause
  split
  · rfl
  · simp only [m_currentProbeBatchId_schedulePauseAtNextOpportunity]
    split <;> simp

@[simp] theorem m_currentProbeBatchId_pauseNow (env : Env) (g : Option GlobalObject) (a b : Bool)
    (d : Debugger) : (pauseNow env g a b d).m_currentProbeBatchId = d.m_currentProbeBatchId := by
  simp [pauseNow, m_currentProbeBatchId_ite]
end Debugger
end JSC


namespace JSC
namespace Debugger

theorem m_specialBreakpoint_ite (c : Prop) [Decidable c] (a b : Debugger) :
    (if c then a else b).m_specialBreakpoint = if c then a.m_specialBreakpoint else b.m_specialBreakpoint := by
  split <;> rfl

@[simp] theorem m_specialBreakpoint_logEvent (e : Event) (d : Debugger) :
    (logEvent e d).m_specialBreakpoint = d.m_specialBreakpoint := rfl

@[simp] theorem m_specialBreakpoint_dispatchFunctionToObservers (func : Observer → Debugger → Debugger)
    (d : Debugger) (h : ∀ o x, (func o x).m_specialBreakpoint = x.m_specialBreakpoint) :
    (dispatchFunctionToObservers func d).m_specialBreakpoint = d.m_specialBreakpoint :=
  dispatchFunctionToObservers_preserves (fun y => y.m_specialBreakpoint) func h d

@[simp] theorem m_specialBreakpoint_setSteppingMode (m : SteppingMode) (d : Debugger) :
    (setSteppingMode m d).m_specialBreakpoint = d.m_specialBreakpoint := by
  unfold setSteppingMode; split <;> rfl

@[simp] theorem m_specialBreakpoint_setBreakpoint (b : Breakpoint) (d : Debugger) :
    (setBreakpoint b d).2.m_specialBreakpoint = d.m_specialBreakpoint := by
  unfold setBreakpoint; simp only []; split <;> rfl

@[simp] theorem m_specialBreakpoint_removeBreakpoint (b : Breakpoint) (d : Debugger) :
    (removeBreakpoint b d).2.m_specialBreakpoint = d.m_specialBreakpoint := by
  unfold removeBreakpoint
  split
  · rfl
  · split <;> rfl

@[simp] theorem m_specialBreakpoint_setBreakpointsActivated (a : Bool) (d : Debugger) :
    (setBreakpointsActivated a d).m_specialBreakpoint = d.m_specialBreakpoint := by
  unfold setBreakpointsActivated; split <;> rfl

@[simp] theorem m_specialBreakpoint_schedulePauseAtNextOpportunity (d : Debugger) :
    (schedulePauseAtNextOpportunity d).m_specialBreakpoint = d.m_specialBreakpoint := by
  simp [schedulePauseAtNextOpportunity]

@[simp] theorem m_specialBreakpoint_cancelPauseAtNextOpportunity (d : Debugger) :
    (cancelPauseAtNextOpportunity d).m_specialBreakpoint = d.m_specialBreakpoint := rfl

@[simp] theorem m_specialBreakpoint_resetEventualPauseState (d : Debugger) :
    (resetEventualPauseState d).m_specialBreakpoint = d.m_specialBreakpoint := rfl

@[simp] theorem m_specialBreakpoint_stepNextExpression (d : Debugger) :
    (stepNextExpression d).m_specialBreakpoint = d.m_specialBreakpoint := by
  unfold stepNextExpression; split <;> simp

@[simp] theorem m_specialBreakpoint_stepIntoStatement (d : Debugger) :
    (stepIntoStatement d).m_specialBreakpoint = d.m_specialBreakpoint := by
  unfold stepIntoStatement; split <;> simp

@[simp] theorem m_specialBreakpoint_stepOverStatement (d : Debugger) :
    (stepOverStatement d).m_specialBreakpoint = d.m_specialBreakpoint := by
  unfold stepOverStatement; split <;> simp

@[simp] theorem m_specialBreakpoint_stepOutOfFunction (env : Env) (d : Debugger) :
    (stepOutOfFunction env d).m_specialBreakpoint = d.m_specialBreakpoint := by
  unfold stepOutOfFunction; split <;> simp

@[simp] theorem m_specialBreakpoint_setBlackboxConfiguration (s : SourceID) (c : BlackboxConfiguration)
    (d : Debugger) : (setBlackboxConfiguration s c d).m_specialBreakpoint = d.m_specialBreakpoint := by
  unfold setBlackboxConfiguration; split <;> rfl

@[simp] theorem m_specialBreakpoint_setBlackboxBreakpointEvaluations (v : Bool) (d : Debugger) :
    (setBlackboxBreakpointEvaluations v d).m_specialBreakpoint = d.m_specialBreakpoint := rfl

@[simp] theorem m_specialBreakpoint_clearBlackbox (d : Debugger) :
    (clearBlackbox d).m_specialBreakpoint = d.m_specialBreakpoint := rfl

@[simp] theorem m_specialBreakpoint_addObserver (o : Observer) (d : Debugger) :
    (addObserver o d).m_specialBreakpoint = d.m_specialBreakpoint := by
  unfold addObserver; simp only []; split <;> rfl

@[simp] theorem m_specialBreakpoint_removeObserver (o : Observer) (b : Bool) (d : Debugger) :
    (removeObserver o b d).m_specialBreakpoint = d.m_specialBreakpoint := by
  unfold removeObserver; simp only []; split <;> rfl

@[simp] theorem m_specialBreakpoint_currentDebuggerCallFrame (d : Debugger) :
    (currentDebuggerCallFrame d).m_specialBreakpoint = d.m_specialBreakpoint := by
  unfold currentDebuggerCallFrame; split <;> rfl

@[simp] theorem m_specialBreakpoint_reportException (g : Option GlobalObject) (e : JSValue) (d : Debugger) :
    (reportException g e d).m_specialBreakpoint = d.m_specialBreakpoint := rfl
theorem m_steppingMode_ite (c : Prop) [Decidable c] (a b : Debugger) :
    (if c then a else b).m_steppingMode = if c then a.m_steppingMode else b.m_steppingMode := by
  split <;> rfl

@[simp] theorem m_steppingMode_logEvent (e : Event) (d : Debugger) :
    (logEvent e d).m_steppingMode = d.m_steppingMode := rfl

@[simp] theorem m_steppingMode_dispatchFunctionToObservers (func : Observer → Debugger → Debugger)
    (d : Debugger) (h : ∀ o x, (func o x).m_steppingMode = x.m_steppingMode) :
    (dispatchFunctionToObservers func d).m_steppingMode = d.m_steppingMode :=
  dispatchFunctionToObservers_preserves (fun y => y.m_steppingMode) func h d

@[simp] theorem m_steppingMode_setBreakpoint (b : Breakpoint) (d : Debugger) :
    (setBreakpoint b d).2.m_steppingMode = d.m_steppingMode := by
  unfold setBreakpoint; simp only []; split <;> rfl

@[simp] theorem m_steppingMode_removeBreakpoint (b : Breakpoint) (d : Debugger) :
    (removeBreakpoint b d).2.m_steppingMode = d.m_steppingMode := by
  unfold removeBreakpoint
  split
  · rfl
  · split <;> rfl

@[simp] theorem m_steppingMode_clearBreakpoints (d : Debugger) :
    (clearBreakpoints d).m_steppingMode = d.m_steppingMode := rfl

@[simp] theorem m_steppingMode_setBreakpointsActivated (a : Bool) (d : Debugger) :
    (setBreakpointsActivated a d).m_steppingMode = d.m_steppingMode := by
  unfold setBreakpointsActivated; split <;> rfl

@[simp] theorem m_steppingMode_cancelPauseAtNextOpportunity (d : Debugger) :
    (cancelPauseAtNextOpportunity d).m_steppingMode = d.m_steppingMode := rfl

@[simp] theorem m_steppingMode_cancelPauseForSpecialBreakpoint (b : Breakpoint) (d : Debugger) :
    (cancelPauseForSpecialBreakpoint b d).2.m_steppingMode = d.m_steppingMode := by
  unfold cancelPauseForSpecialBreakpoint; split <;> rfl

@[simp] theorem m_steppingMode_resetImmediatePauseState (d : Debugger) :
    (resetImmediatePauseState d).m_steppingMode = d.m_steppingMode := rfl

@[simp] theorem m_steppingMode_resetEventualPauseState (d : Debugger) :
    (resetEventualPauseState d).m_steppingMode = d.m_steppingMode := rfl

@[simp] theorem m_steppingMode_continueProgram (d : Debugger) :
    (continueProgram d).m_steppingMode = d.m_steppingMode := by
  unfold continueProgram; simp only []; split <;> rfl

@[simp] theorem m_steppingMode_setBlackboxConfiguration (s : SourceID) (c : BlackboxConfiguration)
    (d : Debugger) : (setBlackboxConfiguration s c d).m_steppingMode = d.m_steppingMode := by
  unfold setBlackboxConfiguration; split <;> rfl

@[simp] theorem m_steppingMode_setBlackboxBreakpointEvaluations (v : Bool) (d : Debugger) :
    (setBlackboxBreakpointEvaluations v d).m_steppingMode = d.m_steppingMode := rfl

@[simp] theorem m_steppingMode_clearBlackbox (d : Debugger) :
    (clearBlackbox d).m_steppingMode = d.m_steppingMode := rfl

@[simp] theorem m_steppingMode_addObserver (o : Observer) (d : Debugger) :
    (addObserver o d).m_steppingMode = d.m_steppingMode := by
  unfold addObserver; simp only []; split <;> rfl

@[simp] theorem m_steppingMode_removeObserver (o : Observer) (b : Bool) (d : Debugger) :
    (removeObserver o b d).m_steppingMode = d.m_steppingMode := by
  unfold removeObserver; simp only []; split <;> rfl

@[simp] theorem m_steppingMode_detach (env : Env) (g : GlobalObject) (r : ReasonForDetach)
    (d : Debugger) : (detach env g r d).m_steppingMode = d.m_steppingMode := by
  unfold detach
  simp only []
  split <;> split <;> simp [clearParsedData]

@[simp] theorem m_steppingMode_currentDebuggerCallFrame (d : Debugger) :
    (currentDebuggerCallFrame d).m_steppingMode = d.m_steppingMode := by
  unfold currentDebuggerCallFrame; split <;> rfl

@[simp] theorem m_steppingMode_reportException (g : Option GlobalObject) (e : JSValue) (d : Debugger) :
    (reportException g e d).m_steppingMode = d.m_steppingMode := rfl
end Debugger
end JSC


namespace JSC
namespace Debugger

theorem m_isPaused_ite (c : Prop) [Decidable c] (a b : Debugger) :
    (if c then a else b).m_isPaused = if c then a.m_isPaused else b.m_isPaused := by
  split <;> rfl

@[simp] theorem m_isPaused_logEvent (e : Event) (d : Debugger) :
    (logEvent e d).m_isPaused = d.m_isPaused := rfl

@[simp] theorem m_isPaused_dispatchFunctionToObservers (func : Observer → Debugger → Debugger)
    (d : Debugger) (h : ∀ o x, (func o x).m_isPaused = x.m_isPaused) :
    (dispatchFunctionToObservers func d).m_isPaused = d.m_isPaused :=
  dispatchFunctionToObservers_preserves (fun y => y.m_isPaused) func h d

@[simp] theorem m_isPaused_setSteppingMode (m : SteppingMode) (d : Debugger) :
    (setSteppingMode m d).m_isPaused = d.m_isPaused := by
  unfold setSteppingMode; split <;> rfl

@[simp] theorem m_isPaused_setBreakpoint (b : Breakpoint) (d : Debugger) :
    (setBreakpoint b d).2.m_isPaused = d.m_isPaused := by
  unfold setBreakpoint; simp only []; split <;> rfl

@[simp] theorem m_isPaused_removeBreakpoint (b : Breakpoint) (d : Debugger) :
    (removeBreakpoint b d).2.m_isPaused = d.m_isPaused := by
  unfold removeBreakpoint
  split
  · rfl
  · split <;> rfl

@[simp] theorem m_isPaused_clearBreakpoints (d : Debugger) :
    (clearBreakpoints d).m_isPaused = d.m_isPaused := rfl

@[simp] theorem m_isPaused_setBreakpointsActivated (a : Bool) (d : Debugger) :
    (setBreakpointsActivated a d).m_isPaused = d.m_isPaused := by
  unfold setBreakpointsActivated; split <;> rfl

@[simp] theorem m_isPaused_schedulePauseAtNextOpportunity (d : Debugger) :
    (schedulePauseAtNextOpportunity d).m_isPaused = d.m_isPaused := by
  simp [schedulePauseAtNextOpportunity]

@[simp] theorem m_isPaused_cancelPauseAtNextOpportunity (d : Debugger) :
    (cancelPauseAtNextOpportunity d).m_isPaused = d.m_isPaused := rfl

@[simp] theorem m_isPaused_schedulePauseForSpecialBreakpoint (b : Breakpoint) (d : Debugger) :
    (schedulePauseForSpecialBreakpoint b d).2.m_isPaused = d.m_isPaused := by
  unfold schedulePauseForSpecialBreakpoint; split <;> simp

@[simp] theorem m_isPaused_cancelPauseForSpecialBreakpoint (b : Breakpoint) (d : Debugger) :
    (cancelPauseForSpecialBreakpoint b d).2.m_isPaused = d.m_isPaused := by
  unfold cancelPauseForSpecialBreakpoint; split <;> rfl

@[simp] theorem m_isPaused_resetImmediatePauseState (d : Debugger) :
    (resetImmediatePauseState d).m_isPaused = d.m_isPaused := rfl

@[simp] theorem m_isPaused_resetEventualPauseState (d : Debugger) :
    (resetEventualPauseState d).m_isPaused = d.m_isPaused := rfl

@[simp] theorem m_isPaused_continueProgram (d : Debugger) :
    (continueProgram d).m_isPaused = d.m_isPaused := by
  unfold continueProgram; simp only []; split <;> rfl

@[simp] theorem m_isPaused_stepNextExpression (d : Debugger) :
    (stepNextExpression d).m_isPaused = d.m_isPaused := by
  unfold stepNextExpression; split <;> simp

@[simp] theorem m_isPaused_stepIntoStatement (d : Debugger) :
    (stepIntoStatement d).m_isPaused = d.m_isPaused := by
  unfold stepIntoStatement; split <;> simp

@[simp] theorem m_isPaused_stepOverStatement (d : Debugger) :
    (stepOverStatement d).m_isPaused = d.m_isPaused := by
  unfold stepOverStatement; split <;> simp

@[simp] theorem m_isPaused_stepOutOfFunction (env : Env) (d : Debugger) :
    (stepOutOfFunction env d).m_isPaused = d.m_isPaused := by
  unfold stepOutOfFunction; split <;> simp

@[simp] theorem m_isPaused_setBlackboxConfiguration (s : SourceID) (c : BlackboxConfiguration)
    (d : Debugger) : (setBlackboxConfiguration s c d).m_isPaused = d.m_isPaused := by
  unfold setBlackboxConfiguration; split <;> rfl

@[simp] theorem m_isPaused_setBlackboxBreakpointEvaluations (v : Bool) (d : Debugger) :
    (setBlackboxBreakpointEvaluations v d).m_isPaused = d.m_isPaused := rfl

@[simp] theorem m_isPaused_clearBlackbox (d : Debugger) :
    (clearBlackbox d).m_isPaused = d.m_isPaused := rfl

@[simp] theorem m_isPaused_addObserver (o : Observer) (d : Debugger) :
    (addObserver o d).m_isPaused = d.m_isPaused := by
  unfold addObserver; simp only []; split <;> rfl

@[simp] theorem m_isPaused_removeObserver (o : Observer) (b : Bool) (d : Debugger) :
    (removeObserver o b d).m_isPaused = d.m_isPaused := by
  unfold removeObserver; simp only []; split <;> rfl

@[simp] theorem m_isPaused_detach (env : Env) (g : GlobalObject) (r : ReasonForDetach)
    (d : Debugger) : (detach env g r d).m_isPaused = d.m_isPaused := by
  unfold detach
  simp only []
  split <;> split <;> simp [clearParsedData]

@[simp] theorem m_isPaused_runCommand (env : Env) (c : ClientCommand) (d : Debugger) :
    (runCommand env c d).m_isPaused = d.m_isPaused := by
  cases c <;> simp [runCommand]

@[simp] theorem m_isPaused_runCommands (env : Env) (cs : List ClientCommand) (d : Debugger) :
    (runCommands env cs d).m_isPaused = d.m_isPaused :=
  foldl_preserves (fun x => x.m_isPaused) (runCommand env) (m_isPaused_runCommand env) cs d

@[simp] theorem m_isPaused_runEventLoopWhilePaused (env : Env) (cs : List ClientCommand)
    (d : Debugger) : (runEventLoopWhilePaused env cs d).m_isPaused = d.m_isPaused := by
  induction cs generalizing d with
  | nil => rfl
  | cons c rest ih =>
    unfold runEventLoopWhilePaused
    split
    · rfl
    · rw [ih]; simp

@[simp] theorem m_isPaused_currentDebuggerCallFrame (d : Debugger) :
    (currentDebuggerCallFrame d).m_isPaused = d.m_isPaused := by
  unfold currentDebuggerCallFrame; split <;> rfl

@[simp] theorem m_isPaused_evaluateWithScopeExtension (env : Env) (s : String) (d : Debugger) :
    (evaluateWithScopeExtension env s d).2.m_isPaused = d.m_isPaused := by
  simp [evaluateWithScopeExtension]

@[simp] theorem m_isPaused_reportException (g : Option GlobalObject) (e : JSValue) (d : Debugger) :
    (reportException g e d).m_isPaused = d.m_isPaused := rfl

@[simp] theorem m_isPaused_evaluateBreakpointCondition (env : Env) (b : Breakpoint)
    (g : Option GlobalObject) (d : Debugger) :
    (evaluateBreakpointCondition env b g d).2.m_isPaused = d.m_isPaused := by
  unfold evaluateBreakpointCondition
  simp only []
  split
  · rfl
  · split
    · simp
    · split <;> simp

@[simp] theorem m_isPaused_shouldPause (env : Env) (b : Breakpoint)
    (g : Option GlobalObject) (d : Debugger) :
    (shouldPause env b g d).2.m_isPaused = d.m_isPaused := by
  simp [shouldPause]

@[simp] theorem m_isPaused_evaluateBreakpointAction (env : Env) (a : Action)
    (g : Option GlobalObject) (d : Debugger) :
    (evaluateBreakpointAction env a g d).m_isPaused = d.m_isPaused := by
  unfold evaluateBreakpointAction
  simp only []
  have hclient : ∀ (e : Event) (x : Debugger),
      (if x.m_hasClient = true then logEvent e x else x).m_isPaused = x.m_isPaused := by
    intro e x; split <;> rfl
  rw [hclient]
  cases a.type with
  | Log => simp [hclient]
  | Evaluate =>
    simp only []
    split <;> simp [hclient]
  | Sound => simp [hclient]
  | Probe =>
    simp only []
    split <;> simp [hclient]

@[simp] theorem m_isPaused_evaluateBreakpointActionsLoop (env : Env) (g : Option GlobalObject)
    (actions : List Action) (d : Debugger) :
    (evaluateBreakpointActionsLoop env g actions d).m_isPaused = d.m_isPaused := by
  induction actions generalizing d with
  | nil => rfl
  | cons a rest ih =>
    unfold evaluateBreakpointActionsLoop
    simp only []
    split
    · simp
    · rw [ih]; simp

@[simp] theorem m_isPaused_evaluateBreakpointActions (env : Env) (b : Breakpoint)
    (g : Option GlobalObject) (d : Debugger) :
    (evaluateBreakpointActions env b g d).m_isPaused = d.m_isPaused := by
  simp [evaluateBreakpointActions]

@[simp] theorem m_isPaused_handlePause (env : Env) (g : Option GlobalObject) (d : Debugger) :
    (handlePause env g d).m_isPaused = d.m_isPaused := by
  simp [handlePause]

@[simp] theorem m_isPaused_shouldDeferPause (f : BlackboxFlags) (d : Debugger) :
    (shouldDeferPause f d).2.m_isPaused = d.m_isPaused := by
  unfold shouldDeferPause
  split
  · rfl
  · simp only [m_isPaused_schedulePauseAtNextOpportunity]
    split <;> simp

@[simp] theorem m_isPaused_deferredBreakpointsLoop (env : Env) (g : Option GlobalObject)
    (bps : List Breakpoint) (st : DeferredLoopState) (d : Debugger) :
    (deferredBreakpointsLoop env g bps st d).2.m_isPaused = d.m_isPaused := by
  induction bps generalizing st d with
  | nil => rfl
  | cons b rest ih =>
    unfold deferredBreakpointsLoop
    simp only []
    split
    · simp
    · split
      · rw [ih]; simp
      · split
        · simp
        · split <;> (rw [ih]; simp)

@[simp] theorem m_isPaused_evaluateDeferredBreakpoints (env : Env) (g : Option GlobalObject)
    (step : Bool) (d : Debugger) :
    (evaluateDeferredBreakpoints env g step d).2.m_isPaused = d.m_isPaused := by
  unfold evaluateDeferredBreakpoints
  split
  · rfl
  · simp only []
    have h := m_isPaused_deferredBreakpointsLoop env g d.m_deferredBreakpoints {}
      { d with m_deferredBreakpoints := [] }
    split
    · rename_i heq; rw [heq] at h; exact h
    · rename_i heq; rw [heq] at h
      split
      · split <;> exact h
      · split <;> exact h

@[simp] theorem m_isPaused_pauseNow (env : Env) (g : Option GlobalObject) (a b : Bool)
    (d : Debugger) : (pauseNow env g a b d).m_isPaused = d.m_isPaused := by
  simp [pauseNow, m_isPaused_ite]

@[simp] theorem m_isPaused_pauseIfNeededEvaluate (env : Env) (g : Option GlobalObject)
    (f : BlackboxFlags) (a s t : Bool) (d : Debugger) :
    (pauseIfNeededEvaluate env g f a s t d).m_isPaused = d.m_isPaused := by
  unfold pauseIfNeededEvaluate
  simp only []
  repeat' split
  all_goals simp_all
end Debugger
end JSC


namespace JSC
namespace Debugger

/-! ### Fields that evaluation without re-entrancy does not touch -/

theorem m_pauseOnCallFrame_currentDebuggerCallFrame (d : Debugger) :
    (currentDebuggerCallFrame d).m_pauseOnCallFrame = d.m_pauseOnCallFrame := by
  unfold currentDebuggerCallFrame; split <;> rfl

theorem m_pauseOnCallFrame_logEvent (e : Event) (d : Debugger) : (logEvent e d).m_pauseOnCallFrame = d.m_pauseOnCallFrame := rfl

theorem m_pauseOnCallFrame_reportException (g : Option GlobalObject) (e : JSValue) (d : Debugger) :
    (reportException g e d).m_pauseOnCallFrame = d.m_pauseOnCallFrame := rfl

theorem m_pauseOnCallFrame_evaluateWithScopeExtension_quiet (env : Env) (hre : env.noReentrancy)
    (s : String) (d : Debugger) :
    (evaluateWithScopeExtension env s d).2.m_pauseOnCallFrame = d.m_pauseOnCallFrame := by
  simp [evaluateWithScopeExtension, hre s, runCommands, m_pauseOnCallFrame_logEvent]

theorem m_pauseOnCallFrame_evaluateBreakpointCondition_quiet (env : Env) (hre : env.noReentrancy)
    (b : Breakpoint) (g : Option GlobalObject) (d : Debugger) :
    (evaluateBreakpointCondition env b g d).2.m_pauseOnCallFrame = d.m_pauseOnCallFrame := by
  unfold evaluateBreakpointCondition
  simp only []
  split
  · rfl
  · split
    · simp [m_pauseOnCallFrame_evaluateWithScopeExtension_quiet env hre, m_pauseOnCallFrame_currentDebuggerCallFrame]
    · split <;>
        simp [m_pauseOnCallFrame_evaluateWithScopeExtension_quiet env hre, m_pauseOnCallFrame_currentDebuggerCallFrame,
          m_pauseOnCallFrame_reportException]

theorem m_pauseOnCallFrame_shouldPause_quiet (env : Env) (hre : env.noReentrancy)
    (b : Breakpoint) (g : Option GlobalObject) (d : Debugger) :
    (shouldPause env b g d).2.m_pauseOnCallFrame = d.m_pauseOnCallFrame := by
  simp [shouldPause, m_pauseOnCallFrame_evaluateBreakpointCondition_quiet env hre]

theorem m_pauseOnCallFrame_evaluateBreakpointAction_quiet (env : Env) (hre : env.noReentrancy)
    (a : Action) (g : Option GlobalObject) (d : Debugger) :
    (evaluateBreakpointAction env a g d).m_pauseOnCallFrame = d.m_pauseOnCallFrame := by
  unfold evaluateBreakpointAction
  simp only []
  have hwill : ∀ (x : Debugger),
      (if x.m_hasClient = true then logEvent (Event.clientWillEvaluate a) x else x).m_pauseOnCallFrame
        = x.m_pauseOnCallFrame := by
    intro x; split <;> simp [m_pauseOnCallFrame_logEvent]
  have hdid : ∀ (x : Debugger),
      (if x.m_hasClient = true then logEvent (Event.clientDidEvaluate a) x else x).m_pauseOnCallFrame
        = x.m_pauseOnCallFrame := by
    intro x; split <;> simp [m_pauseOnCallFrame_logEvent]
  have hdisp : ∀ (func : Observer → Debugger → Debugger) (x : Debugger),
      (∀ o y, (func o y).m_pauseOnCallFrame = y.m_pauseOnCallFrame) →
      (dispatchFunctionToObservers func x).m_pauseOnCallFrame = x.m_pauseOnCallFrame :=
    fun func x h => dispatchFunctionToObservers_preserves (fun y => y.m_pauseOnCallFrame) func h x
  rw [hdid]
  cases a.type with
  | Log =>
    simp only []
    rw [hdisp _ _ (fun o y => by simp [m_pauseOnCallFrame_logEvent])]
    simp [hwill, m_pauseOnCallFrame_currentDebuggerCallFrame]
  | Evaluate =>
    simp only []
    split <;>
      simp [hwill, m_pauseOnCallFrame_evaluateWithScopeExtension_quiet env hre,
        m_pauseOnCallFrame_currentDebuggerCallFrame, m_pauseOnCallFrame_reportException]
  | Sound =>
    simp only []
    rw [hdisp _ _ (fun o y => by simp [m_pauseOnCallFrame_logEvent])]
    simp [hwill, m_pauseOnCallFrame_currentDebuggerCallFrame]
  | Probe =>
    simp only []
    rw [hdisp _ _ (fun o y => by simp [m_pauseOnCallFrame_logEvent])]
    split <;>
      simp [hwill, m_pauseOnCallFrame_evaluateWithScopeExtension_quiet env hre,
        m_pauseOnCallFrame_currentDebuggerCallFrame, m_pauseOnCallFrame_reportException]

theorem m_pauseOnCallFrame_evaluateBreakpointActionsLoop_quiet (env : Env) (hre : env.noReentrancy)
    (g : Option GlobalObject) (actions : List Action) (d : Debugger) :
    (evaluateBreakpointActionsLoop env g actions d).m_pauseOnCallFrame = d.m_pauseOnCallFrame := by
  induction actions generalizing d with
  | nil => rfl
  | cons a rest ih =>
    unfold evaluateBreakpointActionsLoop
    simp only []
    split
    · exact m_pauseOnCallFrame_evaluateBreakpointAction_quiet env hre a g d
    · rw [ih]; exact m_pauseOnCallFrame_evaluateBreakpointAction_quiet env hre a g d

theorem m_pauseOnCallFrame_evaluateBreakpointActions_quiet (env : Env) (hre : env.noReentrancy)
    (b : Breakpoint) (g : Option GlobalObject) (d : Debugger) :
    (evaluateBreakpointActions env b g d).m_pauseOnCallFrame = d.m_pauseOnCallFrame := by
  simp [evaluateBreakpointActions, m_pauseOnCallFrame_evaluateBreakpointActionsLoop_quiet env hre]

theorem m_pauseOnCallFrame_deferredBreakpointsLoop_quiet (env : Env) (hre : env.noReentrancy)
    (g : Option GlobalObject) (bps : List Breakpoint) (st : DeferredLoopState) (d : Debugger) :
    (deferredBreakpointsLoop env g bps st d).2.m_pauseOnCallFrame = d.m_pauseOnCallFrame := by
  induction bps generalizing st d with
  | nil => rfl
  | cons b rest ih =>
    unfold deferredBreakpointsLoop
    simp only []
    split
    · exact m_pauseOnCallFrame_shouldPause_quiet env hre b g d
    · split
      · rw [ih]; exact m_pauseOnCallFrame_shouldPause_quiet env hre b g d
      · split
        · rw [m_pauseOnCallFrame_evaluateBreakpointActions_quiet env hre]
          exact m_pauseOnCallFrame_shouldPause_quiet env hre b g d
        · split <;>
            (rw [ih, m_pauseOnCallFrame_evaluateBreakpointActions_quiet env hre]
             exact m_pauseOnCallFrame_shouldPause_quiet env hre b g d)

theorem m_pauseOnCallFrame_evaluateDeferredBreakpoints_quiet (env : Env) (hre : env.noReentrancy)
    (g : Option GlobalObject) (step : Bool) (d : Debugger) :
    (evaluateDeferredBreakpoints env g step d).2.m_pauseOnCallFrame = d.m_pauseOnCallFrame := by
  unfold evaluateDeferredBreakpoints
  split
  · rfl
  · simp only []
    have h := m_pauseOnCallFrame_deferredBreakpointsLoop_quiet env hre g d.m_deferredBreakpoints {}
      { d with m_deferredBreakpoints := [] }
    generalize deferredBreakpointsLoop env g d.m_deferredBreakpoints {}
      { d with m_deferredBreakpoints := [] } = r at h
    obtain ⟨state, x⟩ := r
    simp only at h
    cases state with
    | none => exact h
    | some state =>
      simp only []
      split
      · split <;> exact h
      · split <;> exact h

theorem m_pauseOnStepNext_currentDebuggerCallFrame (d : Debugger) :
    (currentDebuggerCallFrame d).m_pauseOnStepNext = d.m_pauseOnStepNext := by
  unfold currentDebuggerCallFrame; split <;> rfl

theorem m_pauseOnStepNext_logEvent (e : Event) (d : Debugger) : (logEvent e d).m_pauseOnStepNext = d.m_pauseOnStepNext := rfl

theorem m_pauseOnStepNext_reportException (g : Option GlobalObject) (e : JSValue) (d : Debugger) :
    (reportException g e d).m_pauseOnStepNext = d.m_pauseOnStepNext := rfl

theorem m_pauseOnStepNext_evaluateWithScopeExtension_quiet (env : Env) (hre : env.noReentrancy)
    (s : String) (d : Debugger) :
    (evaluateWithScopeExtension env s d).2.m_pauseOnStepNext = d.m_pauseOnStepNext := by
  simp [evaluateWithScopeExtension, hre s, runCommands, m_pauseOnStepNext_logEvent]

theorem m_pauseOnStepNext_evaluateBreakpointCondition_quiet (env : Env) (hre : env.noReentrancy)
    (b : Breakpoint) (g : Option GlobalObject) (d : Debugger) :
    (evaluateBreakpointCondition env b g d).2.m_pauseOnStepNext = d.m_pauseOnStepNext := by
  unfold evaluateBreakpointCondition
  simp only []
  split
  · rfl
  · split
    · simp [m_pauseOnStepNext_evaluateWithScopeExtension_quiet env hre, m_pauseOnStepNext_currentDebuggerCallFrame]
    · split <;>
        simp [m_pauseOnStepNext_evaluateWithScopeExtension_quiet env hre, m_pauseOnStepNext_currentDebuggerCallFrame,
          m_pauseOnStepNext_reportException]

theorem m_pauseOnStepNext_shouldPause_quiet (env : Env) (hre : env.noReentrancy)
    (b : Breakpoint) (g : Option GlobalObject) (d : Debugger) :
    (shouldPause env b g d).2.m_pauseOnStepNext = d.m_pauseOnStepNext := by
  simp [shouldPause, m_pauseOnStepNext_evaluateBreakpointCondition_quiet env hre]

theorem m_pauseOnStepNext_evaluateBreakpointAction_quiet (env : Env) (hre : env.noReentrancy)
    (a : Action) (g : Option GlobalObject) (d : Debugger) :
    (evaluateBreakpointAction env a g d).m_pauseOnStepNext = d.m_pauseOnStepNext := by
  unfold evaluateBreakpointAction
  simp only []
  have hwill : ∀ (x : Debugger),
      (if x.m_hasClient = true then logEvent (Event.clientWillEvaluate a) x else x).m_pauseOnStepNext
        = x.m_pauseOnStepNext := by
    intro x; split <;> simp [m_pauseOnStepNext_logEvent]
  have hdid : ∀ (x : Debugger),
      (if x.m_hasClient = true then logEvent (Event.clientDidEvaluate a) x else x).m_pauseOnStepNext
        = x.m_pauseOnStepNext := by
    intro x; split <;> simp [m_pauseOnStepNext_logEvent]
  have hdisp : ∀ (func : Observer → Debugger → Debugger) (x : Debugger),
      (∀ o y, (func o y).m_pauseOnStepNext = y.m_pauseOnStepNext) →
      (dispatchFunctionToObservers func x).m_pauseOnStepNext = x.m_pauseOnStepNext :=
    fun func x h => dispatchFunctionToObservers_preserves (fun y => y.m_pauseOnStepNext) func h x
  rw [hdid]
  cases a.type with
  | Log =>
    simp only []
    rw [hdisp _ _ (fun o y => by simp [m_pauseOnStepNext_logEvent])]
    simp [hwill, m_pauseOnStepNext_currentDebuggerCallFrame]
  | Evaluate =>
    simp only []
    split <;>
      simp [hwill, m_pauseOnStepNext_evaluateWithScopeExtension_quiet env hre,
        m_pauseOnStepNext_currentDebuggerCallFrame, m_pauseOnStepNext_reportException]
  | Sound =>
    simp only []
    rw [hdisp _ _ (fun o y => by simp [m_pauseOnStepNext_logEvent])]
    simp [hwill, m_pauseOnStepNext_currentDebuggerCallFrame]
  | Probe =>
    simp only []
    rw [hdisp _ _ (fun o y => by simp [m_pauseOnStepNext_logEvent])]
    split <;>
      simp [hwill, m_pauseOnStepNext_evaluateWithScopeExtension_quiet env hre,
        m_pauseOnStepNext_currentDebuggerCallFrame, m_pauseOnStepNext_reportException]

theorem m_pauseOnStepNext_evaluateBreakpointActionsLoop_quiet (env : Env) (hre : env.noReentrancy)
    (g : Option GlobalObject) (actions : List Action) (d : Debugger) :
    (evaluateBreakpointActionsLoop env g actions d).m_pauseOnStepNext = d.m_pauseOnStepNext := by
  induction actions generalizing d with
  | nil => rfl
  | cons a rest ih =>
    unfold evaluateBreakpointActionsLoop
    simp only []
    split
    · exact m_pauseOnStepNext_evaluateBreakpointAction_quiet env hre a g d
    · rw [ih]; exact m_pauseOnStepNext_evaluateBreakpointAction_quiet env hre a g d

theorem m_pauseOnStepNext_evaluateBreakpointActions_quiet (env : Env) (hre : env.noReentrancy)
    (b : Breakpoint) (g : Option GlobalObject) (d : Debugger) :
    (evaluateBreakpointActions env b g d).m_pauseOnStepNext = d.m_pauseOnStepNext := by
  simp [evaluateBreakpointActions, m_pauseOnStepNext_evaluateBreakpointActionsLoop_quiet env hre]

theorem m_pauseOnStepNext_deferredBreakpointsLoop_quiet (env : Env) (hre : env.noReentrancy)
    (g : Option GlobalObject) (bps : List Breakpoint) (st : DeferredLoopState) (d : Debugger) :
    (deferredBreakpointsLoop env g bps st d).2.m_pauseOnStepNext = d.m_pauseOnStepNext := by
  induction bps generalizing st d with
  | nil => rfl
  | cons b rest ih =>
    unfold deferredBreakpointsLoop
    simp only []
    split
    · exact m_pauseOnStepNext_shouldPause_quiet env hre b g d
    · split
      · rw [ih]; exact m_pauseOnStepNext_shouldPause_quiet env hre b g d
      · split
        · rw [m_pauseOnStepNext_evaluateBreakpointActions_quiet env hre]
          exact m_pauseOnStepNext_shouldPause_quiet env hre b g d
        · split <;>
            (rw [ih, m_pauseOnStepNext_evaluateBreakpointActions_quiet env hre]
             exact m_pauseOnStepNext_shouldPause_quiet env hre b g d)

theorem m_pauseOnStepNext_evaluateDeferredBreakpoints_quiet (env : Env) (hre : env.noReentrancy)
    (g : Option GlobalObject) (step : Bool) (d : Debugger) :
    (evaluateDeferredBreakpoints env g step d).2.m_pauseOnStepNext = d.m_pauseOnStepNext := by
  unfold evaluateDeferredBreakpoints
  split
  · rfl
  · simp only []
    have h := m_pauseOnStepNext_deferredBreakpointsLoop_quiet env hre g d.m_deferredBreakpoints {}
      { d with m_deferredBreakpoints := [] }
    generalize deferredBreakpointsLoop env g d.m_deferredBreakpoints {}
      { d with m_deferredBreakpoints := [] } = r at h
    obtain ⟨state, x⟩ := r
    simp only at h
    cases state with
    | none => exact h
    | some state =>
      simp only []
      split
      · split <;> exact h
      · split <;> exact h

theorem m_pauseOnStepOut_currentDebuggerCallFrame (d : Debugger) :
    (currentDebuggerCallFrame d).m_pauseOnStepOut = d.m_pauseOnStepOut := by
  unfold currentDebuggerCallFrame; split <;> rfl

theorem m_pauseOnStepOut_logEvent (e : Event) (d : Debugger) : (logEvent e d).m_pauseOnStepOut = d.m_pauseOnStepOut := rfl

theorem m_pauseOnStepOut_reportException (g : Option GlobalObject) (e : JSValue) (d : Debugger) :
    (reportException g e d).m_pauseOnStepOut = d.m_pauseOnStepOut := rfl

theorem m_pauseOnStepOut_evaluateWithScopeExtension_quiet (env : Env) (hre : env.noReentrancy)
    (s : String) (d : Debugger) :
    (evaluateWithScopeExtension env s d).2.m_pauseOnStepOut = d.m_pauseOnStepOut := by
  simp [evaluateWithScopeExtension, hre s, runCommands, m_pauseOnStepOut_logEvent]

theorem m_pauseOnStepOut_evaluateBreakpointCondition_quiet (env : Env) (hre : env.noReentrancy)
    (b : Breakpoint) (g : Option GlobalObject) (d : Debugger) :
    (evaluateBreakpointCondition env b g d).2.m_pauseOnStepOut = d.m_pauseOnStepOut := by
  unfold evaluateBreakpointCondition
  simp only []
  split
  · rfl
  · split
    · simp [m_pauseOnStepOut_evaluateWithScopeExtension_quiet env hre, m_pauseOnStepOut_currentDebuggerCallFrame]
    · split <;>
        simp [m_pauseOnStepOut_evaluateWithScopeExtension_quiet env hre, m_pauseOnStepOut_currentDebuggerCallFrame,
          m_pauseOnStepOut_reportException]

theorem m_pauseOnStepOut_shouldPause_quiet (env : Env) (hre : env.noReentrancy)
    (b : Breakpoint) (g : Option GlobalObject) (d : Debugger) :
    (shouldPause env b g d).2.m_pauseOnStepOut = d.m_pauseOnStepOut := by
  simp [shouldPause, m_pauseOnStepOut_evaluateBreakpointCondition_quiet env hre]

theorem m_pauseOnStepOut_evaluateBreakpointAction_quiet (env : Env) (hre : env.noReentrancy)
    (a : Action) (g : Option GlobalObject) (d : Debugger) :
    (evaluateBreakpointAction env a g d).m_pauseOnStepOut = d.m_pauseOnStepOut := by
  unfold evaluateBreakpointAction
  simp only []
  have hwill : ∀ (x : Debugger),
      (if x.m_hasClient = true then logEvent (Event.clientWillEvaluate a) x else x).m_pauseOnStepOut
        = x.m_pauseOnStepOut := by
    intro x; split <;> simp [m_pauseOnStepOut_logEvent]
  have hdid : ∀ (x : Debugger),
      (if x.m_hasClient = true then logEvent (Event.clientDidEvaluate a) x else x).m_pauseOnStepOut
        = x.m_pauseOnStepOut := by
    intro x; split <;> simp [m_pauseOnStepOut_logEvent]
  have hdisp : ∀ (func : Observer → Debugger → Debugger) (x : Debugger),
      (∀ o y, (func o y).m_pauseOnStepOut = y.m_pauseOnStepOut) →
      (dispatchFunctionToObservers func x).m_pauseOnStepOut = x.m_pauseOnStepOut :=
    fun func x h => dispatchFunctionToObservers_preserves (fun y => y.m_pauseOnStepOut) func h x
  rw [hdid]
  cases a.type with
  | Log =>
    simp only []
    rw [hdisp _ _ (fun o y => by simp [m_pauseOnStepOut_logEvent])]
    simp [hwill, m_pauseOnStepOut_currentDebuggerCallFrame]
  | Evaluate =>
    simp only []
    split <;>
      simp [hwill, m_pauseOnStepOut_evaluateWithScopeExtension_quiet env hre,
        m_pauseOnStepOut_currentDebuggerCallFrame, m_pauseOnStepOut_reportException]
  | Sound =>
    simp only []
    rw [hdisp _ _ (fun o y => by simp [m_pauseOnStepOut_logEvent])]
    simp [hwill, m_pauseOnStepOut_currentDebuggerCallFrame]
  | Probe =>
    simp only []
    rw [hdisp _ _ (fun o y => by simp [m_pauseOnStepOut_logEvent])]
    split <;>
      simp [hwill, m_pauseOnStepOut_evaluateWithScopeExtension_quiet env hre,
        m_pauseOnStepOut_currentDebuggerCallFrame, m_pauseOnStepOut_reportException]

theorem m_pauseOnStepOut_evaluateBreakpointActionsLoop_quiet (env : Env) (hre : env.noReentrancy)
    (g : Option GlobalObject) (actions : List Action) (d : Debugger) :
    (evaluateBreakpointActionsLoop env g actions d).m_pauseOnStepOut = d.m_pauseOnStepOut := by
  induction actions generalizing d with
  | nil => rfl
  | cons a rest ih =>
    unfold evaluateBreakpointActionsLoop
    simp only []
    split
    · exact m_pauseOnStepOut_evaluateBreakpointAction_quiet env hre a g d
    · rw [ih]; exact m_pauseOnStepOut_evaluateBreakpointAction_quiet env hre a g d

theorem m_pauseOnStepOut_evaluateBreakpointActions_quiet (env : Env) (hre : env.noReentrancy)
    (b : Breakpoint) (g : Option GlobalObject) (d : Debugger) :
    (evaluateBreakpointActions env b g d).m_pauseOnStepOut = d.m_pauseOnStepOut := by
  simp [evaluateBreakpointActions, m_pauseOnStepOut_evaluateBreakpointActionsLoop_quiet env hre]

theorem m_pauseOnStepOut_deferredBreakpointsLoop_quiet (env : Env) (hre : env.noReentrancy)
    (g : Option GlobalObject) (bps : List Breakpoint) (st : DeferredLoopState) (d : Debugger) :
    (deferredBreakpointsLoop env g bps st d).2.m_pauseOnStepOut = d.m_pauseOnStepOut := by
  induction bps generalizing st d with
  | nil => rfl
  | cons b rest ih =>
    unfold deferredBreakpointsLoop
    simp only []
    split
    · exact m_pauseOnStepOut_shouldPause_quiet env hre b g d
    · split
      · rw [ih]; exact m_pauseOnStepOut_shouldPause_quiet env hre b g d
      · split
        · rw [m_pauseOnStepOut_evaluateBreakpointActions_quiet env hre]
          exact m_pauseOnStepOut_shouldPause_quiet env hre b g d
        · split <;>
            (rw [ih, m_pauseOnStepOut_evaluateBreakpointActions_quiet env hre]
             exact m_pauseOnStepOut_shouldPause_quiet env hre b g d)

theorem m_pauseOnStepOut_evaluateDeferredBreakpoints_quiet (env : Env) (hre : env.noReentrancy)
    (g : Option GlobalObject) (step : Bool) (d : Debugger) :
    (evaluateDeferredBreakpoints env g step d).2.m_pauseOnStepOut = d.m_pauseOnStepOut := by
  unfold evaluateDeferredBreakpoints
  split
  · rfl
  · simp only []
    have h := m_pauseOnStepOut_deferredBreakpointsLoop_quiet env hre g d.m_deferredBreakpoints {}
      { d with m_deferredBreakpoints := [] }
    generalize deferredBreakpointsLoop env g d.m_deferredBreakpoints {}
      { d with m_deferredBreakpoints := [] } = r at h
    obtain ⟨state, x⟩ := r
    simp only at h
    cases state with
    | none => exact h
    | some state =>
      simp only []
      split
      · split <;> exact h
      · split <;> exact h

theorem m_pauseAtNextOpportunity_currentDebuggerCallFrame (d : Debugger) :
    (currentDebuggerCallFrame d).m_pauseAtNextOpportunity = d.m_pauseAtNextOpportunity := by
  unfold currentDebuggerCallFrame; split <;> rfl

theorem m_pauseAtNextOpportunity_logEvent (e : Event) (d : Debugger) : (logEvent e d).m_pauseAtNextOpportunity = d.m_pauseAtNextOpportunity := rfl

theorem m_pauseAtNextOpportunity_reportException (g : Option GlobalObject) (e : JSValue) (d : Debugger) :
    (reportException g e d).m_pauseAtNextOpportunity = d.m_pauseAtNextOpportunity := rfl

theorem m_pauseAtNextOpportunity_evaluateWithScopeExtension_quiet (env : Env) (hre : env.noReentrancy)
    (s : String) (d : Debugger) :
    (evaluateWithScopeExtension env s d).2.m_pauseAtNextOpportunity = d.m_pauseAtNextOpportunity := by
  simp [evaluateWithScopeExtension, hre s, runCommands, m_pauseAtNextOpportunity_logEvent]

theorem m_pauseAtNextOpportunity_evaluateBreakpointCondition_quiet (env : Env) (hre : env.noReentrancy)
    (b : Breakpoint) (g : Option GlobalObject) (d : Debugger) :
    (evaluateBreakpointCondition env b g d).2.m_pauseAtNextOpportunity = d.m_pauseAtNextOpportunity := by
  unfold evaluateBreakpointCondition
  simp only []
  split
  · rfl
  · split
    · simp [m_pauseAtNextOpportunity_evaluateWithScopeExtension_quiet env hre, m_pauseAtNextOpportunity_currentDebuggerCallFrame]
    · split <;>
        simp [m_pauseAtNextOpportunity_evaluateWithScopeExtension_quiet env hre, m_pauseAtNextOpportunity_currentDebuggerCallFrame,
          m_pauseAtNextOpportunity_reportException]

theorem m_pauseAtNextOpportunity_shouldPause_quiet (env : Env) (hre : env.noReentrancy)
    (b : Breakpoint) (g : Option GlobalObject) (d : Debugger) :
    (shouldPause env b g d).2.m_pauseAtNextOpportunity = d.m_pauseAtNextOpportunity := by
  simp [shouldPause, m_pauseAtNextOpportunity_evaluateBreakpointCondition_quiet env hre]

theorem m_pauseAtNextOpportunity_evaluateBreakpointAction_quiet (env : Env) (hre : env.noReentrancy)
    (a : Action) (g : Option GlobalObject) (d : Debugger) :
    (evaluateBreakpointAction env a g d).m_pauseAtNextOpportunity = d.m_pauseAtNextOpportunity := by
  unfold evaluateBreakpointAction
  simp only []
  have hwill : ∀ (x : Debugger),
      (if x.m_hasClient = true then logEvent (Event.clientWillEvaluate a) x else x).m_pauseAtNextOpportunity
        = x.m_pauseAtNextOpportunity := by
    intro x; split <;> simp [m_pauseAtNextOpportunity_logEvent]
  have hdid : ∀ (x : Debugger),
      (if x.m_hasClient = true then logEvent (Event.clientDidEvaluate a) x else x).m_pauseAtNextOpportunity
        = x.m_pauseAtNextOpportunity := by
    intro x; split <;> simp [m_pauseAtNextOpportunity_logEvent]
  have hdisp : ∀ (func : Observer → Debugger → Debugger) (x : Debugger),
      (∀ o y, (func o y).m_pauseAtNextOpportunity = y.m_pauseAtNextOpportunity) →
      (dispatchFunctionToObservers func x).m_pauseAtNextOpportunity = x.m_pauseAtNextOpportunity :=
    fun func x h => dispatchFunctionToObservers_preserves (fun y => y.m_pauseAtNextOpportunity) func h x
  rw [hdid]
  cases a.type with
  | Log =>
    simp only []
    rw [hdisp _ _ (fun o y => by simp [m_pauseAtNextOpportunity_logEvent])]
    simp [hwill, m_pauseAtNextOpportunity_currentDebuggerCallFrame]
  | Evaluate =>
    simp only []
    split <;>
      simp [hwill, m_pauseAtNextOpportunity_evaluateWithScopeExtension_quiet env hre,
        m_pauseAtNextOpportunity_currentDebuggerCallFrame, m_pauseAtNextOpportunity_reportException]
  | Sound =>
    simp only []
    rw [hdisp _ _ (fun o y => by simp [m_pauseAtNextOpportunity_logEvent])]
    simp [hwill, m_pauseAtNextOpportunity_currentDebuggerCallFrame]
  | Probe =>
    simp only []
    rw [hdisp _ _ (fun o y => by simp [m_pauseAtNextOpportunity_logEvent])]
    split <;>
      simp [hwill, m_pauseAtNextOpportunity_evaluateWithScopeExtension_quiet env hre,
        m_pauseAtNextOpportunity_currentDebuggerCallFrame, m_pauseAtNextOpportunity_reportException]

theorem m_pauseAtNextOpportunity_evaluateBreakpointActionsLoop_quiet (env : Env) (hre : env.noReentrancy)
    (g : Option GlobalObject) (actions : List Action) (d : Debugger) :
    (evaluateBreakpointActionsLoop env g actions d).m_pauseAtNextOpportunity = d.m_pauseAtNextOpportunity := by
  induction actions generalizing d with
  | nil => rfl
  | cons a rest ih =>
    unfold evaluateBreakpointActionsLoop
    simp only []
    split
    · exact m_pauseAtNextOpportunity_evaluateBreakpointAction_quiet env hre a g d
    · rw [ih]; exact m_pauseAtNextOpportunity_evaluateBreakpointAction_quiet env hre a g d

theorem m_pauseAtNextOpportunity_evaluateBreakpointActions_quiet (env : Env) (hre : env.noReentrancy)
    (b : Breakpoint) (g : Option GlobalObject) (d : Debugger) :
    (evaluateBreakpointActions env b g d).m_pauseAtNextOpportunity = d.m_pauseAtNextOpportunity := by
  simp [evaluateBreakpointActions, m_pauseAtNextOpportunity_evaluateBreakpointActionsLoop_quiet env hre]

theorem m_pauseAtNextOpportunity_deferredBreakpointsLoop_quiet (env : Env) (hre : env.noReentrancy)
    (g : Option GlobalObject) (bps : List Breakpoint) (st : DeferredLoopState) (d : Debugger) :
    (deferredBreakpointsLoop env g bps st d).2.m_pauseAtNextOpportunity = d.m_pauseAtNextOpportunity := by
  induction bps generalizing st d with
  | nil => rfl
  | cons b rest ih =>
    unfold deferredBreakpointsLoop
    simp only []
    split
    · exact m_pauseAtNextOpportunity_shouldPause_quiet env hre b g d
    · split
      · rw [ih]; exact m_pauseAtNextOpportunity_shouldPause_quiet env hre b g d
      · split
        · rw [m_pauseAtNextOpportunity_evaluateBreakpointActions_quiet env hre]
          exact m_pauseAtNextOpportunity_shouldPause_quiet env hre b g d
        · split <;>
            (rw [ih, m_pauseAtNextOpportunity_evaluateBreakpointActions_quiet env hre]
             exact m_pauseAtNextOpportunity_shouldPause_quiet env hre b g d)

theorem m_pauseAtNextOpportunity_evaluateDeferredBreakpoints_quiet (env : Env) (hre : env.noReentrancy)
    (g : Option GlobalObject) (step : Bool) (d : Debugger) :
    (evaluateDeferredBreakpoints env g step d).2.m_pauseAtNextOpportunity = d.m_pauseAtNextOpportunity := by
  unfold evaluateDeferredBreakpoints
  split
  · rfl
  · simp only []
    have h := m_pauseAtNextOpportunity_deferredBreakpointsLoop_quiet env hre g d.m_deferredBreakpoints {}
      { d with m_deferredBreakpoints := [] }
    generalize deferredBreakpointsLoop env g d.m_deferredBreakpoints {}
      { d with m_deferredBreakpoints := [] } = r at h
    obtain ⟨state, x⟩ := r
    simp only at h
    cases state with
    | none => exact h
    | some state =>
      simp only []
      split
      · split <;> exact h
      · split <;> exact h

theorem m_afterBlackboxedScript_currentDebuggerCallFrame (d : Debugger) :
    (currentDebuggerCallFrame d).m_afterBlackboxedScript = d.m_afterBlackboxedScript := by
  unfold currentDebuggerCallFrame; split <;> rfl

theorem m_afterBlackboxedScript_logEvent (e : Event) (d : Debugger) : (logEvent e d).m_afterBlackboxedScript = d.m_afterBlackboxedScript := rfl

theorem m_afterBlackboxedScript_reportException (g : Option GlobalObject) (e : JSValue) (d : Debugger) :
    (reportException g e d).m_afterBlackboxedScript = d.m_afterBlackboxedScript := rfl

theorem m_afterBlackboxedScript_evaluateWithScopeExtension_quiet (env : Env) (hre : env.noReentrancy)
    (s : String) (d : Debugger) :
    (evaluateWithScopeExtension env s d).2.m_afterBlackboxedScript = d.m_afterBlackboxedScript := by
  simp [evaluateWithScopeExtension, hre s, runCommands, m_afterBlackboxedScript_logEvent]

theorem m_afterBlackboxedScript_evaluateBreakpointCondition_quiet (env : Env) (hre : env.noReentrancy)
    (b : Breakpoint) (g : Option GlobalObject) (d : Debugger) :
    (evaluateBreakpointCondition env b g d).2.m_afterBlackboxedScript = d.m_afterBlackboxedScript := by
  unfold evaluateBreakpointCondition
  simp only []
  split
  · rfl
  · split
    · simp [m_afterBlackboxedScript_evaluateWithScopeExtension_quiet env hre, m_afterBlackboxedScript_currentDebuggerCallFrame]
    · split <;>
        simp [m_afterBlackboxedScript_evaluateWithScopeExtension_quiet env hre, m_afterBlackboxedScript_currentDebuggerCallFrame,
          m_afterBlackboxedScript_reportException]

theorem m_afterBlackboxedScript_shouldPause_quiet (env : Env) (hre : env.noReentrancy)
    (b : Breakpoint) (g : Option GlobalObject) (d : Debugger) :
    (shouldPause env b g d).2.m_afterBlackboxedScript = d.m_afterBlackboxedScript := by
  simp [shouldPause, m_afterBlackboxedScript_evaluateBreakpointCondition_quiet env hre]

theorem m_afterBlackboxedScript_evaluateBreakpointAction_quiet (env : Env) (hre : env.noReentrancy)
    (a : Action) (g : Option GlobalObject) (d : Debugger) :
    (evaluateBreakpointAction env a g d).m_afterBlackboxedScript = d.m_afterBlackboxedScript := by
  unfold evaluateBreakpointAction
  simp only []
  have hwill : ∀ (x : Debugger),
      (if x.m_hasClient = true then logEvent (Event.clientWillEvaluate a) x else x).m_afterBlackboxedScript
        = x.m_afterBlackboxedScript := by
    intro x; split <;> simp [m_afterBlackboxedScript_logEvent]
  have hdid : ∀ (x : Debugger),
      (if x.m_hasClient = true then logEvent (Event.clientDidEvaluate a) x else x).m_afterBlackboxedScript
        = x.m_afterBlackboxedScript := by
    intro x; split <;> simp [m_afterBlackboxedScript_logEvent]
  have hdisp : ∀ (func : Observer → Debugger → Debugger) (x : Debugger),
      (∀ o y, (func o y).m_afterBlackboxedScript = y.m_afterBlackboxedScript) →
      (dispatchFunctionToObservers func x).m_afterBlackboxedScript = x.m_afterBlackboxedScript :=
    fun func x h => dispatchFunctionToObservers_preserves (fun y => y.m_afterBlackboxedScript) func h x
  rw [hdid]
  cases a.type with
  | Log =>
    simp only []
    rw [hdisp _ _ (fun o y => by simp [m_afterBlackboxedScript_logEvent])]
    simp [hwill, m_afterBlackboxedScript_currentDebuggerCallFrame]
  | Evaluate =>
    simp only []
    split <;>
      simp [hwill, m_afterBlackboxedScript_evaluateWithScopeExtension_quiet env hre,
        m_afterBlackboxedScript_currentDebuggerCallFrame, m_afterBlackboxedScript_reportException]
  | Sound =>
    simp only []
    rw [hdisp _ _ (fun o y => by simp [m_afterBlackboxedScript_logEvent])]
    simp [hwill, m_afterBlackboxedScript_currentDebuggerCallFrame]
  | Probe =>
    simp only []
    rw [hdisp _ _ (fun o y => by simp [m_afterBlackboxedScript_logEvent])]
    split <;>
      simp [hwill, m_afterBlackboxedScript_evaluateWithScopeExtension_quiet env hre,
        m_afterBlackboxedScript_currentDebuggerCallFrame, m_afterBlackboxedScript_reportException]

theorem m_afterBlackboxedScript_evaluateBreakpointActionsLoop_quiet (env : Env) (hre : env.noReentrancy)
    (g : Option GlobalObject) (actions : List Action) (d : Debugger) :
    (evaluateBreakpointActionsLoop env g actions d).m_afterBlackboxedScript = d.m_afterBlackboxedScript := by
  induction actions generalizing d with
  | nil => rfl
  | cons a rest ih =>
    unfold evaluateBreakpointActionsLoop
    simp only []
    split
    · exact m_afterBlackboxedScript_evaluateBreakpointAction_quiet env hre a g d
    · rw [ih]; exact m_afterBlackboxedScript_evaluateBreakpointAction_quiet env hre a g d

theorem m_afterBlackboxedScript_evaluateBreakpointActions_quiet (env : Env) (hre : env.noReentrancy)
    (b : Breakpoint) (g : Option GlobalObject) (d : Debugger) :
    (evaluateBreakpointActions env b g d).m_afterBlackboxedScript = d.m_afterBlackboxedScript := by
  simp [evaluateBreakpointActions, m_afterBlackboxedScript_evaluateBreakpointActionsLoop_quiet env hre]

theorem m_afterBlackboxedScript_deferredBreakpointsLoop_quiet (env : Env) (hre : env.noReentrancy)
    (g : Option GlobalObject) (bps : List Breakpoint) (st : DeferredLoopState) (d : Debugger) :
    (deferredBreakpointsLoop env g bps st d).2.m_afterBlackboxedScript = d.m_afterBlackboxedScript := by
  induction bps generalizing st d with
  | nil => rfl
  | cons b rest ih =>
    unfold deferredBreakpointsLoop
    simp only []
    split
    · exact m_afterBlackboxedScript_shouldPause_quiet env hre b g d
    · split
      · rw [ih]; exact m_afterBlackboxedScript_shouldPause_quiet env hre b g d
      · split
        · rw [m_afterBlackboxedScript_evaluateBreakpointActions_quiet env hre]
          exact m_afterBlackboxedScript_shouldPause_quiet env hre b g d
        · split <;>
            (rw [ih, m_afterBlackboxedScript_evaluateBreakpointActions_quiet env hre]
             exact m_afterBlackboxedScript_shouldPause_quiet env hre b g d)

theorem m_afterBlackboxedScript_evaluateDeferredBreakpoints_quiet (env : Env) (hre : env.noReentrancy)
    (g : Option GlobalObject) (step : Bool) (d : Debugger) :
    (evaluateDeferredBreakpoints env g step d).2.m_afterBlackboxedScript = d.m_afterBlackboxedScript := by
  unfold evaluateDeferredBreakpoints
  split
  · rfl
  · simp only []
    have h := m_afterBlackboxedScript_deferredBreakpointsLoop_quiet env hre g d.m_deferredBreakpoints {}
      { d with m_deferredBreakpoints := [] }
    generalize deferredBreakpointsLoop env g d.m_deferredBreakpoints {}
      { d with m_deferredBreakpoints := [] } = r at h
    obtain ⟨state, x⟩ := r
    simp only at h
    cases state with
    | none => exact h
    | some state =>
      simp only []
      split
      · split <;> exact h
      · split <;> exact h

theorem m_specialBreakpoint_evaluateWithScopeExtension_quiet (env : Env) (hre : env.noReentrancy)
    (s : String) (d : Debugger) :
    (evaluateWithScopeExtension env s d).2.m_specialBreakpoint = d.m_specialBreakpoint := by
  simp [evaluateWithScopeExtension, hre s, runCommands, m_specialBreakpoint_logEvent]

theorem m_specialBreakpoint_evaluateBreakpointCondition_quiet (env : Env) (hre : env.noReentrancy)
    (b : Breakpoint) (g : Option GlobalObject) (d : Debugger) :
    (evaluateBreakpointCondition env b g d).2.m_specialBreakpoint = d.m_specialBreakpoint := by
  unfold evaluateBreakpointCondition
  simp only []
  split
  · rfl
  · split
    · simp [m_specialBreakpoint_evaluateWithScopeExtension_quiet env hre, m_specialBreakpoint_currentDebuggerCallFrame]
    · split <;>
        simp [m_specialBreakpoint_evaluateWithScopeExtension_quiet env hre, m_specialBreakpoint_currentDebuggerCallFrame,
          m_specialBreakpoint_reportException]

theorem m_specialBreakpoint_shouldPause_quiet (env : Env) (hre : env.noReentrancy)
    (b : Breakpoint) (g : Option GlobalObject) (d : Debugger) :
    (shouldPause env b g d).2.m_specialBreakpoint = d.m_specialBreakpoint := by
  simp [shouldPause, m_specialBreakpoint_evaluateBreakpointCondition_quiet env hre]

theorem m_specialBreakpoint_evaluateBreakpointAction_quiet (env : Env) (hre : env.noReentrancy)
    (a : Action) (g : Option GlobalObject) (d : Debugger) :
    (evaluateBreakpointAction env a g d).m_specialBreakpoint = d.m_specialBreakpoint := by
  unfold evaluateBreakpointAction
  simp only []
  have hwill : ∀ (x : Debugger),
      (if x.m_hasClient = true then logEvent (Event.clientWillEvaluate a) x else x).m_specialBreakpoint
        = x.m_specialBreakpoint := by
    intro x; split <;> simp [m_specialBreakpoint_logEvent]
  have hdid : ∀ (x : Debugger),
      (if x.m_hasClient = true then logEvent (Event.clientDidEvaluate a) x else x).m_specialBreakpoint
        = x.m_specialBreakpoint := by
    intro x; split <;> simp [m_specialBreakpoint_logEvent]
  have hdisp : ∀ (func : Observer → Debugger → Debugger) (x : Debugger),
      (∀ o y, (func o y).m_specialBreakpoint = y.m_specialBreakpoint) →
      (dispatchFunctionToObservers func x).m_specialBreakpoint = x.m_specialBreakpoint :=
    fun func x h => dispatchFunctionToObservers_preserves (fun y => y.m_specialBreakpoint) func h x
  rw [hdid]
  cases a.type with
  | Log =>
    simp only []
    rw [hdisp _ _ (fun o y => by simp [m_specialBreakpoint_logEvent])]
    simp [hwill, m_specialBreakpoint_currentDebuggerCallFrame]
  | Evaluate =>
    simp only []
    split <;>
      simp [hwill, m_specialBreakpoint_evaluateWithScopeExtension_quiet env hre,
        m_specialBreakpoint_currentDebuggerCallFrame, m_specialBreakpoint_reportException]
  | Sound =>
    simp only []
    rw [hdisp _ _ (fun o y => by simp [m_specialBreakpoint_logEvent])]
    simp [hwill, m_specialBreakpoint_currentDebuggerCallFrame]
  | Probe =>
    simp only []
    rw [hdisp _ _ (fun o y => by simp [m_specialBreakpoint_logEvent])]
    split <;>
      simp [hwill, m_specialBreakpoint_evaluateWithScopeExtension_quiet env hre,
        m_specialBreakpoint_currentDebuggerCallFrame, m_specialBreakpoint_reportException]

theorem m_specialBreakpoint_evaluateBreakpointActionsLoop_quiet (env : Env) (hre : env.noReentrancy)
    (g : Option GlobalObject) (actions : List Action) (d : Debugger) :
    (evaluateBreakpointActionsLoop env g actions d).m_specialBreakpoint = d.m_specialBreakpoint := by
  induction actions generalizing d with
  | nil => rfl
  | cons a rest ih =>
    unfold evaluateBreakpointActionsLoop
    simp only []
    split
    · exact m_specialBreakpoint_evaluateBreakpointAction_quiet env hre a g d
    · rw [ih]; exact m_specialBreakpoint_evaluateBreakpointAction_quiet env hre a g d

theorem m_specialBreakpoint_evaluateBreakpointActions_quiet (env : Env) (hre : env.noReentrancy)
    (b : Breakpoint) (g : Option GlobalObject) (d : Debugger) :
    (evaluateBreakpointActions env b g d).m_specialBreakpoint = d.m_specialBreakpoint := by
  simp [evaluateBreakpointActions, m_specialBreakpoint_evaluateBreakpointActionsLoop_quiet env hre]

theorem m_specialBreakpoint_deferredBreakpointsLoop_quiet (env : Env) (hre : env.noReentrancy)
    (g : Option GlobalObject) (bps : List Breakpoint) (st : DeferredLoopState) (d : Debugger) :
    (deferredBreakpointsLoop env g bps st d).2.m_specialBreakpoint = d.m_specialBreakpoint := by
  induction bps generalizing st d with
  | nil => rfl
  | cons b rest ih =>
    unfold deferredBreakpointsLoop
    simp only []
    split
    · exact m_specialBreakpoint_shouldPause_quiet env hre b g d
    · split
      · rw [ih]; exact m_specialBreakpoint_shouldPause_quiet env hre b g d
      · split
        · rw [m_specialBreakpoint_evaluateBreakpointActions_quiet env hre]
          exact m_specialBreakpoint_shouldPause_quiet env hre b g d
        · split <;>
            (rw [ih, m_specialBreakpoint_evaluateBreakpointActions_quiet env hre]
             exact m_specialBreakpoint_shouldPause_quiet env hre b g d)

theorem m_specialBreakpoint_evaluateDeferredBreakpoints_quiet (env : Env) (hre : env.noReentrancy)
    (g : Option GlobalObject) (step : Bool) (d : Debugger) :
    (evaluateDeferredBreakpoints env g step d).2.m_specialBreakpoint = d.m_specialBreakpoint := by
  unfold evaluateDeferredBreakpoints
  split
  · rfl
  · simp only []
    have h := m_specialBreakpoint_deferredBreakpointsLoop_quiet env hre g d.m_deferredBreakpoints {}
      { d with m_deferredBreakpoints := [] }
    generalize deferredBreakpointsLoop env g d.m_deferredBreakpoints {}
      { d with m_deferredBreakpoints := [] } = r at h
    obtain ⟨state, x⟩ := r
    simp only at h
    cases state with
    | none => exact h
    | some state =>
      simp only []
      split
      · split <;> exact h
      · split <;> exact h

theorem m_steppingMode_evaluateWithScopeExtension_quiet (env : Env) (hre : env.noReentrancy)
    (s : String) (d : Debugger) :
    (evaluateWithScopeExtension env s d).2.m_steppingMode = d.m_steppingMode := by
  simp [evaluateWithScopeExtension, hre s, runCommands, m_steppingMode_logEvent]

theorem m_steppingMode_evaluateBreakpointCondition_quiet (env : Env) (hre : env.noReentrancy)
    (b : Breakpoint) (g : Option GlobalObject) (d : Debugger) :
    (evaluateBreakpointCondition env b g d).2.m_steppingMode = d.m_steppingMode := by
  unfold evaluateBreakpointCondition
  simp only []
  split
  · rfl
  · split
    · simp [m_steppingMode_evaluateWithScopeExtension_quiet env hre, m_steppingMode_currentDebuggerCallFrame]
    · split <;>
        simp [m_steppingMode_evaluateWithScopeExtension_quiet env hre, m_steppingMode_currentDebuggerCallFrame,
          m_steppingMode_reportException]

theorem m_steppingMode_shouldPause_quiet (env : Env) (hre : env.noReentrancy)
    (b : Breakpoint) (g : Option GlobalObject) (d : Debugger) :
    (shouldPause env b g d).2.m_steppingMode = d.m_steppingMode := by
  simp [shouldPause, m_steppingMode_evaluateBreakpointCondition_quiet env hre]

theorem m_steppingMode_evaluateBreakpointAction_quiet (env : Env) (hre : env.noReentrancy)
    (a : Action) (g : Option GlobalObject) (d : Debugger) :
    (evaluateBreakpointAction env a g d).m_steppingMode = d.m_steppingMode := by
  unfold evaluateBreakpointAction
  simp only []
  have hwill : ∀ (x : Debugger),
      (if x.m_hasClient = true then logEvent (Event.clientWillEvaluate a) x else x).m_steppingMode
        = x.m_steppingMode := by
    intro x; split <;> simp [m_steppingMode_logEvent]
  have hdid : ∀ (x : Debugger),
      (if x.m_hasClient = true then logEvent (Event.clientDidEvaluate a) x else x).m_steppingMode
        = x.m_steppingMode := by
    intro x; split <;> simp [m_steppingMode_logEvent]
  have hdisp : ∀ (func : Observer → Debugger → Debugger) (x : Debugger),
      (∀ o y, (func o y).m_steppingMode = y.m_steppingMode) →
      (dispatchFunctionToObservers func x).m_steppingMode = x.m_steppingMode :=
    fun func x h => dispatchFunctionToObservers_preserves (fun y => y.m_steppingMode) func h x
  rw [hdid]
  cases a.type with
  | Log =>
    simp only []
    rw [hdisp _ _ (fun o y => by simp [m_steppingMode_logEvent])]
    simp [hwill, m_steppingMode_currentDebuggerCallFrame]
  | Evaluate =>
    simp only []
    split <;>
      simp [hwill, m_steppingMode_evaluateWithScopeExtension_quiet env hre,
        m_steppingMode_currentDebuggerCallFrame, m_steppingMode_reportException]
  | Sound =>
    simp only []
    rw [hdisp _ _ (fun o y => by simp [m_steppingMode_logEvent])]
    simp [hwill, m_steppingMode_currentDebuggerCallFrame]
  | Probe =>
    simp only []
    rw [hdisp _ _ (fun o y => by simp [m_steppingMode_logEvent])]
    split <;>
      simp [hwill, m_steppingMode_evaluateWithScopeExtension_quiet env hre,
        m_steppingMode_currentDebuggerCallFrame, m_steppingMode_reportException]

theorem m_steppingMode_evaluateBreakpointActionsLoop_quiet (env : Env) (hre : env.noReentrancy)
    (g : Option GlobalObject) (actions : List Action) (d : Debugger) :
    (evaluateBreakpointActionsLoop env g actions d).m_steppingMode = d.m_steppingMode := by
  induction actions generalizing d with
  | nil => rfl
  | cons a rest ih =>
    unfold evaluateBreakpointActionsLoop
    simp only []
    split
    · exact m_steppingMode_evaluateBreakpointAction_quiet env hre a g d
    · rw [ih]; exact m_steppingMode_evaluateBreakpointAction_quiet env hre a g d

theorem m_steppingMode_evaluateBreakpointActions_quiet (env : Env) (hre : env.noReentrancy)
    (b : Breakpoint) (g : Option GlobalObject) (d : Debugger) :
    (evaluateBreakpointActions env b g d).m_steppingMode = d.m_steppingMode := by
  simp [evaluateBreakpointActions, m_steppingMode_evaluateBreakpointActionsLoop_quiet env hre]

theorem m_steppingMode_deferredBreakpointsLoop_quiet (env : Env) (hre : env.noReentrancy)
    (g : Option GlobalObject) (bps : List Breakpoint) (st : DeferredLoopState) (d : Debugger) :
    (deferredBreakpointsLoop env g bps st d).2.m_steppingMode = d.m_steppingMode := by
  induction bps generalizing st d with
  | nil => rfl
  | cons b rest ih =>
    unfold deferredBreakpointsLoop
    simp only []
    split
    · exact m_steppingMode_shouldPause_quiet env hre b g d
    · split
      · rw [ih]; exact m_steppingMode_shouldPause_quiet env hre b g d
      · split
        · rw [m_steppingMode_evaluateBreakpointActions_quiet env hre]
          exact m_steppingMode_shouldPause_quiet env hre b g d
        · split <;>
            (rw [ih, m_steppingMode_evaluateBreakpointActions_quiet env hre]
             exact m_steppingMode_shouldPause_quiet env hre b g d)

theorem m_steppingMode_evaluateDeferredBreakpoints_quiet (env : Env) (hre : env.noReentrancy)
    (g : Option GlobalObject) (step : Bool) (d : Debugger) :
    (evaluateDeferredBreakpoints env g step d).2.m_steppingMode = d.m_steppingMode := by
  unfold evaluateDeferredBreakpoints
  split
  · rfl
  · simp only []
    have h := m_steppingMode_deferredBreakpointsLoop_quiet env hre g d.m_deferredBreakpoints {}
      { d with m_deferredBreakpoints := [] }
    generalize deferredBreakpointsLoop env g d.m_deferredBreakpoints {}
      { d with m_deferredBreakpoints := [] } = r at h
    obtain ⟨state, x⟩ := r
    simp only at h
    cases state with
    | none => exact h
    | some state =>
      simp only []
      split
      · split <;> exact h
      · split <;> exact h

end Debugger
end JSC


namespace JSC
namespace Debugger

theorem noSpecial_continueProgram (d : Debugger) :
    (continueProgram d).m_specialBreakpoint = none := by
  unfold continueProgram; simp only []; split <;> rfl

theorem noSpecial_detach (env : Env) (g : GlobalObject) (r : ReasonForDetach) (d : Debugger)
    (h : d.m_specialBreakpoint = none) : (detach env g r d).m_specialBreakpoint = none := by
  unfold detach
  simp only []
  split <;> split <;> simp [clearParsedData, noSpecial_continueProgram, h]

theorem noSpecial_runCommand (env : Env) (c : ClientCommand) (d : Debugger)
    (hc : c.armsSpecialBreakpoint = false) (h : d.m_specialBreakpoint = none) :
    (runCommand env c d).m_specialBreakpoint = none := by
  cases c with
  | schedulePauseForSpecialBreakpoint b => simp [ClientCommand.armsSpecialBreakpoint] at hc
  | cancelPauseForSpecialBreakpoint b =>
    simp only [runCommand, cancelPauseForSpecialBreakpoint]
    split
    · exact h
    · rfl
  | continueProgram => exact noSpecial_continueProgram d
  | detach g r => exact noSpecial_detach env g r d h
  | clearBreakpoints => rfl
  | _ => simp [runCommand, h]

theorem noSpecial_runCommands (env : Env) (cs : List ClientCommand) (d : Debugger)
    (hcs : ∀ c ∈ cs, c.armsSpecialBreakpoint = false) (h : d.m_specialBreakpoint = none) :
    (runCommands env cs d).m_specialBreakpoint = none := by
  induction cs generalizing d with
  | nil => exact h
  | cons c rest ih =>
    exact ih (runCommand env c d) (fun x hx => hcs x (List.mem_cons_of_mem _ hx))
      (noSpecial_runCommand env c d (hcs c (List.mem_cons_self _ _)) h)

theorem noSpecial_runEventLoopWhilePaused (env : Env) (cs : List ClientCommand) (d : Debugger)
    (hcs : ∀ c ∈ cs, c.armsSpecialBreakpoint = false) (h : d.m_specialBreakpoint = none) :
    (runEventLoopWhilePaused env cs d).m_specialBreakpoint = none := by
  induction cs generalizing d with
  | nil => exact h
  | cons c rest ih =>
    unfold runEventLoopWhilePaused
    split
    · exact h
    · exact ih (runCommand env c d) (fun x hx => hcs x (List.mem_cons_of_mem _ hx))
        (noSpecial_runCommand env c d (hcs c (List.mem_cons_self _ _)) h)

theorem noSpecial_evaluateWithScopeExtension (env : Env) (henv : env.armsNoSpecialBreakpoint)
    (s : String) (d : Debugger) (h : d.m_specialBreakpoint = none) :
    (evaluateWithScopeExtension env s d).2.m_specialBreakpoint = none :=
  noSpecial_runCommands env _ _ (henv.2 s) h

theorem noSpecial_handlePause (env : Env) (henv : env.armsNoSpecialBreakpoint)
    (g : Option GlobalObject) (d : Debugger) (h : d.m_specialBreakpoint = none) :
    (handlePause env g d).m_specialBreakpoint = none := by
  unfold handlePause
  simp only [m_specialBreakpoint_dispatchFunctionToObservers, m_specialBreakpoint_logEvent,
    m_specialBreakpoint_currentDebuggerCallFrame, implies_true]
  apply noSpecial_runEventLoopWhilePaused env _ _ henv.1
  simp [h]

end Debugger
end JSC

namespace JSC
namespace Debugger

theorem noSpecial_evaluateBreakpointCondition (env : Env) (henv : env.armsNoSpecialBreakpoint) (b : Breakpoint)
    (g : Option GlobalObject) (d : Debugger) (h : d.m_specialBreakpoint = none) :
    (evaluateBreakpointCondition env b g d).2.m_specialBreakpoint = none := by
  have hev := noSpecial_evaluateWithScopeExtension env henv b.condition (currentDebuggerCallFrame d)
    (by rw [m_specialBreakpoint_currentDebuggerCallFrame]; exact h)
  unfold evaluateBreakpointCondition
  simp only []
  split
  · exact h
  · split
    · exact hev
    · split
      · rw [m_specialBreakpoint_reportException]; exact hev
      · exact hev

theorem noSpecial_shouldPause (env : Env) (henv : env.armsNoSpecialBreakpoint) (b : Breakpoint)
    (g : Option GlobalObject) (d : Debugger) (h : d.m_specialBreakpoint = none) :
    (shouldPause env b g d).2.m_specialBreakpoint = none :=
  noSpecial_evaluateBreakpointCondition env henv b g d h

theorem noSpecial_evaluateBreakpointAction (env : Env) (henv : env.armsNoSpecialBreakpoint) (a : Action)
    (g : Option GlobalObject) (d : Debugger) (h : d.m_specialBreakpoint = none) :
    (evaluateBreakpointAction env a g d).m_specialBreakpoint = none := by
  unfold evaluateBreakpointAction
  simp only []
  have hwill : ∀ (x : Debugger), x.m_specialBreakpoint = none →
      (currentDebuggerCallFrame
        (if x.m_hasClient = true then logEvent (Event.clientWillEvaluate a) x else x)).m_specialBreakpoint
        = none := by
    intro x hx
    rw [m_specialBreakpoint_currentDebuggerCallFrame]
    split
    · exact hx
    · exact hx
  have hdid : ∀ (x : Debugger), x.m_specialBreakpoint = none →
      (if x.m_hasClient = true then logEvent (Event.clientDidEvaluate a) x else x).m_specialBreakpoint
        = none := by
    intro x hx
    split
    · exact hx
    · exact hx
  apply hdid
  cases a.type with
  | Log =>
    simp only []
    refine Eq.trans (m_specialBreakpoint_dispatchFunctionToObservers _ _ ?_) (hwill d h)
    intro o y; rfl
  | Evaluate =>
    simp only []
    have hev := noSpecial_evaluateWithScopeExtension env henv a.data _ (hwill d h)
    split
    · rw [m_specialBreakpoint_reportException]; exact hev
    · exact hev
  | Sound =>
    simp only []
    refine Eq.trans (m_specialBreakpoint_dispatchFunctionToObservers _ _ ?_) (hwill d h)
    intro o y; rfl
  | Probe =>
    simp only []
    have hev := noSpecial_evaluateWithScopeExtension env henv a.data _ (hwill d h)
    refine Eq.trans (m_specialBreakpoint_dispatchFunctionToObservers _ _ ?_) ?_
    · intro o y; rfl
    · split
      · rw [m_specialBreakpoint_reportException]; exact hev
      · exact hev

theorem noSpecial_evaluateBreakpointActionsLoop (env : Env) (henv : env.armsNoSpecialBreakpoint)
    (g : Option GlobalObject) (actions : List Action) (d : Debugger) (h : d.m_specialBreakpoint = none) :
    (evaluateBreakpointActionsLoop env g actions d).m_specialBreakpoint = none := by
  induction actions generalizing d with
  | nil => exact h
  | cons a rest ih =>
    unfold evaluateBreakpointActionsLoop
    simp only []
    split
    · exact noSpecial_evaluateBreakpointAction env henv a g d h
    · exact ih _ (noSpecial_evaluateBreakpointAction env henv a g d h)

theorem noSpecial_evaluateBreakpointActions (env : Env) (henv : env.armsNoSpecialBreakpoint) (b : Breakpoint)
    (g : Option GlobalObject) (d : Debugger) (h : d.m_specialBreakpoint = none) :
    (evaluateBreakpointActions env b g d).m_specialBreakpoint = none :=
  noSpecial_evaluateBreakpointActionsLoop env henv g b.actions _ h

theorem noSpecial_deferredBreakpointsLoop (env : Env) (henv : env.armsNoSpecialBreakpoint)
    (g : Option GlobalObject) (bps : List Breakpoint) (st : DeferredLoopState) (d : Debugger)
    (h : d.m_specialBreakpoint = none) :
    (deferredBreakpointsLoop env g bps st d).2.m_specialBreakpoint = none := by
  induction bps generalizing st d with
  | nil => exact h
  | cons b rest ih =>
    have h1 := noSpecial_shouldPause env henv b g d h
    have h2 := noSpecial_evaluateBreakpointActions env henv b g _ h1
    unfold deferredBreakpointsLoop
    simp only []
    split
    · exact h1
    · split
      · exact ih _ _ h1
      · split
        · exact h2
        · split <;> exact ih _ _ h2

theorem noSpecial_evaluateDeferredBreakpoints (env : Env) (henv : env.armsNoSpecialBreakpoint)
    (g : Option GlobalObject) (step : Bool) (d : Debugger) (h : d.m_specialBreakpoint = none) :
    (evaluateDeferredBreakpoints env g step d).2.m_specialBreakpoint = none := by
  unfold evaluateDeferredBreakpoints
  split
  · exact h
  · simp only []
    have hloop := noSpecial_deferredBreakpointsLoop env henv g d.m_deferredBreakpoints {}
      { d with m_deferredBreakpoints := [] } h
    generalize deferredBreakpointsLoop env g d.m_deferredBreakpoints {}
      { d with m_deferredBreakpoints := [] } = r at hloop
    obtain ⟨state, x⟩ := r
    simp only at hloop
    cases state with
    | none => exact hloop
    | some state =>
      simp only []
      split
      · split <;> exact hloop
      · split <;> exact hloop

end Debugger
end JSC


namespace JSC
namespace Debugger

/-! ### Stepping stays enabled during a pause -/

theorem stepping_runCommand (env : Env) (c : ClientCommand) (d : Debugger)
    (h : d.m_steppingMode = SteppingMode.SteppingModeEnabled) :
    (runCommand env c d).m_steppingMode = SteppingMode.SteppingModeEnabled := by
  cases c with
  | schedulePauseAtNextOpportunity =>
    simp [runCommand, schedulePauseAtNextOpportunity, setSteppingMode_eq]
  | schedulePauseForSpecialBreakpoint b =>
    simp only [runCommand, schedulePauseForSpecialBreakpoint, setSteppingMode_eq]
    split
    · exact h
    · rfl
  | stepNextExpression =>
    simp only [runCommand, stepNextExpression, setSteppingMode_eq]
    split
    · exact h
    · rfl
  | stepIntoStatement =>
    simp only [runCommand, stepIntoStatement, setSteppingMode_eq]
    split
    · exact h
    · rfl
  | stepOverStatement =>
    simp only [runCommand, stepOverStatement, setSteppingMode_eq]
    split
    · exact h
    · rfl
  | stepOutOfFunction =>
    simp only [runCommand, stepOutOfFunction, setSteppingMode_eq]
    split
    · exact h
    · rfl
  | _ => simp [runCommand, h]

theorem stepping_runCommands (env : Env) (cs : List ClientCommand) (d : Debugger)
    (h : d.m_steppingMode = SteppingMode.SteppingModeEnabled) :
    (runCommands env cs d).m_steppingMode = SteppingMode.SteppingModeEnabled := by
  induction cs generalizing d with
  | nil => exact h
  | cons c rest ih => exact ih (runCommand env c d) (stepping_runCommand env c d h)

theorem stepping_runEventLoopWhilePaused (env : Env) (cs : List ClientCommand) (d : Debugger)
    (h : d.m_steppingMode = SteppingMode.SteppingModeEnabled) :
    (runEventLoopWhilePaused env cs d).m_steppingMode = SteppingMode.SteppingModeEnabled := by
  induction cs generalizing d with
  | nil => exact h
  | cons c rest ih =>
    unfold runEventLoopWhilePaused
    split
    · exact h
    · exact ih (runCommand env c d) (stepping_runCommand env c d h)

theorem stepping_evaluateWithScopeExtension (env : Env) (s : String) (d : Debugger)
    (h : d.m_steppingMode = SteppingMode.SteppingModeEnabled) :
    (evaluateWithScopeExtension env s d).2.m_steppingMode = SteppingMode.SteppingModeEnabled :=
  stepping_runCommands env _ _ h

theorem stepping_handlePause (env : Env) (g : Option GlobalObject) (d : Debugger)
    (h : d.m_steppingMode = SteppingMode.SteppingModeEnabled) :
    (handlePause env g d).m_steppingMode = SteppingMode.SteppingModeEnabled := by
  unfold handlePause
  simp only [m_steppingMode_dispatchFunctionToObservers, m_steppingMode_logEvent,
    m_steppingMode_currentDebuggerCallFrame, implies_true]
  apply stepping_runEventLoopWhilePaused env
  simp [h]

theorem stepping_shouldDeferPause (flags : BlackboxFlags) (d : Debugger)
    (h : d.m_steppingMode = SteppingMode.SteppingModeEnabled) :
    (shouldDeferPause flags d).2.m_steppingMode = SteppingMode.SteppingModeEnabled := by
  unfold shouldDeferPause
  split
  · exact h
  · simp [schedulePauseAtNextOpportunity, setSteppingMode_eq]

end Debugger
end JSC

namespace JSC
namespace Debugger

theorem stepping_evaluateBreakpointCondition (env : Env) (b : Breakpoint)
    (g : Option GlobalObject) (d : Debugger) (h : d.m_steppingMode = SteppingMode.SteppingModeEnabled) :
    (evaluateBreakpointCondition env b g d).2.m_steppingMode = SteppingMode.SteppingModeEnabled := by
  have hev := stepping_evaluateWithScopeExtension env b.condition (currentDebuggerCallFrame d)
    (by rw [m_steppingMode_currentDebuggerCallFrame]; exact h)
  unfold evaluateBreakpointCondition
  simp only []
  split
  · exact h
  · split
    · exact hev
    · split
      · rw [m_steppingMode_reportException]; exact hev
      · exact hev

theorem stepping_shouldPause (env : Env) (b : Breakpoint)
    (g : Option GlobalObject) (d : Debugger) (h : d.m_steppingMode = SteppingMode.SteppingModeEnabled) :
    (shouldPause env b g d).2.m_steppingMode = SteppingMode.SteppingModeEnabled :=
  stepping_evaluateBreakpointCondition env b g d h

theorem stepping_evaluateBreakpointAction (env : Env) (a : Action)
    (g : Option GlobalObject) (d : Debugger) (h : d.m_steppingMode = SteppingMode.SteppingModeEnabled) :
    (evaluateBreakpointAction env a g d).m_steppingMode = SteppingMode.SteppingModeEnabled := by
  unfold evaluateBreakpointAction
  simp only []
  have hwill : ∀ (x : Debugger), x.m_steppingMode = SteppingMode.SteppingModeEnabled →
      (currentDebuggerCallFrame
        (if x.m_hasClient = true then logEvent (Event.clientWillEvaluate a) x else x)).m_steppingMode
        = SteppingMode.SteppingModeEnabled := by
    intro x hx
    rw [m_steppingMode_currentDebuggerCallFrame]
    split
    · exact hx
    · exact hx
  have hdid : ∀ (x : Debugger), x.m_steppingMode = SteppingMode.SteppingModeEnabled →
      (if x.m_hasClient = true then logEvent (Event.clientDidEvaluate a) x else x).m_steppingMode
        = SteppingMode.SteppingModeEnabled := by
    intro x hx
    split
    · exact hx
    · exact hx
  apply hdid
  cases a.type with
  | Log =>
    simp only []
    refine Eq.trans (m_steppingMode_dispatchFunctionToObservers _ _ ?_) (hwill d h)
    intro o y; rfl
  | Evaluate =>
    simp only []
    have hev := stepping_evaluateWithScopeExtension env a.data _ (hwill d h)
    split
    · rw [m_steppingMode_reportException]; exact hev
    · exact hev
  | Sound =>
    simp only []
    refine Eq.trans (m_steppingMode_dispatchFunctionToObservers _ _ ?_) (hwill d h)
    intro o y; rfl
  | Probe =>
    simp only []
    have hev := stepping_evaluateWithScopeExtension env a.data _ (hwill d h)
    refine Eq.trans (m_steppingMode_dispatchFunctionToObservers _ _ ?_) ?_
    · intro o y; rfl
    · split
      · rw [m_steppingMode_reportException]; exact hev
      · exact hev

theorem stepping_evaluateBreakpointActionsLoop (env : Env)
    (g : Option GlobalObject) (actions : List Action) (d : Debugger) (h : d.m_steppingMode = SteppingMode.SteppingModeEnabled) :
    (evaluateBreakpointActionsLoop env g actions d).m_steppingMode = SteppingMode.SteppingModeEnabled := by
  induction actions generalizing d with
  | nil => exact h
  | cons a rest ih =>
    unfold evaluateBreakpointActionsLoop
    simp only []
    split
    · exact stepping_evaluateBreakpointAction env a g d h
    · exact ih _ (stepping_evaluateBreakpointAction env a g d h)

theorem stepping_evaluateBreakpointActions (env : Env) (b : Breakpoint)
    (g : Option GlobalObject) (d : Debugger) (h : d.m_steppingMode = SteppingMode.SteppingModeEnabled) :
    (evaluateBreakpointActions env b g d).m_steppingMode = SteppingMode.SteppingModeEnabled :=
  stepping_evaluateBreakpointActionsLoop env g b.actions _ h

theorem stepping_deferredBreakpointsLoop (env : Env)
    (g : Option GlobalObject) (bps : List Breakpoint) (st : DeferredLoopState) (d : Debugger)
    (h : d.m_steppingMode = SteppingMode.SteppingModeEnabled) :
    (deferredBreakpointsLoop env g bps st d).2.m_steppingMode = SteppingMode.SteppingModeEnabled := by
  induction bps generalizing st d with
  | nil => exact h
  | cons b rest ih =>
    have h1 := stepping_shouldPause env b g d h
    have h2 := stepping_evaluateBreakpointActions env b g _ h1
    unfold deferredBreakpointsLoop
    simp only []
    split
    · exact h1
    · split
      · exact ih _ _ h1
      · split
        · exact h2
        · split <;> exact ih _ _ h2

theorem stepping_evaluateDeferredBreakpoints (env : Env)
    (g : Option GlobalObject) (step : Bool) (d : Debugger) (h : d.m_steppingMode = SteppingMode.SteppingModeEnabled) :
    (evaluateDeferredBreakpoints env g step d).2.m_steppingMode = SteppingMode.SteppingModeEnabled := by
  unfold evaluateDeferredBreakpoints
  split
  · exact h
  · simp only []
    have hloop := stepping_deferredBreakpointsLoop env g d.m_deferredBreakpoints {}
      { d with m_deferredBreakpoints := [] } h
    generalize deferredBreakpointsLoop env g d.m_deferredBreakpoints {}
      { d with m_deferredBreakpoints := [] } = r at hloop
    obtain ⟨state, x⟩ := r
    simp only at hloop
    cases state with
    | none => exact hloop
    | some state =>
      simp only []
      split
      · split <;> exact hloop
      · split <;> exact hloop

end Debugger
end JSC


namespace JSC
namespace Debugger

/-! ### Requests that are armed during a pause enable stepping -/

theorem steppingIfArmedBeyond_of_enabled (x : Debugger) (target : Option CallFrame)
    (hmode : x.m_steppingMode = SteppingMode.SteppingModeEnabled) :
    x.steppingIfArmedBeyond target = true := by
  simp [steppingIfArmedBeyond, hmode]

theorem steppingIfArmedBeyond_of_le (d x : Debugger) (target : Option CallFrame)
    (harmed : armedBeyond x target = true → armedBeyond d target = true)
    (hmode : x.m_steppingMode = d.m_steppingMode)
    (h : d.steppingIfArmedBeyond target = true) : x.steppingIfArmedBeyond target = true := by
  unfold steppingIfArmedBeyond at h ⊢
  rw [hmode]
  cases hx : armedBeyond x target with
  | false => simp
  | true =>
    rw [harmed hx] at h
    simpa using h

theorem steppingIfArmedBeyond_of_eq (d x : Debugger) (target : Option CallFrame)
    (h1 : x.m_pauseAtNextOpportunity = d.m_pauseAtNextOpportunity)
    (h2 : x.m_specialBreakpoint = d.m_specialBreakpoint)
    (h3 : x.m_pauseOnCallFrame = d.m_pauseOnCallFrame)
    (h4 : x.m_steppingMode = d.m_steppingMode) :
    x.steppingIfArmedBeyond target = d.steppingIfArmedBeyond target := by
  simp [steppingIfArmedBeyond, armedBeyond, h1, h2, h3, h4]

theorem steppingIfArmedBeyond_continueProgram (d : Debugger) (target : Option CallFrame) :
    (continueProgram d).steppingIfArmedBeyond target = true := by
  have : armedBeyond (continueProgram d) target = false := by
    unfold continueProgram armedBeyond
    simp only []
    split <;> rfl
  simp [steppingIfArmedBeyond, this]

theorem steppingIfArmedBeyond_runCommand (env : Env) (target : Option CallFrame)
    (c : ClientCommand) (d : Debugger) (h : d.steppingIfArmedBeyond target = true) :
    (runCommand env c d).steppingIfArmedBeyond target = true := by
  cases c with
  | schedulePauseAtNextOpportunity =>
    exact steppingIfArmedBeyond_of_enabled _ _
      (by simp [runCommand, schedulePauseAtNextOpportunity, setSteppingMode_eq])
  | schedulePauseForSpecialBreakpoint b =>
    simp only [runCommand, schedulePauseForSpecialBreakpoint, setSteppingMode_eq]
    split
    · exact h
    · exact steppingIfArmedBeyond_of_enabled _ _ rfl
  | stepNextExpression =>
    simp only [runCommand, stepNextExpression, setSteppingMode_eq]
    split
    · exact h
    · exact steppingIfArmedBeyond_of_enabled _ _ rfl
  | stepIntoStatement =>
    simp only [runCommand, stepIntoStatement, setSteppingMode_eq]
    split
    · exact h
    · exact steppingIfArmedBeyond_of_enabled _ _ rfl
  | stepOverStatement =>
    simp only [runCommand, stepOverStatement, setSteppingMode_eq]
    split
    · exact h
    · exact steppingIfArmedBeyond_of_enabled _ _ rfl
  | stepOutOfFunction =>
    simp only [runCommand, stepOutOfFunction, setSteppingMode_eq]
    split
    · exact h
    · exact steppingIfArmedBeyond_of_enabled _ _ rfl
  | continueProgram => exact steppingIfArmedBeyond_continueProgram d target
  | cancelPauseAtNextOpportunity =>
    refine steppingIfArmedBeyond_of_le d _ target ?_ rfl h
    simp only [runCommand, cancelPauseAtNextOpportunity, armedBeyond]
    intro hx
    simp only [Bool.false_or, Bool.or_eq_true] at hx
    simp only [Bool.or_eq_true]
    rcases hx with hx | hx
    · exact Or.inl (Or.inr hx)
    · exact Or.inr hx
  | cancelPauseForSpecialBreakpoint b =>
    simp only [runCommand, cancelPauseForSpecialBreakpoint]
    split
    · exact h
    · refine steppingIfArmedBeyond_of_le d _ target ?_ rfl h
      simp only [armedBeyond]
      intro hx
      simp only [Option.isSome_none, Bool.or_false, Bool.or_eq_true] at hx
      simp only [Bool.or_eq_true]
      rcases hx with hx | hx
      · exact Or.inl (Or.inl hx)
      · exact Or.inr hx
  | clearBreakpoints =>
    refine steppingIfArmedBeyond_of_le d _ target ?_ rfl h
    simp only [runCommand, clearBreakpoints, armedBeyond]
    intro hx
    simp only [Option.isSome_none, Bool.or_false, Bool.or_eq_true] at hx
    simp only [Bool.or_eq_true]
    rcases hx with hx | hx
    · exact Or.inl (Or.inl hx)
    · exact Or.inr hx
  | detach g r =>
    simp only [runCommand, detach]
    have hcont := steppingIfArmedBeyond_continueProgram
      { d with m_currentCallFrame := none, m_pauseOnCallFrame := none } target
    split <;> split <;> first
      | exact h
      | exact hcont
  | setBreakpoint b =>
    rw [← h]
    exact steppingIfArmedBeyond_of_eq d _ target
      (by simp only [runCommand]; unfold setBreakpoint; simp only []; split <;> rfl)
      (by simp [runCommand])
      (by simp only [runCommand]; unfold setBreakpoint; simp only []; split <;> rfl)
      (by simp [runCommand])
  | removeBreakpoint b =>
    rw [← h]
    exact steppingIfArmedBeyond_of_eq d _ target
      (by simp only [runCommand]; unfold removeBreakpoint; split; rfl; split <;> rfl)
      (by simp [runCommand])
      (by simp only [runCommand]; unfold removeBreakpoint; split; rfl; split <;> rfl)
      (by simp [runCommand])
  | setBreakpointsActivated a =>
    rw [← h]
    exact steppingIfArmedBeyond_of_eq d _ target
      (by simp only [runCommand]; unfold setBreakpointsActivated; split <;> rfl)
      (by simp [runCommand])
      (by simp only [runCommand]; unfold setBreakpointsActivated; split <;> rfl)
      (by simp [runCommand])
  | setBlackboxConfiguration s config =>
    rw [← h]
    exact steppingIfArmedBeyond_of_eq d _ target
      (by simp only [runCommand]; unfold setBlackboxConfiguration; split <;> rfl)
      (by simp [runCommand])
      (by simp only [runCommand]; unfold setBlackboxConfiguration; split <;> rfl)
      (by simp [runCommand])
  | setBlackboxBreakpointEvaluations v => exact h
  | clearBlackbox => exact h
  | addObserver o =>
    rw [← h]
    exact steppingIfArmedBeyond_of_eq d _ target
      (by simp only [runCommand]; unfold addObserver; simp only []; split <;> rfl)
      (by simp [runCommand])
      (by simp only [runCommand]; unfold addObserver; simp only []; split <;> rfl)
      (by simp [runCommand])
  | removeObserver o b =>
    rw [← h]
    exact steppingIfArmedBeyond_of_eq d _ target
      (by simp only [runCommand]; unfold removeObserver; simp only []; split <;> rfl)
      (by simp [runCommand])
      (by simp only [runCommand]; unfold removeObserver; simp only []; split <;> rfl)
      (by simp [runCommand])

theorem steppingIfArmedBeyond_runCommands (env : Env) (target : Option CallFrame)
    (cs : List ClientCommand) (d : Debugger) (h : d.steppingIfArmedBeyond target = true) :
    (runCommands env cs d).steppingIfArmedBeyond target = true := by
  induction cs generalizing d with
  | nil => exact h
  | cons c rest ih => exact ih _ (steppingIfArmedBeyond_runCommand env target c d h)

theorem steppingIfArmedBeyond_runEventLoopWhilePaused (env : Env) (target : Option CallFrame)
    (cs : List ClientCommand) (d : Debugger) (h : d.steppingIfArmedBeyond target = true) :
    (runEventLoopWhilePaused env cs d).steppingIfArmedBeyond target = true := by
  induction cs generalizing d with
  | nil => exact h
  | cons c rest ih =>
    unfold runEventLoopWhilePaused
    split
    · exact h
    · exact ih _ (steppingIfArmedBeyond_runCommand env target c d h)

end Debugger
end JSC

namespace JSC
namespace Debugger

theorem steppingIfArmedBeyond_logEvent {target : Option CallFrame} (e : Event) (d : Debugger) :
    (logEvent e d).steppingIfArmedBeyond target = d.steppingIfArmedBeyond target := rfl

theorem steppingIfArmedBeyond_currentDebuggerCallFrame {target : Option CallFrame}
    (d : Debugger) :
    (currentDebuggerCallFrame d).steppingIfArmedBeyond target
      = d.steppingIfArmedBeyond target := by
  unfold currentDebuggerCallFrame; split <;> rfl

theorem steppingIfArmedBeyond_reportException {target : Option CallFrame}
    (g : Option GlobalObject) (e : JSValue) (d : Debugger) :
    (reportException g e d).steppingIfArmedBeyond target = d.steppingIfArmedBeyond target := rfl

theorem steppingIfArmedBeyond_dispatchFunctionToObservers {target : Option CallFrame}
    (func : Observer → Debugger → Debugger) (d : Debugger)
    (h : ∀ o x, (func o x).steppingIfArmedBeyond target = x.steppingIfArmedBeyond target) :
    (dispatchFunctionToObservers func d).steppingIfArmedBeyond target
      = d.steppingIfArmedBeyond target :=
  dispatchFunctionToObservers_preserves (fun y => y.steppingIfArmedBeyond target) func h d

theorem armedStepping_evaluateWithScopeExtension (env : Env) (target : Option CallFrame)
    (s : String) (d : Debugger) (h : d.steppingIfArmedBeyond target = true) :
    (evaluateWithScopeExtension env s d).2.steppingIfArmedBeyond target = true :=
  steppingIfArmedBeyond_runCommands env target _ _ h

end Debugger
end JSC

namespace JSC
namespace Debugger

theorem armedStepping_evaluateBreakpointCondition (env : Env) (target : Option CallFrame) (b : Breakpoint)
    (g : Option GlobalObject) (d : Debugger) (h : d.steppingIfArmedBeyond target = true) :
    (evaluateBreakpointCondition env b g d).2.steppingIfArmedBeyond target = true := by
  have hev := armedStepping_evaluateWithScopeExtension env target b.condition (currentDebuggerCallFrame d)
    (by rw [steppingIfArmedBeyond_currentDebuggerCallFrame]; exact h)
  unfold evaluateBreakpointCondition
  simp only []
  split
  · exact h
  · split
    · exact hev
    · split
      · rw [steppingIfArmedBeyond_reportException]; exact hev
      · exact hev

theorem armedStepping_shouldPause (env : Env) (target : Option CallFrame) (b : Breakpoint)
    (g : Option GlobalObject) (d : Debugger) (h : d.steppingIfArmedBeyond target = true) :
    (shouldPause env b g d).2.steppingIfArmedBeyond target = true :=
  armedStepping_evaluateBreakpointCondition env target b g d h

theorem armedStepping_evaluateBreakpointAction (env : Env) (target : Option CallFrame) (a : Action)
    (g : Option GlobalObject) (d : Debugger) (h : d.steppingIfArmedBeyond target = true) :
    (evaluateBreakpointAction env a g d).steppingIfArmedBeyond target = true := by
  unfold evaluateBreakpointAction
  simp only []
  have hwill : ∀ (x : Debugger), x.steppingIfArmedBeyond target = true →
      (currentDebuggerCallFrame
        (if x.m_hasClient = true then logEvent (Event.clientWillEvaluate a) x else x)).steppingIfArmedBeyond target
        = true := by
    intro x hx
    rw [steppingIfArmedBeyond_currentDebuggerCallFrame]
    split
    · exact hx
    · exact hx
  have hdid : ∀ (x : Debugger), x.steppingIfArmedBeyond target = true →
      (if x.m_hasClient = true then logEvent (Event.clientDidEvaluate a) x else x).steppingIfArmedBeyond target
        = true := by
    intro x hx
    split
    · exact hx
    · exact hx
  apply hdid
  cases a.type with
  | Log =>
    simp only []
    refine Eq.trans (steppingIfArmedBeyond_dispatchFunctionToObservers _ _ ?_) (hwill d h)
    intro o y; rfl
  | Evaluate =>
    simp only []
    have hev := armedStepping_evaluateWithScopeExtension env target a.data _ (hwill d h)
    split
    · rw [steppingIfArmedBeyond_reportException]; exact hev
    · exact hev
  | Sound =>
    simp only []
    refine Eq.trans (steppingIfArmedBeyond_dispatchFunctionToObservers _ _ ?_) (hwill d h)
    intro o y; rfl
  | Probe =>
    simp only []
    have hev := armedStepping_evaluateWithScopeExtension env target a.data _ (hwill d h)
    refine Eq.trans (steppingIfArmedBeyond_dispatchFunctionToObservers _ _ ?_) ?_
    · intro o y; rfl
    · split
      · rw [steppingIfArmedBeyond_reportException]; exact hev
      · exact hev

theorem armedStepping_evaluateBreakpointActionsLoop (env : Env) (target : Option CallFrame)
    (g : Option GlobalObject) (actions : List Action) (d : Debugger) (h : d.steppingIfArmedBeyond target = true) :
    (evaluateBreakpointActionsLoop env g actions d).steppingIfArmedBeyond target = true := by
  induction actions generalizing d with
  | nil => exact h
  | cons a rest ih =>
    unfold evaluateBreakpointActionsLoop
    simp only []
    split
    · exact armedStepping_evaluateBreakpointAction env target a g d h
    · exact ih _ (armedStepping_evaluateBreakpointAction env target a g d h)

theorem armedStepping_evaluateBreakpointActions (env : Env) (target : Option CallFrame) (b : Breakpoint)
    (g : Option GlobalObject) (d : Debugger) (h : d.steppingIfArmedBeyond target = true) :
    (evaluateBreakpointActions env b g d).steppingIfArmedBeyond target = true :=
  armedStepping_evaluateBreakpointActionsLoop env target g b.actions _ h

theorem armedStepping_deferredBreakpointsLoop (env : Env) (target : Option CallFrame)
    (g : Option GlobalObject) (bps : List Breakpoint) (st : DeferredLoopState) (d : Debugger)
    (h : d.steppingIfArmedBeyond target = true) :
    (deferredBreakpointsLoop env g bps st d).2.steppingIfArmedBeyond target = true := by
  induction bps generalizing st d with
  | nil => exact h
  | cons b rest ih =>
    have h1 := armedStepping_shouldPause env target b g d h
    have h2 := armedStepping_evaluateBreakpointActions env target b g _ h1
    unfold deferredBreakpointsLoop
    simp only []
    split
    · exact h1
    · split
      · exact ih _ _ h1
      · split
        · exact h2
        · split <;> exact ih _ _ h2

theorem armedStepping_evaluateDeferredBreakpoints (env : Env) (target : Option CallFrame)
    (g : Option GlobalObject) (step : Bool) (d : Debugger) (h : d.steppingIfArmedBeyond target = true) :
    (evaluateDeferredBreakpoints env g step d).2.steppingIfArmedBeyond target = true := by
  unfold evaluateDeferredBreakpoints
  split
  · exact h
  · simp only []
    have hloop := armedStepping_deferredBreakpointsLoop env target g d.m_deferredBreakpoints {}
      { d with m_deferredBreakpoints := [] } h
    generalize deferredBreakpointsLoop env g d.m_deferredBreakpoints {}
      { d with m_deferredBreakpoints := [] } = r at hloop
    obtain ⟨state, x⟩ := r
    simp only at hloop
    cases state with
    | none => exact hloop
    | some state =>
      simp only []
      split
      · split <;> exact hloop
      · split <;> exact hloop

end Debugger
end JSC


namespace JSC
namespace Debugger

/-! ### `pauseIfNeeded` past its first checks -/

theorem pauseIfNeeded_eq (env : Env) (g : Option GlobalObject) (d : Debugger)
    (flags : BlackboxFlags) (hpaused : d.m_isPaused = false)
    (hsuppress : d.m_suppressAllPauses = false)
    (hflags : relevantBlackboxFlags d (env.sourceIDForCallFrame d.m_currentCallFrame)
      (env.positionForCallFrame d.m_currentCallFrame) = some flags) :
    pauseIfNeeded env g d
      = if (pauseRequested d
            || (didHitBreakpoint d (env.sourceIDForCallFrame d.m_currentCallFrame)
                  (env.positionForCallFrame d.m_currentCallFrame)).isSome
            || d.m_specialBreakpoint.isSome) = true
        then
          leavePausedScopes (pauseIfNeededGuarded env g flags d.m_afterBlackboxedScript
            (stepPause d)
            (atPauseTest d
              (didHitBreakpoint d (env.sourceIDForCallFrame d.m_currentCallFrame)
                (env.positionForCallFrame d.m_currentCallFrame))
              (toUnsigned (env.positionForCallFrame d.m_currentCallFrame).m_line)))
        else
          atPauseTest d
            (didHitBreakpoint d (env.sourceIDForCallFrame d.m_currentCallFrame)
              (env.positionForCallFrame d.m_currentCallFrame))
            (toUnsigned (env.positionForCallFrame d.m_currentCallFrame).m_line) := by
  unfold pauseIfNeeded
  simp only [hpaused, hsuppress, hflags, Bool.false_eq_true, if_false]
  cases hhit : didHitBreakpoint d (env.sourceIDForCallFrame d.m_currentCallFrame)
      (env.positionForCallFrame d.m_currentCallFrame) <;>
    cases hsp : d.m_specialBreakpoint <;>
    cases hnext : d.m_pauseAtNextOpportunity <;>
    by_cases hframe : d.m_pauseOnCallFrame = d.m_currentCallFrame <;>
    simp [hsp, hnext, hframe, hpaused, hsuppress, pauseRequested, stepPause, atPauseTest,
      deferredAtEntry]

end Debugger
end JSC

namespace JSC
namespace Debugger

/-! ### `didHitBreakpoint` -/

theorem didHitBreakpointLoop_some (last line column : Nat) (bs : BreakpointsVector)
    (b : Breakpoint) (h : didHitBreakpointLoop last line column bs = some b) :
    b ∈ bs ∧ ((line ≠ last ∧ line = b.lineNumber ∧ b.columnNumber = 0)
      ∨ (line = b.lineNumber ∧ column = b.columnNumber)) := by
  induction bs with
  | nil => simp [didHitBreakpointLoop] at h
  | cons e rest ih =>
    unfold didHitBreakpointLoop at h
    simp only [] at h
    split at h
    · rename_i hc
      simp only [Option.some.injEq] at h
      subst h
      exact ⟨List.mem_cons_self _ _, hc⟩
    · obtain ⟨hm, hc⟩ := ih h
      exact ⟨List.mem_cons_of_mem _ hm, hc⟩

theorem didHitBreakpoint_some (d : Debugger) (sourceID : SourceID) (p : TextPosition)
    (b : Breakpoint) (h : didHitBreakpoint d sourceID p = some b) :
    d.m_breakpointsActivated = true ∧ b ∈ bucket d sourceID (toUnsigned p.m_line) ∧
      ((toUnsigned p.m_line ≠ d.m_lastExecutedLine ∧ toUnsigned p.m_line = b.lineNumber
          ∧ b.columnNumber = 0)
        ∨ (toUnsigned p.m_line = b.lineNumber ∧ toUnsigned p.m_column = b.columnNumber)) := by
  unfold didHitBreakpoint at h
  cases hact : d.m_breakpointsActivated with
  | false => simp [hact] at h
  | true =>
    simp only [hact, Bool.not_true, Bool.false_eq_true, if_false] at h
    cases hm : HashMap.find d.m_breakpointsForSourceID sourceID with
    | none => simp [hm] at h
    | some inner =>
      simp only [hm] at h
      cases hi : HashMap.find inner (toUnsigned p.m_line) with
      | none => simp [hi] at h
      | some bs =>
        simp only [hi] at h
        obtain ⟨hmem, hc⟩ := didHitBreakpointLoop_some _ _ _ _ _ h
        refine ⟨rfl, ?_, hc⟩
        simp [bucket, hm, hi, hmem]

theorem didHitBreakpoint_eq_loop (d : Debugger) (sourceID : SourceID) (p : TextPosition)
    (hact : d.m_breakpointsActivated = true) :
    didHitBreakpoint d sourceID p
      = didHitBreakpointLoop d.m_lastExecutedLine (toUnsigned p.m_line) (toUnsigned p.m_column)
          (bucket d sourceID (toUnsigned p.m_line)) := by
  unfold didHitBreakpoint bucket
  simp only [hact, Bool.not_true, Bool.false_eq_true, if_false]
  cases hm : HashMap.find d.m_breakpointsForSourceID sourceID with
  | none => simp [didHitBreakpointLoop]
  | some inner =>
    cases hi : HashMap.find inner (toUnsigned p.m_line) with
    | none => simp [hi, didHitBreakpointLoop]
    | some bs => simp [hi]

/-- The loop returns the breakpoint without a column of the line when the line
differs from the last executed one and no other breakpoint of the vector matches. -/
theorem didHitBreakpointLoop_columnless (last line column : Nat) (bs : BreakpointsVector)
    (B : Breakpoint) (hmem : B ∈ bs) (hcol : B.columnNumber = 0) (hline : line = B.lineNumber)
    (hlast : line ≠ last)
    (hother : ∀ b ∈ bs, b ≠ B → b.columnNumber ≠ 0 ∧ b.columnNumber ≠ column) :
    didHitBreakpointLoop last line column bs = some B := by
  induction bs with
  | nil => simp at hmem
  | cons e rest ih =>
    unfold didHitBreakpointLoop
    simp only []
    by_cases he : e = B
    · subst he
      rw [if_pos (Or.inl ⟨hlast, hline, hcol⟩)]
    · have hne := hother e (List.mem_cons_self _ _) he
      have hno : ¬ ((line ≠ last ∧ line = e.lineNumber ∧ e.columnNumber = 0)
          ∨ (line = e.lineNumber ∧ column = e.columnNumber)) := by
        rintro (⟨_, _, h0⟩ | ⟨_, hc⟩)
        · exact hne.1 h0
        · exact hne.2 hc.symm
      rw [if_neg hno]
      have hmem2 : B ∈ rest := by
        rcases List.mem_cons.mp hmem with h | h
        · exact absurd h.symm he
        · exact h
      exact ih hmem2 (fun b hb hbne => hother b (List.mem_cons_of_mem _ hb) hbne)

/-- What a match of a breakpoint without a column says about the position. -/
theorem columnless_match (d : Debugger) (sourceID : SourceID)
    (position : TextPosition) (B : Breakpoint) (hcol : B.columnNumber = 0)
    (hhit : didHitBreakpoint d sourceID position = some B) :
    toUnsigned position.m_line = B.lineNumber ∧
      (B.lineNumber ≠ d.m_lastExecutedLine ∨ toUnsigned position.m_column = 0) := by
  obtain ⟨_, _, hc⟩ := didHitBreakpoint_some d sourceID position B hhit
  rcases hc with ⟨hne, hl, _⟩ | ⟨hl, hcc⟩
  · exact ⟨hl, Or.inl (by rw [← hl]; exact hne)⟩
  · exact ⟨hl, Or.inr (by rw [hcc, hcol])⟩

/-- C5 (amended): a breakpoint `B` without a column (`columnNumber` 0) is returned
by `didHitBreakpoint(S, position)` only if the line of the position is the line
of `B` and, moreover, that line differs from `m_lastExecutedLine` or the column
of the position is 0. -/
theorem didHitBreakpoint_columnless_only_if (d : Debugger) (sourceID : SourceID)
    (position : TextPosition) (B : Breakpoint) (hcol : B.columnNumber = 0)
    (hhit : didHitBreakpoint d sourceID position = some B) :
    toUnsigned position.m_line = B.lineNumber ∧
      (B.lineNumber ≠ d.m_lastExecutedLine ∨ toUnsigned position.m_column = 0) :=
  columnless_match d sourceID position B hcol hhit

theorem didHitBreakpoint_columnless_only_if_witness :
    lineBreakpoint.columnNumber = 0 ∧
      toUnsigned (TextPosition.mk 5 0).m_line = lineBreakpoint.lineNumber ∧
      (lineBreakpoint.lineNumber ≠ pausedOnLineFive.m_lastExecutedLine
        ∨ toUnsigned (TextPosition.mk 5 0).m_column = 0) :=
  ⟨rfl, didHitBreakpoint_columnless_only_if pausedOnLineFive 7 (TextPosition.mk 5 0)
    lineBreakpoint rfl (by decide)⟩

/-- C5 (as stated, refuted): with breakpoints activated, `lineBreakpoint` registered
at line 5 of script 7 and line 5 the last executed line, `didHitBreakpoint` at
position (5, 0) returns `lineBreakpoint` although its line is the last executed
line. -/
theorem didHitBreakpoint_columnless_on_last_executed_line :
    pausedOnLineFive.m_breakpointsActivated = true ∧
      lineBreakpoint.columnNumber = 0 ∧
      lineBreakpoint ∈ bucket pausedOnLineFive 7 lineBreakpoint.lineNumber ∧
      didHitBreakpoint pausedOnLineFive 7 (TextPosition.mk 5 0) = some lineBreakpoint ∧
      ¬ (toUnsigned (TextPosition.mk 5 0).m_line = lineBreakpoint.lineNumber ∧
          lineBreakpoint.lineNumber ≠ pausedOnLineFive.m_lastExecutedLine) := by
  decide

end Debugger
end JSC

namespace JSC
namespace Debugger

/-- After a `setBreakpoint(B)` that returns true and the `removeBreakpoint(B)` that
follows, every `(sourceID, line)` key of the index maps to the vector it mapped
to before, and `didHitBreakpoint` does not return `B`. -/
theorem bucket_set_then_remove (B : Breakpoint) (d : Debugger) (hinv : StoreInvariant d)
    (hset : (setBreakpoint B d).1 = true) (s l : Nat) (position : TextPosition) :
    bucket (removeBreakpoint B (setBreakpoint B d).2).2 s l = bucket d s l ∧
      didHitBreakpoint (removeBreakpoint B (setBreakpoint B d).2).2 s position ≠ some B := by
  have hany : (bucket d B.sourceID B.lineNumber).any
      (fun e => decide (e.columnNumber = B.columnNumber)) = false := by
    rw [setBreakpoint_fst] at hset
    simpa using hset
  have hnot : B ∉ bucket d B.sourceID B.lineNumber := by
    intro hmem
    have := List.any_eq_false.mp hany B hmem
    simp at this
  have hbucket : ∀ s l, bucket (removeBreakpoint B (setBreakpoint B d).2).2 s l = bucket d s l := by
    intro s l
    rw [bucket_removeBreakpoint, bucket_setBreakpoint]
    by_cases hk : s = B.sourceID ∧ l = B.lineNumber
    · obtain ⟨hs, hl⟩ := hk
      subst hs hl
      rw [if_pos ⟨rfl, rfl⟩, if_pos ⟨rfl, rfl, hany⟩, List.filter_append]
      have hkeep : (bucket d B.sourceID B.lineNumber).filter (fun e => !decide (B = e))
          = bucket d B.sourceID B.lineNumber := by
        rw [List.filter_eq_self]
        intro e he
        have : B ≠ e := fun h => hnot (h ▸ he)
        simp [this]
      rw [hkeep]
      simp
    · rw [if_neg hk]
      have hk2 : ¬ (s = B.sourceID ∧ l = B.lineNumber ∧
          (bucket d s l).any (fun e => decide (e.columnNumber = B.columnNumber)) = false) :=
        fun h => hk ⟨h.1, h.2.1⟩
      rw [if_neg hk2]
  refine ⟨hbucket s l, ?_⟩
  intro hhit
  obtain ⟨_, hmem, hc⟩ := didHitBreakpoint_some _ _ _ _ hhit
  rw [hbucket] at hmem
  have hkey := (hinv s (toUnsigned position.m_line)).1 B hmem
  rw [← hkey.1, ← hkey.2] at hmem
  exact hnot hmem

end Debugger
end JSC

namespace JSC
namespace Debugger

/-! ### The last executed line -/

theorem m_lastExecutedSourceID_pauseIfNeeded (env : Env) (g : Option GlobalObject)
    (d : Debugger) :
    (pauseIfNeeded env g d).m_lastExecutedSourceID = d.m_lastExecutedSourceID := by
  by_cases hpaused : d.m_isPaused = true
  · simp [pauseIfNeeded, hpaused]
  · by_cases hsuppress : d.m_suppressAllPauses = true
    · simp [pauseIfNeeded, hpaused, hsuppress]
    · cases hflags : relevantBlackboxFlags d (env.sourceIDForCallFrame d.m_currentCallFrame)
          (env.positionForCallFrame d.m_currentCallFrame) with
      | none => simp [pauseIfNeeded, hpaused, hsuppress, hflags]
      | some flags =>
        rw [pauseIfNeeded_eq env g d flags (by simpa using hpaused) (by simpa using hsuppress)
          hflags]
        split <;> simp [leavePausedScopes, atPauseTest]

theorem m_lastExecutedLine_pauseIfNeeded (env : Env) (g : Option GlobalObject) (d : Debugger)
    (flags : BlackboxFlags) (hpaused : d.m_isPaused = false)
    (hsuppress : d.m_suppressAllPauses = false)
    (hflags : relevantBlackboxFlags d (env.sourceIDForCallFrame d.m_currentCallFrame)
      (env.positionForCallFrame d.m_currentCallFrame) = some flags) :
    (pauseIfNeeded env g d).m_lastExecutedLine
      = toUnsigned (env.positionForCallFrame d.m_currentCallFrame).m_line := by
  rw [pauseIfNeeded_eq env g d flags hpaused hsuppress hflags]
  split <;> simp [leavePausedScopes, atPauseTest]

/-- C6 (amended): with breakpoints activated, a breakpoint `B` without a column in
the vector of line `L` of the current script, no breakpoint with an explicit
column at the very position, and a last executed line other than `L`, the match
`pauseIfNeeded` computes at a pause opportunity on line `L` is `B`; and at a
second opportunity of the same script and line that follows it while the
last executed script and line are as that `pauseIfNeeded` left them, at any
column other than 0, the match is not `B`. -/
theorem columnless_breakpoint_fires_once_per_line (env : Env) (g : Option GlobalObject)
    (d : Debugger) (B : Breakpoint) (flags : BlackboxFlags)
    (hinv : StoreInvariant d)
    (hact : d.m_breakpointsActivated = true)
    (hpaused : d.m_isPaused = false) (hsuppress : d.m_suppressAllPauses = false)
    (hflags : relevantBlackboxFlags d (env.sourceIDForCallFrame d.m_currentCallFrame)
      (env.positionForCallFrame d.m_currentCallFrame) = some flags)
    (hscript : d.m_lastExecutedSourceID = env.sourceIDForCallFrame d.m_currentCallFrame)
    (hcol : B.columnNumber = 0)
    (hline : toUnsigned (env.positionForCallFrame d.m_currentCallFrame).m_line = B.lineNumber)
    (hmem : B ∈ bucket d (env.sourceIDForCallFrame d.m_currentCallFrame) B.lineNumber)
    (hother : ∀ b ∈ bucket d (env.sourceIDForCallFrame d.m_currentCallFrame) B.lineNumber,
      b.columnNumber = toUnsigned (env.positionForCallFrame d.m_currentCallFrame).m_column →
        b.columnNumber = 0)
    (hlast : d.m_lastExecutedLine ≠ B.lineNumber) :
    didHitBreakpoint d (env.sourceIDForCallFrame d.m_currentCallFrame)
        (env.positionForCallFrame d.m_currentCallFrame) = some B ∧
      ∀ (env2 : Env) (frame2 : CallFrame) (d2 : Debugger),
        d2.m_lastExecutedLine = (pauseIfNeeded env g d).m_lastExecutedLine →
        d2.m_lastExecutedSourceID = (pauseIfNeeded env g d).m_lastExecutedSourceID →
        env2.sourceIDForCallFrame (some frame2) = env.sourceIDForCallFrame d.m_currentCallFrame →
        toUnsigned (env2.positionForCallFrame (some frame2)).m_line = B.lineNumber →
        toUnsigned (env2.positionForCallFrame (some frame2)).m_column ≠ 0 →
        didHitBreakpoint (updateCallFrameInternal env2 frame2 d2)
          (env2.sourceIDForCallFrame (some frame2)) (env2.positionForCallFrame (some frame2))
          ≠ some B := by
  constructor
  · rw [didHitBreakpoint_eq_loop d _ _ hact, hline]
    refine didHitBreakpointLoop_columnless _ _ _ _ B hmem hcol rfl (Ne.symm hlast) ?_
    intro b hb hne
    have hnodup := (hinv (env.sourceIDForCallFrame d.m_currentCallFrame) B.lineNumber).2
    have hb0 : b.columnNumber ≠ 0 := by
      intro h0
      exact hne (List.inj_on_of_nodup_map hnodup hb hmem (by rw [h0, hcol]))
    exact ⟨hb0, fun hc => hb0 (hother b hb hc)⟩
  · intro env2 frame2 d2 hl0 hs0 hs2 hl2 hc2 hhit
    have hline1 := m_lastExecutedLine_pauseIfNeeded env g d flags hpaused hsuppress hflags
    have hsrc1 := m_lastExecutedSourceID_pauseIfNeeded env g d
    have hkeep : (updateCallFrameInternal env2 frame2 d2).m_lastExecutedLine
        = B.lineNumber := by
      unfold updateCallFrameInternal
      simp only [hs0, hsrc1, hscript, hs2, ne_eq, not_true_eq_false, if_false]
      rw [hl0, hline1, hline]
    obtain ⟨_, hc⟩ := columnless_match _ _ _ B hcol hhit
    rw [hkeep] at hc
    rcases hc with h | h
    · exact h rfl
    · exact hc2 h

theorem columnless_breakpoint_fires_once_per_line_witness :
    didHitBreakpoint onScriptSeven
        ((scriptEnv (TextPosition.mk 5 2)).sourceIDForCallFrame onScriptSeven.m_currentCallFrame)
        ((scriptEnv (TextPosition.mk 5 2)).positionForCallFrame onScriptSeven.m_currentCallFrame)
        = some lineBreakpoint ∧
      ∀ (env2 : Env) (frame2 : CallFrame) (d2 : Debugger),
        d2.m_lastExecutedLine
          = (pauseIfNeeded (scriptEnv (TextPosition.mk 5 2)) (some 1)
              onScriptSeven).m_lastExecutedLine →
        d2.m_lastExecutedSourceID
          = (pauseIfNeeded (scriptEnv (TextPosition.mk 5 2)) (some 1)
              onScriptSeven).m_lastExecutedSourceID →
        env2.sourceIDForCallFrame (some frame2)
          = (scriptEnv (TextPosition.mk 5 2)).sourceIDForCallFrame
              onScriptSeven.m_currentCallFrame →
        toUnsigned (env2.positionForCallFrame (some frame2)).m_line
          = lineBreakpoint.lineNumber →
        toUnsigned (env2.positionForCallFrame (some frame2)).m_column ≠ 0 →
        didHitBreakpoint (updateCallFrameInternal env2 frame2 d2)
          (env2.sourceIDForCallFrame (some frame2)) (env2.positionForCallFrame (some frame2))
          ≠ some lineBreakpoint :=
  columnless_breakpoint_fires_once_per_line (scriptEnv (TextPosition.mk 5 2)) (some 1)
    onScriptSeven lineBreakpoint {}
    (storeInvariant_congr storeWithLineBreakpoint onScriptSeven rfl
      storeInvariant_storeWithLineBreakpoint)
    (by decide) (by decide) (by decide) (by decide) (by decide) (by decide) (by decide)
    (by decide) (by decide) (by decide)

/-- C6 (as stated, refuted): with `lineBreakpoint` (line 5, no column) registered and
activated, a statement at (5, 0) of script 7 pauses, and a second statement
callback at (5, 0) that follows it matches `lineBreakpoint` again and pauses again. -/
theorem columnless_breakpoint_fires_again_at_column_zero :
    lineBreakpoint.columnNumber = 0 ∧
      (atStatement (scriptEnv (TextPosition.mk 5 0)) (some 100)
        activatedWithLineBreakpoint).m_lastExecutedLine = 5 ∧
      decisions (atStatement (scriptEnv (TextPosition.mk 5 0)) (some 100)
        activatedWithLineBreakpoint) = [Event.hookDidPause (some 1)] ∧
      didHitBreakpoint
        (updateCallFrameInternal (scriptEnv (TextPosition.mk 5 0)) 100
          (atStatement (scriptEnv (TextPosition.mk 5 0)) (some 100) activatedWithLineBreakpoint))
        7 (TextPosition.mk 5 0) = some lineBreakpoint ∧
      decisions (atStatement (scriptEnv (TextPosition.mk 5 0)) (some 100)
        (atStatement (scriptEnv (TextPosition.mk 5 0)) (some 100) activatedWithLineBreakpoint))
        = [Event.hookDidPause (some 1), Event.hookDidPause (some 1)] := by
  decide

end Debugger
end JSC

namespace JSC
namespace Debugger

/-! ### Blackboxed ranges -/

end Debugger

theorem TextPosition.lt_iff (a b : TextPosition) :
    TextPosition.lt a b = true
      ↔ a.m_line < b.m_line ∨ (a.m_line = b.m_line ∧ a.m_column < b.m_column) := by
  unfold TextPosition.lt
  split
  · rename_i h
    simp only [decide_eq_true_eq]
    constructor
    · intro hc; exact Or.inr ⟨h, hc⟩
    · rintro (hl | ⟨_, hc⟩)
      · omega
      · exact hc
  · rename_i h
    simp only [decide_eq_true_eq]
    constructor
    · intro hl; exact Or.inl hl
    · rintro (hl | ⟨he, _⟩)
      · exact hl
      · exact absurd he h

theorem covers_iff (range : BlackboxRange) (p : TextPosition) :
    covers range p
      ↔ (TextPosition.lt p range.1 || TextPosition.ge p range.2) = false := by
  unfold covers TextPosition.ge
  rw [Bool.or_eq_false_iff, Bool.not_eq_false', TextPosition.lt_iff]
  have hnot : TextPosition.lt p range.1 = false
      ↔ ¬ (p.m_line < range.1.m_line ∨ (p.m_line = range.1.m_line ∧ p.m_column < range.1.m_column)) := by
    rw [← TextPosition.lt_iff]
    simp
  rw [hnot]
  constructor
  · rintro ⟨h1, h2⟩
    refine ⟨?_, h2⟩
    omega
  · rintro ⟨h1, h2⟩
    refine ⟨?_, h2⟩
    omega

namespace Debugger

theorem blackboxLoop_ignore (position : TextPosition) (configuration : BlackboxConfiguration)
    (range : BlackboxRange) (flags : BlackboxFlags) (acc : BlackboxFlags)
    (hmem : (range, flags) ∈ configuration)
    (hignore : flags.contains BlackboxFlag.Ignore = true) (hcovers : covers range position) :
    blackboxLoop position configuration acc = none := by
  induction configuration generalizing acc with
  | nil => simp at hmem
  | cons entry rest ih =>
    obtain ⟨r, f⟩ := entry
    unfold blackboxLoop
    simp only []
    rcases List.mem_cons.mp hmem with h | h
    · simp only [Prod.mk.injEq] at h
      obtain ⟨hr, hf⟩ := h
      subst hr hf
      rw [if_neg (by rw [(covers_iff range position).mp hcovers]; simp)]
      have : (acc.add flags).contains BlackboxFlag.Ignore = true := by
        simp only [BlackboxFlags.contains] at hignore
        simp [BlackboxFlags.add, BlackboxFlags.contains, hignore]
      rw [if_pos this]
    · split
      · exact ih acc h
      · split
        · rfl
        · exact ih _ h

/-- C7: at a pause opportunity whose position lies in a range `[p0, p1)` of the
current script that carries `Ignore`, `pauseIfNeeded` returns the debugger as
it was: nothing is logged (no `handlePause`, no observer is notified) and
`m_lastExecutedLine`, the requests, the special breakpoint and
`m_deferredBreakpoints` are unchanged. -/
theorem pauseIfNeeded_ignored (env : Env) (g : Option GlobalObject) (d : Debugger)
    (configuration : BlackboxConfiguration) (range : BlackboxRange) (flags : BlackboxFlags)
    (hfind : HashMap.find d.m_blackboxConfigurations
      (env.sourceIDForCallFrame d.m_currentCallFrame) = some configuration)
    (hmem : (range, flags) ∈ configuration)
    (hignore : flags.contains BlackboxFlag.Ignore = true)
    (hcovers : covers range (env.positionForCallFrame d.m_currentCallFrame)) :
    pauseIfNeeded env g d = d ∧
      (pauseIfNeeded env g d).log = d.log ∧
      (pauseIfNeeded env g d).m_lastExecutedLine = d.m_lastExecutedLine ∧
      (pauseIfNeeded env g d).m_pauseAtNextOpportunity = d.m_pauseAtNextOpportunity ∧
      (pauseIfNeeded env g d).m_afterBlackboxedScript = d.m_afterBlackboxedScript ∧
      (pauseIfNeeded env g d).m_specialBreakpoint = d.m_specialBreakpoint ∧
      (pauseIfNeeded env g d).m_pauseOnCallFrame = d.m_pauseOnCallFrame ∧
      (pauseIfNeeded env g d).m_pauseOnStepNext = d.m_pauseOnStepNext ∧
      (pauseIfNeeded env g d).m_pauseOnStepOut = d.m_pauseOnStepOut ∧
      (pauseIfNeeded env g d).m_deferredBreakpoints = d.m_deferredBreakpoints := by
  have h : pauseIfNeeded env g d = d := by
    unfold pauseIfNeeded
    split
    · rfl
    · split
      · rfl
      · simp only [relevantBlackboxFlags, hfind,
          blackboxLoop_ignore _ configuration range flags {} hmem hignore hcovers]
  rw [h]
  simp

theorem pauseIfNeeded_ignored_witness :
    pauseIfNeeded (scriptEnv (TextPosition.mk 5 0)) (some 1) ignoringLineFive
        = ignoringLineFive ∧
      (pauseIfNeeded (scriptEnv (TextPosition.mk 5 0)) (some 1) ignoringLineFive).log
        = ignoringLineFive.log ∧
      (pauseIfNeeded (scriptEnv (TextPosition.mk 5 0)) (some 1)
        ignoringLineFive).m_lastExecutedLine = ignoringLineFive.m_lastExecutedLine ∧
      (pauseIfNeeded (scriptEnv (TextPosition.mk 5 0)) (some 1)
        ignoringLineFive).m_pauseAtNextOpportunity = ignoringLineFive.m_pauseAtNextOpportunity ∧
      (pauseIfNeeded (scriptEnv (TextPosition.mk 5 0)) (some 1)
        ignoringLineFive).m_afterBlackboxedScript = ignoringLineFive.m_afterBlackboxedScript ∧
      (pauseIfNeeded (scriptEnv (TextPosition.mk 5 0)) (some 1)
        ignoringLineFive).m_specialBreakpoint = ignoringLineFive.m_specialBreakpoint ∧
      (pauseIfNeeded (scriptEnv (TextPosition.mk 5 0)) (some 1)
        ignoringLineFive).m_pauseOnCallFrame = ignoringLineFive.m_pauseOnCallFrame ∧
      (pauseIfNeeded (scriptEnv (TextPosition.mk 5 0)) (some 1)
        ignoringLineFive).m_pauseOnStepNext = ignoringLineFive.m_pauseOnStepNext ∧
      (pauseIfNeeded (scriptEnv (TextPosition.mk 5 0)) (some 1)
        ignoringLineFive).m_pauseOnStepOut = ignoringLineFive.m_pauseOnStepOut ∧
      (pauseIfNeeded (scriptEnv (TextPosition.mk 5 0)) (some 1)
        ignoringLineFive).m_deferredBreakpoints = ignoringLineFive.m_deferredBreakpoints :=
  pauseIfNeeded_ignored (scriptEnv (TextPosition.mk 5 0)) (some 1) ignoringLineFive
    [((TextPosition.mk 4 0, TextPosition.mk 6 0), { ignore := true })]
    (TextPosition.mk 4 0, TextPosition.mk 6 0) { ignore := true }
    (by decide) (by decide) (by decide) (by unfold covers; decide)

end Debugger
end JSC

namespace JSC
namespace Debugger

/-! ### The loop over the deferred breakpoints when no evaluation re-enters the debugger -/

theorem shouldPause_fst_quiet (env : Env) (hre : env.noReentrancy) (b : Breakpoint)
    (g : Option GlobalObject) (d : Debugger) (hframe : d.m_currentCallFrame ≠ none) :
    (shouldPause env b g d).1 = conditionHolds env b := by
  unfold shouldPause evaluateBreakpointCondition conditionHolds
  simp only []
  have hkeep := m_currentCallFrame_evaluateWithScopeExtension_quiet env hre b.condition
    (currentDebuggerCallFrame d)
  rw [m_currentCallFrame_currentDebuggerCallFrame] at hkeep
  have hout : (evaluateWithScopeExtension env b.condition (currentDebuggerCallFrame d)).1
      = env.evaluate b.condition := rfl
  split
  · rename_i hc; simp [hc]
  · rename_i hc
    have hsome : ((evaluateWithScopeExtension env b.condition
        (currentDebuggerCallFrame d)).2.m_currentCallFrame).isNone = false := by
      rw [hkeep]
      cases h : d.m_currentCallFrame with
      | none => exact absurd h hframe
      | some f => rfl
    rw [if_neg (by simp [hsome])]
    simp only [hout, hc, Bool.false_or]
    split <;> rename_i hex <;> simp [hex]

theorem deferredBreakpointsLoop_fst_quiet (env : Env) (hre : env.noReentrancy)
    (g : Option GlobalObject) (bps : List Breakpoint) (st : DeferredLoopState) (d : Debugger)
    (hframe : d.m_currentCallFrame ≠ none) :
    (deferredBreakpointsLoop env g bps st d).1 = some (loopState env bps st) := by
  induction bps generalizing st d with
  | nil => rfl
  | cons b rest ih =>
    unfold deferredBreakpointsLoop loopState
    simp only []
    have hf1 : (shouldPause env b g d).2.m_currentCallFrame ≠ none := by
      rw [m_currentCallFrame_shouldPause_quiet env hre]; exact hframe
    have hf2 : (evaluateBreakpointActions env b g (shouldPause env b g d).2).m_currentCallFrame
        ≠ none := by
      rw [m_currentCallFrame_evaluateBreakpointActions_quiet env hre]; exact hf1
    have hn1 : ((shouldPause env b g d).2.m_currentCallFrame).isNone = false := by
      cases h : (shouldPause env b g d).2.m_currentCallFrame with
      | none => exact absurd h hf1
      | some f => rfl
    have hn2 : ((evaluateBreakpointActions env b g
        (shouldPause env b g d).2).m_currentCallFrame).isNone = false := by
      cases h : (evaluateBreakpointActions env b g (shouldPause env b g d).2).m_currentCallFrame with
      | none => exact absurd h hf2
      | some f => rfl
    have hsp := shouldPause_fst_quiet env hre b g d hframe
    by_cases hc : conditionHolds env b = true
    · by_cases ha : b.isAutoContinue = true
      · simp only [hn1, hn2, hsp, hc, ha, Bool.false_eq_true, if_false, Bool.not_true, if_true]
        exact ih _ _ hf2
      · simp only [hn1, hn2, hsp, hc, ha, Bool.false_eq_true, if_false, Bool.not_true]
        exact ih _ _ hf2
    · have hc2 : conditionHolds env b = false := by simpa using hc
      simp only [hn1, hsp, hc2, Bool.false_eq_true, if_false, Bool.not_false, if_true]
      exact ih _ _ hf1

theorem loopState_shouldContinue (env : Env) (bps : List Breakpoint) (st : DeferredLoopState) :
    (loopState env bps st).shouldContinue
      = (st.shouldContinue && !(bps.any (demandsPause env))) := by
  induction bps generalizing st with
  | nil => simp [loopState]
  | cons b rest ih =>
    unfold loopState
    simp only [List.any_cons, demandsPause]
    by_cases hc : conditionHolds env b = true
    · by_cases ha : b.isAutoContinue = true
      · simp [hc, ha, ih, demandsPause]
      · simp only [hc, Bool.not_true, Bool.false_eq_true, if_false, ha]
        rw [ih]
        have hfalse : (if (!b.isLinked) = true then
            ({ st with shouldContinue := false, hasEvaluatedSpecialBreakpoint := true } :
              DeferredLoopState)
          else if (!st.hasEvaluatedSpecialBreakpoint && st.pausingBreakpointID.isNone) = true then
            { st with shouldContinue := false, pausingBreakpointID := some b.id }
          else { st with shouldContinue := false }).shouldContinue = false := by
          split
          · rfl
          · split <;> rfl
        rw [hfalse]
        simp
    · simp [hc, ih, demandsPause]

theorem loopState_pausingBreakpointID_of_some (env : Env) (bps : List Breakpoint)
    (st : DeferredLoopState) (id : BreakpointID) (h : st.pausingBreakpointID = some id) :
    (loopState env bps st).pausingBreakpointID = some id := by
  induction bps generalizing st with
  | nil => simpa [loopState] using h
  | cons b rest ih =>
    unfold loopState
    simp only []
    split
    · exact ih st h
    · split
      · exact ih st h
      · apply ih
        split
        · exact h
        · split
          · rename_i hcontra
            simp [h] at hcontra
          · exact h

/-- The first deferred breakpoint gives the identifier to report when it is a breakpoint of
the source that demands the pause. -/
theorem loopState_first (env : Env) (B : Breakpoint) (rest : List Breakpoint)
    (hdemand : demandsPause env B = true) (hlinked : B.isLinked = true) :
    (loopState env (B :: rest) {}).pausingBreakpointID = some B.id ∧
      (loopState env (B :: rest) {}).shouldContinue = false := by
  have hc : conditionHolds env B = true := by
    simp only [demandsPause, Bool.and_eq_true] at hdemand; exact hdemand.1
  have ha : B.isAutoContinue = false := by
    simp only [demandsPause, Bool.and_eq_true, Bool.not_eq_true'] at hdemand; exact hdemand.2
  constructor
  · unfold loopState
    simp only [hc, ha, hlinked, Bool.not_true, Bool.false_eq_true, if_false]
    exact loopState_pausingBreakpointID_of_some env rest _ B.id (by simp)
  · rw [loopState_shouldContinue]
    simp [hdemand]

end Debugger
end JSC

namespace JSC
namespace Debugger

/-! ### The decisions `handlePause` and `shouldDeferPause` record -/

theorem log_foldl_deferred (observers : List Observer) (d : Debugger) :
    (observers.foldl (fun acc observer =>
        logEvent (Event.observerDidDeferBreakpointPause observer acc.m_pausingBreakpointID) acc)
        d).log
      = d.log ++ observers.map
          (fun observer => Event.observerDidDeferBreakpointPause observer d.m_pausingBreakpointID) := by
  induction observers generalizing d with
  | nil => simp
  | cons o rest ih =>
    simp only [List.foldl_cons, List.map_cons]
    rw [ih]
    simp [logEvent]

theorem log_dispatch_deferred (d : Debugger) :
    (dispatchFunctionToObservers (fun observer acc =>
        logEvent (Event.observerDidDeferBreakpointPause observer acc.m_pausingBreakpointID) acc)
        d).log
      = d.log ++ d.m_observers.map
          (fun observer => Event.observerDidDeferBreakpointPause observer d.m_pausingBreakpointID) := by
  unfold dispatchFunctionToObservers canDispatchFunctionToObservers
  split
  · rename_i h
    have : d.m_observers = [] := by simpa [List.isEmpty_iff] using h
    simp [this]
  · exact log_foldl_deferred _ d

theorem filter_isDecision_deferred (observers : List Observer) (id : BreakpointID) :
    (observers.map (fun observer => Event.observerDidDeferBreakpointPause observer id)).filter
        Event.isDecision
      = observers.map (fun observer => Event.observerDidDeferBreakpointPause observer id) := by
  induction observers with
  | nil => rfl
  | cons o rest ih => simp [List.filter_cons, ih]

theorem shouldDeferPause_fst (flags : BlackboxFlags) (d : Debugger) :
    (shouldDeferPause flags d).1 = flags.contains BlackboxFlag.Defer := by
  unfold shouldDeferPause
  split <;> rename_i h <;> simp_all

theorem shouldDeferPause_of_not_defer (flags : BlackboxFlags) (d : Debugger)
    (h : flags.contains BlackboxFlag.Defer = false) : shouldDeferPause flags d = (false, d) := by
  simp [shouldDeferPause, h]

theorem decisions_shouldDeferPause (flags : BlackboxFlags) (d : Debugger)
    (h : flags.contains BlackboxFlag.Defer = true) :
    (shouldDeferPause flags d).2.log.filter Event.isDecision
      = d.log.filter Event.isDecision ++
          (if d.m_pausingBreakpointID ≠ noBreakpointID then
            d.m_observers.map
              (fun observer => Event.observerDidDeferBreakpointPause observer d.m_pausingBreakpointID)
           else []) := by
  unfold shouldDeferPause
  rw [if_neg (by simp [h])]
  simp only [decisions_schedulePauseAtNextOpportunity]
  split
  · have hlog := log_dispatch_deferred { d with m_afterBlackboxedScript := true }
    simp only [] at hlog ⊢
    rw [hlog, List.filter_append, filter_isDecision_deferred]
  · simp

theorem decisions_handlePause (env : Env) (g : Option GlobalObject) (d : Debugger) :
    (handlePause env g d).log.filter Event.isDecision
      = d.log.filter Event.isDecision ++ [Event.hookDidPause g] := by
  unfold handlePause
  simp only []
  rw [decisions_dispatchFunctionToObservers _ _ (by intro o x; simp),
    decisions_logEvent _ _ (by simp), decisions_runEventLoopWhilePaused]
  simp [logEvent, List.filter_append]

theorem decisions_pauseNow (env : Env) (g : Option GlobalObject) (a b : Bool) (d : Debugger) :
    (pauseNow env g a b d).log.filter Event.isDecision
      = d.log.filter Event.isDecision ++ [Event.hookDidPause g] := by
  unfold pauseNow
  simp only []
  rw [decisions_ite]
  simp only [decisions_setSteppingMode, ite_self, decisions_handlePause]
  split <;> rfl

end Debugger
end JSC

namespace JSC
namespace Debugger

/-! ### `pauseIfNeeded` when no evaluation re-enters the debugger -/

theorem evaluateDeferredBreakpoints_quiet (env : Env) (hre : env.noReentrancy)
    (g : Option GlobalObject) (step : Bool) (d : Debugger)
    (hframe : d.m_currentCallFrame ≠ none) :
    (evaluateDeferredBreakpoints env g step d).1
        = (d.m_deferredBreakpoints.isEmpty
            || !(loopState env d.m_deferredBreakpoints {}).shouldContinue || step) ∧
      (evaluateDeferredBreakpoints env g step d).2.m_pausingBreakpointID
        = (if d.m_deferredBreakpoints.isEmpty then d.m_pausingBreakpointID
           else if (loopState env d.m_deferredBreakpoints {}).shouldContinue then
             d.m_pausingBreakpointID
           else ((loopState env d.m_deferredBreakpoints {}).pausingBreakpointID).getD
             d.m_pausingBreakpointID) ∧
      (evaluateDeferredBreakpoints env g step d).2.m_observers = d.m_observers ∧
      (evaluateDeferredBreakpoints env g step d).2.m_blackboxBreakpointEvaluations
        = d.m_blackboxBreakpointEvaluations := by
  unfold evaluateDeferredBreakpoints
  by_cases hempty : d.m_deferredBreakpoints.isEmpty = true
  · simp [hempty]
  · simp only [hempty, Bool.false_eq_true, if_false, Bool.false_or]
    have h1 := deferredBreakpointsLoop_fst_quiet env hre g d.m_deferredBreakpoints {}
      { d with m_deferredBreakpoints := [] } hframe
    have h2 := m_pausingBreakpointID_deferredBreakpointsLoop_quiet env hre g
      d.m_deferredBreakpoints {} { d with m_deferredBreakpoints := [] }
    have h3 := m_observers_deferredBreakpointsLoop_quiet env hre g
      d.m_deferredBreakpoints {} { d with m_deferredBreakpoints := [] }
    have h4 := m_blackboxBreakpointEvaluations_deferredBreakpointsLoop_quiet env hre g
      d.m_deferredBreakpoints {} { d with m_deferredBreakpoints := [] }
    generalize deferredBreakpointsLoop env g d.m_deferredBreakpoints {}
      { d with m_deferredBreakpoints := [] } = r at h1 h2 h3 h4
    obtain ⟨r1, r2⟩ := r
    simp only [] at h1 h2 h3 h4
    subst h1
    simp only []
    cases hsc : (loopState env d.m_deferredBreakpoints {}).shouldContinue with
    | true =>
      cases step <;> simp [h2, h3, h4]
    | false =>
      cases hid : (loopState env d.m_deferredBreakpoints {}).pausingBreakpointID <;>
        simp [h2, h3, h4]

/-- The decisions of `pauseIfNeeded` past the reset of the requests, at a position
where no `Defer` flag applies: it pauses when no breakpoint is to be evaluated,
when one of them demands the pause, or when the opportunity is a step pause. -/
theorem decisions_pauseIfNeededEvaluate_no_defer (env : Env) (hre : env.noReentrancy)
    (g : Option GlobalObject) (flags : BlackboxFlags) (after step desired : Bool)
    (d : Debugger) (hframe : d.m_currentCallFrame ≠ none)
    (hnd : flags.contains BlackboxFlag.Defer = false) :
    (pauseIfNeededEvaluate env g flags after step desired d).log.filter Event.isDecision
      = d.log.filter Event.isDecision ++
          (if (d.m_deferredBreakpoints.isEmpty
                || !(loopState env d.m_deferredBreakpoints {}).shouldContinue || step) = true
           then [Event.hookDidPause g] else []) := by
  unfold pauseIfNeededEvaluate
  simp only [shouldDeferPause_of_not_defer _ _ hnd, ite_self, Bool.false_eq_true, if_false]
  obtain ⟨hgo, _, _, _⟩ := evaluateDeferredBreakpoints_quiet env hre g step d hframe
  generalize (d.m_deferredBreakpoints.isEmpty
    || !(loopState env d.m_deferredBreakpoints {}).shouldContinue || step) = b at hgo ⊢
  cases b
  · simp [hgo]
  · simp [hgo, decisions_pauseNow]

/-- The decisions of `pauseIfNeeded` past the reset of the requests, in a range with
`Defer`, when breakpoints are evaluated before the deferral. -/
theorem decisions_pauseIfNeededEvaluate_defer_after (env : Env) (hre : env.noReentrancy)
    (g : Option GlobalObject) (flags : BlackboxFlags) (after step desired : Bool)
    (d : Debugger) (hframe : d.m_currentCallFrame ≠ none)
    (hdefer : flags.contains BlackboxFlag.Defer = true)
    (hpolicy : d.m_blackboxBreakpointEvaluations = false)
    (B : Breakpoint) (rest : List Breakpoint) (hbps : d.m_deferredBreakpoints = B :: rest)
    (hdemand : demandsPause env B = true) (hlinked : B.isLinked = true)
    (hid : B.id ≠ noBreakpointID) :
    (pauseIfNeededEvaluate env g flags after step desired d).log.filter Event.isDecision
      = d.log.filter Event.isDecision ++
          d.m_observers.map
            (fun observer => Event.observerDidDeferBreakpointPause observer B.id) := by
  unfold pauseIfNeededEvaluate
  obtain ⟨hgo, hpid, hobs, hpol⟩ := evaluateDeferredBreakpoints_quiet env hre g step d hframe
  obtain ⟨hfirst, hcont⟩ := loopState_first env B rest hdemand hlinked
  rw [hbps] at hgo hpid
  rw [hcont] at hgo hpid
  rw [hfirst] at hpid
  simp only [List.isEmpty_cons, Bool.false_eq_true, if_false, Option.getD_some, Bool.not_false,
    Bool.false_or, Bool.true_or] at hgo hpid
  simp only [hpolicy, Bool.false_eq_true, if_false, hgo, hpol, Bool.not_true, Bool.not_false,
    if_true, shouldDeferPause_fst, hdefer]
  rw [decisions_shouldDeferPause _ _ hdefer, hpid, hobs, if_pos hid,
    decisions_evaluateDeferredBreakpoints]

/-- In a range with `Defer`, when the deferral comes before the evaluation of
breakpoints, `pauseIfNeeded` past the reset of the requests logs nothing and
keeps the deferred breakpoints. -/
theorem pauseIfNeededEvaluate_defer_before (env : Env)
    (g : Option GlobalObject) (flags : BlackboxFlags) (after step desired : Bool)
    (d : Debugger) (hdefer : flags.contains BlackboxFlag.Defer = true)
    (hpolicy : d.m_blackboxBreakpointEvaluations = true)
    (hpid : d.m_pausingBreakpointID = noBreakpointID) :
    (pauseIfNeededEvaluate env g flags after step desired d).log = d.log ∧
      (pauseIfNeededEvaluate env g flags after step desired d).m_deferredBreakpoints
        = d.m_deferredBreakpoints := by
  unfold pauseIfNeededEvaluate
  simp only [hpolicy, if_true, shouldDeferPause_fst, hdefer]
  unfold shouldDeferPause
  simp [hdefer, hpid, schedulePauseAtNextOpportunity, setSteppingMode]
  split <;> simp

end Debugger
end JSC

namespace JSC
namespace Debugger

/-! ### The decisions of `pauseIfNeeded` -/

theorem blackboxLoop_outside (position : TextPosition) (configuration : BlackboxConfiguration)
    (acc : BlackboxFlags) (hout : ∀ entry ∈ configuration, ¬ covers entry.1 position) :
    blackboxLoop position configuration acc = some acc := by
  induction configuration generalizing acc with
  | nil => rfl
  | cons entry rest ih =>
    obtain ⟨r, f⟩ := entry
    unfold blackboxLoop
    simp only []
    have hnot : ¬ covers r position := hout (r, f) (List.mem_cons_self _ _)
    have htest : (TextPosition.lt position r.1 || TextPosition.ge position r.2) = true := by
      cases h : (TextPosition.lt position r.1 || TextPosition.ge position r.2) with
      | true => rfl
      | false => exact absurd ((covers_iff r position).mpr h) hnot
    rw [if_pos htest]
    exact ih acc (fun e he => hout e (List.mem_cons_of_mem _ he))

theorem relevantBlackboxFlags_outside (d : Debugger) (sourceID : SourceID)
    (position : TextPosition)
    (hout : ∀ entry ∈ blackboxRanges d sourceID, ¬ covers entry.1 position) :
    relevantBlackboxFlags d sourceID position = some {} := by
  unfold relevantBlackboxFlags
  unfold blackboxRanges at hout
  cases h : HashMap.find d.m_blackboxConfigurations sourceID with
  | none => rfl
  | some configuration =>
    simp only []
    rw [h] at hout
    exact blackboxLoop_outside position configuration {} hout

theorem decisions_pauseIfNeededGuarded_no_defer (env : Env) (hre : env.noReentrancy)
    (g : Option GlobalObject) (flags : BlackboxFlags) (after step : Bool)
    (d : Debugger) (hframe : d.m_currentCallFrame ≠ none)
    (hnd : flags.contains BlackboxFlag.Defer = false) :
    (pauseIfNeededGuarded env g flags after step d).log.filter Event.isDecision
      = d.log.filter Event.isDecision ++
          (if (d.m_deferredBreakpoints.isEmpty
                || !(loopState env d.m_deferredBreakpoints {}).shouldContinue || step) = true
           then [Event.hookDidPause g] else []) := by
  unfold pauseIfNeededGuarded
  simp only []
  split
  · rw [decisions_pauseIfNeededEvaluate_no_defer env hre g flags after step _ _
      (by simpa [resetImmediatePauseState, resetEventualPauseState] using hframe) hnd]
    rfl
  · rw [decisions_pauseIfNeededEvaluate_no_defer env hre g flags after step _ _
      (by simpa [resetImmediatePauseState] using hframe) hnd]
    rfl

/-- The decisions of `pauseIfNeeded` at a position where no `Defer` flag applies. -/
theorem decisions_pauseIfNeeded_no_defer (env : Env) (hre : env.noReentrancy)
    (g : Option GlobalObject) (d : Debugger) (flags : BlackboxFlags)
    (hpaused : d.m_isPaused = false) (hsuppress : d.m_suppressAllPauses = false)
    (hframe : d.m_currentCallFrame ≠ none)
    (hflags : relevantBlackboxFlags d (env.sourceIDForCallFrame d.m_currentCallFrame)
      (env.positionForCallFrame d.m_currentCallFrame) = some flags)
    (hnd : flags.contains BlackboxFlag.Defer = false) :
    decisions (pauseIfNeeded env g d)
      = decisions d ++
          (if ((pauseRequested d
                  || (didHitBreakpoint d (env.sourceIDForCallFrame d.m_currentCallFrame)
                        (env.positionForCallFrame d.m_currentCallFrame)).isSome
                  || d.m_specialBreakpoint.isSome)
                && ((deferredAtEntry d
                      (didHitBreakpoint d (env.sourceIDForCallFrame d.m_currentCallFrame)
                        (env.positionForCallFrame d.m_currentCallFrame))).isEmpty
                    || !(loopState env (deferredAtEntry d
                      (didHitBreakpoint d (env.sourceIDForCallFrame d.m_currentCallFrame)
                        (env.positionForCallFrame d.m_currentCallFrame))) {}).shouldContinue
                    || stepPause d)) = true
           then [Event.hookDidPause g] else []) := by
  rw [pauseIfNeeded_eq env g d flags hpaused hsuppress hflags]
  unfold decisions
  split
  · rename_i htrig
    simp only [leavePausedScopes]
    rw [decisions_pauseIfNeededGuarded_no_defer env hre g flags _ _ _
      (by simpa [atPauseTest] using hframe) hnd]
    simp [htrig, atPauseTest]
  · rename_i htrig
    have : (pauseRequested d
        || (didHitBreakpoint d (env.sourceIDForCallFrame d.m_currentCallFrame)
              (env.positionForCallFrame d.m_currentCallFrame)).isSome
        || d.m_specialBreakpoint.isSome) = false := by simpa using htrig
    simp [this, atPauseTest]

end Debugger
end JSC

namespace JSC
namespace Debugger

/-! ### Deferred pauses -/

theorem deferredAtEntry_hit (d : Debugger) (B : Breakpoint)
    (hnone : d.m_deferredBreakpoints = []) :
    ∃ rest, deferredAtEntry d (some B) = B :: rest := by
  unfold deferredAtEntry
  simp only [hnone, hashSetAdd, List.not_mem_nil, if_false, List.nil_append]
  cases d.m_specialBreakpoint with
  | none => exact ⟨[], rfl⟩
  | some sp =>
    simp only []
    split
    · exact ⟨[], rfl⟩
    · exact ⟨[sp], rfl⟩

/-- C8 (amended): at a pause opportunity in a range with `Defer` that hits an
activated breakpoint `B` of the source whose condition holds and which is not
`autoContinue`, `pauseIfNeeded` does not pause (`handlePause` is not called).
When `m_blackboxBreakpointEvaluations` is false, every observer receives
exactly one `didDeferBreakpointPause` carrying the id of `B`; when it is true,
the deferral comes first: nothing is logged, so no observer is notified, and
`B` stays in `m_deferredBreakpoints` without being evaluated. -/
theorem pauseIfNeeded_defers_breakpoint (env : Env) (hre : env.noReentrancy)
    (g : Option GlobalObject) (d : Debugger) (flags : BlackboxFlags) (B : Breakpoint)
    (hpaused : d.m_isPaused = false) (hsuppress : d.m_suppressAllPauses = false)
    (hframe : d.m_currentCallFrame ≠ none)
    (hflags : relevantBlackboxFlags d (env.sourceIDForCallFrame d.m_currentCallFrame)
      (env.positionForCallFrame d.m_currentCallFrame) = some flags)
    (hdefer : flags.contains BlackboxFlag.Defer = true)
    (hhit : didHitBreakpoint d (env.sourceIDForCallFrame d.m_currentCallFrame)
      (env.positionForCallFrame d.m_currentCallFrame) = some B)
    (hcondition : conditionHolds env B = true) (hauto : B.isAutoContinue = false)
    (hlinked : B.isLinked = true) (hid : B.id ≠ noBreakpointID)
    (hnone : d.m_deferredBreakpoints = [])
    (hpid : d.m_pausingBreakpointID = noBreakpointID) :
    (d.m_blackboxBreakpointEvaluations = false →
        decisions (pauseIfNeeded env g d)
          = decisions d ++ d.m_observers.map
              (fun observer => Event.observerDidDeferBreakpointPause observer B.id)) ∧
      (d.m_blackboxBreakpointEvaluations = true →
        (pauseIfNeeded env g d).log = d.log ∧
        B ∈ (pauseIfNeeded env g d).m_deferredBreakpoints) := by
  rw [pauseIfNeeded_eq env g d flags hpaused hsuppress hflags, hhit]
  simp only [Option.isSome_some, Bool.or_true, Bool.true_or, if_true]
  obtain ⟨rest, hrest⟩ := deferredAtEntry_hit d B hnone
  have hdemand : demandsPause env B = true := by simp [demandsPause, hcondition, hauto]
  constructor
  · intro hpolicy
    unfold decisions pauseIfNeededGuarded
    simp only [leavePausedScopes]
    split
    · rw [decisions_pauseIfNeededEvaluate_defer_after env hre g flags _ _ _ _
        (by simpa [resetImmediatePauseState, resetEventualPauseState, atPauseTest] using hframe)
        hdefer
        (by simpa [resetImmediatePauseState, resetEventualPauseState, atPauseTest] using hpolicy)
        B rest
        (by simpa [resetImmediatePauseState, resetEventualPauseState, atPauseTest] using hrest)
        hdemand hlinked hid]
      rfl
    · rw [decisions_pauseIfNeededEvaluate_defer_after env hre g flags _ _ _ _
        (by simpa [resetImmediatePauseState, atPauseTest] using hframe)
        hdefer
        (by simpa [resetImmediatePauseState, atPauseTest] using hpolicy)
        B rest
        (by simpa [resetImmediatePauseState, atPauseTest] using hrest)
        hdemand hlinked hid]
      rfl
  · intro hpolicy
    unfold pauseIfNeededGuarded
    simp only [leavePausedScopes]
    split
    · obtain ⟨hlog, hdef⟩ := pauseIfNeededEvaluate_defer_before env g flags
        d.m_afterBlackboxedScript (stepPause d)
        ((resetImmediatePauseState (atPauseTest d (some B)
            (toUnsigned (env.positionForCallFrame d.m_currentCallFrame).m_line))).m_pauseOnCallFrame.isNone
          || decide ((resetImmediatePauseState (atPauseTest d (some B)
            (toUnsigned (env.positionForCallFrame d.m_currentCallFrame).m_line))).m_pauseOnCallFrame
            = (resetImmediatePauseState (atPauseTest d (some B)
            (toUnsigned (env.positionForCallFrame d.m_currentCallFrame).m_line))).m_currentCallFrame))
        { resetEventualPauseState (resetImmediatePauseState (atPauseTest d (some B)
            (toUnsigned (env.positionForCallFrame d.m_currentCallFrame).m_line)))
          with m_isPaused := true }
        hdefer
        (by simpa [resetImmediatePauseState, resetEventualPauseState, atPauseTest] using hpolicy)
        (by simpa [resetImmediatePauseState, resetEventualPauseState, atPauseTest] using hpid)
      refine ⟨by rw [hlog]; rfl, ?_⟩
      rw [hdef]
      simp [resetImmediatePauseState, resetEventualPauseState, atPauseTest, hrest]
    · obtain ⟨hlog, hdef⟩ := pauseIfNeededEvaluate_defer_before env g flags
        d.m_afterBlackboxedScript (stepPause d)
        ((resetImmediatePauseState (atPauseTest d (some B)
            (toUnsigned (env.positionForCallFrame d.m_currentCallFrame).m_line))).m_pauseOnCallFrame.isNone
          || decide ((resetImmediatePauseState (atPauseTest d (some B)
            (toUnsigned (env.positionForCallFrame d.m_currentCallFrame).m_line))).m_pauseOnCallFrame
            = (resetImmediatePauseState (atPauseTest d (some B)
            (toUnsigned (env.positionForCallFrame d.m_currentCallFrame).m_line))).m_currentCallFrame))
        { resetImmediatePauseState (atPauseTest d (some B)
            (toUnsigned (env.positionForCallFrame d.m_currentCallFrame).m_line))
          with m_isPaused := true }
        hdefer
        (by simpa [resetImmediatePauseState, atPauseTest] using hpolicy)
        (by simpa [resetImmediatePauseState, atPauseTest] using hpid)
      refine ⟨by rw [hlog]; rfl, ?_⟩
      rw [hdef]
      simp [resetImmediatePauseState, atPauseTest, hrest]

end Debugger
end JSC

namespace JSC
namespace Debugger

theorem scriptEnv_noReentrancy (position : TextPosition) : (scriptEnv position).noReentrancy :=
  fun _ => rfl

theorem pauseIfNeeded_defers_breakpoint_witness :
    (deferScenarioTracked.m_blackboxBreakpointEvaluations = false →
        decisions (pauseIfNeeded (scriptEnv (TextPosition.mk 5 0)) (some 1) deferScenarioTracked)
          = decisions deferScenarioTracked ++ deferScenarioTracked.m_observers.map
              (fun observer =>
                Event.observerDidDeferBreakpointPause observer lineBreakpoint.id)) ∧
      (deferScenarioTracked.m_blackboxBreakpointEvaluations = true →
        (pauseIfNeeded (scriptEnv (TextPosition.mk 5 0)) (some 1) deferScenarioTracked).log
          = deferScenarioTracked.log ∧
        lineBreakpoint ∈ (pauseIfNeeded (scriptEnv (TextPosition.mk 5 0)) (some 1)
          deferScenarioTracked).m_deferredBreakpoints) :=
  pauseIfNeeded_defers_breakpoint (scriptEnv (TextPosition.mk 5 0))
    (scriptEnv_noReentrancy _) (some 1) deferScenarioTracked { defer := true } lineBreakpoint
    (by decide) (by decide) (by decide) (by decide) (by decide) (by decide) (by decide)
    (by decide) (by decide) (by decide) (by decide) (by decide)

/-- C8 (as stated, refuted): with `m_blackboxBreakpointEvaluations` true, the statement
at line 5 of `deferScenario`, inside the `Defer` range, hits the activated
breakpoint `lineBreakpoint` (empty condition, not `autoContinue`), and neither
of the two observers receives a `didDeferBreakpointPause`: nothing is logged. -/
theorem no_deferred_notification_when_evaluations_are_blackboxed :
    didHitBreakpoint (setBlackboxBreakpointEvaluations true deferScenarioTracked) 7
        (TextPosition.mk 5 0) = some lineBreakpoint ∧
      relevantBlackboxFlags (setBlackboxBreakpointEvaluations true deferScenarioTracked) 7
        (TextPosition.mk 5 0) = some { defer := true } ∧
      conditionHolds (scriptEnv (TextPosition.mk 5 0)) lineBreakpoint = true ∧
      lineBreakpoint.isAutoContinue = false ∧
      (setBlackboxBreakpointEvaluations true deferScenario).m_observers = [11, 12] ∧
      (atStatement (scriptEnv (TextPosition.mk 5 0)) (some 100)
        (setBlackboxBreakpointEvaluations true deferScenario)).log
        = (setBlackboxBreakpointEvaluations true deferScenario).log ∧
      decisions (atStatement (scriptEnv (TextPosition.mk 5 0)) (some 100)
        (setBlackboxBreakpointEvaluations true deferScenario)) = [] := by
  decide

/-- C9 (amended): after a pause has been deferred (`m_afterBlackboxedScript` set, the
immediate request armed again), at the next pause opportunity at a position
outside every blackbox range `pauseIfNeeded` calls `handlePause` when no
breakpoint is to be evaluated there or when one of the breakpoints evaluated
demands the pause (its condition holds and it is not `autoContinue`); when
breakpoints are evaluated and none of them demands the pause, it returns
without pausing. -/
theorem pauseIfNeeded_after_deferral (env : Env) (hre : env.noReentrancy)
    (g : Option GlobalObject) (d : Debugger)
    (hpaused : d.m_isPaused = false) (hsuppress : d.m_suppressAllPauses = false)
    (hframe : d.m_currentCallFrame ≠ none)
    (hout : ∀ entry ∈ blackboxRanges d (env.sourceIDForCallFrame d.m_currentCallFrame),
      ¬ covers entry.1 (env.positionForCallFrame d.m_currentCallFrame))
    (hafter : d.m_afterBlackboxedScript = true)
    (hnext : d.m_pauseAtNextOpportunity = true) :
    ((deferredAtEntry d (didHitBreakpoint d (env.sourceIDForCallFrame d.m_currentCallFrame)
          (env.positionForCallFrame d.m_currentCallFrame)) = []
        ∨ ∃ b ∈ deferredAtEntry d (didHitBreakpoint d
            (env.sourceIDForCallFrame d.m_currentCallFrame)
            (env.positionForCallFrame d.m_currentCallFrame)), demandsPause env b = true) →
      decisions (pauseIfNeeded env g d) = decisions d ++ [Event.hookDidPause g]) ∧
    ((deferredAtEntry d (didHitBreakpoint d (env.sourceIDForCallFrame d.m_currentCallFrame)
          (env.positionForCallFrame d.m_currentCallFrame)) ≠ []
        ∧ ∀ b ∈ deferredAtEntry d (didHitBreakpoint d
            (env.sourceIDForCallFrame d.m_currentCallFrame)
            (env.positionForCallFrame d.m_currentCallFrame)), demandsPause env b = false) →
      decisions (pauseIfNeeded env g d) = decisions d) := by
  have hflags := relevantBlackboxFlags_outside d _ _ hout
  rw [decisions_pauseIfNeeded_no_defer env hre g d {} hpaused hsuppress hframe hflags rfl]
  have hreq : pauseRequested d = true := by simp [pauseRequested, hnext]
  have hstep : stepPause d = false := by simp [stepPause, hnext, hafter]
  rw [hreq, hstep, loopState_shouldContinue]
  simp only [Bool.true_or, Bool.true_and, Bool.or_false, Bool.not_not]
  constructor
  · rintro (hnil | ⟨b, hb, hdem⟩)
    · simp [hnil]
    · have hany : (deferredAtEntry d (didHitBreakpoint d
          (env.sourceIDForCallFrame d.m_currentCallFrame)
          (env.positionForCallFrame d.m_currentCallFrame))).any (demandsPause env) = true :=
        List.any_eq_true.mpr ⟨b, hb, hdem⟩
      simp [hany]
  · rintro ⟨hne, hall⟩
    have hany : (deferredAtEntry d (didHitBreakpoint d
        (env.sourceIDForCallFrame d.m_currentCallFrame)
        (env.positionForCallFrame d.m_currentCallFrame))).any (demandsPause env) = false :=
      List.any_eq_false.mpr (fun b hb => by simp [hall b hb])
    have hempty : (deferredAtEntry d (didHitBreakpoint d
        (env.sourceIDForCallFrame d.m_currentCallFrame)
        (env.positionForCallFrame d.m_currentCallFrame))).isEmpty = false := by
      cases h : deferredAtEntry d (didHitBreakpoint d
          (env.sourceIDForCallFrame d.m_currentCallFrame)
          (env.positionForCallFrame d.m_currentCallFrame)) with
      | nil => exact absurd h hne
      | cons _ _ => rfl
    simp [hany, hempty]

theorem pauseIfNeeded_after_deferral_witness :
    ((deferredAtEntry afterDeferralTracked (didHitBreakpoint afterDeferralTracked
          ((scriptEnv (TextPosition.mk 8 0)).sourceIDForCallFrame
            afterDeferralTracked.m_currentCallFrame)
          ((scriptEnv (TextPosition.mk 8 0)).positionForCallFrame
            afterDeferralTracked.m_currentCallFrame)) = []
        ∨ ∃ b ∈ deferredAtEntry afterDeferralTracked (didHitBreakpoint afterDeferralTracked
            ((scriptEnv (TextPosition.mk 8 0)).sourceIDForCallFrame
              afterDeferralTracked.m_currentCallFrame)
            ((scriptEnv (TextPosition.mk 8 0)).positionForCallFrame
              afterDeferralTracked.m_currentCallFrame)),
            demandsPause (scriptEnv (TextPosition.mk 8 0)) b = true) →
      decisions (pauseIfNeeded (scriptEnv (TextPosition.mk 8 0)) (some 1) afterDeferralTracked)
        = decisions afterDeferralTracked ++ [Event.hookDidPause (some 1)]) ∧
    ((deferredAtEntry afterDeferralTracked (didHitBreakpoint afterDeferralTracked
          ((scriptEnv (TextPosition.mk 8 0)).sourceIDForCallFrame
            afterDeferralTracked.m_currentCallFrame)
          ((scriptEnv (TextPosition.mk 8 0)).positionForCallFrame
            afterDeferralTracked.m_currentCallFrame)) ≠ []
        ∧ ∀ b ∈ deferredAtEntry afterDeferralTracked (didHitBreakpoint afterDeferralTracked
            ((scriptEnv (TextPosition.mk 8 0)).sourceIDForCallFrame
              afterDeferralTracked.m_currentCallFrame)
            ((scriptEnv (TextPosition.mk 8 0)).positionForCallFrame
              afterDeferralTracked.m_currentCallFrame)),
            demandsPause (scriptEnv (TextPosition.mk 8 0)) b = false) →
      decisions (pauseIfNeeded (scriptEnv (TextPosition.mk 8 0)) (some 1) afterDeferralTracked)
        = decisions afterDeferralTracked) :=
  pauseIfNeeded_after_deferral (scriptEnv (TextPosition.mk 8 0)) (scriptEnv_noReentrancy _)
    (some 1) afterDeferralTracked (by decide) (by decide) (by decide) (by decide) (by decide)
    (by decide)

/-- C9 (as stated, refuted): after the deferral of `afterDeferral` (marker set, immediate
request armed), the next statement, at line 9 outside every blackbox range,
matches `falseConditionBreakpoint`, whose condition is false, and
`handlePause` is not called. -/
theorem no_pause_after_deferral_when_condition_is_false :
    afterDeferral.m_afterBlackboxedScript = true ∧
      afterDeferral.m_pauseAtNextOpportunity = true ∧
      afterDeferral.m_isPaused = false ∧ afterDeferral.m_suppressAllPauses = false ∧
      relevantBlackboxFlags afterDeferral 7 (TextPosition.mk 9 0) = some {} ∧
      decisions (atStatement (scriptEnv (TextPosition.mk 9 0)) (some 100) afterDeferral)
        = decisions afterDeferral ∧
      Event.hookDidPause (some 1)
        ∉ (atStatement (scriptEnv (TextPosition.mk 9 0)) (some 100) afterDeferral).log := by
  decide

end Debugger
end JSC

namespace JSC
namespace Debugger

/-- The debugger `atStatement` hands to `pauseIfNeeded` after
`schedulePauseAtNextOpportunity`. -/
theorem tracked_after_schedule (env : Env) (frame : CallFrame) (d : Debugger)
    (pastFirst : Bool) (reason : ReasonForPause) :
    (updateCallFrameInternal env frame
        { schedulePauseAtNextOpportunity d with
          m_pastFirstExpressionInStatement := pastFirst, m_reasonForPause := reason }).m_isPaused
        = d.m_isPaused ∧
      (updateCallFrameInternal env frame
        { schedulePauseAtNextOpportunity d with
          m_pastFirstExpressionInStatement := pastFirst,
          m_reasonForPause := reason }).m_suppressAllPauses = d.m_suppressAllPauses ∧
      (updateCallFrameInternal env frame
        { schedulePauseAtNextOpportunity d with
          m_pastFirstExpressionInStatement := pastFirst,
          m_reasonForPause := reason }).m_currentCallFrame = some frame ∧
      (updateCallFrameInternal env frame
        { schedulePauseAtNextOpportunity d with
          m_pastFirstExpressionInStatement := pastFirst,
          m_reasonForPause := reason }).m_pauseAtNextOpportunity = true ∧
      (updateCallFrameInternal env frame
        { schedulePauseAtNextOpportunity d with
          m_pastFirstExpressionInStatement := pastFirst,
          m_reasonForPause := reason }).m_afterBlackboxedScript = d.m_afterBlackboxedScript ∧
      (updateCallFrameInternal env frame
        { schedulePauseAtNextOpportunity d with
          m_pastFirstExpressionInStatement := pastFirst,
          m_reasonForPause := reason }).m_blackboxConfigurations = d.m_blackboxConfigurations ∧
      (updateCallFrameInternal env frame
        { schedulePauseAtNextOpportunity d with
          m_pastFirstExpressionInStatement := pastFirst,
          m_reasonForPause := reason }).log = d.log := by
  unfold updateCallFrameInternal schedulePauseAtNextOpportunity setSteppingMode
  simp only []
  split <;> split <;> simp

theorem decisions_atStatement (env : Env) (frame : CallFrame) (d : Debugger)
    (hpaused : d.m_isPaused = false) :
    decisions (atStatement env (some frame) d)
      = decisions (pauseIfNeeded env (some (env.lexicalGlobalObject frame))
          (updateCallFrameInternal env frame
            { d with m_pastFirstExpressionInStatement := false,
                     m_reasonForPause := ReasonForPause.PausedAtStatement })) := by
  unfold atStatement
  rw [if_neg (by rw [hpaused]; simp)]
  unfold decisions withPauseReason updateCallFrame lexicalGlobalObjectForCallFrame
  simp only [if_true]
  split <;> rfl

/-- C10 (amended): after `schedulePauseAtNextOpportunity()`, the next `atStatement`
callback with a frame (debugger not paused, pauses not suppressed, position in
no blackbox range, no deferred pause pending: `m_afterBlackboxedScript` false,
and the scripts evaluated performing no debugger operation) calls `handlePause`
exactly once, whatever breakpoints are registered and whatever their conditions
evaluate to. -/
theorem atStatement_pauses_after_schedule (env : Env) (hre : env.noReentrancy) (d : Debugger)
    (frame : CallFrame)
    (hpaused : d.m_isPaused = false) (hsuppress : d.m_suppressAllPauses = false)
    (hafter : d.m_afterBlackboxedScript = false)
    (hout : ∀ entry ∈ blackboxRanges d (env.sourceIDForCallFrame (some frame)),
      ¬ covers entry.1 (env.positionForCallFrame (some frame))) :
    decisions (atStatement env (some frame) (schedulePauseAtNextOpportunity d))
      = decisions d ++ [Event.hookDidPause (some (env.lexicalGlobalObject frame))] := by
  have hp0 : (schedulePauseAtNextOpportunity d).m_isPaused = false := by
    unfold schedulePauseAtNextOpportunity setSteppingMode
    split <;> simpa using hpaused
  obtain ⟨h1, h2, h3, h4, h5, h6, h7⟩ := tracked_after_schedule env frame d false
    ReasonForPause.PausedAtStatement
  rw [decisions_atStatement env frame _ hp0]
  generalize updateCallFrameInternal env frame
    { schedulePauseAtNextOpportunity d with
      m_pastFirstExpressionInStatement := false,
      m_reasonForPause := ReasonForPause.PausedAtStatement } = d1 at h1 h2 h3 h4 h5 h6 h7 ⊢
  have hflags : relevantBlackboxFlags d1 (env.sourceIDForCallFrame d1.m_currentCallFrame)
      (env.positionForCallFrame d1.m_currentCallFrame) = some {} := by
    apply relevantBlackboxFlags_outside
    rw [h3]
    unfold blackboxRanges at hout ⊢
    rw [h6]
    exact hout
  have hdec := decisions_pauseIfNeeded_no_defer env hre
    (some (env.lexicalGlobalObject frame)) d1 {} (by rw [h1, hpaused]) (by rw [h2, hsuppress])
    (by rw [h3]; simp) hflags rfl
  have hreq : pauseRequested d1 = true := by simp [pauseRequested, h4]
  have hstep : stepPause d1 = true := by simp [stepPause, h4, h5, hafter]
  rw [hreq, hstep] at hdec
  simp only [Bool.true_or, Bool.or_true, Bool.and_self, if_true] at hdec
  have hd1 : decisions d1 = decisions d := by unfold decisions; rw [h7]
  rw [hd1] at hdec
  exact hdec

theorem atStatement_pauses_after_schedule_witness :
    decisions (atStatement (scriptEnv (TextPosition.mk 9 0)) (some 100)
        (schedulePauseAtNextOpportunity deferScenario))
      = decisions deferScenario
          ++ [Event.hookDidPause (some ((scriptEnv (TextPosition.mk 9 0)).lexicalGlobalObject 100))] :=
  atStatement_pauses_after_schedule (scriptEnv (TextPosition.mk 9 0)) (scriptEnv_noReentrancy _)
    deferScenario 100 (by decide) (by decide) (by decide) (by decide)

/-- C10 (as stated, refuted): in the debugger `afterDeferral` (not paused, pauses not
suppressed, a deferred pause pending), after `schedulePauseAtNextOpportunity()`
the next `atStatement`, at line 9 in no blackbox range, where the breakpoint
registered has a false condition, does not call `handlePause`. -/
theorem atStatement_after_schedule_does_not_pause :
    (schedulePauseAtNextOpportunity afterDeferral).m_isPaused = false ∧
      (schedulePauseAtNextOpportunity afterDeferral).m_suppressAllPauses = false ∧
      (schedulePauseAtNextOpportunity afterDeferral).m_pauseAtNextOpportunity = true ∧
      blackboxRanges (schedulePauseAtNextOpportunity afterDeferral) 7
        = [((TextPosition.mk 4 0, TextPosition.mk 6 0), { defer := true })] ∧
      ¬ covers (TextPosition.mk 4 0, TextPosition.mk 6 0) (TextPosition.mk 9 0) ∧
      (decisions (atStatement (scriptEnv (TextPosition.mk 9 0)) (some 100)
          (schedulePauseAtNextOpportunity afterDeferral))).count (Event.hookDidPause (some 1))
        = (decisions (schedulePauseAtNextOpportunity afterDeferral)).count
            (Event.hookDidPause (some 1)) ∧
      Event.hookDidPause (some 1)
        ∉ (atStatement (scriptEnv (TextPosition.mk 9 0)) (some 100)
            (schedulePauseAtNextOpportunity afterDeferral)).log := by
  decide

end Debugger
end JSC

namespace JSC
namespace Debugger

/-- Claim C11. For every debugger state, `continueProgram` clears the immediate
request (`m_pauseAtNextOpportunity`, `m_afterBlackboxedScript`, the special
breakpoint) and the eventual request (`m_pauseOnCallFrame`, the step-next and
step-out flags), empties `m_deferredBreakpoints`, sets
`m_doneProcessingDebuggerEvents` to true when the debugger is paused and leaves it
as it was otherwise, and changes neither the breakpoint store nor the blackbox
table. -/
theorem continueProgram_clears_requests (d : Debugger) :
    (continueProgram d).m_pauseAtNextOpportunity = false ∧
    (continueProgram d).m_afterBlackboxedScript = false ∧
    (continueProgram d).m_specialBreakpoint = none ∧
    (continueProgram d).m_pauseOnCallFrame = none ∧
    (continueProgram d).m_pauseOnStepNext = false ∧
    (continueProgram d).m_pauseOnStepOut = false ∧
    (continueProgram d).m_deferredBreakpoints = [] ∧
    (continueProgram d).m_doneProcessingDebuggerEvents
      = (if d.m_isPaused then true else d.m_doneProcessingDebuggerEvents) ∧
    (continueProgram d).m_isPaused = d.m_isPaused ∧
    (continueProgram d).m_breakpointsForSourceID = d.m_breakpointsForSourceID ∧
    (continueProgram d).m_breakpoints = d.m_breakpoints ∧
    (continueProgram d).m_blackboxConfigurations = d.m_blackboxConfigurations ∧
    (continueProgram d).m_blackboxBreakpointEvaluations = d.m_blackboxBreakpointEvaluations := by
  cases hp : d.m_isPaused <;>
    simp [continueProgram, resetImmediatePauseState, resetEventualPauseState, hp]

end Debugger
end JSC

namespace JSC
namespace Debugger

/-- Claim C17. While the debugger is paused (`m_isPaused` true), each program-point
callback (`atStatement`, `atExpression`, `callEvent`, `returnEvent`, `unwindEvent`,
`willExecuteProgram`, `didExecuteProgram`, `exception`,
`didReachDebuggerStatement`) and `breakProgram` returns the debugger as it was:
no field changes and nothing is added to the log of notifications. -/
theorem callbacks_return_at_once_while_paused (env : Env) (callFrame : Option CallFrame)
    (globalObject : Option GlobalObject) (value : JSValue) (hasCatchHandler : Bool)
    (specialBreakpoint : Option Breakpoint) (d : Debugger) (hpaused : d.m_isPaused = true) :
    atStatement env callFrame d = d ∧
    atExpression env callFrame d = d ∧
    callEvent env callFrame d = d ∧
    returnEvent env callFrame d = d ∧
    unwindEvent env callFrame d = d ∧
    willExecuteProgram env callFrame d = d ∧
    didExecuteProgram env callFrame d = d ∧
    exception env globalObject callFrame value hasCatchHandler d = d ∧
    didReachDebuggerStatement env callFrame d = d ∧
    breakProgram env specialBreakpoint d = d := by
  simp [atStatement, atExpression, callEvent, returnEvent, unwindEvent, willExecuteProgram,
    didExecuteProgram, exception, didReachDebuggerStatement, breakProgram, hpaused]

theorem callbacks_return_at_once_while_paused_witness :
    pausedDebugger.m_isPaused = true ∧
    atStatement overflowEnv (some 100) pausedDebugger = pausedDebugger ∧
    atExpression overflowEnv (some 100) pausedDebugger = pausedDebugger ∧
    callEvent overflowEnv (some 100) pausedDebugger = pausedDebugger ∧
    returnEvent overflowEnv (some 100) pausedDebugger = pausedDebugger ∧
    unwindEvent overflowEnv (some 100) pausedDebugger = pausedDebugger ∧
    willExecuteProgram overflowEnv (some 100) pausedDebugger = pausedDebugger ∧
    didExecuteProgram overflowEnv (some 100) pausedDebugger = pausedDebugger ∧
    exception overflowEnv (some 1) (some 100) 5 false pausedDebugger = pausedDebugger ∧
    didReachDebuggerStatement overflowEnv (some 100) pausedDebugger = pausedDebugger ∧
    breakProgram overflowEnv none pausedDebugger = pausedDebugger :=
  ⟨rfl, callbacks_return_at_once_while_paused overflowEnv (some 100) (some 1) 5 false none
    pausedDebugger rfl⟩

/-- Claim C18. For every debugger state, `exception` called with a value that is a
stack-overflow or out-of-memory error instance returns the debugger as it was:
`pauseIfNeeded` and `handlePause` are not reached, no special breakpoint is armed,
and the tracked frame, the current exception, every request and the log are
unchanged, whatever exception breakpoints are set. -/
theorem exception_ignores_stack_overflow_and_out_of_memory (env : Env)
    (globalObject : Option GlobalObject) (callFrame : Option CallFrame) (value : JSValue)
    (hasCatchHandler : Bool) (d : Debugger)
    (herror : env.isStackOverflowOrOutOfMemoryError value = true) :
    exception env globalObject callFrame value hasCatchHandler d = d := by
  simp [exception, herror]

theorem exception_ignores_stack_overflow_and_out_of_memory_witness :
    overflowEnv.isStackOverflowOrOutOfMemoryError 99 = true ∧
    exception overflowEnv (some 1) (some 100) 99 false pausingOnExceptions
      = pausingOnExceptions :=
  ⟨by decide, exception_ignores_stack_overflow_and_out_of_memory overflowEnv (some 1) (some 100)
    99 false pausingOnExceptions (by decide)⟩

end Debugger
end JSC

namespace JSC
namespace Debugger

/-- The special breakpoint and the stepping mode after the lines of `exception`
that arm the breakpoint of the policy. -/
theorem armExceptionBreakpoint_spec (hasCatchHandler : Bool) (d : Debugger) :
    (armExceptionBreakpoint hasCatchHandler d).m_specialBreakpoint
      = (if exceptionPolicyApplies hasCatchHandler d then
          (if d.m_pauseOnAllExceptionsBreakpoint.isSome then d.m_pauseOnAllExceptionsBreakpoint
           else d.m_pauseOnUncaughtExceptionsBreakpoint)
         else d.m_specialBreakpoint) ∧
    (armExceptionBreakpoint hasCatchHandler d).m_steppingMode
      = (if exceptionPolicyApplies hasCatchHandler d then SteppingMode.SteppingModeEnabled
         else d.m_steppingMode) := by
  unfold armExceptionBreakpoint exceptionPolicyApplies
  simp only [setSteppingMode_eq]
  split <;> exact ⟨rfl, rfl⟩

/-- The function `exception`, when it is not suppressed, as the decision algorithm
run on `exceptionAtDecision` followed by the clean-up. -/
theorem exception_eq (env : Env) (globalObject : Option GlobalObject)
    (callFrame : Option CallFrame) (value : JSValue) (hasCatchHandler : Bool) (d : Debugger)
    (hpaused : d.m_isPaused = false)
    (herror : env.isStackOverflowOrOutOfMemoryError value = false) :
    exception env globalObject callFrame value hasCatchHandler d
      = exceptionCleanUp callFrame.isNone
          (updateCallFrame env globalObject (exceptionFrame env callFrame)
            CallFrameUpdateAction.AttemptPause (exceptionAtDecision value hasCatchHandler d)) := by
  simp only [exception, hpaused, herror, withPauseReason, exceptionBody, exceptionAtDecision,
    exceptionFrame, exceptionCleanUp]
  cases callFrame <;> simp

/-- Claim C19. For a call of `exception` that is not suppressed (debugger not
paused, value no stack-overflow or out-of-memory error), the decision algorithm
runs on a debugger in which the special breakpoint is armed and stepping is
enabled exactly when the policy applies (the breakpoint for all exceptions is
set, or the one for uncaught exceptions is set and no catch handler is present):
the armed breakpoint is the one for all exceptions when that is set and the one
for uncaught exceptions otherwise, and when the policy does not apply the
special breakpoint and the stepping mode are as before the call. When the
callback returns the current exception is empty, and the tracked frame is null
if no frame was given. -/
theorem exception_arms_policy_breakpoint (env : Env) (globalObject : Option GlobalObject)
    (callFrame : Option CallFrame) (value : JSValue) (hasCatchHandler : Bool) (d : Debugger)
    (hpaused : d.m_isPaused = false)
    (herror : env.isStackOverflowOrOutOfMemoryError value = false) :
    exception env globalObject callFrame value hasCatchHandler d
      = exceptionCleanUp callFrame.isNone
          (updateCallFrame env globalObject (exceptionFrame env callFrame)
            CallFrameUpdateAction.AttemptPause (exceptionAtDecision value hasCatchHandler d)) ∧
    (exceptionAtDecision value hasCatchHandler d).m_specialBreakpoint
      = (if exceptionPolicyApplies hasCatchHandler d then
          (if d.m_pauseOnAllExceptionsBreakpoint.isSome then d.m_pauseOnAllExceptionsBreakpoint
           else d.m_pauseOnUncaughtExceptionsBreakpoint)
         else d.m_specialBreakpoint) ∧
    (exceptionAtDecision value hasCatchHandler d).m_steppingMode
      = (if exceptionPolicyApplies hasCatchHandler d then SteppingMode.SteppingModeEnabled
         else d.m_steppingMode) ∧
    (exceptionPolicyApplies hasCatchHandler d = true →
      (exceptionAtDecision value hasCatchHandler d).m_specialBreakpoint.isSome = true) ∧
    (exceptionAtDecision value hasCatchHandler d).m_currentException = some value ∧
    (exception env globalObject callFrame value hasCatchHandler d).m_currentException = none ∧
    (callFrame = none →
      (exception env globalObject callFrame value hasCatchHandler d).m_currentCallFrame = none) := by
  have harm := armExceptionBreakpoint_spec hasCatchHandler
    { d with m_reasonForPause := ReasonForPause.PausedForException }
  have hpolicy : exceptionPolicyApplies hasCatchHandler
      { d with m_reasonForPause := ReasonForPause.PausedForException }
      = exceptionPolicyApplies hasCatchHandler d := rfl
  rw [hpolicy] at harm
  refine ⟨exception_eq env globalObject callFrame value hasCatchHandler d hpaused herror,
    harm.1, harm.2, ?_, rfl, ?_, ?_⟩
  · intro hp
    have h1 : (exceptionAtDecision value hasCatchHandler d).m_specialBreakpoint
        = (armExceptionBreakpoint hasCatchHandler
            { d with m_reasonForPause := ReasonForPause.PausedForException }).m_specialBreakpoint :=
      rfl
    rw [h1, harm.1, if_pos hp]
    unfold exceptionPolicyApplies at hp
    cases hall : d.m_pauseOnAllExceptionsBreakpoint with
    | some b => simp
    | none =>
      cases hun : d.m_pauseOnUncaughtExceptionsBreakpoint with
      | some b => simp
      | none => simp [hall, hun] at hp
  · rw [exception_eq env globalObject callFrame value hasCatchHandler d hpaused herror]
    unfold exceptionCleanUp
    simp only []
    split <;> rfl
  · intro hnone
    rw [exception_eq env globalObject callFrame value hasCatchHandler d hpaused herror]
    subst hnone
    rfl

theorem exception_arms_policy_breakpoint_witness :
    pausingOnExceptions.m_isPaused = false ∧
    overflowEnv.isStackOverflowOrOutOfMemoryError 5 = false ∧
    (exceptionAtDecision 5 true pausingOnExceptions).m_specialBreakpoint
      = some allExceptionsBreakpoint ∧
    (exception overflowEnv (some 1) none 5 true pausingOnExceptions).m_currentCallFrame = none :=
  have h := exception_arms_policy_breakpoint overflowEnv (some 1) none 5 true pausingOnExceptions
    rfl (by decide)
  ⟨rfl, by decide, h.2.1, h.2.2.2.2.2.2 rfl⟩

end Debugger
end JSC

namespace JSC
namespace Debugger

/-- The loop over the ranges adds the union of the flags of the covering ranges
to the flags it starts from, when no covering range carries `Ignore`. -/
theorem blackboxLoop_union (position : TextPosition) (configuration : BlackboxConfiguration)
    (acc : BlackboxFlags) (hacc : acc.ignore = false)
    (hignore : ∀ entry ∈ configuration, covers entry.1 position →
      entry.2.contains BlackboxFlag.Ignore = false) :
    blackboxLoop position configuration acc
      = some (acc.add (unionOfCoveringFlags configuration position)) := by
  induction configuration generalizing acc with
  | nil =>
    cases acc
    simp [blackboxLoop, unionOfCoveringFlags, BlackboxFlags.add]
  | cons entry rest ih =>
    obtain ⟨range, flags⟩ := entry
    have hrest : ∀ entry ∈ rest, covers entry.1 position →
        entry.2.contains BlackboxFlag.Ignore = false :=
      fun entry hmem => hignore entry (List.mem_cons_of_mem _ hmem)
    unfold blackboxLoop
    by_cases hc : covers range position
    · have hout := (covers_iff range position).1 hc
      have hflags : flags.ignore = false := hignore (range, flags) (List.mem_cons_self _ _) hc
      rw [if_neg (by simp [hout])]
      simp only []
      have hacc2 : (acc.add flags).ignore = false := by
        simp [BlackboxFlags.add, hacc, hflags]
      rw [if_neg (by simp [BlackboxFlags.contains, hacc2])]
      rw [ih (acc.add flags) hacc2 hrest]
      simp [unionOfCoveringFlags, BlackboxFlags.add, hc, Bool.or_assoc]
    · have hout : (TextPosition.lt position range.1 || TextPosition.ge position range.2) = true := by
        cases h : (TextPosition.lt position range.1 || TextPosition.ge position range.2) with
        | true => rfl
        | false => exact absurd ((covers_iff range position).2 h) hc
      rw [if_pos hout, ih acc hacc hrest]
      simp [unionOfCoveringFlags, hc]

/-- Claim C20. For every blackbox table, script and position where no range of the
script that holds the position carries `Ignore`, the flags `pauseIfNeeded` computes
(`relevantBlackboxFlags`) are the union of the flags of every range
`[first, second)` of the script with `first <= p < second`, and they are empty
when the script has no entry. `setBlackboxConfiguration(script, ranges)` makes
`ranges` the entry of the script, removes the entry when `ranges` is empty, and
leaves the entry of every other script as it was. -/
theorem relevantBlackboxFlags_is_union_of_covering_ranges (d : Debugger) (sourceID : SourceID)
    (p : TextPosition)
    (hignore : ∀ entry ∈ blackboxRanges d sourceID, covers entry.1 p →
      entry.2.contains BlackboxFlag.Ignore = false) :
    relevantBlackboxFlags d sourceID p
      = some (unionOfCoveringFlags (blackboxRanges d sourceID) p) ∧
    (HashMap.find d.m_blackboxConfigurations sourceID = none →
      relevantBlackboxFlags d sourceID p = some {}) ∧
    ∀ (script : SourceID) (ranges : BlackboxConfiguration),
      (ranges ≠ [] →
        HashMap.find (setBlackboxConfiguration script ranges d).m_blackboxConfigurations script
          = some ranges) ∧
      (ranges = [] →
        HashMap.find (setBlackboxConfiguration script ranges d).m_blackboxConfigurations script
          = none) ∧
      ∀ other : SourceID, other ≠ script →
        HashMap.find (setBlackboxConfiguration script ranges d).m_blackboxConfigurations other
          = HashMap.find d.m_blackboxConfigurations other := by
  refine ⟨?_, ?_, ?_⟩
  · unfold relevantBlackboxFlags
    unfold blackboxRanges at hignore ⊢
    cases hfind : HashMap.find d.m_blackboxConfigurations sourceID with
    | none => simp [unionOfCoveringFlags]
    | some configuration =>
      rw [hfind] at hignore
      simp only [Option.getD_some] at hignore ⊢
      rw [blackboxLoop_union p configuration {} rfl hignore]
      simp [BlackboxFlags.add]
  · intro hnone
    simp [relevantBlackboxFlags, hnone]
  · intro script ranges
    refine ⟨?_, ?_, ?_⟩
    · intro hne
      have hempty : ranges.isEmpty = false := by
        cases ranges with
        | nil => exact absurd rfl hne
        | cons a b => rfl
      simp only [setBlackboxConfiguration, hempty]
      exact HashMap.find_set_self _ _ _
    · intro he
      subst he
      simp only [setBlackboxConfiguration, List.isEmpty_nil, if_true]
      exact HashMap.find_remove_self _ _
    · intro other hother
      unfold setBlackboxConfiguration
      split
      · exact HashMap.find_remove_ne _ hother
      · exact HashMap.find_set_ne _ _ hother

theorem relevantBlackboxFlags_is_union_of_covering_ranges_witness :
    (∀ entry ∈ blackboxRanges overlappingBlackbox 7, covers entry.1 (TextPosition.mk 5 3) →
      entry.2.contains BlackboxFlag.Ignore = false) ∧
    relevantBlackboxFlags overlappingBlackbox 7 (TextPosition.mk 5 3) = some { defer := true } ∧
    HashMap.find (setBlackboxConfiguration 7 [] overlappingBlackbox).m_blackboxConfigurations 7
      = none ∧
    HashMap.find (setBlackboxConfiguration 7 [] overlappingBlackbox).m_blackboxConfigurations 8
      = HashMap.find overlappingBlackbox.m_blackboxConfigurations 8 :=
  have hignore : ∀ entry ∈ blackboxRanges overlappingBlackbox 7,
      covers entry.1 (TextPosition.mk 5 3) → entry.2.contains BlackboxFlag.Ignore = false := by
    decide
  have h := relevantBlackboxFlags_is_union_of_covering_ranges overlappingBlackbox 7
    (TextPosition.mk 5 3) hignore
  ⟨hignore, h.1, ((h.2.2 7 []).2.1 rfl), ((h.2.2 7 []).2.2 8 (by decide))⟩

end Debugger
end JSC

namespace JSC
namespace Debugger

theorem reports_reportException (g : Option GlobalObject) (e : JSValue) (d : Debugger) :
    (reportException g e d).log.filter Event.isReport
      = d.log.filter Event.isReport ++ [Event.reportException g e] := by
  simp [reportException, logEvent, List.filter_append]

theorem reports_afterConditionEvaluation (env : Env) (b : Breakpoint) (d : Debugger) :
    (afterConditionEvaluation env b d).log.filter Event.isReport
      = d.log.filter Event.isReport := by
  simp [afterConditionEvaluation]

/-- The function `evaluateBreakpointCondition` on a condition that is not empty. -/
theorem evaluateBreakpointCondition_eq (env : Env) (b : Breakpoint)
    (g : Option GlobalObject) (d : Debugger) (hcondition : b.condition.isEmpty = false) :
    evaluateBreakpointCondition env b g d
      = (if (afterConditionEvaluation env b d).m_currentCallFrame.isNone then
          (false, afterConditionEvaluation env b d)
        else
          match (env.evaluate b.condition).exception with
          | some exception => (false, reportException g exception (afterConditionEvaluation env b d))
          | none => (env.toBoolean (env.evaluate b.condition).result,
              afterConditionEvaluation env b d)) := by
  simp only [evaluateBreakpointCondition, hcondition, afterConditionEvaluation,
    evaluateWithScopeExtension]
  rfl

/-- Counterexample to claim C13. The condition `true` of `trueConditionBreakpoint`
is evaluated in a runtime where it yields the value 1, which converts to true,
and throws nothing, but the script detaches the global object while it runs: the
tracked frame is lost and `evaluateBreakpointCondition` returns false, not the
boolean conversion of the value. -/
theorem evaluateBreakpointCondition_false_when_frame_is_lost :
    trueConditionBreakpoint.condition.isEmpty = false ∧
    evaluatingDebugger.m_currentCallFrame = some 100 ∧
    (detachingEnv.evaluate trueConditionBreakpoint.condition).exception = none ∧
    detachingEnv.toBoolean (detachingEnv.evaluate trueConditionBreakpoint.condition).result
      = true ∧
    (afterConditionEvaluation detachingEnv trueConditionBreakpoint
      evaluatingDebugger).m_currentCallFrame = none ∧
    (evaluateBreakpointCondition detachingEnv trueConditionBreakpoint (some 1)
      evaluatingDebugger).1 = false := by
  decide

/-- Claim C13, amended. `evaluateBreakpointCondition` returns true and leaves the
debugger and its log as they were (the evaluator is not called) when the
condition text is empty. With a condition that is not empty and the tracked
frame still present after the evaluation: when the evaluator throws, it returns
false and calls `reportException` once, with the thrown exception, on the
debugger the evaluation left; when the evaluator returns a value without
throwing, it returns the boolean conversion of the value and the log holds no
new call of `reportException`. -/
theorem evaluateBreakpointCondition_result (env : Env) (b : Breakpoint)
    (g : Option GlobalObject) (d : Debugger) :
    (b.condition.isEmpty = true → evaluateBreakpointCondition env b g d = (true, d)) ∧
    (b.condition.isEmpty = false →
      (afterConditionEvaluation env b d).m_currentCallFrame.isSome = true →
      (∀ exception, (env.evaluate b.condition).exception = some exception →
        evaluateBreakpointCondition env b g d
          = (false, reportException g exception (afterConditionEvaluation env b d)) ∧
        (evaluateBreakpointCondition env b g d).2.log.filter Event.isReport
          = d.log.filter Event.isReport ++ [Event.reportException g exception]) ∧
      ((env.evaluate b.condition).exception = none →
        evaluateBreakpointCondition env b g d
          = (env.toBoolean (env.evaluate b.condition).result,
              afterConditionEvaluation env b d) ∧
        (evaluateBreakpointCondition env b g d).2.log.filter Event.isReport
          = d.log.filter Event.isReport)) := by
  refine ⟨?_, ?_⟩
  · intro hempty
    simp [evaluateBreakpointCondition, hempty]
  · intro hcondition hframe
    have hnone : (afterConditionEvaluation env b d).m_currentCallFrame.isNone = false := by
      cases h : (afterConditionEvaluation env b d).m_currentCallFrame with
      | none => rw [h] at hframe; simp at hframe
      | some f => rfl
    rw [evaluateBreakpointCondition_eq env b g d hcondition, hnone]
    refine ⟨?_, ?_⟩
    · intro exception hthrows
      simp only [hthrows, Bool.false_eq_true, if_false]
      refine ⟨trivial, ?_⟩
      simp only [reports_reportException, reports_afterConditionEvaluation]
    · intro hvalue
      simp only [hvalue, Bool.false_eq_true, if_false]
      refine ⟨trivial, ?_⟩
      simp only [reports_afterConditionEvaluation]

theorem evaluateBreakpointCondition_result_witness :
    trueConditionBreakpoint.condition.isEmpty = false ∧
    (afterConditionEvaluation throwingEnv trueConditionBreakpoint
      evaluatingDebugger).m_currentCallFrame.isSome = true ∧
    (throwingEnv.evaluate trueConditionBreakpoint.condition).exception = some 13 ∧
    evaluateBreakpointCondition throwingEnv trueConditionBreakpoint (some 1) evaluatingDebugger
      = (false, reportException (some 1) 13
          (afterConditionEvaluation throwingEnv trueConditionBreakpoint evaluatingDebugger)) :=
  ⟨by decide, by decide, rfl,
    (((evaluateBreakpointCondition_result throwingEnv trueConditionBreakpoint (some 1)
      evaluatingDebugger).2 (by decide) (by decide)).1 13 rfl).1⟩

end Debugger
end JSC

namespace JSC
namespace Debugger

/-! ### One breakpoint that does not demand the pause -/

theorem pauseIfNeededGuarded_eq (env : Env) (g : Option GlobalObject) (flags : BlackboxFlags)
    (after step : Bool) (d : Debugger) :
    pauseIfNeededGuarded env g flags after step d
      = pauseIfNeededEvaluate env g flags after step (atDesiredCallFrame d) (guardedEntry d) := by
  rfl

theorem guardedEntry_m_deferredBreakpoints (d : Debugger) :
    (guardedEntry d).m_deferredBreakpoints = d.m_deferredBreakpoints := by
  unfold guardedEntry; simp only []; split <;> rfl

theorem guardedEntry_log (d : Debugger) : (guardedEntry d).log = d.log := by
  unfold guardedEntry; simp only []; split <;> rfl

theorem guardedEntry_m_currentProbeBatchId (d : Debugger) :
    (guardedEntry d).m_currentProbeBatchId = d.m_currentProbeBatchId := by
  unfold guardedEntry; simp only []; split <;> rfl

theorem guardedEntry_m_currentCallFrame (d : Debugger) :
    (guardedEntry d).m_currentCallFrame = d.m_currentCallFrame := by
  unfold guardedEntry; simp only []; split <;> rfl

theorem guardedEntry_m_blackboxBreakpointEvaluations (d : Debugger) :
    (guardedEntry d).m_blackboxBreakpointEvaluations = d.m_blackboxBreakpointEvaluations := by
  unfold guardedEntry; simp only []; split <;> rfl

theorem guardedEntry_m_steppingMode (d : Debugger) :
    (guardedEntry d).m_steppingMode = d.m_steppingMode := by
  unfold guardedEntry; simp only []; split <;> rfl

theorem guardedEntry_m_isPaused (d : Debugger) : (guardedEntry d).m_isPaused = true := rfl

theorem guardedEntry_m_specialBreakpoint (d : Debugger) :
    (guardedEntry d).m_specialBreakpoint = none := by
  unfold guardedEntry; simp only []; split <;> rfl

/-- A condition that `shouldPause` finds true holds. -/
theorem conditionHolds_of_shouldPause (env : Env) (b : Breakpoint) (g : Option GlobalObject)
    (d : Debugger) (h : (shouldPause env b g d).1 = true) : conditionHolds env b = true := by
  unfold shouldPause evaluateBreakpointCondition at h
  unfold conditionHolds
  cases hempty : b.condition.isEmpty with
  | true => rfl
  | false =>
    simp only [hempty, Bool.false_eq_true, if_false] at h
    simp only [Bool.false_or]
    revert h
    simp only [evaluateWithScopeExtension]
    split
    · intro h; exact absurd h (by simp)
    · cases hex : (env.evaluate b.condition).exception with
      | some e => intro h; exact absurd h (by simp)
      | none => intro h; exact h

/-- The loop over one deferred breakpoint whose condition is found false. -/
theorem deferredBreakpointsLoop_single_false (env : Env) (g : Option GlobalObject)
    (d : Debugger) (B : Breakpoint) (st : DeferredLoopState)
    (hfst : (shouldPause env B g d).1 = false) :
    deferredBreakpointsLoop env g [B] st d
      = (if (shouldPause env B g d).2.m_currentCallFrame.isNone then none else some st,
          (shouldPause env B g d).2) := by
  generalize hr : shouldPause env B g d = r at hfst
  obtain ⟨p, x⟩ := r
  simp only at hfst
  subst hfst
  simp only [deferredBreakpointsLoop, hr]
  split <;> simp

/-- The loop over one deferred breakpoint whose condition is false only evaluates
the condition, and control does not go on to the pause. -/
theorem evaluateDeferredBreakpoints_single_false (env : Env) (g : Option GlobalObject)
    (d : Debugger) (B : Breakpoint) (hbps : d.m_deferredBreakpoints = [B])
    (hcond : conditionHolds env B = false) :
    evaluateDeferredBreakpoints env g false d
      = (false, (shouldPause env B g { d with m_deferredBreakpoints := [] }).2) := by
  have hfst : (shouldPause env B g { d with m_deferredBreakpoints := [] }).1 = false := by
    cases h : (shouldPause env B g { d with m_deferredBreakpoints := [] }).1 with
    | false => rfl
    | true => rw [conditionHolds_of_shouldPause env B g _ h] at hcond; exact absurd hcond (by simp)
  unfold evaluateDeferredBreakpoints
  simp only [hbps, List.isEmpty_cons, Bool.false_eq_true, if_false]
  rw [deferredBreakpointsLoop_single_false env g _ B {} hfst]
  generalize (shouldPause env B g { d with m_deferredBreakpoints := [] }).2 = x
  cases x.m_currentCallFrame <;> simp

/-- The loop over one deferred breakpoint with `autoContinue` never clears
`shouldContinue`. -/
theorem deferredBreakpointsLoop_single_auto (env : Env) (g : Option GlobalObject)
    (d : Debugger) (B : Breakpoint) (st : DeferredLoopState)
    (hauto : B.isAutoContinue = true) :
    (deferredBreakpointsLoop env g [B] st d).1 = none ∨
      (deferredBreakpointsLoop env g [B] st d).1 = some st := by
  generalize hr : shouldPause env B g d = r
  obtain ⟨p, x⟩ := r
  simp only [deferredBreakpointsLoop, hr, hauto]
  repeat' split
  all_goals simp_all

/-- The loop over one deferred breakpoint with `autoContinue` does not let control
go on to the pause. -/
theorem evaluateDeferredBreakpoints_single_auto (env : Env) (g : Option GlobalObject)
    (d : Debugger) (B : Breakpoint) (hbps : d.m_deferredBreakpoints = [B])
    (hauto : B.isAutoContinue = true) :
    (evaluateDeferredBreakpoints env g false d).1 = false := by
  unfold evaluateDeferredBreakpoints
  simp only [hbps, List.isEmpty_cons, Bool.false_eq_true, if_false]
  have h := deferredBreakpointsLoop_single_auto env g { d with m_deferredBreakpoints := [] } B {}
    hauto
  generalize deferredBreakpointsLoop env g [B] {} { d with m_deferredBreakpoints := [] } = r at h
  obtain ⟨state, x⟩ := r
  simp only at h
  rcases h with h | h <;> subst h <;> simp

/-- The function `pauseIfNeededEvaluate` when the loop over the deferred breakpoints
does not let control go on. -/
theorem pauseIfNeededEvaluate_of_stop (env : Env) (g : Option GlobalObject)
    (flags : BlackboxFlags) (after step desired : Bool) (d : Debugger)
    (hstop : (evaluateDeferredBreakpoints env g step d).1 = false) :
    pauseIfNeededEvaluate env g flags after step desired d
      = if (d.m_blackboxBreakpointEvaluations && flags.contains BlackboxFlag.Defer) = true then
          (shouldDeferPause flags d).2
        else (evaluateDeferredBreakpoints env g step d).2 := by
  unfold pauseIfNeededEvaluate
  cases hbbe : d.m_blackboxBreakpointEvaluations with
  | false => simp [hstop]
  | true =>
    cases hdefer : flags.contains BlackboxFlag.Defer with
    | false => simp [shouldDeferPause_of_not_defer flags d hdefer, hstop]
    | true =>
      have h1 := shouldDeferPause_fst flags d
      rw [hdefer] at h1
      simp [h1]

theorem pauses_shouldDeferPause (flags : BlackboxFlags) (d : Debugger) :
    (shouldDeferPause flags d).2.log.filter Event.isPause = d.log.filter Event.isPause := by
  unfold shouldDeferPause
  split
  · rfl
  · simp only [pauses_schedulePauseAtNextOpportunity]
    split <;> simp

theorem m_currentProbeBatchId_single_false (env : Env) (g : Option GlobalObject)
    (d : Debugger) (B : Breakpoint) (hbps : d.m_deferredBreakpoints = [B])
    (hcond : conditionHolds env B = false) :
    (evaluateDeferredBreakpoints env g false d).2.m_currentProbeBatchId
      = d.m_currentProbeBatchId := by
  rw [evaluateDeferredBreakpoints_single_false env g d B hbps hcond]
  simp

end Debugger
end JSC

namespace JSC
namespace Debugger

/-- Counterexample to claim C12. In `leftoverDeferred` no immediate request is
armed, the frame is not the target of an eventual request and no special
breakpoint is armed; the statement at line 9 matches `falseConditionBreakpoint`,
whose condition is false. `lineBreakpoint`, left in `m_deferredBreakpoints` by
the deferred opportunity at line 5, is evaluated with it and demands the pause:
`handlePause` is called. -/
theorem pause_with_false_condition_and_leftover_breakpoint :
    leftoverDeferred.m_isPaused = false ∧ leftoverDeferred.m_suppressAllPauses = false ∧
    relevantBlackboxFlags leftoverDeferred 7 (TextPosition.mk 9 0) = some {} ∧
    leftoverDeferred.m_pauseAtNextOpportunity = false ∧
    leftoverDeferred.m_pauseOnCallFrame ≠ leftoverDeferred.m_currentCallFrame ∧
    leftoverDeferred.m_specialBreakpoint = none ∧
    didHitBreakpoint leftoverDeferred 7 (TextPosition.mk 9 0) = some falseConditionBreakpoint ∧
    conditionHolds (scriptEnv (TextPosition.mk 9 0)) falseConditionBreakpoint = false ∧
    leftoverDeferred.m_deferredBreakpoints = [lineBreakpoint] ∧
    (pauseIfNeeded (scriptEnv (TextPosition.mk 9 0)) (some 1) leftoverDeferred).log.filter
        Event.isPause
      = leftoverDeferred.log.filter Event.isPause ++ [Event.hookDidPause (some 1)] := by
  decide

end Debugger
end JSC
namespace JSC
namespace Debugger

/-- The form of `pauseIfNeeded` when a breakpoint is hit and nothing else asks for
the pause: the breakpoint is the one deferred breakpoint of the guarded part. -/
theorem pauseIfNeeded_only_trigger (env : Env) (g : Option GlobalObject) (d : Debugger)
    (flags : BlackboxFlags) (B : Breakpoint)
    (hpaused : d.m_isPaused = false) (hsuppress : d.m_suppressAllPauses = false)
    (hflags : relevantBlackboxFlags d (env.sourceIDForCallFrame d.m_currentCallFrame)
      (env.positionForCallFrame d.m_currentCallFrame) = some flags)
    (hnext : d.m_pauseAtNextOpportunity = false)
    (htarget : d.m_pauseOnCallFrame ≠ d.m_currentCallFrame)
    (hspecial : d.m_specialBreakpoint = none)
    (hhit : didHitBreakpoint d (env.sourceIDForCallFrame d.m_currentCallFrame)
      (env.positionForCallFrame d.m_currentCallFrame) = some B)
    (hnone : d.m_deferredBreakpoints = []) :
    ∃ x : Debugger, x.m_deferredBreakpoints = [B] ∧ x.log = d.log ∧
      x.m_currentProbeBatchId = d.m_currentProbeBatchId ∧
      x.m_currentCallFrame = d.m_currentCallFrame ∧
      x.m_blackboxBreakpointEvaluations = d.m_blackboxBreakpointEvaluations ∧
      ∃ desired : Bool, pauseIfNeeded env g d
        = leavePausedScopes
            (pauseIfNeededEvaluate env g flags d.m_afterBlackboxedScript false desired x) := by
  have hstep : stepPause d = false := by
    simp [stepPause, hnext, htarget]
  refine ⟨guardedEntry (atPauseTest d (some B)
    (toUnsigned (env.positionForCallFrame d.m_currentCallFrame).m_line)), ?_, ?_, ?_, ?_, ?_,
    atDesiredCallFrame (atPauseTest d (some B)
      (toUnsigned (env.positionForCallFrame d.m_currentCallFrame).m_line)), ?_⟩
  · rw [guardedEntry_m_deferredBreakpoints]
    simp [atPauseTest, deferredAtEntry, hspecial, hnone, hashSetAdd]
  · rw [guardedEntry_log]; rfl
  · rw [guardedEntry_m_currentProbeBatchId]; rfl
  · rw [guardedEntry_m_currentCallFrame]; rfl
  · rw [guardedEntry_m_blackboxBreakpointEvaluations]; rfl
  · rw [pauseIfNeeded_eq env g d flags hpaused hsuppress hflags, hhit, hstep,
      pauseIfNeededGuarded_eq]
    simp

end Debugger
end JSC
namespace JSC
namespace Debugger

/-- Claim C12, amended. At a pause opportunity (debugger not paused, pauses not
suppressed, position in no `Ignore` range) whose only trigger is a matched line
breakpoint (no immediate request armed, the current frame not the target of the
eventual request, no special breakpoint armed, no breakpoint left in
`m_deferredBreakpoints` by an earlier opportunity) and whose condition is false,
`pauseIfNeeded` returns without calling `handlePause` (the log gains no `didPause`
hook) and without running the actions of the breakpoint (the probe batch
counter, which `evaluateBreakpointActions` advances on every call, is as before),
and the debugger is not paused on return. -/
theorem pauseIfNeeded_false_condition_does_not_pause (env : Env) (g : Option GlobalObject)
    (d : Debugger) (flags : BlackboxFlags) (B : Breakpoint)
    (hpaused : d.m_isPaused = false) (hsuppress : d.m_suppressAllPauses = false)
    (hflags : relevantBlackboxFlags d (env.sourceIDForCallFrame d.m_currentCallFrame)
      (env.positionForCallFrame d.m_currentCallFrame) = some flags)
    (hnext : d.m_pauseAtNextOpportunity = false)
    (htarget : d.m_pauseOnCallFrame ≠ d.m_currentCallFrame)
    (hspecial : d.m_specialBreakpoint = none)
    (hhit : didHitBreakpoint d (env.sourceIDForCallFrame d.m_currentCallFrame)
      (env.positionForCallFrame d.m_currentCallFrame) = some B)
    (hcond : conditionHolds env B = false)
    (hnone : d.m_deferredBreakpoints = []) :
    (pauseIfNeeded env g d).log.filter Event.isPause = d.log.filter Event.isPause ∧
    (pauseIfNeeded env g d).m_currentProbeBatchId = d.m_currentProbeBatchId ∧
    (pauseIfNeeded env g d).m_isPaused = false := by
  obtain ⟨x, hbps, hlog, hbatch, _, _, desired, heq⟩ :=
    pauseIfNeeded_only_trigger env g d flags B hpaused hsuppress hflags hnext htarget hspecial
      hhit hnone
  have hstop : (evaluateDeferredBreakpoints env g false x).1 = false := by
    rw [evaluateDeferredBreakpoints_single_false env g x B hbps hcond]
  rw [heq, pauseIfNeededEvaluate_of_stop env g flags _ false desired x hstop]
  refine ⟨?_, ?_, rfl⟩
  · show (if _ then _ else _ : Debugger).log.filter Event.isPause = _
    split
    · rw [pauses_shouldDeferPause, hlog]
    · rw [pauses_evaluateDeferredBreakpoints, hlog]
  · show (if _ then _ else _ : Debugger).m_currentProbeBatchId = _
    split
    · rw [m_currentProbeBatchId_shouldDeferPause, hbatch]
    · rw [m_currentProbeBatchId_single_false env g x B hbps hcond, hbatch]

theorem pauseIfNeeded_false_condition_does_not_pause_witness :
    (pauseIfNeeded (scriptEnv (TextPosition.mk 9 0)) (some 1) afterDeferralCancelled).log.filter
        Event.isPause
      = afterDeferralCancelled.log.filter Event.isPause ∧
    (pauseIfNeeded (scriptEnv (TextPosition.mk 9 0)) (some 1)
        afterDeferralCancelled).m_currentProbeBatchId
      = afterDeferralCancelled.m_currentProbeBatchId ∧
    (pauseIfNeeded (scriptEnv (TextPosition.mk 9 0)) (some 1) afterDeferralCancelled).m_isPaused
      = false :=
  pauseIfNeeded_false_condition_does_not_pause (scriptEnv (TextPosition.mk 9 0)) (some 1)
    afterDeferralCancelled {} falseConditionBreakpoint (by decide) (by decide) (by decide)
    (by decide) (by decide) (by decide) (by decide) (by decide) (by decide)

end Debugger
end JSC

namespace JSC
namespace Debugger

/-! ### The number of calls of `evaluateBreakpointActions` -/

theorem m_currentProbeBatchId_evaluateBreakpointActions (env : Env) (b : Breakpoint)
    (g : Option GlobalObject) (d : Debugger) :
    (evaluateBreakpointActions env b g d).m_currentProbeBatchId
      = (d.m_currentProbeBatchId + 1) % 4294967296 := by
  simp [evaluateBreakpointActions]

/-- Without re-entrancy the loop over the deferred breakpoints calls
`evaluateBreakpointActions` once for each breakpoint whose condition holds. -/
theorem m_currentProbeBatchId_deferredBreakpointsLoop_quiet (env : Env)
    (hre : env.noReentrancy) (g : Option GlobalObject) (bps : List Breakpoint)
    (st : DeferredLoopState) (d : Debugger) (hframe : d.m_currentCallFrame ≠ none) :
    (deferredBreakpointsLoop env g bps st d).2.m_currentProbeBatchId
      = (if bps.countP (conditionHolds env) = 0 then d.m_currentProbeBatchId
         else (d.m_currentProbeBatchId + bps.countP (conditionHolds env)) % 4294967296) := by
  induction bps generalizing st d with
  | nil => rfl
  | cons b rest ih =>
    have hfst := shouldPause_fst_quiet env hre b g d hframe
    have hframe1 : (shouldPause env b g d).2.m_currentCallFrame ≠ none := by
      rw [m_currentCallFrame_shouldPause_quiet env hre]; exact hframe
    have hbatch1 : (shouldPause env b g d).2.m_currentProbeBatchId = d.m_currentProbeBatchId :=
      m_currentProbeBatchId_shouldPause env b g d
    generalize hr : shouldPause env b g d = r at hfst hframe1 hbatch1
    obtain ⟨p, x⟩ := r
    simp only at hfst hframe1 hbatch1
    have hframe2 : (evaluateBreakpointActions env b g x).m_currentCallFrame ≠ none := by
      rw [m_currentCallFrame_evaluateBreakpointActions_quiet env hre]; exact hframe1
    have hxnone : x.m_currentCallFrame.isNone = false := by
      cases h : x.m_currentCallFrame with
      | none => exact absurd h hframe1
      | some f => rfl
    have hanone : (evaluateBreakpointActions env b g x).m_currentCallFrame.isNone = false := by
      cases h : (evaluateBreakpointActions env b g x).m_currentCallFrame with
      | none => exact absurd h hframe2
      | some f => rfl
    simp only [deferredBreakpointsLoop, hr, hxnone, hanone, Bool.false_eq_true, if_false]
    subst hfst
    cases hc : conditionHolds env b with
    | false =>
      simp only [Bool.not_false, if_true, List.countP_cons, hc, Bool.false_eq_true, if_false,
        Nat.add_zero]
      rw [ih st x hframe1, hbatch1]
    | true =>
      have hcount : (b :: rest).countP (conditionHolds env)
          = rest.countP (conditionHolds env) + 1 := by
        simp [List.countP_cons, hc]
      simp only [Bool.not_true, Bool.false_eq_true, if_false, hcount]
      have hb2 := m_currentProbeBatchId_evaluateBreakpointActions env b g x
      rw [hbatch1] at hb2
      have hne : rest.countP (conditionHolds env) + 1 ≠ 0 := Nat.succ_ne_zero _
      rw [if_neg hne]
      split <;>
        (rw [ih _ _ hframe2]
         split
         · rw [hb2]; omega
         · rw [hb2]; omega)

end Debugger
end JSC
namespace JSC
namespace Debugger

theorem m_currentProbeBatchId_evaluateDeferredBreakpoints_quiet (env : Env)
    (hre : env.noReentrancy) (g : Option GlobalObject) (step : Bool) (d : Debugger)
    (hframe : d.m_currentCallFrame ≠ none) :
    (evaluateDeferredBreakpoints env g step d).2.m_currentProbeBatchId
      = (if d.m_deferredBreakpoints.countP (conditionHolds env) = 0 then d.m_currentProbeBatchId
         else (d.m_currentProbeBatchId + d.m_deferredBreakpoints.countP (conditionHolds env))
           % 4294967296) := by
  unfold evaluateDeferredBreakpoints
  split
  · rename_i hempty
    have : d.m_deferredBreakpoints = [] := by simpa [List.isEmpty_iff] using hempty
    simp [this]
  · simp only []
    have h := m_currentProbeBatchId_deferredBreakpointsLoop_quiet env hre g
      d.m_deferredBreakpoints {} { d with m_deferredBreakpoints := [] } hframe
    generalize deferredBreakpointsLoop env g d.m_deferredBreakpoints {}
      { d with m_deferredBreakpoints := [] } = r at h
    obtain ⟨state, x⟩ := r
    simp only at h
    cases state with
    | none => exact h
    | some state =>
      simp only []
      split
      · split <;> exact h
      · split <;> exact h

/-- Without re-entrancy, and when the pause is not deferred before the breakpoints
are evaluated, `pauseIfNeededEvaluate` calls `evaluateBreakpointActions` once for
each deferred breakpoint whose condition holds. -/
theorem m_currentProbeBatchId_pauseIfNeededEvaluate_quiet (env : Env)
    (hre : env.noReentrancy) (g : Option GlobalObject) (flags : BlackboxFlags)
    (after step desired : Bool) (d : Debugger) (hframe : d.m_currentCallFrame ≠ none)
    (hfirst : (d.m_blackboxBreakpointEvaluations && flags.contains BlackboxFlag.Defer) = false) :
    (pauseIfNeededEvaluate env g flags after step desired d).m_currentProbeBatchId
      = (if d.m_deferredBreakpoints.countP (conditionHolds env) = 0 then d.m_currentProbeBatchId
         else (d.m_currentProbeBatchId + d.m_deferredBreakpoints.countP (conditionHolds env))
           % 4294967296) := by
  have h := m_currentProbeBatchId_evaluateDeferredBreakpoints_quiet env hre g step d hframe
  have hstart : (if d.m_blackboxBreakpointEvaluations = true then shouldDeferPause flags d
      else (false, d)) = (false, d) := by
    cases hbbe : d.m_blackboxBreakpointEvaluations with
    | false => simp
    | true =>
      rw [hbbe] at hfirst
      simp only [Bool.true_and] at hfirst
      simp [shouldDeferPause_of_not_defer flags d hfirst]
  unfold pauseIfNeededEvaluate
  rw [hstart]
  simp only [Bool.false_eq_true, if_false]
  generalize evaluateDeferredBreakpoints env g step d = r at h
  obtain ⟨goOn, x⟩ := r
  simp only at h
  cases goOn with
  | false => simpa using h
  | true =>
    simp only [Bool.not_true, Bool.false_eq_true, if_false]
    generalize hs : (if (!x.m_blackboxBreakpointEvaluations) = true then shouldDeferPause flags x
      else (false, x)) = s
    have hs2 : s.2.m_currentProbeBatchId = x.m_currentProbeBatchId := by
      rw [← hs]
      split
      · exact m_currentProbeBatchId_shouldDeferPause flags x
      · rfl
    obtain ⟨deferred, y⟩ := s
    simp only at hs2
    cases deferred with
    | true =>
      simp only [if_true]
      rw [hs2]; exact h
    | false =>
      simp only [Bool.false_eq_true, if_false]
      rw [m_currentProbeBatchId_pauseNow, hs2]; exact h

end Debugger
end JSC
namespace JSC
namespace Debugger

/-- Counterexample to claim C14. The statement at line 9 matches
`falseConditionLogpoint`, a breakpoint with `autoContinue` whose condition is
false: `pauseIfNeeded` evaluates the condition and goes on to the next
breakpoint without calling `evaluateBreakpointActions`: the probe batch counter
is as before and the observer gets no log message. -/
theorem logpoint_with_false_condition_runs_no_action :
    logpointTracked.m_isPaused = false ∧ logpointTracked.m_suppressAllPauses = false ∧
    relevantBlackboxFlags logpointTracked 7 (TextPosition.mk 9 0) = some {} ∧
    didHitBreakpoint logpointTracked 7 (TextPosition.mk 9 0) = some falseConditionLogpoint ∧
    falseConditionLogpoint.isAutoContinue = true ∧
    (pauseIfNeeded (scriptEnv (TextPosition.mk 9 0)) (some 1)
        logpointTracked).m_currentProbeBatchId = logpointTracked.m_currentProbeBatchId ∧
    (pauseIfNeeded (scriptEnv (TextPosition.mk 9 0)) (some 1) logpointTracked).log
      = logpointTracked.log ++ [Event.evaluate "false"] ∧
    Event.observerBreakpointActionLog 11 "hit"
      ∉ (pauseIfNeeded (scriptEnv (TextPosition.mk 9 0)) (some 1) logpointTracked).log := by
  decide

/-- Claim C14, amended. At a pause opportunity (debugger not paused, pauses not
suppressed, position in no `Ignore` range) that matches a breakpoint `B` with
`autoContinue` set: when the condition of `B` holds, the evaluated scripts perform
no debugger operation, a frame is tracked and the pause is not deferred before
the breakpoints are evaluated (`m_blackboxBreakpointEvaluations` with a `Defer`
range), `B` is among the deferred breakpoints and `evaluateBreakpointActions` is
called once for each of them whose condition holds (the probe batch counter
advances by their number); and when `B` is the only trigger (no immediate
request, the frame not the target of the eventual request, no special breakpoint,
no breakpoint left in `m_deferredBreakpoints`), `handlePause` is not called,
whatever the condition and the actions do. -/
theorem pauseIfNeeded_autoContinue (env : Env) (g : Option GlobalObject)
    (d : Debugger) (flags : BlackboxFlags) (B : Breakpoint)
    (hpaused : d.m_isPaused = false) (hsuppress : d.m_suppressAllPauses = false)
    (hflags : relevantBlackboxFlags d (env.sourceIDForCallFrame d.m_currentCallFrame)
      (env.positionForCallFrame d.m_currentCallFrame) = some flags)
    (hhit : didHitBreakpoint d (env.sourceIDForCallFrame d.m_currentCallFrame)
      (env.positionForCallFrame d.m_currentCallFrame) = some B)
    (hauto : B.isAutoContinue = true) :
    (env.noReentrancy → d.m_currentCallFrame ≠ none → conditionHolds env B = true →
      (d.m_blackboxBreakpointEvaluations && flags.contains BlackboxFlag.Defer) = false →
      B ∈ deferredAtEntry d (some B) ∧
      0 < (deferredAtEntry d (some B)).countP (conditionHolds env) ∧
      (pauseIfNeeded env g d).m_currentProbeBatchId
        = (d.m_currentProbeBatchId + (deferredAtEntry d (some B)).countP (conditionHolds env))
            % 4294967296) ∧
    (d.m_pauseAtNextOpportunity = false → d.m_pauseOnCallFrame ≠ d.m_currentCallFrame →
      d.m_specialBreakpoint = none → d.m_deferredBreakpoints = [] →
      (pauseIfNeeded env g d).log.filter Event.isPause = d.log.filter Event.isPause) := by
  refine ⟨?_, ?_⟩
  · intro hre hframe hcond hfirst
    have hmem : B ∈ deferredAtEntry d (some B) := by
      unfold deferredAtEntry
      simp only []
      cases d.m_specialBreakpoint with
      | none => exact mem_hashSetAdd _ _
      | some s =>
        simp only []
        have hB : B ∈ hashSetAdd d.m_deferredBreakpoints B := mem_hashSetAdd _ _
        generalize hashSetAdd d.m_deferredBreakpoints B = l at hB
        unfold hashSetAdd
        split
        · exact hB
        · exact List.mem_append_left _ hB
    have hpos : 0 < (deferredAtEntry d (some B)).countP (conditionHolds env) :=
      List.countP_pos_iff.2 ⟨B, hmem, hcond⟩
    refine ⟨hmem, hpos, ?_⟩
    rw [pauseIfNeeded_eq env g d flags hpaused hsuppress hflags, hhit, pauseIfNeededGuarded_eq]
    simp only [Option.isSome_some, Bool.or_true, Bool.true_or, if_true]
    show (pauseIfNeededEvaluate env g flags _ _ _ _).m_currentProbeBatchId = _
    rw [m_currentProbeBatchId_pauseIfNeededEvaluate_quiet env hre g flags _ _ _ _
      (by rw [guardedEntry_m_currentCallFrame]; exact hframe)
      (by rw [guardedEntry_m_blackboxBreakpointEvaluations]; exact hfirst)]
    rw [guardedEntry_m_deferredBreakpoints, guardedEntry_m_currentProbeBatchId]
    have hlist : (atPauseTest d (some B)
        (toUnsigned (env.positionForCallFrame d.m_currentCallFrame).m_line)).m_deferredBreakpoints
        = deferredAtEntry d (some B) := rfl
    have hbatch : (atPauseTest d (some B)
        (toUnsigned (env.positionForCallFrame d.m_currentCallFrame).m_line)).m_currentProbeBatchId
        = d.m_currentProbeBatchId := rfl
    rw [hlist, hbatch, if_neg (Nat.pos_iff_ne_zero.1 hpos)]
  · intro hnext htarget hspecial hnone
    obtain ⟨x, hbps, hlog, _, _, _, desired, heq⟩ :=
      pauseIfNeeded_only_trigger env g d flags B hpaused hsuppress hflags hnext htarget hspecial
        hhit hnone
    have hstop := evaluateDeferredBreakpoints_single_auto env g x B hbps hauto
    rw [heq, pauseIfNeededEvaluate_of_stop env g flags _ false desired x hstop]
    show (if _ then _ else _ : Debugger).log.filter Event.isPause = _
    split
    · rw [pauses_shouldDeferPause, hlog]
    · rw [pauses_evaluateDeferredBreakpoints, hlog]

theorem pauseIfNeeded_autoContinue_witness :
    logpoint ∈ deferredAtEntry logpointTracked (some logpoint) ∧
    (pauseIfNeeded (scriptEnv (TextPosition.mk 5 0)) (some 1)
        logpointTracked).m_currentProbeBatchId = 1 ∧
    (pauseIfNeeded (scriptEnv (TextPosition.mk 5 0)) (some 1) logpointTracked).log.filter
        Event.isPause
      = logpointTracked.log.filter Event.isPause :=
  have h := pauseIfNeeded_autoContinue (scriptEnv (TextPosition.mk 5 0)) (some 1)
    logpointTracked {} logpoint (by decide) (by decide) (by decide) (by decide) (by decide)
  have h1 := h.1 (scriptEnv_noReentrancy (TextPosition.mk 5 0)) (by decide) (by decide)
    (by decide)
  ⟨h1.1, h1.2.2, h.2 (by decide) (by decide) (by decide) (by decide)⟩

end Debugger
end JSC

namespace JSC
namespace Debugger

theorem m_specialBreakpoint_shouldDeferPause (flags : BlackboxFlags) (d : Debugger) :
    (shouldDeferPause flags d).2.m_specialBreakpoint = d.m_specialBreakpoint := by
  unfold shouldDeferPause
  split
  · rfl
  · simp only [m_specialBreakpoint_schedulePauseAtNextOpportunity]
    split <;> simp

theorem noSpecial_pauseNow (env : Env) (henv : env.armsNoSpecialBreakpoint)
    (g : Option GlobalObject) (a b : Bool) (d : Debugger) (h : d.m_specialBreakpoint = none) :
    (pauseNow env g a b d).m_specialBreakpoint = none := by
  unfold pauseNow
  simp only [m_specialBreakpoint_ite, setSteppingMode_eq, ite_self]
  apply noSpecial_handlePause env henv
  cases b <;> exact h

theorem noSpecial_pauseIfNeededEvaluate (env : Env) (henv : env.armsNoSpecialBreakpoint)
    (g : Option GlobalObject) (flags : BlackboxFlags) (after step desired : Bool)
    (d : Debugger) (h : d.m_specialBreakpoint = none) :
    (pauseIfNeededEvaluate env g flags after step desired d).m_specialBreakpoint = none := by
  have hdefer : ∀ (c : Prop) [Decidable c] (x : Debugger), x.m_specialBreakpoint = none →
      (if c then shouldDeferPause flags x else (false, x)).2.m_specialBreakpoint = none := by
    intro c _ x hx
    split
    · rw [m_specialBreakpoint_shouldDeferPause]; exact hx
    · exact hx
  unfold pauseIfNeededEvaluate
  simp only []
  have h1 := hdefer (d.m_blackboxBreakpointEvaluations = true) d h
  generalize (if d.m_blackboxBreakpointEvaluations = true then shouldDeferPause flags d
    else (false, d)) = r1 at h1
  obtain ⟨deferred1, x1⟩ := r1
  simp only at h1
  cases deferred1 with
  | true => exact h1
  | false =>
    simp only [Bool.false_eq_true, if_false]
    have h2 := noSpecial_evaluateDeferredBreakpoints env henv g step x1 h1
    generalize evaluateDeferredBreakpoints env g step x1 = r2 at h2
    obtain ⟨goOn, x2⟩ := r2
    simp only at h2
    cases goOn with
    | false => exact h2
    | true =>
      simp only [Bool.not_true, Bool.false_eq_true, if_false]
      have h3 := hdefer ((!x2.m_blackboxBreakpointEvaluations) = true) x2 h2
      generalize (if (!x2.m_blackboxBreakpointEvaluations) = true then shouldDeferPause flags x2
        else (false, x2)) = r3 at h3
      obtain ⟨deferred3, x3⟩ := r3
      simp only at h3
      cases deferred3 with
      | true => exact h3
      | false => exact noSpecial_pauseNow env henv g after desired x3 h3

theorem scriptEnv_armsNoSpecialBreakpoint (position : TextPosition) :
    (scriptEnv position).armsNoSpecialBreakpoint :=
  ⟨by
    intro command hmem
    have hc : command = ClientCommand.continueProgram := by
      simpa [scriptEnv] using hmem
    subst hc
    rfl,
   fun _ command hmem => absurd hmem (List.not_mem_nil command)⟩

/-- Claim C16. A call of `pauseIfNeeded` that passes the checks (debugger not
paused, pauses not suppressed, position in no `Ignore` range) with a special
breakpoint armed runs its evaluation part, the only one that evaluates
conditions, on a debugger in which the log is as before the call, the special
breakpoint is in `m_deferredBreakpoints` and `m_specialBreakpoint` is null; and
`m_specialBreakpoint` is null when `pauseIfNeeded` returns, whatever the outcome,
when neither the client in the nested event loop nor a script under evaluation
arms a special breakpoint. -/
theorem special_breakpoint_gets_one_opportunity (env : Env) (g : Option GlobalObject)
    (d : Debugger) (flags : BlackboxFlags) (special : Breakpoint)
    (hpaused : d.m_isPaused = false) (hsuppress : d.m_suppressAllPauses = false)
    (hflags : relevantBlackboxFlags d (env.sourceIDForCallFrame d.m_currentCallFrame)
      (env.positionForCallFrame d.m_currentCallFrame) = some flags)
    (hspecial : d.m_specialBreakpoint = some special) :
    pauseIfNeeded env g d
      = leavePausedScopes (pauseIfNeededEvaluate env g flags d.m_afterBlackboxedScript
          (stepPause d)
          (atDesiredCallFrame (atPauseTest d
            (didHitBreakpoint d (env.sourceIDForCallFrame d.m_currentCallFrame)
              (env.positionForCallFrame d.m_currentCallFrame))
            (toUnsigned (env.positionForCallFrame d.m_currentCallFrame).m_line)))
          (guardedEntry (atPauseTest d
            (didHitBreakpoint d (env.sourceIDForCallFrame d.m_currentCallFrame)
              (env.positionForCallFrame d.m_currentCallFrame))
            (toUnsigned (env.positionForCallFrame d.m_currentCallFrame).m_line)))) ∧
    (guardedEntry (atPauseTest d
        (didHitBreakpoint d (env.sourceIDForCallFrame d.m_currentCallFrame)
          (env.positionForCallFrame d.m_currentCallFrame))
        (toUnsigned (env.positionForCallFrame d.m_currentCallFrame).m_line))).m_specialBreakpoint
      = none ∧
    special ∈ (guardedEntry (atPauseTest d
        (didHitBreakpoint d (env.sourceIDForCallFrame d.m_currentCallFrame)
          (env.positionForCallFrame d.m_currentCallFrame))
        (toUnsigned (env.positionForCallFrame d.m_currentCallFrame).m_line))).m_deferredBreakpoints ∧
    (guardedEntry (atPauseTest d
        (didHitBreakpoint d (env.sourceIDForCallFrame d.m_currentCallFrame)
          (env.positionForCallFrame d.m_currentCallFrame))
        (toUnsigned (env.positionForCallFrame d.m_currentCallFrame).m_line))).log = d.log ∧
    (env.armsNoSpecialBreakpoint → (pauseIfNeeded env g d).m_specialBreakpoint = none) := by
  have heq : pauseIfNeeded env g d
      = leavePausedScopes (pauseIfNeededEvaluate env g flags d.m_afterBlackboxedScript
          (stepPause d)
          (atDesiredCallFrame (atPauseTest d
            (didHitBreakpoint d (env.sourceIDForCallFrame d.m_currentCallFrame)
              (env.positionForCallFrame d.m_currentCallFrame))
            (toUnsigned (env.positionForCallFrame d.m_currentCallFrame).m_line)))
          (guardedEntry (atPauseTest d
            (didHitBreakpoint d (env.sourceIDForCallFrame d.m_currentCallFrame)
              (env.positionForCallFrame d.m_currentCallFrame))
            (toUnsigned (env.positionForCallFrame d.m_currentCallFrame).m_line)))) := by
    rw [pauseIfNeeded_eq env g d flags hpaused hsuppress hflags, hspecial,
      pauseIfNeededGuarded_eq]
    simp
  refine ⟨heq, guardedEntry_m_specialBreakpoint _, ?_, ?_, ?_⟩
  · rw [guardedEntry_m_deferredBreakpoints]
    show special ∈ deferredAtEntry d _
    unfold deferredAtEntry
    simp only [hspecial]
    exact mem_hashSetAdd _ _
  · rw [guardedEntry_log]; rfl
  · intro henv
    rw [heq]
    show (pauseIfNeededEvaluate env g flags _ _ _ _).m_specialBreakpoint = none
    exact noSpecial_pauseIfNeededEvaluate env henv g flags _ _ _ _
      (guardedEntry_m_specialBreakpoint _)

theorem special_breakpoint_gets_one_opportunity_witness :
    ignoringLineFive.m_specialBreakpoint.isSome = true ∧
    (pauseIfNeeded (scriptEnv (TextPosition.mk 9 0)) (some 1)
      ignoringLineFive).m_specialBreakpoint = none :=
  ⟨rfl, (special_breakpoint_gets_one_opportunity (scriptEnv (TextPosition.mk 9 0)) (some 1)
    ignoringLineFive {}
    { id := 9, sourceID := 0, lineNumber := 0, columnNumber := 0, linked := false }
    (by decide) (by decide) (by decide) (by decide)).2.2.2.2
      (scriptEnv_armsNoSpecialBreakpoint (TextPosition.mk 9 0))⟩

end Debugger
end JSC

namespace JSC
namespace Debugger

/-- Counterexample to claim C15. A new debugger gets `lineBreakpoint` and has
breakpoints activated; nothing enables stepping. The statement at line 5 of
script 7 hits the breakpoint: `pauseIfNeeded` pauses (`pauseNow`, which calls
`handlePause`) on `pausedAtLineBreakpoint`, a debugger that is paused with
stepping disabled. -/
theorem paused_at_breakpoint_with_stepping_disabled :
    activatedWithLineBreakpoint
      = runCommands (scriptEnv (TextPosition.mk 5 0))
          [ClientCommand.setBreakpoint lineBreakpoint,
           ClientCommand.setBreakpointsActivated true] initial ∧
    onScriptSeven = updateCallFrameInternal (scriptEnv (TextPosition.mk 5 0)) 100
      activatedWithLineBreakpoint ∧
    pauseIfNeeded (scriptEnv (TextPosition.mk 5 0)) (some 1) onScriptSeven
      = leavePausedScopes
          (pauseNow (scriptEnv (TextPosition.mk 5 0)) (some 1) false true
            pausedAtLineBreakpoint) ∧
    pausedAtLineBreakpoint.m_isPaused = true ∧
    pausedAtLineBreakpoint.m_steppingMode = SteppingMode.SteppingModeDisabled ∧
    Event.hookDidPause (some 1)
      ∈ (atStatement (scriptEnv (TextPosition.mk 5 0)) (some 100)
          activatedWithLineBreakpoint).log := by
  decide

end Debugger
end JSC
namespace JSC
namespace Debugger

theorem m_isPaused_pauseIfNeeded (env : Env) (g : Option GlobalObject) (d : Debugger)
    (h : d.m_isPaused = false) : (pauseIfNeeded env g d).m_isPaused = false := by
  cases hsuppress : d.m_suppressAllPauses with
  | true => simp [pauseIfNeeded, h, hsuppress]
  | false =>
    cases hflags : relevantBlackboxFlags d (env.sourceIDForCallFrame d.m_currentCallFrame)
        (env.positionForCallFrame d.m_currentCallFrame) with
    | none => simp [pauseIfNeeded, h, hsuppress, hflags]
    | some flags =>
      rw [pauseIfNeeded_eq env g d flags h hsuppress hflags]
      split
      · rfl
      · exact h

/-- Claim C15, amended. The debugger is paused only inside `pauseIfNeeded`, which
sets `m_isPaused` when it builds its scope guards and returns with it false;
while the debugger is paused nothing disables stepping: if stepping is enabled,
it is still enabled after the scope guards are built, after the deferral test,
after the evaluation of a condition, of the actions of a breakpoint and of the
deferred breakpoints, after `handlePause`, after the nested event loop and after
every client operation, none of which changes `m_isPaused`. -/
theorem stepping_stays_enabled_while_paused (env : Env) (d : Debugger)
    (hstepping : d.m_steppingMode = SteppingMode.SteppingModeEnabled) :
    ((guardedEntry d).m_isPaused = true ∧
      (guardedEntry d).m_steppingMode = SteppingMode.SteppingModeEnabled) ∧
    (∀ flags, (shouldDeferPause flags d).2.m_steppingMode = SteppingMode.SteppingModeEnabled) ∧
    (∀ b g, (shouldPause env b g d).2.m_steppingMode = SteppingMode.SteppingModeEnabled) ∧
    (∀ b g, (evaluateBreakpointActions env b g d).m_steppingMode
      = SteppingMode.SteppingModeEnabled) ∧
    (∀ g step, (evaluateDeferredBreakpoints env g step d).2.m_steppingMode
      = SteppingMode.SteppingModeEnabled) ∧
    (∀ g, (handlePause env g d).m_steppingMode = SteppingMode.SteppingModeEnabled) ∧
    (∀ commands, (runEventLoopWhilePaused env commands d).m_steppingMode
        = SteppingMode.SteppingModeEnabled ∧
      (runEventLoopWhilePaused env commands d).m_isPaused = d.m_isPaused) ∧
    (∀ command, (runCommand env command d).m_steppingMode = SteppingMode.SteppingModeEnabled ∧
      (runCommand env command d).m_isPaused = d.m_isPaused) ∧
    (∀ g, d.m_isPaused = false → (pauseIfNeeded env g d).m_isPaused = false) := by
  refine ⟨⟨rfl, ?_⟩, ?_, ?_, ?_, ?_, ?_, ?_, ?_, ?_⟩
  · rw [guardedEntry_m_steppingMode]; exact hstepping
  · exact fun flags => stepping_shouldDeferPause flags d hstepping
  · exact fun b g => stepping_shouldPause env b g d hstepping
  · exact fun b g => stepping_evaluateBreakpointActions env b g d hstepping
  · exact fun g step => stepping_evaluateDeferredBreakpoints env g step d hstepping
  · exact fun g => stepping_handlePause env g d hstepping
  · exact fun commands => ⟨stepping_runEventLoopWhilePaused env commands d hstepping,
      m_isPaused_runEventLoopWhilePaused env commands d⟩
  · exact fun command => ⟨stepping_runCommand env command d hstepping,
      m_isPaused_runCommand env command d⟩
  · exact fun g h => m_isPaused_pauseIfNeeded env g d h

theorem stepping_stays_enabled_while_paused_witness :
    ignoringLineFive.m_steppingMode = SteppingMode.SteppingModeEnabled ∧
    (guardedEntry ignoringLineFive).m_isPaused = true ∧
    (guardedEntry ignoringLineFive).m_steppingMode = SteppingMode.SteppingModeEnabled ∧
    (handlePause (scriptEnv (TextPosition.mk 9 0)) (some 1)
      (guardedEntry ignoringLineFive)).m_steppingMode = SteppingMode.SteppingModeEnabled :=
  ⟨rfl, rfl,
    (stepping_stays_enabled_while_paused (scriptEnv (TextPosition.mk 9 0)) ignoringLineFive
      rfl).1.2,
    (stepping_stays_enabled_while_paused (scriptEnv (TextPosition.mk 9 0))
      (guardedEntry ignoringLineFive) (by decide)).2.2.2.2.2.1 (some 1)⟩

end Debugger
end JSC

namespace JSC
namespace Debugger

/-- Claim C21. For every debugger state, after `clearBreakpoints` the index
`m_breakpointsForSourceID` and the set `m_breakpoints` are empty, `didHitBreakpoint`
returns nothing for every script and position, and the blackbox table
`m_blackboxConfigurations` and the flag `m_blackboxBreakpointEvaluations` are what
they were before the call. -/
theorem clearBreakpoints_empties_store_only (d : Debugger) :
    (clearBreakpoints d).m_breakpointsForSourceID = [] ∧
    (clearBreakpoints d).m_breakpoints = [] ∧
    (∀ sourceID position, didHitBreakpoint (clearBreakpoints d) sourceID position = none) ∧
    (clearBreakpoints d).m_blackboxConfigurations = d.m_blackboxConfigurations ∧
    (clearBreakpoints d).m_blackboxBreakpointEvaluations = d.m_blackboxBreakpointEvaluations := by
  refine ⟨rfl, rfl, ?_, rfl, rfl⟩
  intro sourceID position
  unfold didHitBreakpoint
  split
  · rfl
  · rfl

/-- Claim C27. For every paused debugger with a tracked frame, `detach` of the global
object the debugger is paused in (the VM is not entered, or its entry global
object is the one detached) acts as a `continueProgram`: afterwards the tracked
frame and the target frame of the eventual request are null, the immediate and
the eventual request are cleared, `m_deferredBreakpoints` is empty and
`m_doneProcessingDebuggerEvents` is true, for both reasons of the detach. -/
theorem detach_while_paused_continues (env : Env) (globalObject : GlobalObject)
    (reason : ReasonForDetach) (d : Debugger)
    (hpaused : d.m_isPaused = true) (hframe : d.m_currentCallFrame.isSome = true)
    (hentry : (!env.vmIsEntered || decide (env.entryScopeGlobalObject = globalObject)) = true) :
    (detach env globalObject reason d).m_currentCallFrame = none ∧
    (detach env globalObject reason d).m_pauseOnCallFrame = none ∧
    (detach env globalObject reason d).m_pauseAtNextOpportunity = false ∧
    (detach env globalObject reason d).m_afterBlackboxedScript = false ∧
    (detach env globalObject reason d).m_specialBreakpoint = none ∧
    (detach env globalObject reason d).m_pauseOnStepNext = false ∧
    (detach env globalObject reason d).m_pauseOnStepOut = false ∧
    (detach env globalObject reason d).m_deferredBreakpoints = [] ∧
    (detach env globalObject reason d).m_doneProcessingDebuggerEvents = true ∧
    (detach env globalObject reason d).m_globalObjects
      = hashSetRemove d.m_globalObjects globalObject := by
  unfold detach
  simp only [hpaused, hframe, hentry, Bool.and_self, if_true, continueProgram,
    resetImmediatePauseState, resetEventualPauseState, Bool.not_true, Bool.false_eq_true,
    if_false]
  split <;> simp [clearParsedData]

theorem detach_while_paused_continues_witness :
    waitingDebugger.m_isPaused = true ∧ waitingDebugger.m_currentCallFrame.isSome = true ∧
    waitingDebugger.m_doneProcessingDebuggerEvents = false ∧
    (detach (scriptEnv (TextPosition.mk 5 0)) 1
      ReasonForDetach.GlobalObjectIsDestructing waitingDebugger).m_currentCallFrame = none ∧
    (detach (scriptEnv (TextPosition.mk 5 0)) 1
      ReasonForDetach.GlobalObjectIsDestructing waitingDebugger).m_pauseOnCallFrame = none ∧
    (detach (scriptEnv (TextPosition.mk 5 0)) 1
      ReasonForDetach.GlobalObjectIsDestructing
      waitingDebugger).m_doneProcessingDebuggerEvents = true :=
  have h := detach_while_paused_continues (scriptEnv (TextPosition.mk 5 0)) 1
    ReasonForDetach.GlobalObjectIsDestructing waitingDebugger rfl rfl (by decide)
  ⟨rfl, rfl, rfl, h.1, h.2.1, h.2.2.2.2.2.2.2.2.1⟩

end Debugger
end JSC

namespace JSC
namespace Debugger

/-- Counterexample to claim C24. The new debugger has no observer, so observer 11
is not a member of the set; `removeObserver` removes nothing and finds the set
empty, and calls the hook `detachDebugger`. -/
theorem removeObserver_of_absent_observer_detaches :
    initial.m_observers = [] ∧ 11 ∉ initial.m_observers ∧
    (removeObserver 11 false initial).m_observers = initial.m_observers ∧
    (removeObserver 11 false initial).log = initial.log ++ [Event.detachDebugger false] := by
  decide

theorem hashSetRemove_isEmpty (observers : List Observer) (o : Observer) :
    (hashSetRemove observers o).isEmpty = decide (∀ x ∈ observers, x = o) := by
  unfold hashSetRemove
  induction observers with
  | nil => simp
  | cons a rest ih =>
    by_cases ha : a = o
    · subst ha
      simp only [List.filter_cons, decide_True, Bool.not_true, Bool.false_eq_true, if_false, ih]
      simp
    · simp [List.filter_cons, ha]

/-- Claim C24, amended. For every set of observers and observer `o`: `addObserver`
calls the hook `attachDebugger` exactly when the set was empty before the call;
`removeObserver` calls the hook `detachDebugger` exactly when the set is empty
after the call, that is when `o` was its only member or when it was empty
already; it does not call the hook when `o` was not a member of a set that is
not empty. -/
theorem observer_hooks (o : Observer) (isBeingDestroyed : Bool) (d : Debugger) :
    (addObserver o d).log
      = d.log ++ (if d.m_observers = [] then [Event.attachDebugger] else []) ∧
    (removeObserver o isBeingDestroyed d).log
      = d.log ++ (if ∀ x ∈ d.m_observers, x = o then [Event.detachDebugger isBeingDestroyed]
                  else []) ∧
    (d.m_observers = [o] →
      (removeObserver o isBeingDestroyed d).log
        = d.log ++ [Event.detachDebugger isBeingDestroyed]) ∧
    (o ∉ d.m_observers → d.m_observers ≠ [] →
      (removeObserver o isBeingDestroyed d).log = d.log) := by
  have hremove : (removeObserver o isBeingDestroyed d).log
      = d.log ++ (if ∀ x ∈ d.m_observers, x = o then [Event.detachDebugger isBeingDestroyed]
                  else []) := by
    unfold removeObserver
    simp only [hashSetRemove_isEmpty, decide_eq_true_eq]
    split
    · rfl
    · simp
  refine ⟨?_, hremove, ?_, ?_⟩
  · unfold addObserver
    simp only [List.isEmpty_iff]
    split
    · rfl
    · simp
  · intro hone
    rw [hremove, hone]
    simp
  · intro hmem hne
    rw [hremove, if_neg, List.append_nil]
    intro hall
    cases hobs : d.m_observers with
    | nil => exact hne hobs
    | cons a rest =>
      rw [hobs] at hall hmem
      have := hall a (List.mem_cons_self _ _)
      subst this
      exact hmem (List.mem_cons_self _ _)

theorem observer_hooks_witness :
    (addObserver 12 (addObserver 11 initial)).log = [Event.attachDebugger] ∧
    (removeObserver 11 false (addObserver 11 initial)).log
      = (addObserver 11 initial).log ++ [Event.detachDebugger false] ∧
    (removeObserver 12 false (addObserver 11 initial)).log = (addObserver 11 initial).log :=
  ⟨by decide,
    (observer_hooks 11 false (addObserver 11 initial)).2.2.1 (by decide),
    (observer_hooks 12 false (addObserver 11 initial)).2.2.2 (by decide) (by decide)⟩

end Debugger
end JSC

namespace JSC
namespace Debugger

/-- Claim C22. For every breakpoint and source provider: when the parse data's
`breakpointLocationForLineColumn` has no candidate for the query at the adjusted
line and column, `resolveBreakpoint` returns false and leaves the breakpoint as
it was, unresolved with the requested line and column (`Breakpoint::resolve` is
not called). -/
theorem resolveBreakpoint_without_candidate (breakpoint : Breakpoint)
    (sourceProvider : SourceProvider) (d : Debugger)
    (hnone : sourceProvider.breakpointLocationForLineColumn
      (resolveBreakpointQuery breakpoint sourceProvider).1
      (resolveBreakpointQuery breakpoint sourceProvider).2 = none) :
    (resolveBreakpoint breakpoint sourceProvider d).1 = (false, breakpoint) ∧
    (resolveBreakpoint breakpoint sourceProvider d).1.2.isResolved = breakpoint.isResolved ∧
    (resolveBreakpoint breakpoint sourceProvider d).1.2.lineNumber = breakpoint.lineNumber ∧
    (resolveBreakpoint breakpoint sourceProvider d).1.2.columnNumber
      = breakpoint.columnNumber := by
  have h : (resolveBreakpoint breakpoint sourceProvider d).1 = (false, breakpoint) := by
    simp only [resolveBreakpoint, hnone]
  rw [h]
  exact ⟨rfl, rfl, rfl, rfl⟩

theorem resolveBreakpoint_without_candidate_witness :
    resolveBreakpointQuery requestAfterScript inlineScriptProvider = (13, 4) ∧
    requestAfterScript.isResolved = false ∧
    (resolveBreakpoint requestAfterScript inlineScriptProvider initial).1
      = (false, requestAfterScript) :=
  ⟨by decide, rfl,
    (resolveBreakpoint_without_candidate requestAfterScript inlineScriptProvider initial
      (by decide)).1⟩

/-- Counterexample to claim C23. The breakpoint `requestBeforeScript` is requested at
line 5, column 3, not on the first line of `inlineScriptProvider` (zero-based
line 9, start column 8): the query is (6, 3), with the column as requested, and
the candidate returned is (10, 2), on the first line of the provider. The start
column is added to the result, which is (9, 10) and not (9, 2). -/
theorem resolveBreakpoint_adds_offset_for_request_on_other_line :
    toInt ((requestBeforeScript.lineNumber + 1) % 4294967296)
      ≠ inlineScriptProvider.startLine ∧
    resolveBreakpointQuery requestBeforeScript inlineScriptProvider = (6, 3) ∧
    inlineScriptProvider.breakpointLocationForLineColumn 6 3
      = some { line := 10, column := 2 } ∧
    (resolveBreakpoint requestBeforeScript inlineScriptProvider initial).1
      = (true, { requestBeforeScript with lineNumber := 9, columnNumber := 10,
                                          resolved := true }) := by
  decide

end Debugger
end JSC
namespace JSC
namespace Debugger

theorem toInt_of_lt (n : Nat) (h : n < 2147483648) : toInt n = (n : Int) := by
  unfold toInt
  have h1 : n % 4294967296 = n := Nat.mod_eq_of_lt (by omega)
  rw [h1, if_pos h]

theorem wrapInt_of_range (i : Int) (hlow : -2147483648 ≤ i) (hhigh : i < 2147483648) :
    wrapInt i = i := by
  unfold wrapInt
  omega

theorem toUnsigned_of_range (i : Int) (hlow : 0 ≤ i) (hhigh : i < 4294967296) :
    toUnsigned i = i.toNat := by
  unfold toUnsigned
  congr 1
  omega

/-- The query of `resolveBreakpoint` for values in the range of `int`. -/
theorem resolveBreakpointQuery_eq (breakpoint : Breakpoint) (sourceProvider : SourceProvider)
    (hline : breakpoint.lineNumber + 1 < 2147483648)
    (hcolumn : breakpoint.columnNumber < 2147483648)
    (hoffset : 0 ≤ sourceProvider.startColumn)
    (hle : breakpoint.columnNumber ≠ 0 → sourceProvider.startColumn ≤ breakpoint.columnNumber) :
    resolveBreakpointQuery breakpoint sourceProvider
      = (if ((breakpoint.lineNumber : Int) + 1 = sourceProvider.startLine
              ∧ breakpoint.columnNumber ≠ 0) then
          ((breakpoint.lineNumber : Int) + 1,
            (breakpoint.columnNumber : Int) - sourceProvider.startColumn)
         else ((breakpoint.lineNumber : Int) + 1, (breakpoint.columnNumber : Int))) := by
  have h1 : (breakpoint.lineNumber + 1) % 4294967296 = breakpoint.lineNumber + 1 :=
    Nat.mod_eq_of_lt (by omega)
  unfold resolveBreakpointQuery
  simp only [h1, toInt_of_lt _ hline, toInt_of_lt _ hcolumn, Nat.cast_add, Nat.cast_one]
  by_cases hfirst : ((breakpoint.lineNumber : Int) + 1 = sourceProvider.startLine
      ∧ breakpoint.columnNumber ≠ 0)
  · rw [if_pos hfirst, if_pos hfirst]
    have hle2 := hle hfirst.2
    by_cases hzero : sourceProvider.startColumn = 0
    · simp [hzero]
    · rw [if_pos hzero, wrapInt_of_range _ (by omega) (by omega)]
  · rw [if_neg hfirst, if_neg hfirst]

end Debugger
end JSC
namespace JSC
namespace Debugger

/-- Claim C23, amended. For a breakpoint requested at zero-based (line, col) with
values in the range of `int` and a provider with start column `off` at least 0:
when the request is on the first line of the provider, `col` is not 0 and
`off <= col`, the parse data is queried at (line+1, col - off) and a candidate
(line+1, c) resolves the breakpoint to (line, c + off), so that a candidate
equal to the query resolves it to the requested position; when the request is
on another line, the query column is `col`, and a candidate (l, c) that is not on
the first line of the provider resolves the breakpoint to (l-1, c). -/
theorem resolveBreakpoint_offset (breakpoint : Breakpoint) (sourceProvider : SourceProvider)
    (d : Debugger)
    (hline : breakpoint.lineNumber + 1 < 2147483648)
    (hcolumn : breakpoint.columnNumber < 2147483648)
    (hoffset : 0 ≤ sourceProvider.startColumn) :
    ((breakpoint.lineNumber : Int) + 1 = sourceProvider.startLine →
      breakpoint.columnNumber ≠ 0 →
      sourceProvider.startColumn ≤ breakpoint.columnNumber →
      resolveBreakpointQuery breakpoint sourceProvider
        = ((breakpoint.lineNumber : Int) + 1,
            (breakpoint.columnNumber : Int) - sourceProvider.startColumn) ∧
      (∀ c : Int, 0 ≤ c → c + sourceProvider.startColumn < 2147483648 →
        sourceProvider.breakpointLocationForLineColumn ((breakpoint.lineNumber : Int) + 1)
            ((breakpoint.columnNumber : Int) - sourceProvider.startColumn)
          = some { line := (breakpoint.lineNumber : Int) + 1, column := c } →
        (resolveBreakpoint breakpoint sourceProvider d).1
          = (true, { breakpoint with
              lineNumber := breakpoint.lineNumber,
              columnNumber := (c + sourceProvider.startColumn).toNat,
              resolved := true })) ∧
      (sourceProvider.breakpointLocationForLineColumn ((breakpoint.lineNumber : Int) + 1)
            ((breakpoint.columnNumber : Int) - sourceProvider.startColumn)
          = some { line := (breakpoint.lineNumber : Int) + 1,
                   column := (breakpoint.columnNumber : Int) - sourceProvider.startColumn } →
        (resolveBreakpoint breakpoint sourceProvider d).1
          = (true, { breakpoint with resolved := true }))) ∧
    ((breakpoint.lineNumber : Int) + 1 ≠ sourceProvider.startLine →
      resolveBreakpointQuery breakpoint sourceProvider
        = ((breakpoint.lineNumber : Int) + 1, (breakpoint.columnNumber : Int)) ∧
      (∀ l c : Int, 1 ≤ l → l < 2147483648 → 0 ≤ c → c < 2147483648 →
        l ≠ sourceProvider.startLine →
        sourceProvider.breakpointLocationForLineColumn ((breakpoint.lineNumber : Int) + 1)
            (breakpoint.columnNumber : Int) = some { line := l, column := c } →
        (resolveBreakpoint breakpoint sourceProvider d).1
          = (true, { breakpoint with
              lineNumber := (l - 1).toNat, columnNumber := c.toNat, resolved := true }))) := by
  refine ⟨?_, ?_⟩
  · intro hfirst hnonzero hle
    have hquery := resolveBreakpointQuery_eq breakpoint sourceProvider hline hcolumn hoffset
      (fun _ => hle)
    rw [if_pos ⟨hfirst, hnonzero⟩] at hquery
    have hresolve : ∀ c : Int, 0 ≤ c → c + sourceProvider.startColumn < 2147483648 →
        sourceProvider.breakpointLocationForLineColumn ((breakpoint.lineNumber : Int) + 1)
            ((breakpoint.columnNumber : Int) - sourceProvider.startColumn)
          = some { line := (breakpoint.lineNumber : Int) + 1, column := c } →
        (resolveBreakpoint breakpoint sourceProvider d).1
          = (true, { breakpoint with
              lineNumber := breakpoint.lineNumber,
              columnNumber := (c + sourceProvider.startColumn).toNat,
              resolved := true }) := by
      intro c hc hsum hcandidate
      simp only [resolveBreakpoint, hquery, hcandidate, Breakpoint.resolve]
      rw [if_pos ⟨hfirst, hnonzero⟩]
      have hl : toUnsigned (wrapInt ((breakpoint.lineNumber : Int) + 1 - 1))
          = breakpoint.lineNumber := by
        rw [wrapInt_of_range _ (by omega) (by omega), toUnsigned_of_range _ (by omega) (by omega)]
        simp
      rw [hl]
      by_cases hzero : sourceProvider.startColumn = 0
      · simp only [hzero, ne_eq, not_true_eq_false, if_false, Int.add_zero]
        rw [toUnsigned_of_range _ hc (by omega)]
      · rw [if_pos hzero, wrapInt_of_range _ (by omega) (by omega),
          toUnsigned_of_range _ (by omega) (by omega)]
    refine ⟨hquery, hresolve, ?_⟩
    intro hcandidate
    rw [hresolve _ (by omega) (by omega) hcandidate]
    have hcol : ((breakpoint.columnNumber : Int) - sourceProvider.startColumn
        + sourceProvider.startColumn).toNat = breakpoint.columnNumber := by
      rw [Int.sub_add_cancel]; simp
    rw [hcol]
  · intro hother
    have hquery := resolveBreakpointQuery_eq breakpoint sourceProvider hline hcolumn hoffset
    have hq : resolveBreakpointQuery breakpoint sourceProvider
        = ((breakpoint.lineNumber : Int) + 1, (breakpoint.columnNumber : Int)) := by
      unfold resolveBreakpointQuery
      have h1 : (breakpoint.lineNumber + 1) % 4294967296 = breakpoint.lineNumber + 1 :=
        Nat.mod_eq_of_lt (by omega)
      simp only [h1, toInt_of_lt _ hline, toInt_of_lt _ hcolumn, Nat.cast_add, Nat.cast_one]
      rw [if_neg (fun h => hother h.1)]
    refine ⟨hq, ?_⟩
    intro l c hl1 hl2 hc1 hc2 hnotfirst hcandidate
    simp only [resolveBreakpoint, hq, hcandidate, Breakpoint.resolve]
    rw [if_neg (fun h => hnotfirst h.1), wrapInt_of_range _ (by omega) (by omega),
      toUnsigned_of_range _ (by omega) (by omega), toUnsigned_of_range _ hc1 (by omega)]

theorem resolveBreakpoint_offset_witness :
    resolveBreakpointQuery requestOnFirstLine inlineScriptProvider = (10, 4) ∧
    (resolveBreakpoint requestOnFirstLine inlineScriptProvider initial).1
      = (true, { requestOnFirstLine with resolved := true }) :=
  have h := (resolveBreakpoint_offset requestOnFirstLine inlineScriptProvider initial
    (by decide) (by decide) (by decide)).1 (by decide) (by decide) (by decide)
  ⟨h.1, h.2.2 (by decide)⟩

end Debugger
end JSC

namespace JSC
namespace Debugger

/-- Claim C26 fails on the code. `evaluateBreakpointActions` on `probeBreakpoint`,
which has one probe action, with the two observers of `pausedWithTwoObservers` and
the debugger attached throughout: the probe batch id advances by one, but
`m_nextProbeSampleId` advances by two, once for each observer, and the observers
get the sample ids 1 and 2 for the one probe action. -/
theorem probe_sample_id_advances_once_per_observer :
    pausedWithTwoObservers.m_observers = [11, 12] ∧
    isAttached (some 1) pausedWithTwoObservers = true ∧
    isAttached (some 1)
      (evaluateBreakpointActions (scriptEnv (TextPosition.mk 5 0)) probeBreakpoint (some 1)
        pausedWithTwoObservers) = true ∧
    pausedWithTwoObservers.m_currentProbeBatchId = 0 ∧
    pausedWithTwoObservers.m_nextProbeSampleId = 1 ∧
    (evaluateBreakpointActions (scriptEnv (TextPosition.mk 5 0)) probeBreakpoint (some 1)
      pausedWithTwoObservers).m_currentProbeBatchId = 1 ∧
    (evaluateBreakpointActions (scriptEnv (TextPosition.mk 5 0)) probeBreakpoint (some 1)
      pausedWithTwoObservers).m_nextProbeSampleId = 3 ∧
    (evaluateBreakpointActions (scriptEnv (TextPosition.mk 5 0)) probeBreakpoint (some 1)
      pausedWithTwoObservers).log
      = pausedWithTwoObservers.log ++
          [Event.evaluate "x",
           Event.observerBreakpointActionProbe 11 3 1 1 0,
           Event.observerBreakpointActionProbe 12 3 1 2 0] := by
  decide

end Debugger
end JSC

namespace JSC
namespace Debugger

/-- The calls of `willEnter` in the log after a callback that notifies the observer
and performs debugger operations has run on each observer of a list. -/
theorem enters_foldl (env : Env) (frame : CallFrame) (body : Observer → List ClientCommand)
    (observers : List Observer) (d : Debugger) :
    (observers.foldl (fun acc observer =>
        runCommands env (body observer)
          (logEvent (Event.observerWillEnter observer frame) acc)) d).log.filter Event.isEnter
      = d.log.filter Event.isEnter
          ++ observers.map (fun observer => Event.observerWillEnter observer frame) := by
  induction observers generalizing d with
  | nil => simp
  | cons o rest ih =>
    simp only [List.foldl_cons, List.map_cons]
    rw [ih, enters_runCommands]
    simp [logEvent, List.filter_append]

/-- Claim C25. For every set of observers and every callback that notifies the
observer (`willEnter`) and then performs debugger operations of its own, which
may add observers to the set or remove them from it, `dispatchFunctionToObservers`
invokes the callback on the observers that were in the set when the dispatch
started, in their order, and on no other: the log gains one call for each of
them, exactly one for each member when the set holds no observer twice. With an
empty set no callback is invoked and the debugger is unchanged. -/
theorem dispatchFunctionToObservers_uses_snapshot (env : Env) (frame : CallFrame)
    (body : Observer → List ClientCommand) (d : Debugger) :
    (dispatchFunctionToObservers (fun observer acc =>
        runCommands env (body observer)
          (logEvent (Event.observerWillEnter observer frame) acc)) d).log.filter Event.isEnter
      = d.log.filter Event.isEnter
          ++ d.m_observers.map (fun observer => Event.observerWillEnter observer frame) ∧
    (d.m_observers.Nodup → ∀ observer,
      (d.m_observers.map (fun observer => Event.observerWillEnter observer frame)).count
          (Event.observerWillEnter observer frame)
        = if observer ∈ d.m_observers then 1 else 0) ∧
    (∀ func : Observer → Debugger → Debugger, d.m_observers = [] →
      dispatchFunctionToObservers func d = d) := by
  refine ⟨?_, ?_, ?_⟩
  · unfold dispatchFunctionToObservers canDispatchFunctionToObservers
    split
    · rename_i hempty
      have : d.m_observers = [] := by simpa [List.isEmpty_iff] using hempty
      simp [this]
    · exact enters_foldl env frame body d.m_observers d
  · intro hnodup observer
    have hinj : Function.Injective (fun observer => Event.observerWillEnter observer frame) := by
      intro a b hab
      simpa using hab
    rw [List.count_map_of_injective _ _ hinj]
    by_cases hmem : observer ∈ d.m_observers
    · rw [if_pos hmem, List.count_eq_one_of_mem hnodup hmem]
    · rw [if_neg hmem, List.count_eq_zero_of_not_mem hmem]
  · intro func hempty
    simp [dispatchFunctionToObservers, canDispatchFunctionToObservers, hempty]

theorem dispatchFunctionToObservers_uses_snapshot_witness :
    pausedWithTwoObservers.m_observers.Nodup ∧
    (dispatchFunctionToObservers (fun observer acc =>
        runCommands (scriptEnv (TextPosition.mk 5 0))
          [ClientCommand.removeObserver 12 false, ClientCommand.addObserver 13]
          (logEvent (Event.observerWillEnter observer 100) acc))
        pausedWithTwoObservers).m_observers = [11, 13] ∧
    (pausedWithTwoObservers.m_observers.map
        (fun observer => Event.observerWillEnter observer 100)).count
          (Event.observerWillEnter 12 100) = 1 ∧
    (pausedWithTwoObservers.m_observers.map
        (fun observer => Event.observerWillEnter observer 100)).count
          (Event.observerWillEnter 13 100) = 0 :=
  have h := (dispatchFunctionToObservers_uses_snapshot (scriptEnv (TextPosition.mk 5 0)) 100
    (fun _ => [ClientCommand.removeObserver 12 false, ClientCommand.addObserver 13])
    pausedWithTwoObservers).2.1 (by decide)
  ⟨by decide, by decide, h 12, h 13⟩

end Debugger
end JSC

namespace JSC
namespace Debugger

/-! ### The loop over the deferred breakpoints when the frame is lost -/

theorem deferredBreakpointsLoop_append (env : Env) (g : Option GlobalObject)
    (pre rest : List Breakpoint) (st : DeferredLoopState) (d : Debugger) :
    deferredBreakpointsLoop env g (pre ++ rest) st d
      = match deferredBreakpointsLoop env g pre st d with
        | (none, x) => (none, x)
        | (some st1, x) => deferredBreakpointsLoop env g rest st1 x := by
  induction pre generalizing st d with
  | nil => simp [deferredBreakpointsLoop]
  | cons b pre ih =>
    simp only [List.cons_append, deferredBreakpointsLoop]
    split
    · rfl
    · split
      · exact ih _ _
      · split
        · rfl
        · split <;> exact ih _ _

theorem deferredBreakpointsLoop_losesFrame (env : Env) (g : Option GlobalObject)
    (b : Breakpoint) (rest : List Breakpoint) (st : DeferredLoopState) (d : Debugger)
    (hlost : losesFrame env g b d = true) :
    deferredBreakpointsLoop env g (b :: rest) st d = (none, afterLostFrame env g b d) := by
  unfold losesFrame at hlost
  unfold afterLostFrame
  generalize hr : shouldPause env b g d = r at hlost
  obtain ⟨p, x⟩ := r
  simp only [deferredBreakpointsLoop, hr]
  simp only [Bool.or_eq_true, Bool.and_eq_true] at hlost
  by_cases hx : x.m_currentCallFrame.isNone = true
  · simp [hx]
  · rcases hlost with h | ⟨hp, ha⟩
    · exact absurd h hx
    · simp [hx, hp, ha]

theorem evaluateDeferredBreakpoints_of_none (env : Env) (g : Option GlobalObject)
    (step : Bool) (d x : Debugger) (hne : d.m_deferredBreakpoints ≠ [])
    (hloop : deferredBreakpointsLoop env g d.m_deferredBreakpoints {} (loopEntry d)
      = (none, x)) :
    evaluateDeferredBreakpoints env g step d = (false, x) := by
  unfold evaluateDeferredBreakpoints
  have hempty : d.m_deferredBreakpoints.isEmpty = false := by
    cases h : d.m_deferredBreakpoints with
    | nil => exact absurd h hne
    | cons a l => rfl
  simp only [hempty, Bool.false_eq_true, if_false]
  unfold loopEntry at hloop
  rw [hloop]

theorem evaluateBreakpointActionsLoop_stops (env : Env) (g : Option GlobalObject)
    (pre : List Action) (a : Action) (rest : List Action) (d : Debugger)
    (hdetached : isAttached g (evaluateBreakpointActionsLoop env g (pre ++ [a]) d) = false) :
    evaluateBreakpointActionsLoop env g (pre ++ a :: rest) d
      = evaluateBreakpointActionsLoop env g (pre ++ [a]) d := by
  induction pre generalizing d with
  | nil =>
    simp only [List.nil_append, evaluateBreakpointActionsLoop] at hdetached ⊢
    by_cases h : isAttached g (evaluateBreakpointAction env a g d) = true
    · simp only [h, Bool.not_true, Bool.false_eq_true, if_false] at hdetached
      exact absurd hdetached (by simp)
    · simp [h]
  | cons p pre ih =>
    simp only [List.cons_append, evaluateBreakpointActionsLoop] at hdetached ⊢
    split
    · rfl
    · rename_i h
      simp only [h, if_false] at hdetached
      exact ih _ hdetached

end Debugger
end JSC
namespace JSC
namespace Debugger

theorem notifications_afterLostFrame (env : Env) (g : Option GlobalObject) (b : Breakpoint)
    (d : Debugger) :
    (afterLostFrame env g b d).log.filter Event.isPauseOrResume
      = d.log.filter Event.isPauseOrResume := by
  unfold afterLostFrame
  split
  · exact notifications_shouldPause env b g d
  · rw [notifications_evaluateBreakpointActions, notifications_shouldPause]

theorem afterLostFrame_m_currentCallFrame (env : Env) (g : Option GlobalObject)
    (b : Breakpoint) (d : Debugger) (hlost : losesFrame env g b d = true) :
    (afterLostFrame env g b d).m_currentCallFrame = none := by
  unfold losesFrame at hlost
  unfold afterLostFrame
  simp only [Bool.or_eq_true, Bool.and_eq_true] at hlost
  split
  · rename_i h
    simpa [Option.isNone_iff_eq_none] using h
  · rename_i h
    rcases hlost with h1 | ⟨_, h2⟩
    · exact absurd h1 h
    · simpa [Option.isNone_iff_eq_none] using h2

/-- Claim C28. At a pause opportunity that reaches the loop over the deferred
breakpoints (debugger not paused, pauses not suppressed, position in no `Ignore`
range, a trigger present, the pause not deferred before the loop), when the
breakpoints before the i-th one are evaluated with the frame still tracked and
evaluating the condition or the actions of the i-th one makes the tracked frame
disappear, `pauseIfNeeded` returns the debugger that this evaluation left, with
the paused scopes left: no later deferred breakpoint is evaluated (the result
does not depend on them), `handlePause` is not called and no notification of a
pause or of a resume is sent, the tracked frame is null and the debugger is not
paused. Likewise `evaluateBreakpointActions` runs no action after one that
leaves the debugger detached from the global object. -/
theorem pauseIfNeeded_bails_out_when_frame_is_lost (env : Env) (g : Option GlobalObject)
    (d : Debugger) (flags : BlackboxFlags) (hit : Option Breakpoint)
    (pre rest : List Breakpoint) (b : Breakpoint) (st : DeferredLoopState) (x : Debugger)
    (hpaused : d.m_isPaused = false) (hsuppress : d.m_suppressAllPauses = false)
    (hflags : relevantBlackboxFlags d (env.sourceIDForCallFrame d.m_currentCallFrame)
      (env.positionForCallFrame d.m_currentCallFrame) = some flags)
    (hhit : didHitBreakpoint d (env.sourceIDForCallFrame d.m_currentCallFrame)
      (env.positionForCallFrame d.m_currentCallFrame) = hit)
    (htrigger : (pauseRequested d || hit.isSome || d.m_specialBreakpoint.isSome) = true)
    (hfirst : (d.m_blackboxBreakpointEvaluations && flags.contains BlackboxFlag.Defer) = false)
    (hlist : deferredAtEntry d hit = pre ++ b :: rest)
    (hpre : deferredBreakpointsLoop env g pre {}
      (loopEntry (guardedEntry (atPauseTest d hit
        (toUnsigned (env.positionForCallFrame d.m_currentCallFrame).m_line)))) = (some st, x))
    (hlost : losesFrame env g b x = true) :
    pauseIfNeeded env g d = leavePausedScopes (afterLostFrame env g b x) ∧
    (pauseIfNeeded env g d).log.filter Event.isPauseOrResume
      = d.log.filter Event.isPauseOrResume ∧
    (pauseIfNeeded env g d).m_currentCallFrame = none ∧
    (pauseIfNeeded env g d).m_isPaused = false ∧
    (∀ (before : List Action) (action : Action) (later : List Action) (y : Debugger),
      isAttached g (evaluateBreakpointActionsLoop env g (before ++ [action]) y) = false →
      evaluateBreakpointActionsLoop env g (before ++ action :: later) y
        = evaluateBreakpointActionsLoop env g (before ++ [action]) y) := by
  have hbps : (guardedEntry (atPauseTest d hit
      (toUnsigned (env.positionForCallFrame d.m_currentCallFrame).m_line))).m_deferredBreakpoints
      = pre ++ b :: rest := by
    rw [guardedEntry_m_deferredBreakpoints]
    exact hlist
  have hloop : deferredBreakpointsLoop env g (pre ++ b :: rest) {}
      (loopEntry (guardedEntry (atPauseTest d hit
        (toUnsigned (env.positionForCallFrame d.m_currentCallFrame).m_line))))
      = (none, afterLostFrame env g b x) := by
    rw [deferredBreakpointsLoop_append, hpre]
    exact deferredBreakpointsLoop_losesFrame env g b rest st x hlost
  have hstop := evaluateDeferredBreakpoints_of_none env g (stepPause d)
    (guardedEntry (atPauseTest d hit
      (toUnsigned (env.positionForCallFrame d.m_currentCallFrame).m_line)))
    (afterLostFrame env g b x) (by rw [hbps]; simp) (by rw [hbps]; exact hloop)
  have heq : pauseIfNeeded env g d = leavePausedScopes (afterLostFrame env g b x) := by
    rw [pauseIfNeeded_eq env g d flags hpaused hsuppress hflags, hhit, if_pos htrigger,
      pauseIfNeededGuarded_eq,
      pauseIfNeededEvaluate_of_stop env g flags _ _ _ _ (by rw [hstop]),
      guardedEntry_m_blackboxBreakpointEvaluations]
    have hbbe : (atPauseTest d hit
        (toUnsigned (env.positionForCallFrame d.m_currentCallFrame).m_line)
        ).m_blackboxBreakpointEvaluations = d.m_blackboxBreakpointEvaluations := rfl
    rw [hbbe, hfirst, hstop]
    simp
  have hxlog : x.log.filter Event.isPauseOrResume = d.log.filter Event.isPauseOrResume := by
    have h := notifications_deferredBreakpointsLoop env g pre {}
      (loopEntry (guardedEntry (atPauseTest d hit
        (toUnsigned (env.positionForCallFrame d.m_currentCallFrame).m_line))))
    rw [hpre] at h
    simp only at h
    rw [h]
    show (guardedEntry _).log.filter Event.isPauseOrResume = _
    rw [guardedEntry_log]
    rfl
  refine ⟨heq, ?_, ?_, ?_, ?_⟩
  · rw [heq]
    show (afterLostFrame env g b x).log.filter Event.isPauseOrResume = _
    rw [notifications_afterLostFrame, hxlog]
  · rw [heq]
    exact afterLostFrame_m_currentCallFrame env g b x hlost
  · rw [heq]; rfl
  · exact fun before action later y h => evaluateBreakpointActionsLoop_stops env g before action later y h

theorem pauseIfNeeded_bails_out_when_frame_is_lost_witness :
    deferredAtEntry attachedWithCondition (some trueConditionBreakpoint)
      = [trueConditionBreakpoint,
         { id := 9, sourceID := 0, lineNumber := 0, columnNumber := 0, linked := false }] ∧
    (pauseIfNeeded detachingEnv (some 1) attachedWithCondition).m_currentCallFrame = none ∧
    (pauseIfNeeded detachingEnv (some 1) attachedWithCondition).log.filter
        Event.isPauseOrResume
      = attachedWithCondition.log.filter Event.isPauseOrResume ∧
    (pauseIfNeeded detachingEnv (some 1) attachedWithCondition).log
      = attachedWithCondition.log ++ [Event.evaluate "true"] :=
  have h := pauseIfNeeded_bails_out_when_frame_is_lost detachingEnv (some 1)
    attachedWithCondition {} (some trueConditionBreakpoint) [] 
    [{ id := 9, sourceID := 0, lineNumber := 0, columnNumber := 0, linked := false }]
    trueConditionBreakpoint {}
    (loopEntry (guardedEntry (atPauseTest attachedWithCondition (some trueConditionBreakpoint) 9)))
    (by decide) (by decide) (by decide) (by decide) (by decide) (by decide) (by decide)
    (by decide) (by decide)
  ⟨by decide, h.2.2.1, h.2.1, by decide⟩

end Debugger
end JSC

namespace JSC
namespace Debugger

/-! ### The outcomes of the evaluation part of `pauseIfNeeded` -/

theorem pauses_handlePause (env : Env) (g : Option GlobalObject) (d : Debugger) :
    (handlePause env g d).log.filter Event.isPause
      = d.log.filter Event.isPause ++ [Event.hookDidPause g] := by
  unfold handlePause
  simp only []
  rw [pauses_dispatchFunctionToObservers _ _ (by intro o x; simp),
    pauses_logEvent _ _ (by simp), pauses_runEventLoopWhilePaused]
  simp [logEvent, List.filter_append]

theorem pauses_pauseNow (env : Env) (g : Option GlobalObject) (a b : Bool) (d : Debugger) :
    (pauseNow env g a b d).log.filter Event.isPause
      = d.log.filter Event.isPause ++ [Event.hookDidPause g] := by
  unfold pauseNow
  simp only []
  rw [pauses_ite]
  simp only [pauses_setSteppingMode, ite_self, pauses_handlePause]
  split <;> rfl

/-- The four ways in which the evaluation part of `pauseIfNeeded` ends: the pause is
deferred before the breakpoints are evaluated, the loop over the deferred
breakpoints ends the call, the pause is deferred after the loop, or the
debugger pauses. -/
theorem pauseIfNeededEvaluate_outcome (env : Env) (g : Option GlobalObject)
    (flags : BlackboxFlags) (after step desired : Bool) (d : Debugger) :
    (d.m_blackboxBreakpointEvaluations = true ∧ flags.contains BlackboxFlag.Defer = true ∧
      pauseIfNeededEvaluate env g flags after step desired d = (shouldDeferPause flags d).2) ∨
    ((evaluateDeferredBreakpoints env g step d).1 = false ∧
      pauseIfNeededEvaluate env g flags after step desired d
        = (evaluateDeferredBreakpoints env g step d).2) ∨
    (flags.contains BlackboxFlag.Defer = true ∧
      pauseIfNeededEvaluate env g flags after step desired d
        = (shouldDeferPause flags (evaluateDeferredBreakpoints env g step d).2).2) ∨
    pauseIfNeededEvaluate env g flags after step desired d
      = pauseNow env g after desired (evaluateDeferredBreakpoints env g step d).2 := by
  by_cases hfirst : (d.m_blackboxBreakpointEvaluations = true
      ∧ flags.contains BlackboxFlag.Defer = true)
  · left
    refine ⟨hfirst.1, hfirst.2, ?_⟩
    have h1 := shouldDeferPause_fst flags d
    rw [hfirst.2] at h1
    unfold pauseIfNeededEvaluate
    simp [hfirst.1, h1]
  · right
    have hstart : (if d.m_blackboxBreakpointEvaluations = true then shouldDeferPause flags d
        else (false, d)) = (false, d) := by
      cases hbbe : d.m_blackboxBreakpointEvaluations with
      | false => simp
      | true =>
        have hdefer : flags.contains BlackboxFlag.Defer = false := by
          cases h : flags.contains BlackboxFlag.Defer with
          | false => rfl
          | true => exact absurd ⟨hbbe, h⟩ hfirst
        simp [shouldDeferPause_of_not_defer flags d hdefer]
    unfold pauseIfNeededEvaluate
    rw [hstart]
    simp only [Bool.false_eq_true, if_false]
    generalize evaluateDeferredBreakpoints env g step d = r
    obtain ⟨goOn, x⟩ := r
    cases goOn with
    | false => left; simp
    | true =>
      right
      simp only [Bool.not_true, Bool.false_eq_true, if_false]
      cases hdefer : flags.contains BlackboxFlag.Defer with
      | false =>
        right
        simp [shouldDeferPause_of_not_defer flags x hdefer]
      | true =>
        have h1 := shouldDeferPause_fst flags x
        rw [hdefer] at h1
        cases hbbe : x.m_blackboxBreakpointEvaluations with
        | false =>
          left
          simp [h1]
        | true =>
          right
          simp

theorem shouldDeferPause_preserves {α : Type} (p : Debugger → α)
    (hlog : ∀ e x, p (logEvent e x) = p x)
    (hafter : ∀ x : Debugger, p { x with m_afterBlackboxedScript := true } = p x)
    (hid : ∀ x : Debugger, p { x with m_pausingBreakpointID := noBreakpointID } = p x)
    (hschedule : ∀ x, p (schedulePauseAtNextOpportunity x) = p x)
    (flags : BlackboxFlags) (d : Debugger) :
    p (shouldDeferPause flags d).2 = p d := by
  unfold shouldDeferPause
  split
  · rfl
  · simp only [hschedule]
    split
    · rw [hid, dispatchFunctionToObservers_preserves p _ (fun o x => hlog _ x), hafter]
    · exact hafter d

theorem shouldDeferPause_immediate (flags : BlackboxFlags) (d : Debugger)
    (hdefer : flags.contains BlackboxFlag.Defer = true) :
    (shouldDeferPause flags d).2.m_pauseAtNextOpportunity = true ∧
    (shouldDeferPause flags d).2.m_afterBlackboxedScript = true := by
  have hs1 : ∀ y, (schedulePauseAtNextOpportunity y).m_pauseAtNextOpportunity = true := by
    intro y; simp [schedulePauseAtNextOpportunity, setSteppingMode_eq]
  have hs2 : ∀ y, (schedulePauseAtNextOpportunity y).m_afterBlackboxedScript
      = y.m_afterBlackboxedScript := by
    intro y; simp [schedulePauseAtNextOpportunity, setSteppingMode_eq]
  unfold shouldDeferPause
  simp only [hdefer, Bool.not_true, Bool.false_eq_true, if_false]
  refine ⟨hs1 _, ?_⟩
  rw [hs2]
  split
  · show (dispatchFunctionToObservers _ _).m_afterBlackboxedScript = true
    refine Eq.trans (dispatchFunctionToObservers_preserves
      (fun y => y.m_afterBlackboxedScript) _ ?_ _) rfl
    intro o x; rfl
  · rfl

end Debugger
end JSC
namespace JSC
namespace Debugger

/-- Counterexample to claim C29. In `stepOverPending` the eventual request has the
target frame 200 and the current frame is 100. At line 5, inside a `Defer`
range, `lineBreakpoint` is hit and the pause is deferred: `handlePause` is not
called and the eventual request is unchanged, but the immediate request is
armed on return, by the deferral. At line 9 the condition of
`falseConditionBreakpoint` is evaluated by a script that calls `continueProgram`:
`handlePause` is not called and the eventual request is cleared. -/
theorem request_state_after_opportunity_without_pause :
    stepOverPending.m_pauseOnCallFrame = some 200 ∧
    stepOverPending.m_currentCallFrame = some 100 ∧
    (pauseIfNeeded (scriptEnv (TextPosition.mk 5 0)) (some 1) stepOverPending).log.filter
        Event.isPause = stepOverPending.log.filter Event.isPause ∧
    (pauseIfNeeded (scriptEnv (TextPosition.mk 5 0)) (some 1)
        stepOverPending).m_pauseOnCallFrame = some 200 ∧
    (pauseIfNeeded (scriptEnv (TextPosition.mk 5 0)) (some 1)
        stepOverPending).m_pauseAtNextOpportunity = true ∧
    (pauseIfNeeded (scriptEnv (TextPosition.mk 5 0)) (some 1)
        stepOverPending).m_afterBlackboxedScript = true ∧
    didHitBreakpoint stepOverPending 7 (TextPosition.mk 9 0) = some falseConditionBreakpoint ∧
    (pauseIfNeeded continuingEnv (some 1) stepOverPending).log.filter Event.isPause
      = stepOverPending.log.filter Event.isPause ∧
    (pauseIfNeeded continuingEnv (some 1) stepOverPending).m_pauseOnCallFrame = none ∧
    (pauseIfNeeded continuingEnv (some 1) stepOverPending).m_pauseOnStepNext = false := by
  decide

theorem guardedEntry_of_not_desired (d : Debugger) (h : atDesiredCallFrame d = false) :
    guardedEntry d = { resetImmediatePauseState d with m_isPaused := true } := by
  unfold atDesiredCallFrame at h
  unfold guardedEntry
  have h2 : ((resetImmediatePauseState d).m_pauseOnCallFrame.isNone
      || decide ((resetImmediatePauseState d).m_pauseOnCallFrame
          = (resetImmediatePauseState d).m_currentCallFrame)) = false := h
  simp only [h2, Bool.false_eq_true, if_false]

/-- Claim C29, amended. For every call of `pauseIfNeeded` in which `pauseNow` is true
(a request, a matched breakpoint or a special breakpoint), the eventual request
has a target frame that is not null and not the current frame, the evaluated
scripts perform no debugger operation, and the call returns without calling
`handlePause`: `m_pauseOnCallFrame` and the step-next and step-out flags are
unchanged on return and no special breakpoint is armed; the immediate request
is reset, unless the pause was deferred by blackboxing, which sets
`m_pauseAtNextOpportunity` and `m_afterBlackboxedScript` together. -/
theorem eventual_request_kept_without_pause (env : Env) (hre : env.noReentrancy)
    (g : Option GlobalObject) (d : Debugger) (flags : BlackboxFlags) (hit : Option Breakpoint)
    (hpaused : d.m_isPaused = false) (hsuppress : d.m_suppressAllPauses = false)
    (hflags : relevantBlackboxFlags d (env.sourceIDForCallFrame d.m_currentCallFrame)
      (env.positionForCallFrame d.m_currentCallFrame) = some flags)
    (hhit : didHitBreakpoint d (env.sourceIDForCallFrame d.m_currentCallFrame)
      (env.positionForCallFrame d.m_currentCallFrame) = hit)
    (htrigger : (pauseRequested d || hit.isSome || d.m_specialBreakpoint.isSome) = true)
    (hsome : d.m_pauseOnCallFrame ≠ none)
    (htarget : d.m_pauseOnCallFrame ≠ d.m_currentCallFrame)
    (hnopause : (pauseIfNeeded env g d).log.filter Event.isPause
      = d.log.filter Event.isPause) :
    (pauseIfNeeded env g d).m_pauseOnCallFrame = d.m_pauseOnCallFrame ∧
    (pauseIfNeeded env g d).m_pauseOnStepNext = d.m_pauseOnStepNext ∧
    (pauseIfNeeded env g d).m_pauseOnStepOut = d.m_pauseOnStepOut ∧
    (pauseIfNeeded env g d).m_specialBreakpoint = none ∧
    (pauseIfNeeded env g d).m_pauseAtNextOpportunity
      = (pauseIfNeeded env g d).m_afterBlackboxedScript ∧
    (flags.contains BlackboxFlag.Defer = false →
      (pauseIfNeeded env g d).m_pauseAtNextOpportunity = false) := by
  have hdesired : atDesiredCallFrame (atPauseTest d hit
      (toUnsigned (env.positionForCallFrame d.m_currentCallFrame).m_line)) = false := by
    unfold atDesiredCallFrame atPauseTest
    cases hp : d.m_pauseOnCallFrame with
    | none => exact absurd hp hsome
    | some f =>
      rw [hp] at htarget
      simp [htarget]
  have heq : pauseIfNeeded env g d
      = leavePausedScopes (pauseIfNeededEvaluate env g flags d.m_afterBlackboxedScript
          (stepPause d) false
          { resetImmediatePauseState (atPauseTest d hit
              (toUnsigned (env.positionForCallFrame d.m_currentCallFrame).m_line)) with
            m_isPaused := true }) := by
    rw [pauseIfNeeded_eq env g d flags hpaused hsuppress hflags, hhit, if_pos htrigger,
      pauseIfNeededGuarded_eq, hdesired, guardedEntry_of_not_desired _ hdesired]
  rw [heq] at hnopause ⊢
  generalize hX : ({ resetImmediatePauseState (atPauseTest d hit
      (toUnsigned (env.positionForCallFrame d.m_currentCallFrame).m_line)) with
      m_isPaused := true } : Debugger) = X at hnopause ⊢
  have hXlog : X.log = d.log := by rw [← hX]; rfl
  have hX1 : X.m_pauseOnCallFrame = d.m_pauseOnCallFrame := by rw [← hX]; rfl
  have hX2 : X.m_pauseOnStepNext = d.m_pauseOnStepNext := by rw [← hX]; rfl
  have hX3 : X.m_pauseOnStepOut = d.m_pauseOnStepOut := by rw [← hX]; rfl
  have hX4 : X.m_specialBreakpoint = none := by rw [← hX]; rfl
  have hX5 : X.m_pauseAtNextOpportunity = false := by rw [← hX]; rfl
  have hX6 : X.m_afterBlackboxedScript = false := by rw [← hX]; rfl
  have hnopause2 : (pauseIfNeededEvaluate env g flags d.m_afterBlackboxedScript (stepPause d)
      false X).log.filter Event.isPause = X.log.filter Event.isPause := by
    rw [hXlog]; exact hnopause
  have hdefer1 : ∀ y : Debugger,
      (shouldDeferPause flags y).2.m_pauseOnCallFrame = y.m_pauseOnCallFrame :=
    shouldDeferPause_preserves (fun y => y.m_pauseOnCallFrame) (fun _ _ => rfl) (fun _ => rfl)
      (fun _ => rfl) (fun x => by simp [schedulePauseAtNextOpportunity, setSteppingMode_eq]) flags
  have hdefer2 : ∀ y : Debugger,
      (shouldDeferPause flags y).2.m_pauseOnStepNext = y.m_pauseOnStepNext :=
    shouldDeferPause_preserves (fun y => y.m_pauseOnStepNext) (fun _ _ => rfl) (fun _ => rfl)
      (fun _ => rfl) (fun x => by simp [schedulePauseAtNextOpportunity, setSteppingMode_eq]) flags
  have hdefer3 : ∀ y : Debugger,
      (shouldDeferPause flags y).2.m_pauseOnStepOut = y.m_pauseOnStepOut :=
    shouldDeferPause_preserves (fun y => y.m_pauseOnStepOut) (fun _ _ => rfl) (fun _ => rfl)
      (fun _ => rfl) (fun x => by simp [schedulePauseAtNextOpportunity, setSteppingMode_eq]) flags
  have he1 := m_pauseOnCallFrame_evaluateDeferredBreakpoints_quiet env hre g (stepPause d) X
  have he2 := m_pauseOnStepNext_evaluateDeferredBreakpoints_quiet env hre g (stepPause d) X
  have he3 := m_pauseOnStepOut_evaluateDeferredBreakpoints_quiet env hre g (stepPause d) X
  have he4 := m_specialBreakpoint_evaluateDeferredBreakpoints_quiet env hre g (stepPause d) X
  have he5 := m_pauseAtNextOpportunity_evaluateDeferredBreakpoints_quiet env hre g (stepPause d) X
  have he6 := m_afterBlackboxedScript_evaluateDeferredBreakpoints_quiet env hre g (stepPause d) X
  rcases pauseIfNeededEvaluate_outcome env g flags d.m_afterBlackboxedScript (stepPause d)
    false X with ⟨_, hdefer, hr⟩ | ⟨_, hr⟩ | ⟨hdefer, hr⟩ | hr
  · rw [hr]
    have him := shouldDeferPause_immediate flags X hdefer
    refine ⟨(hdefer1 X).trans hX1, (hdefer2 X).trans hX2, (hdefer3 X).trans hX3,
      (m_specialBreakpoint_shouldDeferPause flags X).trans hX4, him.1.trans him.2.symm, ?_⟩
    intro hnd
    rw [hnd] at hdefer
    exact absurd hdefer (by simp)
  · rw [hr]
    refine ⟨he1.trans hX1, he2.trans hX2, he3.trans hX3, he4.trans hX4,
      (he5.trans hX5).trans (he6.trans hX6).symm, fun _ => he5.trans hX5⟩
  · rw [hr]
    have him := shouldDeferPause_immediate flags
      (evaluateDeferredBreakpoints env g (stepPause d) X).2 hdefer
    refine ⟨((hdefer1 _).trans he1).trans hX1, ((hdefer2 _).trans he2).trans hX2,
      ((hdefer3 _).trans he3).trans hX3,
      ((m_specialBreakpoint_shouldDeferPause flags _).trans he4).trans hX4,
      him.1.trans him.2.symm, ?_⟩
    intro hnd
    rw [hnd] at hdefer
    exact absurd hdefer (by simp)
  · rw [hr, pauses_pauseNow, pauses_evaluateDeferredBreakpoints] at hnopause2
    exact absurd hnopause2 (by simp)

theorem eventual_request_kept_without_pause_witness :
    stepOverPending.m_pauseOnCallFrame = some 200 ∧
    (pauseIfNeeded (scriptEnv (TextPosition.mk 9 0)) (some 1)
      stepOverPending).m_pauseOnCallFrame = some 200 ∧
    (pauseIfNeeded (scriptEnv (TextPosition.mk 9 0)) (some 1)
      stepOverPending).m_pauseOnStepNext = true ∧
    (pauseIfNeeded (scriptEnv (TextPosition.mk 9 0)) (some 1)
      stepOverPending).m_pauseAtNextOpportunity = false :=
  have h := eventual_request_kept_without_pause (scriptEnv (TextPosition.mk 9 0))
    (scriptEnv_noReentrancy (TextPosition.mk 9 0)) (some 1) stepOverPending {}
    (some falseConditionBreakpoint) (by decide) (by decide) (by decide) (by decide)
    (by decide) (by decide) (by decide) (by decide)
  ⟨rfl, h.1, h.2.1, h.2.2.2.2.2 (by decide)⟩

end Debugger
end JSC

namespace JSC
namespace Debugger

/-! ### The end of a pause -/

theorem handlePause_eq (env : Env) (g : Option GlobalObject) (d : Debugger) :
    handlePause env g d
      = dispatchFunctionToObservers
          (fun observer => logEvent (Event.observerDidContinue observer))
          (logEvent (Event.hookDidContinue g) (waitLoopEnded env g d)) := rfl

theorem pauseNow_eq (env : Env) (g : Option GlobalObject) (a b : Bool) (d : Debugger) :
    pauseNow env g a b d
      = (if requestArmed (handlePause env g (pauseEntry a b d)) = false then
          { setSteppingMode SteppingMode.SteppingModeDisabled
              { handlePause env g (pauseEntry a b d) with
                m_reasonForPause := ReasonForPause.NotPaused,
                m_pausingBreakpointID := noBreakpointID } with
            m_currentCallFrame := none }
        else
          { handlePause env g (pauseEntry a b d) with
            m_reasonForPause := ReasonForPause.NotPaused,
            m_pausingBreakpointID := noBreakpointID }) := by
  unfold pauseNow pauseEntry requestArmed
  simp only []
  cases (handlePause env g _).m_pauseAtNextOpportunity <;>
    cases (handlePause env g _).m_pauseOnCallFrame <;>
    cases (handlePause env g _).m_specialBreakpoint <;> simp

theorem log_foldl_observers (event : Observer → Event) (observers : List Observer)
    (d : Debugger) :
    (observers.foldl (fun acc observer => logEvent (event observer) acc) d).log
      = d.log ++ observers.map event := by
  induction observers generalizing d with
  | nil => simp
  | cons o rest ih =>
    simp only [List.foldl_cons, List.map_cons]
    rw [ih]
    simp [logEvent]

theorem log_dispatch_observers (event : Observer → Event) (d : Debugger) :
    (dispatchFunctionToObservers (fun observer => logEvent (event observer)) d).log
      = d.log ++ d.m_observers.map event := by
  unfold dispatchFunctionToObservers canDispatchFunctionToObservers
  split
  · rename_i hempty
    have : d.m_observers = [] := by simpa [List.isEmpty_iff] using hempty
    simp [this]
  · exact log_foldl_observers event d.m_observers d

theorem log_foldl_didPause (observers : List Observer) (d : Debugger) :
    (observers.foldl (fun acc observer =>
        logEvent (Event.observerDidPause observer
          (currentDebuggerCallFrame acc).m_reasonForPause) (currentDebuggerCallFrame acc))
        d).log
      = d.log ++ observers.map
          (fun observer => Event.observerDidPause observer d.m_reasonForPause) ∧
    (observers.foldl (fun acc observer =>
        logEvent (Event.observerDidPause observer
          (currentDebuggerCallFrame acc).m_reasonForPause) (currentDebuggerCallFrame acc))
        d).m_observers = d.m_observers := by
  have hreason : ∀ x : Debugger, (currentDebuggerCallFrame x).m_reasonForPause
      = x.m_reasonForPause := by
    intro x; unfold currentDebuggerCallFrame; split <;> rfl
  have hlog : ∀ x : Debugger, (currentDebuggerCallFrame x).log = x.log := by
    intro x; unfold currentDebuggerCallFrame; split <;> rfl
  induction observers generalizing d with
  | nil => simp
  | cons o rest ih =>
    simp only [List.foldl_cons, List.map_cons]
    have h := ih (logEvent (Event.observerDidPause o
      (currentDebuggerCallFrame d).m_reasonForPause) (currentDebuggerCallFrame d))
    rw [h.1, h.2]
    constructor
    · simp [logEvent, hreason, hlog]
    · show (currentDebuggerCallFrame d).m_observers = d.m_observers
      exact m_observers_currentDebuggerCallFrame d

end Debugger
end JSC
namespace JSC
namespace Debugger

theorem waitLoopEnded_notifications (env : Env) (g : Option GlobalObject) (d : Debugger) :
    (waitLoopEnded env g d).log.filter Event.isPauseOrResume
      = d.log.filter Event.isPauseOrResume
          ++ d.m_observers.map (fun observer => Event.observerDidPause observer d.m_reasonForPause)
          ++ [Event.hookDidPause g] := by
  have hdispatch : (dispatchFunctionToObservers
      (fun observer acc =>
        logEvent (Event.observerDidPause observer (currentDebuggerCallFrame acc).m_reasonForPause)
          (currentDebuggerCallFrame acc)) d).log
      = d.log ++ d.m_observers.map
          (fun observer => Event.observerDidPause observer d.m_reasonForPause) := by
    unfold dispatchFunctionToObservers canDispatchFunctionToObservers
    split
    · rename_i hempty
      have : d.m_observers = [] := by simpa [List.isEmpty_iff] using hempty
      simp [this]
    · exact (log_foldl_didPause d.m_observers d).1
  have hfilter : ∀ (observers : List Observer) (reason : ReasonForPause),
      (observers.map (fun observer => Event.observerDidPause observer reason)).filter
          Event.isPauseOrResume
        = observers.map (fun observer => Event.observerDidPause observer reason) := by
    intro observers reason
    rw [List.filter_eq_self]
    intro e he
    obtain ⟨o, _, rfl⟩ := List.mem_map.1 he
    rfl
  unfold waitLoopEnded
  simp only []
  rw [notifications_runEventLoopWhilePaused]
  show ((dispatchFunctionToObservers _ d).log ++ [Event.hookDidPause g]).filter
    Event.isPauseOrResume = _
  rw [List.filter_append, hdispatch, List.filter_append, hfilter]
  rfl

theorem handlePause_notifications (env : Env) (g : Option GlobalObject) (d : Debugger) :
    (handlePause env g d).log.filter Event.isPauseOrResume
      = d.log.filter Event.isPauseOrResume
          ++ d.m_observers.map (fun observer => Event.observerDidPause observer d.m_reasonForPause)
          ++ [Event.hookDidPause g, Event.hookDidContinue g]
          ++ (waitLoopEnded env g d).m_observers.map
              (fun observer => Event.observerDidContinue observer) := by
  have hfilter : ∀ (observers : List Observer),
      (observers.map (fun observer => Event.observerDidContinue observer)).filter
          Event.isPauseOrResume
        = observers.map (fun observer => Event.observerDidContinue observer) := by
    intro observers
    rw [List.filter_eq_self]
    intro e he
    obtain ⟨o, _, rfl⟩ := List.mem_map.1 he
    rfl
  rw [handlePause_eq, log_dispatch_observers, List.filter_append, hfilter]
  show ((waitLoopEnded env g d).log ++ [Event.hookDidContinue g]).filter Event.isPauseOrResume
    ++ (waitLoopEnded env g d).m_observers.map _ = _
  rw [List.filter_append, waitLoopEnded_notifications]
  simp

theorem handlePause_fields (env : Env) (g : Option GlobalObject) (d : Debugger) :
    requestArmed (handlePause env g d) = requestArmed (waitLoopEnded env g d) ∧
    (handlePause env g d).m_steppingMode = (waitLoopEnded env g d).m_steppingMode ∧
    (handlePause env g d).m_currentCallFrame = (waitLoopEnded env g d).m_currentCallFrame := by
  rw [handlePause_eq]
  refine ⟨?_, ?_, ?_⟩
  · refine Eq.trans (dispatchFunctionToObservers_preserves requestArmed _ ?_ _) rfl
    intro o x; rfl
  · refine Eq.trans (dispatchFunctionToObservers_preserves (fun y => y.m_steppingMode) _ ?_ _)
      rfl
    intro o x; rfl
  · refine Eq.trans (dispatchFunctionToObservers_preserves (fun y => y.m_currentCallFrame) _
      ?_ _) rfl
    intro o x; rfl

theorem armedImpliesStepping_iff (d : Debugger) :
    armedImpliesStepping d ↔ d.steppingIfArmedBeyond none = true := by
  have harmed : armedBeyond d none = requestArmed d := by
    unfold armedBeyond requestArmed
    cases d.m_pauseAtNextOpportunity <;> cases d.m_specialBreakpoint <;>
      cases d.m_pauseOnCallFrame <;> simp
  unfold armedImpliesStepping steppingIfArmedBeyond
  rw [harmed]
  cases requestArmed d <;> simp

theorem armedImpliesStepping_waitLoopEnded (env : Env) (g : Option GlobalObject) (d : Debugger)
    (h : armedImpliesStepping d) : armedImpliesStepping (waitLoopEnded env g d) := by
  rw [armedImpliesStepping_iff] at h ⊢
  unfold waitLoopEnded
  simp only []
  apply steppingIfArmedBeyond_runEventLoopWhilePaused
  rw [← h]
  show (dispatchFunctionToObservers _ d).steppingIfArmedBeyond none = _
  exact steppingIfArmedBeyond_dispatchFunctionToObservers _ d
    (fun o x => steppingIfArmedBeyond_currentDebuggerCallFrame x)

/-- When `pauseIfNeeded` reaches `pauseNow`, stepping is enabled if a request is
armed: the requests were reset when the scope guards were built, and whatever
armed one since enabled stepping. -/
theorem armedImpliesStepping_pauseEntry (env : Env) (g : Option GlobalObject)
    (after step : Bool) (d : Debugger) :
    armedImpliesStepping (pauseEntry after (atDesiredCallFrame d)
      (evaluateDeferredBreakpoints env g step (guardedEntry d)).2) := by
  cases hdesired : atDesiredCallFrame d with
  | true =>
    have hentry : (guardedEntry d).steppingIfArmedBeyond none = true := by
      have h2 : ((resetImmediatePauseState d).m_pauseOnCallFrame.isNone
          || decide ((resetImmediatePauseState d).m_pauseOnCallFrame
              = (resetImmediatePauseState d).m_currentCallFrame)) = true := hdesired
      unfold guardedEntry
      simp only [h2, if_true]
      rfl
    have hY := armedStepping_evaluateDeferredBreakpoints env none g step _ hentry
    generalize (evaluateDeferredBreakpoints env g step (guardedEntry d)).2 = y at hY
    rw [armedImpliesStepping_iff]
    exact (steppingIfArmedBeyond_of_eq y (pauseEntry after true y) none rfl rfl rfl rfl).trans hY
  | false =>
    have hentry : (guardedEntry d).steppingIfArmedBeyond d.m_pauseOnCallFrame = true := by
      rw [guardedEntry_of_not_desired d hdesired]
      simp [steppingIfArmedBeyond, armedBeyond, resetImmediatePauseState]
    have hY := armedStepping_evaluateDeferredBreakpoints env d.m_pauseOnCallFrame g step _
      hentry
    generalize (evaluateDeferredBreakpoints env g step (guardedEntry d)).2 = y at hY
    intro harmed
    have hmode : (pauseEntry after false y).m_steppingMode = y.m_steppingMode := rfl
    rw [hmode]
    have hor : (y.m_pauseAtNextOpportunity || y.m_specialBreakpoint.isSome) = true := by
      have : requestArmed (pauseEntry after false y)
          = (y.m_pauseAtNextOpportunity || y.m_specialBreakpoint.isSome) := by
        unfold requestArmed pauseEntry resetEventualPauseState
        simp
      rw [← this]; exact harmed
    unfold steppingIfArmedBeyond armedBeyond at hY
    rw [hor] at hY
    simpa using hY

end Debugger
end JSC
namespace JSC
namespace Debugger

/-- Claim C30. When `pauseIfNeeded` pauses (`pauseNow`) and the nested event loop has
ended: after the notifications of the pause (`didPause` to every observer and
the hook) the log gains the hook `didContinue` and one `didContinue` for each
observer registered when the loop ended, and no other notification of a pause
or a resume; then, if no immediate request, no target frame of the eventual
request and no special breakpoint is armed, the stepping mode is disabled and
the tracked frame is null; if one of them is armed, `pauseIfNeeded` keeps the
stepping mode and the tracked frame that the loop left, and the stepping mode
is enabled provided it was enabled, if a request was armed, when the pause
began; that is so whenever `pauseIfNeeded` reaches `pauseNow`, which it does on
the debugger that the loop over the deferred breakpoints leaves. -/
theorem pauseNow_resumes (env : Env) (g : Option GlobalObject)
    (afterBlackboxedScript atDesiredCallFrame : Bool) (d : Debugger) :
    (pauseNow env g afterBlackboxedScript atDesiredCallFrame d).log.filter
        Event.isPauseOrResume
      = d.log.filter Event.isPauseOrResume
          ++ d.m_observers.map (fun observer => Event.observerDidPause observer
              (pauseEntry afterBlackboxedScript atDesiredCallFrame d).m_reasonForPause)
          ++ [Event.hookDidPause g, Event.hookDidContinue g]
          ++ (waitLoopEnded env g
                (pauseEntry afterBlackboxedScript atDesiredCallFrame d)).m_observers.map
              (fun observer => Event.observerDidContinue observer) ∧
    (requestArmed (waitLoopEnded env g
        (pauseEntry afterBlackboxedScript atDesiredCallFrame d)) = false →
      (pauseNow env g afterBlackboxedScript atDesiredCallFrame d).m_steppingMode
        = SteppingMode.SteppingModeDisabled ∧
      (pauseNow env g afterBlackboxedScript atDesiredCallFrame d).m_currentCallFrame = none) ∧
    (requestArmed (waitLoopEnded env g
        (pauseEntry afterBlackboxedScript atDesiredCallFrame d)) = true →
      (pauseNow env g afterBlackboxedScript atDesiredCallFrame d).m_steppingMode
        = (waitLoopEnded env g
            (pauseEntry afterBlackboxedScript atDesiredCallFrame d)).m_steppingMode ∧
      (pauseNow env g afterBlackboxedScript atDesiredCallFrame d).m_currentCallFrame
        = (waitLoopEnded env g
            (pauseEntry afterBlackboxedScript atDesiredCallFrame d)).m_currentCallFrame ∧
      (armedImpliesStepping (pauseEntry afterBlackboxedScript atDesiredCallFrame d) →
        (pauseNow env g afterBlackboxedScript atDesiredCallFrame d).m_steppingMode
          = SteppingMode.SteppingModeEnabled)) ∧
    (∀ (step : Bool) (x : Debugger),
      requestArmed (waitLoopEnded env g
        (pauseEntry afterBlackboxedScript (JSC.Debugger.atDesiredCallFrame x)
          (evaluateDeferredBreakpoints env g step (guardedEntry x)).2)) = true →
      (pauseNow env g afterBlackboxedScript (JSC.Debugger.atDesiredCallFrame x)
        (evaluateDeferredBreakpoints env g step (guardedEntry x)).2).m_steppingMode
        = SteppingMode.SteppingModeEnabled) := by
  have hfields := handlePause_fields env g
    (pauseEntry afterBlackboxedScript atDesiredCallFrame d)
  have hentrylog : (pauseEntry afterBlackboxedScript atDesiredCallFrame d).log = d.log := by
    unfold pauseEntry; simp only []; split <;> rfl
  have hentryobs : (pauseEntry afterBlackboxedScript atDesiredCallFrame d).m_observers
      = d.m_observers := by
    unfold pauseEntry; simp only []; split <;> rfl
  have hkept : ∀ (desired : Bool) (y : Debugger),
      requestArmed (waitLoopEnded env g (pauseEntry afterBlackboxedScript desired y)) = true →
      (pauseNow env g afterBlackboxedScript desired y).m_steppingMode
        = (waitLoopEnded env g (pauseEntry afterBlackboxedScript desired y)).m_steppingMode := by
    intro desired y harmed
    have hf := handlePause_fields env g (pauseEntry afterBlackboxedScript desired y)
    rw [pauseNow_eq, hf.1, if_neg (by rw [harmed]; simp)]
    exact hf.2.1
  refine ⟨?_, ?_, ?_, ?_⟩
  · have hlog : (pauseNow env g afterBlackboxedScript atDesiredCallFrame d).log
        = (handlePause env g (pauseEntry afterBlackboxedScript atDesiredCallFrame d)).log := by
      rw [pauseNow_eq]
      split
      · simp only [setSteppingMode_eq]
      · rfl
    rw [hlog, handlePause_notifications, hentrylog, hentryobs]
  · intro hnone
    rw [pauseNow_eq, hfields.1, if_pos hnone]
    simp only [setSteppingMode_eq]
    exact ⟨trivial, trivial⟩
  · intro harmed
    have hmode := hkept atDesiredCallFrame d harmed
    refine ⟨hmode, ?_, ?_⟩
    · rw [pauseNow_eq, hfields.1, if_neg (by rw [harmed]; simp)]
      exact hfields.2.2
    · intro hentry
      rw [hmode]
      exact armedImpliesStepping_waitLoopEnded env g _ hentry harmed
  · intro step x harmed
    rw [hkept _ _ harmed]
    exact armedImpliesStepping_waitLoopEnded env g _
      (armedImpliesStepping_pauseEntry env g afterBlackboxedScript step x) harmed

theorem pauseNow_resumes_witness :
    (pauseNow (scriptEnv (TextPosition.mk 5 0)) (some 1) false true
      pausedAtLineBreakpoint).m_steppingMode = SteppingMode.SteppingModeDisabled ∧
    (pauseNow (scriptEnv (TextPosition.mk 5 0)) (some 1) false true
      pausedAtLineBreakpoint).m_currentCallFrame = none ∧
    pausedAtLineBreakpoint.m_steppingMode = SteppingMode.SteppingModeDisabled ∧
    (pauseNow steppingEnv (some 1) false true pausedAtLineBreakpoint).m_steppingMode
      = SteppingMode.SteppingModeEnabled ∧
    (pauseNow steppingEnv (some 1) false true pausedAtLineBreakpoint).m_currentCallFrame
      = some 100 :=
  have h1 := (pauseNow_resumes (scriptEnv (TextPosition.mk 5 0)) (some 1) false true
    pausedAtLineBreakpoint).2.1 (by decide)
  have h2 := (pauseNow_resumes steppingEnv (some 1) false true pausedAtLineBreakpoint).2.2.1
    (by decide)
  ⟨h1.1, h1.2, by decide,
    h2.2.2 (fun harmed => absurd harmed (by decide)), h2.2.1⟩

end Debugger
end JSC

namespace JSC
namespace Debugger

/-! ### The scope that disables the exception breakpoints -/

/-- C39: `TemporarilyDisableExceptionBreakpoints` is a round trip.  For every
debugger, `replace` on a new scope leaves the debugger without a breakpoint for
all exceptions and without one for uncaught exceptions, so the lines of
`exception` that arm the special breakpoint change nothing; `restore` on any
debugger in which neither breakpoint has been set since gives both fields the
values they had before `replace`, and straight after `replace` it gives back the
very debugger; `restore` on a new scope changes nothing. -/
theorem temporarilyDisableExceptionBreakpoints_round_trip (d : Debugger) :
    (TemporarilyDisableExceptionBreakpoints.replace {} d).2.m_pauseOnAllExceptionsBreakpoint
        = none ∧
    (TemporarilyDisableExceptionBreakpoints.replace {} d).2.m_pauseOnUncaughtExceptionsBreakpoint
        = none ∧
    (∀ hasCatchHandler : Bool,
      armExceptionBreakpoint hasCatchHandler
          (TemporarilyDisableExceptionBreakpoints.replace {} d).2
        = (TemporarilyDisableExceptionBreakpoints.replace {} d).2) ∧
    (∀ x : Debugger,
      x.m_pauseOnAllExceptionsBreakpoint = none →
      x.m_pauseOnUncaughtExceptionsBreakpoint = none →
      (TemporarilyDisableExceptionBreakpoints.restore
          (TemporarilyDisableExceptionBreakpoints.replace {} d).1
          x).2.m_pauseOnAllExceptionsBreakpoint
        = d.m_pauseOnAllExceptionsBreakpoint ∧
      (TemporarilyDisableExceptionBreakpoints.restore
          (TemporarilyDisableExceptionBreakpoints.replace {} d).1
          x).2.m_pauseOnUncaughtExceptionsBreakpoint
        = d.m_pauseOnUncaughtExceptionsBreakpoint) ∧
    (TemporarilyDisableExceptionBreakpoints.restore
        (TemporarilyDisableExceptionBreakpoints.replace {} d).1
        (TemporarilyDisableExceptionBreakpoints.replace {} d).2).2 = d ∧
    (TemporarilyDisableExceptionBreakpoints.restore {} d).2 = d := by
  obtain ⟨⟩ := d
  rename_i all uncaught _ _ _ _ _ _ _ _ _
  cases all <;> cases uncaught <;>
    simp [TemporarilyDisableExceptionBreakpoints.replace,
      TemporarilyDisableExceptionBreakpoints.restore, armExceptionBreakpoint] <;>
    intro x h1 h2 <;> simp [h1, h2]

theorem temporarilyDisableExceptionBreakpoints_round_trip_witness :
    (TemporarilyDisableExceptionBreakpoints.restore
        (TemporarilyDisableExceptionBreakpoints.replace {} pausingOnExceptions).1
        (exception overflowEnv (some 1) (some 100) 13 false
          (TemporarilyDisableExceptionBreakpoints.replace {}
            pausingOnExceptions).2)).2.m_pauseOnAllExceptionsBreakpoint
      = some allExceptionsBreakpoint ∧
    (TemporarilyDisableExceptionBreakpoints.restore
        (TemporarilyDisableExceptionBreakpoints.replace {} pausingOnExceptions).1
        (exception overflowEnv (some 1) (some 100) 13 false
          (TemporarilyDisableExceptionBreakpoints.replace {}
            pausingOnExceptions).2)).2.m_pauseOnUncaughtExceptionsBreakpoint
      = some uncaughtExceptionsBreakpoint :=
  (temporarilyDisableExceptionBreakpoints_round_trip pausingOnExceptions).2.2.2.1
    (exception overflowEnv (some 1) (some 100) 13 false
      (TemporarilyDisableExceptionBreakpoints.replace {} pausingOnExceptions).2)
    (by decide) (by decide)

end Debugger
end JSC

namespace JSC
namespace Debugger

/-! ### Parsed sources -/

/-- The loop of `sourceParsed` counts the newlines and keeps the index after the
last one. -/
theorem countLines_spec (source : List UChar) (i lineCount lastLineStart : Nat)
    (hlen : i + source.length < 2147483647) (hcount : lineCount ≤ i + 1) :
    (countLines source i (lineCount, lastLineStart)).1
        = ((lineCount + source.count 10 : Nat) : Int) ∧
    (source.count 10 = 0 →
      (countLines source i (lineCount, lastLineStart)).2 = (lastLineStart : Int)) ∧
    (source.count 10 ≠ 0 →
      ∃ k : Nat, k < source.length ∧ source.get? k = some 10 ∧
        (∀ j, k < j → source.get? j ≠ some 10) ∧
        (countLines source i (lineCount, lastLineStart)).2 = ((i + k + 1 : Nat) : Int)) := by
  induction source generalizing i lineCount lastLineStart with
  | nil => simp [countLines]
  | cons c rest ih =>
    simp only [List.length_cons] at hlen
    have hi : wrapInt ((i : Int) + 1) = ((i + 1 : Nat) : Int) := by
      rw [wrapInt_of_range _ (by omega) (by omega)]; rfl
    by_cases hc : c = 10
    · subst hc
      have hl : wrapInt ((lineCount : Int) + 1) = ((lineCount + 1 : Nat) : Int) := by
        rw [wrapInt_of_range _ (by omega) (by omega)]; rfl
      have hstep : countLines (10 :: rest) i (lineCount, lastLineStart)
          = countLines rest ((i + 1 : Nat) : Int) (((lineCount + 1 : Nat) : Int),
              ((i + 1 : Nat) : Int)) := by
        simp only [countLines, if_true, hi, hl]
      obtain ⟨h1, h2, h3⟩ := ih (i + 1) (lineCount + 1) (i + 1) (by omega) (by omega)
      rw [hstep]
      refine ⟨?_, ?_, ?_⟩
      · rw [h1]; simp only [List.count_cons_self]; push_cast; omega
      · intro h; simp at h
      · intro _
        by_cases hrest : rest.count 10 = 0
        · refine ⟨0, by simp, by simp, ?_, ?_⟩
          · intro j hj
            obtain ⟨j, rfl⟩ : ∃ m, j = m + 1 := ⟨j - 1, by omega⟩
            simp only [List.get?_cons_succ]
            intro hget
            have hmem : (10 : UChar) ∈ rest := List.get?_mem hget
            exact absurd (List.count_pos_iff.mpr hmem) (by omega)
          · rw [h2 hrest]
        · obtain ⟨k, hk, hget, hlast, hval⟩ := h3 hrest
          refine ⟨k + 1, by simp; omega, by simpa using hget, ?_, ?_⟩
          · intro j hj
            obtain ⟨j, rfl⟩ : ∃ m, j = m + 1 := ⟨j - 1, by omega⟩
            simp only [List.get?_cons_succ]
            exact hlast j (by omega)
          · rw [hval]; push_cast; omega
    · have hstep : countLines (c :: rest) i (lineCount, lastLineStart)
          = countLines rest ((i + 1 : Nat) : Int) ((lineCount : Int), (lastLineStart : Int)) := by
        simp only [countLines, if_neg hc, hi]
      obtain ⟨h1, h2, h3⟩ := ih (i + 1) lineCount lastLineStart (by omega) (by omega)
      rw [hstep]
      have hcnt : (c :: rest).count 10 = rest.count 10 := by
        rw [List.count_cons]; simp [hc]
      rw [hcnt]
      refine ⟨h1, h2, ?_⟩
      intro hne
      obtain ⟨k, hk, hget, hlast, hval⟩ := h3 hne
      refine ⟨k + 1, by simp; omega, by simpa using hget, ?_, ?_⟩
      · intro j hj
        obtain ⟨j, rfl⟩ : ∃ m, j = m + 1 := ⟨j - 1, by omega⟩
        simp only [List.get?_cons_succ]
        exact hlast j (by omega)
      · rw [hval]; push_cast; omega

theorem foldl_logEvent (event : Observer → Event) (observers : List Observer) (d : Debugger) :
    observers.foldl (fun acc observer => logEvent (event observer) acc) d
      = { d with log := d.log ++ observers.map event } := by
  induction observers generalizing d with
  | nil => simp
  | cons o rest ih =>
    simp only [List.foldl_cons, List.map_cons]
    rw [ih]
    simp [logEvent]

theorem dispatchFunctionToObservers_logEvent (event : Observer → Event) (d : Debugger) :
    dispatchFunctionToObservers (fun observer => logEvent (event observer)) d
      = { d with log := d.log ++ d.m_observers.map event } := by
  unfold dispatchFunctionToObservers canDispatchFunctionToObservers
  split
  · rename_i hempty
    have hnone : d.m_observers.map event = [] := by
      have : d.m_observers = [] := by simpa [List.isEmpty_iff] using hempty
      rw [this]; rfl
    rw [hnone, List.append_nil]
  · exact foldl_logEvent event d.m_observers d

/-- C38: for a source that parsed (`errorLine` is -1), `sourceParsed` hands every
observer `didParseSource` with the identifier of the provider and a script whose
start position is that of the provider; when the start position is not negative
and neither `startLine + k` nor `startColumn + n` leaves the range of `int`,
where `n` is the length of the text and `k` the number of its newlines, the
script has `endLine = startLine + k`, `endColumn = startColumn + n` if `k = 0`,
and otherwise `endColumn = n - (i + 1)` for the index `i` of the last newline.
With a parse error every observer receives `failedToParseSource` and nothing
else is dispatched, and with no observer the debugger, log included, is as it
was. -/
theorem sourceParsed_reports_end_position (sourceProvider : SourceProvider) (errorLine : Int)
    (errorMessage : String) (d : Debugger) :
    sourceParsed sourceProvider (-1) errorMessage d
      = { d with log := d.log ++ d.m_observers.map (fun observer =>
            Event.observerDidParseSource observer sourceProvider.asID
              (parsedScript sourceProvider)) } ∧
    (parsedScript sourceProvider).source = sourceProvider.source ∧
    (parsedScript sourceProvider).startColumn = sourceProvider.startColumn ∧
    (1 ≤ sourceProvider.startLine →
      sourceProvider.startLine + sourceProvider.source.count 10 < 2147483648 →
      0 ≤ sourceProvider.startColumn →
      sourceProvider.startColumn + sourceProvider.source.length < 2147483647 →
      (parsedScript sourceProvider).startLine = sourceProvider.startLine - 1 ∧
      (parsedScript sourceProvider).endLine
        = (parsedScript sourceProvider).startLine + sourceProvider.source.count 10 ∧
      (sourceProvider.source.count 10 = 0 →
        (parsedScript sourceProvider).endColumn
          = (parsedScript sourceProvider).startColumn + sourceProvider.source.length) ∧
      (sourceProvider.source.count 10 ≠ 0 →
        ∃ i : Nat, i < sourceProvider.source.length ∧
          sourceProvider.source.get? i = some 10 ∧
          (∀ j, i < j → sourceProvider.source.get? j ≠ some 10) ∧
          (parsedScript sourceProvider).endColumn
            = (sourceProvider.source.length : Int) - ((i : Int) + 1))) ∧
    (errorLine ≠ -1 →
      sourceParsed sourceProvider errorLine errorMessage d
        = { d with log := d.log ++ d.m_observers.map (fun observer =>
              Event.observerFailedToParseSource observer sourceProvider.source
                sourceProvider.startLine errorLine errorMessage) }) ∧
    (d.m_observers = [] → sourceParsed sourceProvider errorLine errorMessage d = d) := by
  refine ⟨?_, rfl, rfl, ?_, ?_, ?_⟩
  · unfold sourceParsed
    simp only []
    split
    · rename_i hempty
      have hnone : d.m_observers = [] := by
        simpa [canDispatchFunctionToObservers, List.isEmpty_iff] using hempty
      generalize hev : (fun observer : Observer => (_ : Event)) = event
      have hmap : d.m_observers.map event = [] := by rw [hnone]; rfl
      rw [hmap, List.append_nil]
    · rw [if_neg (by decide)]
      exact dispatchFunctionToObservers_logEvent _ d
  · intro hline hcount hcolumn hlength
    have hn : sourceProvider.source.length < 2147483647 := by omega
    obtain ⟨h1, h2, h3⟩ := countLines_spec sourceProvider.source 0 1 0 (by omega) (by omega)
    have hlen : toInt sourceProvider.source.length = (sourceProvider.source.length : Int) := by
      unfold toInt
      rw [Nat.mod_eq_of_lt (by omega), if_pos (by omega)]
    have hk : sourceProvider.source.count 10 ≤ sourceProvider.source.length :=
      List.count_le_length _ _
    have hstart : (parsedScript sourceProvider).startLine = sourceProvider.startLine - 1 := by
      show wrapInt (sourceProvider.startLine - 1) = _
      exact wrapInt_of_range _ (by omega) (by omega)
    have hcountLines : (countLines sourceProvider.source 0 (1, 0)).1
        = 1 + (sourceProvider.source.count 10 : Int) := by
      have := h1
      simp only [Nat.cast_one, Nat.cast_zero, Nat.cast_add] at this
      exact this
    refine ⟨hstart, ?_, ?_, ?_⟩
    · rw [hstart]
      show wrapInt (wrapInt (wrapInt (sourceProvider.startLine - 1)
        + (countLines sourceProvider.source 0 (1, 0)).1) - 1) = _
      have hw1 : wrapInt (sourceProvider.startLine - 1) = sourceProvider.startLine - 1 :=
        wrapInt_of_range _ (by omega) (by omega)
      have hw2 : wrapInt (sourceProvider.startLine - 1
            + (1 + (sourceProvider.source.count 10 : Int)))
          = sourceProvider.startLine - 1 + (1 + (sourceProvider.source.count 10 : Int)) :=
        wrapInt_of_range _ (by omega) (by omega)
      rw [hcountLines, hw1, hw2, wrapInt_of_range _ (by omega) (by omega)]
      omega
    · intro hzero
      show (if (countLines sourceProvider.source 0 (1, 0)).1 = 1 then
          wrapInt (sourceProvider.startColumn + toInt sourceProvider.source.length)
        else wrapInt (toInt sourceProvider.source.length
          - (countLines sourceProvider.source 0 (1, 0)).2)) = _
      rw [if_pos (by rw [hcountLines, hzero]; rfl), hlen,
        wrapInt_of_range _ (by omega) (by omega)]
      rfl
    · intro hne
      obtain ⟨i, hi, hget, hlast, hval⟩ := h3 hne
      refine ⟨i, hi, hget, hlast, ?_⟩
      show (if (countLines sourceProvider.source 0 (1, 0)).1 = 1 then
          wrapInt (sourceProvider.startColumn + toInt sourceProvider.source.length)
        else wrapInt (toInt sourceProvider.source.length
          - (countLines sourceProvider.source 0 (1, 0)).2)) = _
      have hval2 : (countLines sourceProvider.source 0 (1, 0)).2 = (i : Int) + 1 := by
        have := hval
        simp only [Nat.cast_one, Nat.cast_zero, Nat.cast_add, zero_add] at this
        exact this
      rw [if_neg (by rw [hcountLines]; omega), hlen, hval2,
        wrapInt_of_range _ (by omega) (by omega)]
  · intro herror
    unfold sourceParsed
    simp only []
    split
    · rename_i hempty
      have hnone : d.m_observers = [] := by
        simpa [canDispatchFunctionToObservers, List.isEmpty_iff] using hempty
      generalize hev : (fun observer : Observer => (_ : Event)) = event
      have hmap : d.m_observers.map event = [] := by rw [hnone]; rfl
      rw [hmap, List.append_nil]
    · exact dispatchFunctionToObservers_logEvent _ d
  · intro hnone
    unfold sourceParsed canDispatchFunctionToObservers
    rw [if_pos (by simp [hnone])]

theorem sourceParsed_reports_end_position_witness :
    (parsedScript twoLineProvider).startLine = 3 ∧
    (parsedScript twoLineProvider).endLine = 4 ∧
    (parsedScript twoLineProvider).endColumn = 2 ∧
    (parsedScript oneLineProvider).endLine = 3 ∧
    (parsedScript oneLineProvider).endColumn = 9 ∧
    (sourceParsed twoLineProvider 2 "unexpected token" pausedWithTwoObservers).log
      = pausedWithTwoObservers.log
        ++ [Event.observerFailedToParseSource 11 [97, 10, 98, 99] 4 2 "unexpected token",
            Event.observerFailedToParseSource 12 [97, 10, 98, 99] 4 2 "unexpected token"] ∧
    sourceParsed twoLineProvider 2 "unexpected token" initial = initial :=
  have h := (sourceParsed_reports_end_position twoLineProvider 2 "unexpected token"
    pausedWithTwoObservers).2.2.2.1 (by decide) (by decide) (by decide) (by decide)
  have h1 := (sourceParsed_reports_end_position oneLineProvider 2 "unexpected token"
    initial).2.2.2.1 (by decide) (by decide) (by decide) (by decide)
  ⟨h.1, by decide, by decide, by decide, by decide,
    by
      rw [(sourceParsed_reports_end_position twoLineProvider 2 "unexpected token"
        pausedWithTwoObservers).2.2.2.2.1 (by decide)]
      decide,
    (sourceParsed_reports_end_position twoLineProvider 2 "unexpected token"
      initial).2.2.2.2.2 rfl⟩

end Debugger
end JSC

namespace JSC
namespace Debugger

/-! ### Breakpoint locations of a range -/

/-- C34 (the code departs from it): `forEachBreakpointLocation` tests the zero-based
`startLine` and `endLine` of the query against the one-based first line of the
provider.  For the provider whose first line is line 9 (zero-based) at column 8,
`resolveBreakpoint` queries a breakpoint at (9, 12) at column 4, but the range
(9, 12) to (9, 20) is queried at columns 12 to 20, with no offset taken off, and
so reports none of the pause positions of that line; for the range (9, 1) to
(9, 20) the offset is added to each reported column although none was taken
off; and for a range on line 10, the second line of the script, the offset is
taken off the columns. -/
theorem forEachBreakpointLocation_tests_zero_based_line :
    inlineScriptPositions.startLine = 10 ∧ inlineScriptPositions.startColumn = 8 ∧
    resolveBreakpointQuery requestOnFirstLine inlineScriptPositions = (10, 4) ∧
    forEachBreakpointLocationQuery inlineScriptPositions 9 12 9 20 = ((10, 12), (10, 20)) ∧
    (forEachBreakpointLocation 7 inlineScriptPositions 9 12 9 20 initial).1 = [] ∧
    inlineScriptPositions.forEachBreakpointLocation 10 4 10 12
      = [{ line := 10, column := 6 }, { line := 10, column := 10 }] ∧
    forEachBreakpointLocationQuery inlineScriptPositions 9 1 9 20 = ((10, 1), (10, 20)) ∧
    (forEachBreakpointLocation 7 inlineScriptPositions 9 1 9 20 initial).1
      = [(9, 10), (9, 14), (9, 18)] ∧
    forEachBreakpointLocationQuery inlineScriptPositions 10 12 10 20
      = ((11, 4), (11, 12)) := by
  decide

end Debugger
end JSC

namespace JSC
namespace Debugger

/-! ### The last executed line is kept per script -/

/-- The loop skips the breakpoints that do not match. -/
theorem didHitBreakpointLoop_append (last line column : Nat) (pre rest : BreakpointsVector)
    (hpre : ∀ b ∈ pre, ¬ ((line ≠ last ∧ line = b.lineNumber ∧ b.columnNumber = 0)
      ∨ (line = b.lineNumber ∧ column = b.columnNumber))) :
    didHitBreakpointLoop last line column (pre ++ rest)
      = didHitBreakpointLoop last line column rest := by
  induction pre with
  | nil => rfl
  | cons e more ih =>
    have hstep : didHitBreakpointLoop last line column (e :: (more ++ rest))
        = didHitBreakpointLoop last line column (more ++ rest) := by
      rw [didHitBreakpointLoop]
      rw [if_neg (hpre e (List.mem_cons_self _ _))]
    rw [List.cons_append, hstep]
    exact ih (fun b hb => hpre b (List.mem_cons_of_mem _ hb))

/-- C36 (as stated, refuted): `columnBreakpoint` and `lineBreakpoint` are both held
for line 5 of script 7, the former set first, and line 5 of script 8 was
executed last.  When a callback tracks a frame of script 7 at (5, 3) the last
executed line is reset, and the lookup at this first opportunity on line 5
returns `columnBreakpoint`, not the breakpoint without a column. -/
theorem columnless_breakpoint_behind_column_breakpoint :
    lineBreakpoint.columnNumber = 0 ∧
    lineBreakpoint ∈ bucket cameFromOtherScript 7 5 ∧
    cameFromOtherScript.m_lastExecutedSourceID = 8 ∧
    cameFromOtherScript.m_lastExecutedLine = 5 ∧
    (updateCallFrameInternal (scriptEnv (TextPosition.mk 5 3)) 100
      cameFromOtherScript).m_lastExecutedLine = UINT_MAX ∧
    (updateCallFrameInternal (scriptEnv (TextPosition.mk 5 3)) 100
      cameFromOtherScript).m_lastExecutedSourceID = 7 ∧
    didHitBreakpoint
      (updateCallFrameInternal (scriptEnv (TextPosition.mk 5 3)) 100 cameFromOtherScript)
      7 (TextPosition.mk 5 3) = some columnBreakpoint ∧
    (atStatement (scriptEnv (TextPosition.mk 5 3)) (some 100)
      (addObserver 11 cameFromOtherScript)).log.filter Event.isPauseOrResume
      = [Event.observerDidPause 11 ReasonForPause.PausedForBreakpoint,
         Event.hookDidPause (some 1), Event.hookDidContinue (some 1),
         Event.observerDidContinue 11] := by
  decide

/-- C36 (amended): when `updateCallFrameInternal` tracks a frame whose script differs
from the last executed script, the last executed line becomes `UINT_MAX` and the
last executed script the script of the frame; when the script is the same
neither changes.  Hence, with breakpoints activated and a breakpoint `B`
without a column held for line `L` (a line number, not `UINT_MAX`) of the script
of the frame, the lookup `pauseIfNeeded` makes at the first opportunity at line
`L` after another script was executed returns `B`, whatever line was executed
last, provided no breakpoint set before `B` sits at the very column of the
position. -/
theorem columnless_breakpoint_matches_after_other_script (env : Env) (frame : CallFrame)
    (d : Debugger) (B : Breakpoint) (pre post : BreakpointsVector)
    (hinv : StoreInvariant d)
    (hact : d.m_breakpointsActivated = true)
    (hscript : d.m_lastExecutedSourceID ≠ env.sourceIDForCallFrame (some frame))
    (hcol : B.columnNumber = 0)
    (hline : toUnsigned (env.positionForCallFrame (some frame)).m_line = B.lineNumber)
    (hreal : B.lineNumber ≠ UINT_MAX)
    (hbucket : bucket d (env.sourceIDForCallFrame (some frame)) B.lineNumber
      = pre ++ B :: post)
    (hpre : ∀ b ∈ pre,
      b.columnNumber ≠ toUnsigned (env.positionForCallFrame (some frame)).m_column) :
    (updateCallFrameInternal env frame d).m_lastExecutedLine = UINT_MAX ∧
    (updateCallFrameInternal env frame d).m_lastExecutedSourceID
      = env.sourceIDForCallFrame (some frame) ∧
    (updateCallFrameInternal env frame d).m_currentCallFrame = some frame ∧
    didHitBreakpoint (updateCallFrameInternal env frame d)
      (env.sourceIDForCallFrame (some frame)) (env.positionForCallFrame (some frame))
      = some B ∧
    ∀ x : Debugger, x.m_lastExecutedSourceID = env.sourceIDForCallFrame (some frame) →
      (updateCallFrameInternal env frame x).m_lastExecutedLine = x.m_lastExecutedLine ∧
      (updateCallFrameInternal env frame x).m_lastExecutedSourceID
        = x.m_lastExecutedSourceID := by
  have hfields : (updateCallFrameInternal env frame d).m_lastExecutedLine = UINT_MAX ∧
      (updateCallFrameInternal env frame d).m_lastExecutedSourceID
        = env.sourceIDForCallFrame (some frame) ∧
      (updateCallFrameInternal env frame d).m_currentCallFrame = some frame ∧
      (updateCallFrameInternal env frame d).m_breakpointsActivated = d.m_breakpointsActivated ∧
      (updateCallFrameInternal env frame d).m_breakpointsForSourceID
        = d.m_breakpointsForSourceID := by
    unfold updateCallFrameInternal
    simp only []
    rw [if_pos hscript]
    exact ⟨rfl, rfl, rfl, rfl, rfl⟩
  obtain ⟨h1, h2, h3, h4, h5⟩ := hfields
  refine ⟨h1, h2, h3, ?_, ?_⟩
  · rw [didHitBreakpoint_eq_loop _ _ _ (h4.trans hact), hline, h1, bucket_eq, h5, ← bucket_eq,
      hbucket]
    have hnodup := (hinv (env.sourceIDForCallFrame (some frame)) B.lineNumber).2
    rw [hbucket, List.map_append, List.map_cons, hcol] at hnodup
    have hzero : ∀ b ∈ pre, b.columnNumber ≠ 0 := by
      intro b hb h0
      have hdisj := (List.nodup_append.mp hnodup).2.2
      exact hdisj (List.mem_map_of_mem _ hb) (by rw [h0]; exact List.mem_cons_self _ _)
    rw [didHitBreakpointLoop_append]
    · rw [didHitBreakpointLoop]
      rw [if_pos (Or.inl ⟨hreal, rfl, hcol⟩)]
    · intro b hb
      rintro (⟨_, _, h0⟩ | ⟨_, hc⟩)
      · exact hzero b hb h0
      · exact hpre b hb hc.symm
  · intro x hx
    unfold updateCallFrameInternal
    simp only []
    rw [if_neg (by simpa using hx)]
    constructor <;> rfl

theorem columnless_breakpoint_matches_after_other_script_witness :
    lineFiveOfOtherScript.m_lastExecutedLine = 5 ∧
    toUnsigned
      ((scriptEnv (TextPosition.mk 5 3)).positionForCallFrame (some 100)).m_line = 5 ∧
    didHitBreakpoint
      (updateCallFrameInternal (scriptEnv (TextPosition.mk 5 3)) 100 lineFiveOfOtherScript)
      ((scriptEnv (TextPosition.mk 5 3)).sourceIDForCallFrame (some 100))
      ((scriptEnv (TextPosition.mk 5 3)).positionForCallFrame (some 100))
      = some lineBreakpoint :=
  ⟨by decide, by decide,
    (columnless_breakpoint_matches_after_other_script (scriptEnv (TextPosition.mk 5 3)) 100
      lineFiveOfOtherScript lineBreakpoint [] []
      (storeInvariant_congr storeWithLineBreakpoint lineFiveOfOtherScript rfl
        storeInvariant_storeWithLineBreakpoint)
      (by decide) (by decide) (by decide) (by decide) (by decide) (by decide)
      (by intro b hb; simp at hb)).2.2.2.1⟩

end Debugger
end JSC

namespace JSC
namespace Debugger

/-! ### Properties that `pauseIfNeeded` keeps -/

theorem pauseIfNeededEvaluate_invariant (P : Debugger → Prop) (env : Env)
    (g : Option GlobalObject) (flags : BlackboxFlags) (after step desired : Bool)
    (d : Debugger)
    (hdefer : ∀ x, P x → P (shouldDeferPause flags x).2)
    (heval : ∀ x, P x → P (evaluateDeferredBreakpoints env g step x).2)
    (hpause : ∀ x, P x → P (pauseNow env g after desired x))
    (h : P d) : P (pauseIfNeededEvaluate env g flags after step desired d) := by
  rcases pauseIfNeededEvaluate_outcome env g flags after step desired d with
    ⟨_, _, heq⟩ | ⟨_, heq⟩ | ⟨_, heq⟩ | heq
  · rw [heq]; exact hdefer d h
  · rw [heq]; exact heval d h
  · rw [heq]; exact hdefer _ (heval d h)
  · rw [heq]; exact hpause _ (heval d h)

theorem pauseIfNeeded_invariant (P : Debugger → Prop) (env : Env) (g : Option GlobalObject)
    (d : Debugger)
    (hdefer : ∀ flags x, P x → P (shouldDeferPause flags x).2)
    (heval : ∀ step x, P x → P (evaluateDeferredBreakpoints env g step x).2)
    (hpause : ∀ after desired x, P x → P (pauseNow env g after desired x))
    (hentry : ∀ x, P x → P (guardedEntry x))
    (htest : ∀ x hit line, P x → P (atPauseTest x hit line))
    (hleave : ∀ x, P x → P (leavePausedScopes x))
    (h : P d) : P (pauseIfNeeded env g d) := by
  by_cases hpaused : d.m_isPaused = true
  · simpa [pauseIfNeeded, hpaused] using h
  · by_cases hsuppress : d.m_suppressAllPauses = true
    · simpa [pauseIfNeeded, hpaused, hsuppress] using h
    · cases hflags : relevantBlackboxFlags d (env.sourceIDForCallFrame d.m_currentCallFrame)
          (env.positionForCallFrame d.m_currentCallFrame) with
      | none => simpa [pauseIfNeeded, hpaused, hsuppress, hflags] using h
      | some flags =>
        rw [pauseIfNeeded_eq env g d flags (by simpa using hpaused) (by simpa using hsuppress)
          hflags]
        split
        · apply hleave
          rw [pauseIfNeededGuarded_eq]
          exact pauseIfNeededEvaluate_invariant P env g flags _ _ _ _ (hdefer flags)
            (heval _) (hpause _ _) (hentry _ (htest _ _ _ h))
        · exact htest _ _ _ h

/-! ### Stepping is enabled while a request is armed -/

theorem armedStepping_shouldDeferPause (flags : BlackboxFlags) (target : Option CallFrame)
    (d : Debugger) (h : d.steppingIfArmedBeyond target = true) :
    (shouldDeferPause flags d).2.steppingIfArmedBeyond target = true := by
  cases hdefer : flags.contains BlackboxFlag.Defer with
  | false => rw [shouldDeferPause_of_not_defer flags d hdefer]; exact h
  | true =>
    apply steppingIfArmedBeyond_of_enabled
    unfold shouldDeferPause
    simp [hdefer, schedulePauseAtNextOpportunity, setSteppingMode_eq]

theorem armedStepping_guardedEntry (d : Debugger) (h : d.steppingIfArmedBeyond none = true) :
    (guardedEntry d).steppingIfArmedBeyond none = true := by
  refine steppingIfArmedBeyond_of_le d _ none ?_ (guardedEntry_m_steppingMode d) h
  intro hx
  have hspecial := guardedEntry_m_specialBreakpoint d
  have himmediate : (guardedEntry d).m_pauseAtNextOpportunity = false := by
    unfold guardedEntry; simp only []; split <;> rfl
  have hframe : (guardedEntry d).m_pauseOnCallFrame = none
      ∨ (guardedEntry d).m_pauseOnCallFrame = d.m_pauseOnCallFrame := by
    unfold guardedEntry; simp only []; split
    · left; rfl
    · right; rfl
  unfold armedBeyond at hx ⊢
  rw [hspecial, himmediate] at hx
  rcases hframe with hf | hf
  · rw [hf] at hx; simp at hx
  · rw [hf] at hx
    simp only [Bool.false_or, Option.isSome_none] at hx
    simp only [Bool.or_eq_true]
    exact Or.inr hx

theorem armedStepping_atPauseTest (d : Debugger) (hit : Option Breakpoint) (line : Nat)
    (h : d.steppingIfArmedBeyond none = true) :
    (atPauseTest d hit line).steppingIfArmedBeyond none = true := by
  refine steppingIfArmedBeyond_of_le d _ none ?_ rfl h
  intro hx
  unfold armedBeyond at hx ⊢
  simp only [atPauseTest, Option.isSome_none, Bool.or_false, Bool.or_eq_true] at hx
  simp only [Bool.or_eq_true]
  rcases hx with hx | hx
  · exact Or.inl (Or.inl hx)
  · exact Or.inr hx

theorem armedStepping_pauseEntry (after desired : Bool) (d : Debugger)
    (h : d.steppingIfArmedBeyond none = true) :
    (pauseEntry after desired d).steppingIfArmedBeyond none = true := by
  refine steppingIfArmedBeyond_of_le d _ none ?_ ?_ h
  · intro hx
    unfold armedBeyond at hx ⊢
    cases desired with
    | true => exact hx
    | false =>
      simp only [pauseEntry, resetEventualPauseState, Bool.not_false, if_true,
        Option.isSome_none, Bool.false_and, Bool.or_false] at hx
      simp only [Bool.or_eq_true]
      exact Or.inl (by simpa using hx)
  · unfold pauseEntry; simp only []; split <;> rfl

theorem armedStepping_pauseNow (env : Env) (g : Option GlobalObject) (after desired : Bool)
    (d : Debugger) (h : d.steppingIfArmedBeyond none = true) :
    (pauseNow env g after desired d).steppingIfArmedBeyond none = true := by
  have hentry := armedStepping_pauseEntry after desired d h
  have hloop := armedImpliesStepping_waitLoopEnded env g _
    ((armedImpliesStepping_iff _).2 hentry)
  have hfields := handlePause_fields env g (pauseEntry after desired d)
  have harmed : ∀ x : Debugger, armedBeyond x none = requestArmed x := by
    intro x
    unfold armedBeyond requestArmed
    cases x.m_pauseAtNextOpportunity <;> cases x.m_specialBreakpoint <;>
      cases x.m_pauseOnCallFrame <;> simp
  rw [pauseNow_eq]
  split
  · rename_i hnone
    unfold steppingIfArmedBeyond
    rw [harmed]
    have : requestArmed
        { setSteppingMode SteppingMode.SteppingModeDisabled
            { handlePause env g (pauseEntry after desired d) with
              m_reasonForPause := ReasonForPause.NotPaused,
              m_pausingBreakpointID := noBreakpointID } with
          m_currentCallFrame := none }
        = requestArmed (handlePause env g (pauseEntry after desired d)) := by
      simp only [setSteppingMode_eq]
      rfl
    rw [this, hnone]
    rfl
  · rename_i hsome
    have hsome2 : requestArmed (waitLoopEnded env g (pauseEntry after desired d)) = true := by
      rw [← hfields.1]
      cases hr : requestArmed (handlePause env g (pauseEntry after desired d)) with
      | true => rfl
      | false => exact absurd hr hsome
    apply steppingIfArmedBeyond_of_enabled
    show (handlePause env g (pauseEntry after desired d)).m_steppingMode = _
    rw [hfields.2.1]
    exact hloop hsome2

theorem armedStepping_pauseIfNeeded (env : Env) (g : Option GlobalObject) (d : Debugger)
    (h : d.steppingIfArmedBeyond none = true) :
    (pauseIfNeeded env g d).steppingIfArmedBeyond none = true :=
  pauseIfNeeded_invariant (fun x => x.steppingIfArmedBeyond none = true) env g d
    (fun flags x hx => armedStepping_shouldDeferPause flags none x hx)
    (fun step x hx => armedStepping_evaluateDeferredBreakpoints env none g step x hx)
    (fun after desired x hx => armedStepping_pauseNow env g after desired x hx)
    (fun x hx => armedStepping_guardedEntry x hx)
    (fun x hit line hx => armedStepping_atPauseTest x hit line hx)
    (fun _ hx => hx)
    h

theorem updateCallFrame_eq (env : Env) (g : Option GlobalObject) (frame : CallFrame)
    (action : CallFrameUpdateAction) (d : Debugger) :
    updateCallFrame env g (some frame) action d
      = if (afterPauseAttempt env g frame action d).m_steppingMode
            = SteppingMode.SteppingModeEnabled then
          afterPauseAttempt env g frame action d
        else { afterPauseAttempt env g frame action d with m_currentCallFrame := none } := by
  unfold updateCallFrame
  simp only []
  change (if (!isStepping (afterPauseAttempt env g frame action d)) = true then
      { afterPauseAttempt env g frame action d with m_currentCallFrame := none }
    else afterPauseAttempt env g frame action d) = _
  generalize afterPauseAttempt env g frame action d = x
  unfold isStepping
  by_cases h : x.m_steppingMode = SteppingMode.SteppingModeEnabled <;> simp [h]

/-- A frame that `updateCallFrame` leaves tracked shows that stepping is enabled. -/
theorem updateCallFrame_tracked_stepping (env : Env) (g : Option GlobalObject)
    (callFrame : Option CallFrame) (action : CallFrameUpdateAction) (d : Debugger)
    (h : (updateCallFrame env g callFrame action d).m_currentCallFrame.isSome = true) :
    (updateCallFrame env g callFrame action d).m_steppingMode
      = SteppingMode.SteppingModeEnabled := by
  cases callFrame with
  | none => simp [updateCallFrame] at h
  | some frame =>
    rw [updateCallFrame_eq] at h ⊢
    split at h
    · rename_i hstep
      rw [if_pos hstep]
      exact hstep
    · simp at h

theorem armedStepping_afterPauseAttempt (env : Env) (g : Option GlobalObject)
    (frame : CallFrame) (action : CallFrameUpdateAction) (d : Debugger)
    (h : d.steppingIfArmedBeyond none = true) :
    (afterPauseAttempt env g frame action d).steppingIfArmedBeyond none = true := by
  have hint : (updateCallFrameInternal env frame d).steppingIfArmedBeyond none = true := by
    rw [← h]
    exact steppingIfArmedBeyond_of_eq d _ none
      (by unfold updateCallFrameInternal; simp only []; split <;> rfl)
      (by unfold updateCallFrameInternal; simp only []; split <;> rfl)
      (by unfold updateCallFrameInternal; simp only []; split <;> rfl)
      (by unfold updateCallFrameInternal; simp only []; split <;> rfl)
  unfold afterPauseAttempt
  split
  · exact armedStepping_pauseIfNeeded env g _ hint
  · exact hint

theorem armedStepping_updateCallFrame (env : Env) (g : Option GlobalObject)
    (callFrame : Option CallFrame) (action : CallFrameUpdateAction) (d : Debugger)
    (h : d.steppingIfArmedBeyond none = true) :
    (updateCallFrame env g callFrame action d).steppingIfArmedBeyond none = true := by
  cases callFrame with
  | none => exact h
  | some frame =>
    rw [updateCallFrame_eq]
    split
    · exact armedStepping_afterPauseAttempt env g frame action d h
    · exact armedStepping_afterPauseAttempt env g frame action d h

theorem armedStepping_withPauseReason (reason : ReasonForPause) (body : Debugger → Debugger)
    (d : Debugger)
    (hbody : ∀ x, x.steppingIfArmedBeyond none = true → (body x).steppingIfArmedBeyond none = true)
    (h : d.steppingIfArmedBeyond none = true) :
    (withPauseReason reason body d).steppingIfArmedBeyond none = true :=
  hbody { d with m_reasonForPause := reason } h

end Debugger
end JSC

namespace JSC
namespace Debugger

/-! ### The callbacks keep stepping enabled while a request is armed -/

theorem armedStepping_atStatement (env : Env) (callFrame : Option CallFrame) (d : Debugger)
    (h : d.steppingIfArmedBeyond none = true) :
    (atStatement env callFrame d).steppingIfArmedBeyond none = true := by
  unfold atStatement
  split
  · exact h
  · exact armedStepping_updateCallFrame env _ callFrame _ _ h

theorem armedStepping_atExpression (env : Env) (callFrame : Option CallFrame) (d : Debugger)
    (h : d.steppingIfArmedBeyond none = true) :
    (atExpression env callFrame d).steppingIfArmedBeyond none = true := by
  unfold atExpression
  split
  · exact h
  · split
    · exact h
    · exact armedStepping_updateCallFrame env _ callFrame _ _ h

theorem armedStepping_callEvent (env : Env) (callFrame : Option CallFrame) (d : Debugger)
    (h : d.steppingIfArmedBeyond none = true) :
    (callEvent env callFrame d).steppingIfArmedBeyond none = true := by
  have hupdate := armedStepping_updateCallFrame env
    (lexicalGlobalObjectForCallFrame env callFrame) callFrame CallFrameUpdateAction.NoPause d h
  unfold callEvent
  split
  · exact h
  · simp only []
    cases callFrame with
    | none => exact hupdate
    | some frame =>
      simp only []
      rw [← hupdate]
      refine steppingIfArmedBeyond_dispatchFunctionToObservers _ _ ?_
      intro o x; rfl

/-- The caller frame becomes the target of the eventual request only while the
frame is tracked, that is while stepping is enabled. -/
theorem armedStepping_rebind (env : Env) (callerFrame : Option CallFrame) (x y : Debugger)
    (hx : x.steppingIfArmedBeyond none = true)
    (hmode : x.m_currentCallFrame.isSome = true →
      x.m_steppingMode = SteppingMode.SteppingModeEnabled)
    (hy : y = x ∨ (x.m_currentCallFrame.isSome = true ∧ y.m_steppingMode = x.m_steppingMode)) :
    (updateCallFrame env (lexicalGlobalObjectForCallFrame env callerFrame) callerFrame
      CallFrameUpdateAction.NoPause y).steppingIfArmedBeyond none = true := by
  apply armedStepping_updateCallFrame
  rcases hy with hy | ⟨hsome, hy⟩
  · rw [hy]; exact hx
  · exact steppingIfArmedBeyond_of_enabled _ _ (hy.trans (hmode hsome))

theorem armedStepping_returnEvent (env : Env) (callFrame : Option CallFrame) (d : Debugger)
    (h : d.steppingIfArmedBeyond none = true) :
    (returnEvent env callFrame d).steppingIfArmedBeyond none = true := by
  unfold returnEvent
  split
  · exact h
  · simp only []
    have hx : (withPauseReason ReasonForPause.PausedBeforeReturn
        (updateCallFrame env (lexicalGlobalObjectForCallFrame env callFrame) callFrame
          CallFrameUpdateAction.AttemptPause) d).steppingIfArmedBeyond none = true :=
      armedStepping_updateCallFrame env _ callFrame _ _ h
    have hmode : (withPauseReason ReasonForPause.PausedBeforeReturn
        (updateCallFrame env (lexicalGlobalObjectForCallFrame env callFrame) callFrame
          CallFrameUpdateAction.AttemptPause) d).m_currentCallFrame.isSome = true →
        (withPauseReason ReasonForPause.PausedBeforeReturn
          (updateCallFrame env (lexicalGlobalObjectForCallFrame env callFrame) callFrame
            CallFrameUpdateAction.AttemptPause) d).m_steppingMode
          = SteppingMode.SteppingModeEnabled :=
      fun hsome => updateCallFrame_tracked_stepping env _ callFrame _ _ hsome
    generalize withPauseReason ReasonForPause.PausedBeforeReturn
      (updateCallFrame env (lexicalGlobalObjectForCallFrame env callFrame) callFrame
        CallFrameUpdateAction.AttemptPause) d = x at hx hmode
    cases hcur : x.m_currentCallFrame with
    | none => exact hx
    | some currentCallFrame =>
      simp only []
      refine armedStepping_rebind env _ x _ hx hmode (Or.inr ⟨by rw [hcur]; rfl, ?_⟩)
      split <;> rfl

theorem armedStepping_unwindEvent (env : Env) (callFrame : Option CallFrame) (d : Debugger)
    (h : d.steppingIfArmedBeyond none = true) :
    (unwindEvent env callFrame d).steppingIfArmedBeyond none = true := by
  unfold unwindEvent
  split
  · exact h
  · simp only []
    have hx := armedStepping_updateCallFrame env
      (lexicalGlobalObjectForCallFrame env callFrame) callFrame CallFrameUpdateAction.NoPause d h
    have hmode := updateCallFrame_tracked_stepping env
      (lexicalGlobalObjectForCallFrame env callFrame) callFrame CallFrameUpdateAction.NoPause d
    generalize updateCallFrame env (lexicalGlobalObjectForCallFrame env callFrame) callFrame
      CallFrameUpdateAction.NoPause d = x at hx hmode
    cases hcur : x.m_currentCallFrame with
    | none => exact hx
    | some currentCallFrame =>
      simp only []
      refine armedStepping_rebind env _ x _ hx hmode (Or.inr ⟨by rw [hcur]; rfl, ?_⟩)
      split <;> rfl

theorem armedStepping_willExecuteProgram (env : Env) (callFrame : Option CallFrame)
    (d : Debugger) (h : d.steppingIfArmedBeyond none = true) :
    (willExecuteProgram env callFrame d).steppingIfArmedBeyond none = true := by
  unfold willExecuteProgram
  split
  · exact h
  · exact armedStepping_updateCallFrame env _ callFrame _ _ h

theorem armedStepping_resetIfDropped (z : Debugger)
    (hz : z.steppingIfArmedBeyond none = true) :
    (if z.m_currentCallFrame.isNone = true then
        { resetEventualPauseState (resetImmediatePauseState z) with m_deferredBreakpoints := [] }
      else z).steppingIfArmedBeyond none = true := by
  split
  · rfl
  · exact hz

theorem armedStepping_didExecuteProgram (env : Env) (callFrame : Option CallFrame)
    (d : Debugger) (h : d.steppingIfArmedBeyond none = true) :
    (didExecuteProgram env callFrame d).steppingIfArmedBeyond none = true := by
  unfold didExecuteProgram
  split
  · exact h
  · apply armedStepping_withPauseReason _ _ _ _ h
    intro y hy
    unfold didExecuteProgramBody
    simp only []
    have hx := armedStepping_updateCallFrame env
      (lexicalGlobalObjectForCallFrame env callFrame) callFrame
      CallFrameUpdateAction.AttemptPause y hy
    have hmode := updateCallFrame_tracked_stepping env
      (lexicalGlobalObjectForCallFrame env callFrame) callFrame
      CallFrameUpdateAction.AttemptPause y
    generalize updateCallFrame env (lexicalGlobalObjectForCallFrame env callFrame) callFrame
      CallFrameUpdateAction.AttemptPause y = x at hx hmode
    cases hcur : x.m_currentCallFrame with
    | none => exact hx
    | some currentCallFrame =>
      simp only []
      refine armedStepping_resetIfDropped _ ?_
      refine armedStepping_rebind env _ x _ hx hmode (Or.inr ⟨by rw [hcur]; rfl, ?_⟩)
      split <;> rfl

theorem armedStepping_armExceptionBreakpoint (hasCatchHandler : Bool) (d : Debugger)
    (h : d.steppingIfArmedBeyond none = true) :
    (armExceptionBreakpoint hasCatchHandler d).steppingIfArmedBeyond none = true := by
  unfold armExceptionBreakpoint
  split
  · exact steppingIfArmedBeyond_of_enabled _ _ (by simp [setSteppingMode_eq])
  · exact h

theorem armedStepping_exception (env : Env) (g : Option GlobalObject)
    (callFrame : Option CallFrame) (value : JSValue) (hasCatchHandler : Bool) (d : Debugger)
    (h : d.steppingIfArmedBeyond none = true) :
    (exception env g callFrame value hasCatchHandler d).steppingIfArmedBeyond none = true := by
  unfold exception
  split
  · exact h
  · split
    · exact h
    · apply armedStepping_withPauseReason _ _ _ _ h
      intro y hy
      unfold exceptionBody
      simp only []
      have harm := armedStepping_armExceptionBreakpoint hasCatchHandler y hy
      have hclean : ∀ (z : Debugger) (wasNull : Bool), z.steppingIfArmedBeyond none = true →
          (if wasNull = true then
              { z with m_currentException := none, m_hasHandlerForExceptionCallback := false,
                       m_currentCallFrame := none }
            else { z with m_currentException := none,
                          m_hasHandlerForExceptionCallback := false }).steppingIfArmedBeyond none
            = true := by
        intro z wasNull hz
        split <;> exact hz
      exact hclean _ _ (armedStepping_updateCallFrame env g _ _ _ harm)

theorem armedStepping_didReachDebuggerStatement (env : Env) (callFrame : Option CallFrame)
    (d : Debugger) (h : d.steppingIfArmedBeyond none = true) :
    (didReachDebuggerStatement env callFrame d).steppingIfArmedBeyond none = true := by
  unfold didReachDebuggerStatement
  split
  · exact h
  · split
    · exact h
    · apply armedStepping_withPauseReason _ _ _ _ h
      intro y _
      apply armedStepping_updateCallFrame
      exact steppingIfArmedBeyond_of_enabled _ _ (by simp [setSteppingMode_eq])

theorem armedStepping_breakProgram (env : Env) (specialBreakpoint : Option Breakpoint)
    (d : Debugger) (h : d.steppingIfArmedBeyond none = true) :
    (breakProgram env specialBreakpoint d).steppingIfArmedBeyond none = true := by
  unfold breakProgram
  split
  · exact h
  · split
    · exact h
    · apply armedStepping_pauseIfNeeded
      exact steppingIfArmedBeyond_of_enabled _ _ (by simp [setSteppingMode_eq])

theorem resolveBreakpoint_snd (breakpoint : Breakpoint) (sourceProvider : SourceProvider)
    (d : Debugger) :
    (resolveBreakpoint breakpoint sourceProvider d).2
      = debuggerParseData breakpoint.sourceID d := by
  unfold resolveBreakpoint
  simp only []
  split <;> rfl

theorem sourceParsed_eq_log (sourceProvider : SourceProvider) (errorLine : Int)
    (errorMessage : String) (d : Debugger) :
    ∃ events, sourceParsed sourceProvider errorLine errorMessage d
      = { d with log := d.log ++ events } := by
  unfold sourceParsed
  split
  · exact ⟨[], by simp⟩
  · split
    · exact ⟨_, dispatchFunctionToObservers_logEvent _ d⟩
    · exact ⟨_, dispatchFunctionToObservers_logEvent _ d⟩

theorem armedStepping_attach (globalObject : GlobalObject)
    (sourceProviders : List SourceProvider) (d : Debugger)
    (h : d.steppingIfArmedBeyond none = true) :
    (attach globalObject sourceProviders d).steppingIfArmedBeyond none = true := by
  unfold attach
  simp only []
  rw [← h]
  refine Eq.trans (foldl_preserves (fun y => y.steppingIfArmedBeyond none)
    (fun sourceProvider acc => sourceParsed sourceProvider (-1) "" acc) ?_ _ _) rfl
  intro p x
  obtain ⟨events, heq⟩ := sourceParsed_eq_log p (-1) "" x
  simp only [heq]
  rfl

theorem armedStepping_applyOperation (env : Env) (operation : Operation) (d : Debugger)
    (h : d.steppingIfArmedBeyond none = true) :
    (applyOperation env operation d).steppingIfArmedBeyond none = true := by
  cases operation with
  | command command => exact steppingIfArmedBeyond_runCommand env none command d h
  | attach globalObject sourceProviders => exact armedStepping_attach _ _ d h
  | sourceParsed sourceProvider errorLine errorMessage =>
    obtain ⟨events, heq⟩ := sourceParsed_eq_log sourceProvider errorLine errorMessage d
    simp only [applyOperation, heq]
    exact h
  | resolveBreakpoint breakpoint sourceProvider =>
    rw [← h]
    simp only [applyOperation, resolveBreakpoint_snd]
    unfold debuggerParseData
    split <;> rfl
  | setPauseOnAllExceptionsBreakpoint breakpoint => exact h
  | setPauseOnUncaughtExceptionsBreakpoint breakpoint => exact h
  | setPauseOnDebuggerStatementsBreakpoint breakpoint => exact h
  | setSuppressAllPauses suppress => exact h
  | breakProgram specialBreakpoint => exact armedStepping_breakProgram env _ d h
  | atStatement callFrame => exact armedStepping_atStatement env _ d h
  | atExpression callFrame => exact armedStepping_atExpression env _ d h
  | callEvent callFrame => exact armedStepping_callEvent env _ d h
  | returnEvent callFrame => exact armedStepping_returnEvent env _ d h
  | unwindEvent callFrame => exact armedStepping_unwindEvent env _ d h
  | willExecuteProgram callFrame => exact armedStepping_willExecuteProgram env _ d h
  | didExecuteProgram callFrame => exact armedStepping_didExecuteProgram env _ d h
  | exception g callFrame value hasCatchHandler =>
    exact armedStepping_exception env g callFrame value hasCatchHandler d h
  | didReachDebuggerStatement callFrame =>
    exact armedStepping_didReachDebuggerStatement env _ d h

theorem armedStepping_runOperations (steps : List (Env × Operation)) (d : Debugger)
    (h : d.steppingIfArmedBeyond none = true) :
    (runOperations steps d).steppingIfArmedBeyond none = true := by
  induction steps generalizing d with
  | nil => exact h
  | cons step rest ih =>
    exact ih _ (armedStepping_applyOperation step.1 step.2 d h)

end Debugger
end JSC

namespace JSC
namespace Debugger

/-- C35: in every state reached from the debugger `Debugger::Debugger` constructs by
operations of the client, setters and callbacks of the runtime, each in the
runtime as it is then, stepping mode is enabled whenever a request is armed
(`m_pauseAtNextOpportunity` is true, `m_pauseOnCallFrame` is not null or a
special breakpoint is armed); the same holds from any debugger in which it
holds; and an operation leaves the stepping mode disabled only in a state in
which none of the three is armed. -/
theorem armed_request_keeps_stepping_enabled (steps : List (Env × Operation))
    (d : Debugger) :
    (requestArmed (runOperations steps initial) = true →
      (runOperations steps initial).m_steppingMode = SteppingMode.SteppingModeEnabled) ∧
    ((requestArmed d = true → d.m_steppingMode = SteppingMode.SteppingModeEnabled) →
      requestArmed (runOperations steps d) = true →
      (runOperations steps d).m_steppingMode = SteppingMode.SteppingModeEnabled) ∧
    (∀ (env : Env) (operation : Operation),
      (requestArmed d = true → d.m_steppingMode = SteppingMode.SteppingModeEnabled) →
      (applyOperation env operation d).m_steppingMode = SteppingMode.SteppingModeDisabled →
      (applyOperation env operation d).m_pauseAtNextOpportunity = false ∧
      (applyOperation env operation d).m_pauseOnCallFrame = none ∧
      (applyOperation env operation d).m_specialBreakpoint = none) := by
  refine ⟨?_, ?_, ?_⟩
  · exact (armedImpliesStepping_iff _).2
      (armedStepping_runOperations steps initial (by decide))
  · intro h
    exact (armedImpliesStepping_iff _).2
      (armedStepping_runOperations steps d ((armedImpliesStepping_iff d).1 h))
  · intro env operation h hdisabled
    have hinv := (armedImpliesStepping_iff _).2
      (armedStepping_applyOperation env operation d ((armedImpliesStepping_iff d).1 h))
    generalize applyOperation env operation d = x at hdisabled hinv
    have hnot : requestArmed x = false := by
      cases hr : requestArmed x with
      | false => rfl
      | true =>
        have := hinv hr
        rw [hdisabled] at this
        exact absurd this (by decide)
    unfold requestArmed at hnot
    cases h1 : x.m_pauseAtNextOpportunity <;> cases h2 : x.m_pauseOnCallFrame <;>
      cases h3 : x.m_specialBreakpoint <;> simp_all

theorem armed_request_keeps_stepping_enabled_witness :
    (runOperations (steppingSession.take 4) initial).m_pauseOnCallFrame = some 100 ∧
    (runOperations (steppingSession.take 4) initial).m_steppingMode
      = SteppingMode.SteppingModeEnabled ∧
    (runOperations steppingSession initial).m_steppingMode
      = SteppingMode.SteppingModeDisabled ∧
    (runOperations steppingSession initial).m_pauseAtNextOpportunity = false ∧
    (runOperations steppingSession initial).m_pauseOnCallFrame = none ∧
    (runOperations steppingSession initial).m_specialBreakpoint = none :=
  ⟨by decide,
    (armed_request_keeps_stepping_enabled (steppingSession.take 4) initial).1 (by decide),
    by decide,
    (armed_request_keeps_stepping_enabled [] (runOperations (steppingSession.take 5) initial)).2.2
      (scriptEnv (TextPosition.mk 9 0)) (Operation.exception (some 1) (some 50) 13 false)
      (fun harmed => absurd harmed (by decide)) (by decide)⟩

end Debugger
end JSC

namespace JSC
namespace Debugger

/-! ### The tracked frame while a target frame is set -/

theorem trackedOrDropped_of_eq (d x : Debugger) (frame : CallFrame)
    (h1 : x.m_currentCallFrame = d.m_currentCallFrame)
    (h2 : x.m_pauseOnCallFrame = d.m_pauseOnCallFrame) :
    x.trackedOrDropped frame = d.trackedOrDropped frame := by
  simp [trackedOrDropped, h1, h2]

theorem trackedOrDropped_of_none (d x : Debugger) (frame : CallFrame)
    (h1 : x.m_currentCallFrame = d.m_currentCallFrame)
    (h2 : x.m_pauseOnCallFrame = none)
    (h : d.trackedOrDropped frame = true) : x.trackedOrDropped frame = true := by
  unfold trackedOrDropped at h ⊢
  rw [h1, h2]
  simp only [Bool.and_eq_true] at h
  simp [h.1]

theorem trackedOrDropped_of_dropped (x : Debugger) (frame : CallFrame)
    (h1 : x.m_currentCallFrame = none) (h2 : x.m_pauseOnCallFrame = none) :
    x.trackedOrDropped frame = true := by
  simp [trackedOrDropped, h1, h2]

theorem trackedOrDropped_continueProgram (d : Debugger) (frame : CallFrame)
    (h : d.trackedOrDropped frame = true) :
    (continueProgram d).trackedOrDropped frame = true := by
  refine trackedOrDropped_of_none d _ frame ?_ ?_ h
  · unfold continueProgram; simp only []; split <;> rfl
  · unfold continueProgram; simp only []; split <;> rfl

theorem trackedOrDropped_runCommand (env : Env) (frame : CallFrame)
    (c : ClientCommand) (d : Debugger) (h : d.trackedOrDropped frame = true) :
    (runCommand env c d).trackedOrDropped frame = true := by
  have hfirst : (d.m_currentCallFrame.isNone || decide (d.m_currentCallFrame = some frame))
      = true := by
    unfold trackedOrDropped at h
    simp only [Bool.and_eq_true] at h
    exact h.1
  cases c with
  | schedulePauseAtNextOpportunity =>
    rw [← h]
    exact trackedOrDropped_of_eq d _ frame
      (by simp [runCommand, schedulePauseAtNextOpportunity, setSteppingMode_eq])
      (by simp [runCommand, schedulePauseAtNextOpportunity, setSteppingMode_eq])
  | schedulePauseForSpecialBreakpoint b =>
    rw [← h]
    exact trackedOrDropped_of_eq d _ frame
      (by simp only [runCommand, schedulePauseForSpecialBreakpoint, setSteppingMode_eq]
          split <;> rfl)
      (by simp only [runCommand, schedulePauseForSpecialBreakpoint, setSteppingMode_eq]
          split <;> rfl)
  | stepNextExpression =>
    simp only [runCommand, stepNextExpression, setSteppingMode_eq]
    split
    · exact h
    · unfold trackedOrDropped
      simp only [hfirst, Bool.true_and]
      cases d.m_currentCallFrame <;> rfl
  | stepIntoStatement =>
    rw [← h]
    exact trackedOrDropped_of_eq d _ frame
      (by simp only [runCommand, stepIntoStatement, setSteppingMode_eq]; split <;> rfl)
      (by simp only [runCommand, stepIntoStatement, setSteppingMode_eq]; split <;> rfl)
  | stepOverStatement =>
    simp only [runCommand, stepOverStatement, setSteppingMode_eq]
    split
    · exact h
    · unfold trackedOrDropped
      simp only [hfirst, Bool.true_and]
      cases d.m_currentCallFrame <;> rfl
  | stepOutOfFunction =>
    simp only [runCommand, stepOutOfFunction, setSteppingMode_eq]
    split
    · exact h
    · unfold trackedOrDropped
      simp only [hfirst, Bool.true_and]
      cases d.m_currentCallFrame <;> simp
  | continueProgram => exact trackedOrDropped_continueProgram d frame h
  | cancelPauseAtNextOpportunity => exact h
  | cancelPauseForSpecialBreakpoint b =>
    simp only [runCommand, cancelPauseForSpecialBreakpoint]
    split
    · exact h
    · exact h
  | clearBreakpoints => exact h
  | detach g r =>
    simp only [runCommand, detach]
    have hcont := trackedOrDropped_continueProgram
      { d with m_currentCallFrame := none, m_pauseOnCallFrame := none } frame
      (trackedOrDropped_of_dropped _ frame rfl rfl)
    split <;> split <;> first
      | exact h
      | exact hcont
  | setBreakpoint b =>
    rw [← h]
    exact trackedOrDropped_of_eq d _ frame
      (by simp only [runCommand]; unfold setBreakpoint; simp only []; split <;> rfl)
      (by simp only [runCommand]; unfold setBreakpoint; simp only []; split <;> rfl)
  | removeBreakpoint b =>
    rw [← h]
    exact trackedOrDropped_of_eq d _ frame
      (by simp only [runCommand]; unfold removeBreakpoint; split; rfl; split <;> rfl)
      (by simp only [runCommand]; unfold removeBreakpoint; split; rfl; split <;> rfl)
  | setBreakpointsActivated a =>
    rw [← h]
    exact trackedOrDropped_of_eq d _ frame
      (by simp only [runCommand]; unfold setBreakpointsActivated; split <;> rfl)
      (by simp only [runCommand]; unfold setBreakpointsActivated; split <;> rfl)
  | setBlackboxConfiguration s config =>
    rw [← h]
    exact trackedOrDropped_of_eq d _ frame
      (by simp only [runCommand]; unfold setBlackboxConfiguration; split <;> rfl)
      (by simp only [runCommand]; unfold setBlackboxConfiguration; split <;> rfl)
  | setBlackboxBreakpointEvaluations v => exact h
  | clearBlackbox => exact h
  | addObserver o =>
    rw [← h]
    exact trackedOrDropped_of_eq d _ frame
      (by simp only [runCommand]; unfold addObserver; simp only []; split <;> rfl)
      (by simp only [runCommand]; unfold addObserver; simp only []; split <;> rfl)
  | removeObserver o b =>
    rw [← h]
    exact trackedOrDropped_of_eq d _ frame
      (by simp only [runCommand]; unfold removeObserver; simp only []; split <;> rfl)
      (by simp only [runCommand]; unfold removeObserver; simp only []; split <;> rfl)

theorem trackedOrDropped_runCommands (env : Env) (frame : CallFrame)
    (cs : List ClientCommand) (d : Debugger) (h : d.trackedOrDropped frame = true) :
    (runCommands env cs d).trackedOrDropped frame = true := by
  induction cs generalizing d with
  | nil => exact h
  | cons c rest ih => exact ih _ (trackedOrDropped_runCommand env frame c d h)

theorem trackedOrDropped_runEventLoopWhilePaused (env : Env) (frame : CallFrame)
    (cs : List ClientCommand) (d : Debugger) (h : d.trackedOrDropped frame = true) :
    (runEventLoopWhilePaused env cs d).trackedOrDropped frame = true := by
  induction cs generalizing d with
  | nil => exact h
  | cons c rest ih =>
    unfold runEventLoopWhilePaused
    split
    · exact h
    · exact ih _ (trackedOrDropped_runCommand env frame c d h)

theorem trackedOrDropped_logEvent {frame : CallFrame} (e : Event) (d : Debugger) :
    (logEvent e d).trackedOrDropped frame = d.trackedOrDropped frame := rfl

theorem trackedOrDropped_currentDebuggerCallFrame {frame : CallFrame} (d : Debugger) :
    (currentDebuggerCallFrame d).trackedOrDropped frame = d.trackedOrDropped frame := by
  unfold currentDebuggerCallFrame; split <;> rfl

theorem trackedOrDropped_reportException {frame : CallFrame}
    (g : Option GlobalObject) (e : JSValue) (d : Debugger) :
    (reportException g e d).trackedOrDropped frame = d.trackedOrDropped frame := rfl

theorem trackedOrDropped_dispatchFunctionToObservers {frame : CallFrame}
    (func : Observer → Debugger → Debugger) (d : Debugger)
    (h : ∀ o x, (func o x).trackedOrDropped frame = x.trackedOrDropped frame) :
    (dispatchFunctionToObservers func d).trackedOrDropped frame = d.trackedOrDropped frame :=
  dispatchFunctionToObservers_preserves (fun y => y.trackedOrDropped frame) func h d

theorem tracked_evaluateWithScopeExtension (env : Env) (frame : CallFrame)
    (s : String) (d : Debugger) (h : d.trackedOrDropped frame = true) :
    (evaluateWithScopeExtension env s d).2.trackedOrDropped frame = true :=
  trackedOrDropped_runCommands env frame _ _ h

end Debugger
end JSC

namespace JSC
namespace Debugger

theorem tracked_evaluateBreakpointCondition (env : Env) (frame : CallFrame) (b : Breakpoint)
    (g : Option GlobalObject) (d : Debugger) (h : d.trackedOrDropped frame = true) :
    (evaluateBreakpointCondition env b g d).2.trackedOrDropped frame = true := by
  have hev := tracked_evaluateWithScopeExtension env frame b.condition (currentDebuggerCallFrame d)
    (by rw [trackedOrDropped_currentDebuggerCallFrame]; exact h)
  unfold evaluateBreakpointCondition
  simp only []
  split
  · exact h
  · split
    · exact hev
    · split
      · rw [trackedOrDropped_reportException]; exact hev
      · exact hev

theorem tracked_shouldPause (env : Env) (frame : CallFrame) (b : Breakpoint)
    (g : Option GlobalObject) (d : Debugger) (h : d.trackedOrDropped frame = true) :
    (shouldPause env b g d).2.trackedOrDropped frame = true :=
  tracked_evaluateBreakpointCondition env frame b g d h

theorem tracked_evaluateBreakpointAction (env : Env) (frame : CallFrame) (a : Action)
    (g : Option GlobalObject) (d : Debugger) (h : d.trackedOrDropped frame = true) :
    (evaluateBreakpointAction env a g d).trackedOrDropped frame = true := by
  unfold evaluateBreakpointAction
  simp only []
  have hwill : ∀ (x : Debugger), x.trackedOrDropped frame = true →
      (currentDebuggerCallFrame
        (if x.m_hasClient = true then logEvent (Event.clientWillEvaluate a) x else x)).trackedOrDropped frame
        = true := by
    intro x hx
    rw [trackedOrDropped_currentDebuggerCallFrame]
    split
    · exact hx
    · exact hx
  have hdid : ∀ (x : Debugger), x.trackedOrDropped frame = true →
      (if x.m_hasClient = true then logEvent (Event.clientDidEvaluate a) x else x).trackedOrDropped frame
        = true := by
    intro x hx
    split
    · exact hx
    · exact hx
  apply hdid
  cases a.type with
  | Log =>
    simp only []
    refine Eq.trans (trackedOrDropped_dispatchFunctionToObservers _ _ ?_) (hwill d h)
    intro o y; rfl
  | Evaluate =>
    simp only []
    have hev := tracked_evaluateWithScopeExtension env frame a.data _ (hwill d h)
    split
    · rw [trackedOrDropped_reportException]; exact hev
    · exact hev
  | Sound =>
    simp only []
    refine Eq.trans (trackedOrDropped_dispatchFunctionToObservers _ _ ?_) (hwill d h)
    intro o y; rfl
  | Probe =>
    simp only []
    have hev := tracked_evaluateWithScopeExtension env frame a.data _ (hwill d h)
    refine Eq.trans (trackedOrDropped_dispatchFunctionToObservers _ _ ?_) ?_
    · intro o y; rfl
    · split
      · rw [trackedOrDropped_reportException]; exact hev
      · exact hev

theorem tracked_evaluateBreakpointActionsLoop (env : Env) (frame : CallFrame)
    (g : Option GlobalObject) (actions : List Action) (d : Debugger) (h : d.trackedOrDropped frame = true) :
    (evaluateBreakpointActionsLoop env g actions d).trackedOrDropped frame = true := by
  induction actions generalizing d with
  | nil => exact h
  | cons a rest ih =>
    unfold evaluateBreakpointActionsLoop
    simp only []
    split
    · exact tracked_evaluateBreakpointAction env frame a g d h
    · exact ih _ (tracked_evaluateBreakpointAction env frame a g d h)

theorem tracked_evaluateBreakpointActions (env : Env) (frame : CallFrame) (b : Breakpoint)
    (g : Option GlobalObject) (d : Debugger) (h : d.trackedOrDropped frame = true) :
    (evaluateBreakpointActions env b g d).trackedOrDropped frame = true :=
  tracked_evaluateBreakpointActionsLoop env frame g b.actions _ h

theorem tracked_deferredBreakpointsLoop (env : Env) (frame : CallFrame)
    (g : Option GlobalObject) (bps : List Breakpoint) (st : DeferredLoopState) (d : Debugger)
    (h : d.trackedOrDropped frame = true) :
    (deferredBreakpointsLoop env g bps st d).2.trackedOrDropped frame = true := by
  induction bps generalizing st d with
  | nil => exact h
  | cons b rest ih =>
    have h1 := tracked_shouldPause env frame b g d h
    have h2 := tracked_evaluateBreakpointActions env frame b g _ h1
    unfold deferredBreakpointsLoop
    simp only []
    split
    · exact h1
    · split
      · exact ih _ _ h1
      · split
        · exact h2
        · split <;> exact ih _ _ h2

theorem tracked_evaluateDeferredBreakpoints (env : Env) (frame : CallFrame)
    (g : Option GlobalObject) (step : Bool) (d : Debugger) (h : d.trackedOrDropped frame = true) :
    (evaluateDeferredBreakpoints env g step d).2.trackedOrDropped frame = true := by
  unfold evaluateDeferredBreakpoints
  split
  · exact h
  · simp only []
    have hloop := tracked_deferredBreakpointsLoop env frame g d.m_deferredBreakpoints {}
      { d with m_deferredBreakpoints := [] } h
    generalize deferredBreakpointsLoop env g d.m_deferredBreakpoints {}
      { d with m_deferredBreakpoints := [] } = r at hloop
    obtain ⟨state, x⟩ := r
    simp only at hloop
    cases state with
    | none => exact hloop
    | some state =>
      simp only []
      split
      · split <;> exact hloop
      · split <;> exact hloop

end Debugger
end JSC


namespace JSC
namespace Debugger

theorem tracked_shouldDeferPause (flags : BlackboxFlags) (frame : CallFrame) (d : Debugger)
    (h : d.trackedOrDropped frame = true) :
    (shouldDeferPause flags d).2.trackedOrDropped frame = true := by
  rw [← h]
  exact shouldDeferPause_preserves (fun y => y.trackedOrDropped frame)
    (fun _ _ => rfl) (fun _ => rfl) (fun _ => rfl)
    (fun y => by
      simp only [schedulePauseAtNextOpportunity, setSteppingMode_eq]
      rfl)
    flags d

theorem tracked_guardedEntry (frame : CallFrame) (d : Debugger)
    (h : d.trackedOrDropped frame = true) : (guardedEntry d).trackedOrDropped frame = true := by
  unfold guardedEntry
  simp only []
  split
  · exact trackedOrDropped_of_none d _ frame rfl rfl h
  · exact h

theorem tracked_pauseEntry (frame : CallFrame) (after desired : Bool) (d : Debugger)
    (h : d.trackedOrDropped frame = true) :
    (pauseEntry after desired d).trackedOrDropped frame = true := by
  unfold pauseEntry
  simp only []
  split
  · exact trackedOrDropped_of_none d _ frame rfl rfl h
  · exact h

theorem tracked_waitLoopEnded (env : Env) (g : Option GlobalObject) (frame : CallFrame)
    (d : Debugger) (h : d.trackedOrDropped frame = true) :
    (waitLoopEnded env g d).trackedOrDropped frame = true := by
  unfold waitLoopEnded
  simp only []
  apply trackedOrDropped_runEventLoopWhilePaused
  rw [← h]
  show (dispatchFunctionToObservers _ d).trackedOrDropped frame = _
  exact trackedOrDropped_dispatchFunctionToObservers _ d
    (fun o x => trackedOrDropped_currentDebuggerCallFrame x)

theorem tracked_handlePause (env : Env) (g : Option GlobalObject) (frame : CallFrame)
    (d : Debugger) (h : d.trackedOrDropped frame = true) :
    (handlePause env g d).trackedOrDropped frame = true := by
  rw [handlePause_eq, ← tracked_waitLoopEnded env g frame d h]
  refine Eq.trans (trackedOrDropped_dispatchFunctionToObservers _ _ ?_) rfl
  intro o x; rfl

theorem tracked_pauseNow (env : Env) (g : Option GlobalObject) (frame : CallFrame)
    (after desired : Bool) (d : Debugger) (h : d.trackedOrDropped frame = true) :
    (pauseNow env g after desired d).trackedOrDropped frame = true := by
  have hpause := tracked_handlePause env g frame _ (tracked_pauseEntry frame after desired d h)
  rw [pauseNow_eq]
  split
  · rename_i hnone
    apply trackedOrDropped_of_dropped
    · simp only [setSteppingMode_eq]
    · simp only [setSteppingMode_eq]
      unfold requestArmed at hnone
      cases hp : (handlePause env g (pauseEntry after desired d)).m_pauseOnCallFrame with
      | none => rfl
      | some f => rw [hp] at hnone; simp at hnone
  · exact hpause

theorem tracked_pauseIfNeeded (env : Env) (g : Option GlobalObject) (frame : CallFrame)
    (d : Debugger) (h : d.trackedOrDropped frame = true) :
    (pauseIfNeeded env g d).trackedOrDropped frame = true :=
  pauseIfNeeded_invariant (fun x => x.trackedOrDropped frame = true) env g d
    (fun flags x hx => tracked_shouldDeferPause flags frame x hx)
    (fun step x hx => tracked_evaluateDeferredBreakpoints env frame g step x hx)
    (fun after desired x hx => tracked_pauseNow env g frame after desired x hx)
    (fun x hx => tracked_guardedEntry frame x hx)
    (fun _ _ _ hx => hx)
    (fun _ hx => hx)
    h

theorem tracked_afterPauseAttempt (env : Env) (g : Option GlobalObject) (frame : CallFrame)
    (action : CallFrameUpdateAction) (d : Debugger) :
    (afterPauseAttempt env g frame action d).trackedOrDropped frame = true := by
  have hint : (updateCallFrameInternal env frame d).trackedOrDropped frame = true := by
    unfold updateCallFrameInternal trackedOrDropped
    simp only []
    split <;> simp
  unfold afterPauseAttempt
  split
  · exact tracked_pauseIfNeeded env g frame _ hint
  · exact hint

/-- After `updateCallFrame` the tracked frame is the frame of the call or null, and
it is the frame of the call when the eventual request has a target frame. -/
theorem updateCallFrame_tracked (env : Env) (g : Option GlobalObject) (frame : CallFrame)
    (action : CallFrameUpdateAction) (d : Debugger)
    (h : d.steppingIfArmedBeyond none = true) :
    ((updateCallFrame env g (some frame) action d).m_currentCallFrame = none
      ∨ (updateCallFrame env g (some frame) action d).m_currentCallFrame = some frame) ∧
    ((updateCallFrame env g (some frame) action d).m_pauseOnCallFrame.isSome = true →
      (updateCallFrame env g (some frame) action d).m_currentCallFrame = some frame) := by
  have htracked := tracked_afterPauseAttempt env g frame action d
  have harmed := armedStepping_afterPauseAttempt env g frame action d h
  rw [updateCallFrame_eq]
  generalize afterPauseAttempt env g frame action d = y at htracked harmed
  unfold trackedOrDropped at htracked
  unfold steppingIfArmedBeyond armedBeyond at harmed
  split
  · cases hcur : y.m_currentCallFrame with
    | none =>
      rw [hcur] at htracked
      refine ⟨Or.inl rfl, ?_⟩
      intro hsome
      cases hp : y.m_pauseOnCallFrame with
      | none => rw [hp] at hsome; simp at hsome
      | some f => rw [hp] at htracked; simp at htracked
    | some f =>
      rw [hcur] at htracked
      have hf : f = frame := by simpa using htracked
      subst hf
      exact ⟨Or.inr rfl, fun _ => rfl⟩
  · rename_i hmode
    refine ⟨Or.inl rfl, ?_⟩
    intro hsome
    have hsome2 : y.m_pauseOnCallFrame.isSome = true := hsome
    cases hp : y.m_pauseOnCallFrame with
    | none => rw [hp] at hsome2; simp at hsome2
    | some f =>
      rw [hp] at harmed
      simp at harmed
      exact absurd harmed hmode

end Debugger
end JSC

namespace JSC
namespace Debugger

/-! ### A return or an unwind out of the target frame -/

theorem updateCallFrame_noPause_request (env : Env) (g : Option GlobalObject)
    (callFrame : Option CallFrame) (d : Debugger) :
    (updateCallFrame env g callFrame CallFrameUpdateAction.NoPause d).m_pauseOnCallFrame
      = d.m_pauseOnCallFrame ∧
    (updateCallFrame env g callFrame CallFrameUpdateAction.NoPause d).m_pauseOnStepNext
      = d.m_pauseOnStepNext ∧
    (updateCallFrame env g callFrame CallFrameUpdateAction.NoPause d).m_pauseOnStepOut
      = d.m_pauseOnStepOut ∧
    (updateCallFrame env g callFrame CallFrameUpdateAction.NoPause d).m_pauseAtNextOpportunity
      = d.m_pauseAtNextOpportunity := by
  cases callFrame with
  | none => exact ⟨rfl, rfl, rfl, rfl⟩
  | some frame =>
    have hint : (afterPauseAttempt env g frame CallFrameUpdateAction.NoPause d).m_pauseOnCallFrame
          = d.m_pauseOnCallFrame ∧
        (afterPauseAttempt env g frame CallFrameUpdateAction.NoPause d).m_pauseOnStepNext
          = d.m_pauseOnStepNext ∧
        (afterPauseAttempt env g frame CallFrameUpdateAction.NoPause d).m_pauseOnStepOut
          = d.m_pauseOnStepOut ∧
        (afterPauseAttempt env g frame
            CallFrameUpdateAction.NoPause d).m_pauseAtNextOpportunity
          = d.m_pauseAtNextOpportunity := by
      unfold afterPauseAttempt updateCallFrameInternal
      simp only [reduceCtorEq, if_false]
      split <;> exact ⟨rfl, rfl, rfl, rfl⟩
    rw [updateCallFrame_eq]
    split
    · exact hint
    · exact hint

/-- While stepping is enabled, `updateCallFrame` without a pause attempt tracks the
frame and touches nothing but the tracked frame and the last executed script and
line. -/
theorem updateCallFrame_noPause_stepping (env : Env) (g : Option GlobalObject)
    (frame : CallFrame) (d : Debugger)
    (hstepping : d.m_steppingMode = SteppingMode.SteppingModeEnabled) :
    updateCallFrame env g (some frame) CallFrameUpdateAction.NoPause d
      = updateCallFrameInternal env frame d := by
  have hmode : (updateCallFrameInternal env frame d).m_steppingMode
      = SteppingMode.SteppingModeEnabled := by
    rw [← hstepping]
    unfold updateCallFrameInternal
    simp only []
    split <;> rfl
  rw [updateCallFrame_eq]
  unfold afterPauseAttempt
  simp only [reduceCtorEq, if_false]
  rw [if_pos hmode]

/-- C31 (as stated, refuted): a step-over is pending in frame 100, whose caller is
frame 50, and neither step flag is set.  `unwindEvent` for frame 100 makes
frame 50 the target but leaves the step-out flag unset, whereas
`stepOutOfFunction` from frame 100 sets it. -/
theorem unwindEvent_leaves_step_out_flag_unset :
    steppingOverFrame.m_isPaused = false ∧
    steppingOverFrame.m_steppingMode = SteppingMode.SteppingModeEnabled ∧
    steppingOverFrame.m_pauseOnCallFrame = some 100 ∧
    (unwindEvent callerEnv (some 100) steppingOverFrame).m_pauseOnCallFrame = some 50 ∧
    (unwindEvent callerEnv (some 100) steppingOverFrame).m_pauseOnStepOut = false ∧
    (stepOutOfFunction callerEnv
      { steppingOverFrame with m_isPaused := true,
                               m_currentCallFrame := some 100 }).m_pauseOnCallFrame
      = some 50 ∧
    (stepOutOfFunction callerEnv
      { steppingOverFrame with m_isPaused := true,
                               m_currentCallFrame := some 100 }).m_pauseOnStepOut = true := by
  decide

/-- C31 (amended): for a debugger that is not paused and has stepping enabled, and
a frame that is not null.  `returnEvent`: if the frame is the target of the
eventual request after the pause attempt of the callback, then on exit the
target is the caller of the frame and the step-out flag is set, the step-next
flag being as the pause attempt left it, which is the request
`stepOutOfFunction` produces from that frame; if it is not the target, the
eventual request is as the pause attempt left it.  `unwindEvent`: if the frame
is the target, then on exit the target is the caller of the frame and both step
flags are unchanged, so the step-out flag is not set by the callback; if it is
not the target, the eventual request is unchanged. -/
theorem return_and_unwind_rebind_target (env : Env) (frame : CallFrame) (d : Debugger)
    (hpaused : d.m_isPaused = false)
    (hstepping : d.m_steppingMode = SteppingMode.SteppingModeEnabled) :
    ((returnAttempt env frame d).m_pauseOnCallFrame = some frame →
      (returnEvent env (some frame) d).m_pauseOnCallFrame = env.callerFrame frame ∧
      (returnEvent env (some frame) d).m_pauseOnStepOut = true ∧
      (returnEvent env (some frame) d).m_pauseOnStepNext
        = (returnAttempt env frame d).m_pauseOnStepNext ∧
      (returnEvent env (some frame) d).m_pauseOnCallFrame
        = (stepOutOfFunction env
            { returnAttempt env frame d with
              m_isPaused := true, m_currentCallFrame := some frame }).m_pauseOnCallFrame ∧
      (returnEvent env (some frame) d).m_pauseOnStepOut
        = (stepOutOfFunction env
            { returnAttempt env frame d with
              m_isPaused := true, m_currentCallFrame := some frame }).m_pauseOnStepOut ∧
      (returnEvent env (some frame) d).m_pauseOnStepNext
        = (stepOutOfFunction env
            { returnAttempt env frame d with
              m_isPaused := true, m_currentCallFrame := some frame }).m_pauseOnStepNext) ∧
    ((returnAttempt env frame d).m_pauseOnCallFrame ≠ some frame →
      (returnEvent env (some frame) d).m_pauseOnCallFrame
        = (returnAttempt env frame d).m_pauseOnCallFrame ∧
      (returnEvent env (some frame) d).m_pauseOnStepOut
        = (returnAttempt env frame d).m_pauseOnStepOut ∧
      (returnEvent env (some frame) d).m_pauseOnStepNext
        = (returnAttempt env frame d).m_pauseOnStepNext) ∧
    (d.m_pauseOnCallFrame = some frame →
      (unwindEvent env (some frame) d).m_pauseOnCallFrame = env.callerFrame frame ∧
      (unwindEvent env (some frame) d).m_pauseOnStepOut = d.m_pauseOnStepOut ∧
      (unwindEvent env (some frame) d).m_pauseOnStepNext = d.m_pauseOnStepNext) ∧
    (d.m_pauseOnCallFrame ≠ some frame →
      (unwindEvent env (some frame) d).m_pauseOnCallFrame = d.m_pauseOnCallFrame ∧
      (unwindEvent env (some frame) d).m_pauseOnStepOut = d.m_pauseOnStepOut ∧
      (unwindEvent env (some frame) d).m_pauseOnStepNext = d.m_pauseOnStepNext) := by
  have hreturn : returnEvent env (some frame) d
      = match (returnAttempt env frame d).m_currentCallFrame with
        | none => returnAttempt env frame d
        | some currentCallFrame =>
          updateCallFrame env (lexicalGlobalObjectForCallFrame env
              (env.callerFrame currentCallFrame)) (env.callerFrame currentCallFrame)
            CallFrameUpdateAction.NoPause
            (if (returnAttempt env frame d).m_currentCallFrame
                = (returnAttempt env frame d).m_pauseOnCallFrame then
              { returnAttempt env frame d with
                m_pastFirstExpressionInStatement := true,
                m_pauseOnCallFrame := env.callerFrame currentCallFrame,
                m_pauseOnStepOut := true }
            else { returnAttempt env frame d with
                   m_pastFirstExpressionInStatement := true }) := by
    unfold returnEvent
    rw [if_neg (by simp [hpaused])]
    rfl
  have htracked := updateCallFrame_tracked env (lexicalGlobalObjectForCallFrame env (some frame))
    frame CallFrameUpdateAction.AttemptPause
    { d with m_reasonForPause := ReasonForPause.PausedBeforeReturn }
    (steppingIfArmedBeyond_of_enabled _ _ hstepping)
  have hcurrent : (returnAttempt env frame d).m_currentCallFrame = none
      ∨ (returnAttempt env frame d).m_currentCallFrame = some frame := htracked.1
  have htarget : (returnAttempt env frame d).m_pauseOnCallFrame.isSome = true →
      (returnAttempt env frame d).m_currentCallFrame = some frame := htracked.2
  have hunwind : unwindEvent env (some frame) d
      = updateCallFrame env (lexicalGlobalObjectForCallFrame env (env.callerFrame frame))
          (env.callerFrame frame) CallFrameUpdateAction.NoPause
          (if some frame = d.m_pauseOnCallFrame then
            { updateCallFrameInternal env frame d with
              m_pauseOnCallFrame := env.callerFrame frame }
          else updateCallFrameInternal env frame d) := by
    have hframe : (updateCallFrameInternal env frame d).m_currentCallFrame = some frame
        ∧ (updateCallFrameInternal env frame d).m_pauseOnCallFrame = d.m_pauseOnCallFrame := by
      unfold updateCallFrameInternal
      simp only []
      split <;> exact ⟨rfl, rfl⟩
    unfold unwindEvent
    rw [if_neg (by simp [hpaused])]
    simp only []
    rw [updateCallFrame_noPause_stepping env _ frame d hstepping]
    generalize updateCallFrameInternal env frame d = y at hframe
    obtain ⟨h1, h2⟩ := hframe
    simp only [h1, h2]
  have hfields : (updateCallFrameInternal env frame d).m_pauseOnStepOut = d.m_pauseOnStepOut
      ∧ (updateCallFrameInternal env frame d).m_pauseOnStepNext = d.m_pauseOnStepNext
      ∧ (updateCallFrameInternal env frame d).m_pauseOnCallFrame = d.m_pauseOnCallFrame := by
    unfold updateCallFrameInternal
    simp only []
    split <;> exact ⟨rfl, rfl, rfl⟩
  refine ⟨?_, ?_, ?_, ?_⟩
  · intro his
    have hcur := htarget (by rw [his]; rfl)
    have hstepOut : (stepOutOfFunction env
        { returnAttempt env frame d with
          m_isPaused := true, m_currentCallFrame := some frame }).m_pauseOnCallFrame
          = env.callerFrame frame ∧
        (stepOutOfFunction env
          { returnAttempt env frame d with
            m_isPaused := true, m_currentCallFrame := some frame }).m_pauseOnStepOut = true ∧
        (stepOutOfFunction env
          { returnAttempt env frame d with
            m_isPaused := true, m_currentCallFrame := some frame }).m_pauseOnStepNext
          = (returnAttempt env frame d).m_pauseOnStepNext := by
      simp [stepOutOfFunction, setSteppingMode_eq]
    have hres : (returnEvent env (some frame) d).m_pauseOnCallFrame = env.callerFrame frame ∧
        (returnEvent env (some frame) d).m_pauseOnStepOut = true ∧
        (returnEvent env (some frame) d).m_pauseOnStepNext
          = (returnAttempt env frame d).m_pauseOnStepNext := by
      rw [hreturn]
      generalize returnAttempt env frame d = x at his hcur
      rw [hcur]
      simp only [his, if_true]
      obtain ⟨h1, h2, h3, _⟩ := updateCallFrame_noPause_request env
        (lexicalGlobalObjectForCallFrame env (env.callerFrame frame)) (env.callerFrame frame)
        { x with m_pastFirstExpressionInStatement := true,
                 m_pauseOnCallFrame := env.callerFrame frame, m_pauseOnStepOut := true }
      exact ⟨h1, h3, h2⟩
    exact ⟨hres.1, hres.2.1, hres.2.2, hres.1.trans hstepOut.1.symm,
      hres.2.1.trans hstepOut.2.1.symm, hres.2.2.trans hstepOut.2.2.symm⟩
  · intro hnot
    rw [hreturn]
    generalize returnAttempt env frame d = x at hnot hcurrent
    rcases hcurrent with hcur | hcur
    · rw [hcur]
      exact ⟨rfl, rfl, rfl⟩
    · rw [hcur]
      simp only []
      rw [if_neg (fun h => hnot h.symm)]
      obtain ⟨h1, h2, h3, _⟩ := updateCallFrame_noPause_request env
        (lexicalGlobalObjectForCallFrame env (env.callerFrame frame)) (env.callerFrame frame)
        { x with m_pastFirstExpressionInStatement := true }
      exact ⟨h1, h3, h2⟩
  · intro his
    rw [hunwind, if_pos his.symm]
    obtain ⟨h1, h2, h3, _⟩ := updateCallFrame_noPause_request env
      (lexicalGlobalObjectForCallFrame env (env.callerFrame frame)) (env.callerFrame frame)
      { updateCallFrameInternal env frame d with m_pauseOnCallFrame := env.callerFrame frame }
    exact ⟨h1, h3.trans hfields.1, h2.trans hfields.2.1⟩
  · intro hnot
    rw [hunwind, if_neg (fun h => hnot h.symm)]
    obtain ⟨h1, h2, h3, _⟩ := updateCallFrame_noPause_request env
      (lexicalGlobalObjectForCallFrame env (env.callerFrame frame)) (env.callerFrame frame)
      (updateCallFrameInternal env frame d)
    exact ⟨h1.trans hfields.2.2, h3.trans hfields.1, h2.trans hfields.2.1⟩

theorem return_and_unwind_rebind_target_witness :
    (returnAttempt stepOverEnv 100 steppingOverFrame).m_pauseOnCallFrame = some 100 ∧
    (returnEvent stepOverEnv (some 100) steppingOverFrame).m_pauseOnCallFrame = some 50 ∧
    (returnEvent stepOverEnv (some 100) steppingOverFrame).m_pauseOnStepOut = true ∧
    (unwindEvent callerEnv (some 100) steppingOverFrame).m_pauseOnCallFrame = some 50 ∧
    (unwindEvent callerEnv (some 100) steppingOverFrame).m_pauseOnStepOut = false :=
  have hreturn := (return_and_unwind_rebind_target stepOverEnv 100 steppingOverFrame
    (by decide) (by decide)).1 (by decide)
  have hunwind := (return_and_unwind_rebind_target callerEnv 100 steppingOverFrame
    (by decide) (by decide)).2.2.1 (by decide)
  ⟨by decide, hreturn.1, hreturn.2.1, hunwind.1, hunwind.2.1⟩

end Debugger
end JSC

namespace JSC
namespace Debugger

/-! ### The end of a program -/

/-- C37 (as stated, refuted): first, the immediate request is armed and frame 100 has
no caller; the pause at the end of the program is answered with
`stepOutOfFunction`, which leaves no request armed, so the tracked frame is
dropped and `didExecuteProgram` returns at once: on exit the step-out flag of
the eventual request is still set.  Second, frame 100 is the target of the
eventual request when `didExecuteProgram` is called and has the caller
frame 50; the pause is answered with `continueProgram`: on exit the target is
not frame 50 and the immediate request is not armed. -/
theorem didExecuteProgram_returns_at_once_after_pause :
    pauseRequestedDebugger.m_isPaused = false ∧
    pauseRequestedDebugger.m_steppingMode = SteppingMode.SteppingModeEnabled ∧
    stepOutEnv.callerFrame 100 = none ∧
    (didExecuteProgram stepOutEnv (some 100) pauseRequestedDebugger).m_pauseOnStepOut = true ∧
    (didExecuteProgram stepOutEnv (some 100) pauseRequestedDebugger).m_currentCallFrame
      = none ∧
    steppingOverFrame.m_isPaused = false ∧
    steppingOverFrame.m_steppingMode = SteppingMode.SteppingModeEnabled ∧
    steppingOverFrame.m_pauseOnCallFrame = some 100 ∧
    callerEnv.callerFrame 100 = some 50 ∧
    (didExecuteProgram callerEnv (some 100) steppingOverFrame).m_pauseOnCallFrame = none ∧
    (didExecuteProgram callerEnv (some 100) steppingOverFrame).m_pauseAtNextOpportunity
      = false := by
  decide

theorem didExecuteProgram_eq (env : Env) (frame : CallFrame) (d : Debugger)
    (hpaused : d.m_isPaused = false) :
    didExecuteProgram env (some frame) d
      = { (match (programEndAttempt env frame d).m_currentCallFrame with
           | none => programEndAttempt env frame d
           | some currentCallFrame =>
             (fun z : Debugger =>
               if z.m_currentCallFrame.isNone = true then
                 { resetEventualPauseState (resetImmediatePauseState z) with
                   m_deferredBreakpoints := [] }
               else z)
             (updateCallFrame env (lexicalGlobalObjectForCallFrame env
                (env.callerFrame currentCallFrame)) (env.callerFrame currentCallFrame)
              CallFrameUpdateAction.NoPause
              (if (programEndAttempt env frame d).m_currentCallFrame
                  = (programEndAttempt env frame d).m_pauseOnCallFrame then
                { programEndAttempt env frame d with
                  m_pastFirstExpressionInStatement := true,
                  m_pauseOnCallFrame := env.callerFrame currentCallFrame,
                  m_pauseAtNextOpportunity := true }
              else { programEndAttempt env frame d with
                     m_pastFirstExpressionInStatement := true }))) with
          m_reasonForPause := ReasonForPause.NotPaused } := by
  unfold didExecuteProgram
  rw [if_neg (by simp [hpaused])]
  rfl

/-- C37 (amended): for a debugger that is not paused and has stepping enabled, and
the frame of an ending program.  If, after the pause attempt of the callback,
the frame is the target of the eventual request and it has a caller, then on
exit the target is the caller, the immediate request is armed and the caller is
tracked.  If the frame is still tracked after the pause attempt and has no
caller, then on exit the immediate request, the eventual request and the
deferred breakpoints are all cleared and the tracked frame is null.  If the
pause attempt dropped the tracked frame, the callback returns at once: on exit
the tracked frame is null, the eventual request has no target frame, and the
debugger is otherwise as the pause attempt left it. -/
theorem didExecuteProgram_ends_stepping (env : Env) (frame : CallFrame) (d : Debugger)
    (hpaused : d.m_isPaused = false)
    (hstepping : d.m_steppingMode = SteppingMode.SteppingModeEnabled) :
    (∀ callerFrame : CallFrame,
      (programEndAttempt env frame d).m_pauseOnCallFrame = some frame →
      env.callerFrame frame = some callerFrame →
      (didExecuteProgram env (some frame) d).m_pauseOnCallFrame = some callerFrame ∧
      (didExecuteProgram env (some frame) d).m_pauseAtNextOpportunity = true ∧
      (didExecuteProgram env (some frame) d).m_currentCallFrame = some callerFrame) ∧
    ((programEndAttempt env frame d).m_currentCallFrame = some frame →
      env.callerFrame frame = none →
      (didExecuteProgram env (some frame) d).m_pauseAtNextOpportunity = false ∧
      (didExecuteProgram env (some frame) d).m_afterBlackboxedScript = false ∧
      (didExecuteProgram env (some frame) d).m_specialBreakpoint = none ∧
      (didExecuteProgram env (some frame) d).m_pauseOnCallFrame = none ∧
      (didExecuteProgram env (some frame) d).m_pauseOnStepNext = false ∧
      (didExecuteProgram env (some frame) d).m_pauseOnStepOut = false ∧
      (didExecuteProgram env (some frame) d).m_deferredBreakpoints = [] ∧
      (didExecuteProgram env (some frame) d).m_currentCallFrame = none) ∧
    ((programEndAttempt env frame d).m_currentCallFrame ≠ some frame →
      didExecuteProgram env (some frame) d
        = { programEndAttempt env frame d with
            m_reasonForPause := ReasonForPause.NotPaused } ∧
      (didExecuteProgram env (some frame) d).m_currentCallFrame = none ∧
      (didExecuteProgram env (some frame) d).m_pauseOnCallFrame = none) := by
  have htracked := updateCallFrame_tracked env (lexicalGlobalObjectForCallFrame env (some frame))
    frame CallFrameUpdateAction.AttemptPause
    { d with m_reasonForPause := ReasonForPause.PausedAtEndOfProgram }
    (steppingIfArmedBeyond_of_enabled _ _ hstepping)
  have hcurrent : (programEndAttempt env frame d).m_currentCallFrame = none
      ∨ (programEndAttempt env frame d).m_currentCallFrame = some frame := htracked.1
  have htarget : (programEndAttempt env frame d).m_pauseOnCallFrame.isSome = true →
      (programEndAttempt env frame d).m_currentCallFrame = some frame := htracked.2
  have hmode : (programEndAttempt env frame d).m_currentCallFrame.isSome = true →
      (programEndAttempt env frame d).m_steppingMode = SteppingMode.SteppingModeEnabled :=
    updateCallFrame_tracked_stepping env _ (some frame) _ _
  rw [didExecuteProgram_eq env frame d hpaused]
  generalize programEndAttempt env frame d = x at hcurrent htarget hmode
  refine ⟨?_, ?_, ?_⟩
  · intro callerFrame his hcaller
    have hcur := htarget (by rw [his]; rfl)
    have hstep := hmode (by rw [hcur]; rfl)
    rw [hcur]
    simp only [his, if_true, hcaller]
    rw [updateCallFrame_noPause_stepping env _ callerFrame
      { x with m_pastFirstExpressionInStatement := true,
               m_pauseOnCallFrame := some callerFrame, m_pauseAtNextOpportunity := true }
      hstep]
    have hint : ∀ y : Debugger,
        (updateCallFrameInternal env callerFrame y).m_currentCallFrame = some callerFrame ∧
        (updateCallFrameInternal env callerFrame y).m_pauseOnCallFrame = y.m_pauseOnCallFrame ∧
        (updateCallFrameInternal env callerFrame y).m_pauseAtNextOpportunity
          = y.m_pauseAtNextOpportunity := by
      intro y
      unfold updateCallFrameInternal
      simp only []
      split <;> exact ⟨rfl, rfl, rfl⟩
    obtain ⟨h1, h2, h3⟩ := hint
      { x with m_pastFirstExpressionInStatement := true,
               m_pauseOnCallFrame := some callerFrame, m_pauseAtNextOpportunity := true }
    rw [if_neg (by rw [h1]; simp)]
    exact ⟨h2, h3, h1⟩
  · intro hcur hcaller
    rw [hcur]
    simp only [hcaller]
    have hnone : ∀ y : Debugger,
        (updateCallFrame env (lexicalGlobalObjectForCallFrame env none) none
          CallFrameUpdateAction.NoPause y).m_currentCallFrame = none := fun _ => rfl
    rw [if_pos (by rw [hnone]; rfl)]
    exact ⟨rfl, rfl, rfl, rfl, rfl, rfl, rfl, rfl⟩
  · intro hnot
    have hcur : x.m_currentCallFrame = none := by
      rcases hcurrent with h | h
      · exact h
      · exact absurd h hnot
    rw [hcur]
    refine ⟨rfl, hcur, ?_⟩
    show x.m_pauseOnCallFrame = none
    cases hp : x.m_pauseOnCallFrame with
    | none => rfl
    | some f =>
      have := htarget (by rw [hp]; rfl)
      exact absurd this hnot

theorem didExecuteProgram_ends_stepping_witness :
    (programEndAttempt stepOverEnv 100 pauseRequestedDebugger).m_pauseOnCallFrame = some 100 ∧
    (didExecuteProgram stepOverEnv (some 100) pauseRequestedDebugger).m_pauseOnCallFrame
      = some 50 ∧
    (didExecuteProgram stepOverEnv (some 100) pauseRequestedDebugger).m_pauseAtNextOpportunity
      = true ∧
    (programEndAttempt stepOverTopEnv 100 pauseRequestedDebugger).m_currentCallFrame
      = some 100 ∧
    (didExecuteProgram stepOverTopEnv (some 100) pauseRequestedDebugger).m_pauseOnCallFrame
      = none ∧
    (didExecuteProgram stepOverTopEnv (some 100) pauseRequestedDebugger).m_currentCallFrame
      = none ∧
    (didExecuteProgram stepOutEnv (some 100) pauseRequestedDebugger).m_pauseOnCallFrame
      = none :=
  have hrebound := (didExecuteProgram_ends_stepping stepOverEnv 100 pauseRequestedDebugger
    (by decide) (by decide)).1 50 (by decide) (by decide)
  have hcleared := (didExecuteProgram_ends_stepping stepOverTopEnv 100 pauseRequestedDebugger
    (by decide) (by decide)).2.1 (by decide) (by decide)
  have hdropped := (didExecuteProgram_ends_stepping stepOutEnv 100 pauseRequestedDebugger
    (by decide) (by decide)).2.2 (by decide)
  ⟨by decide, hrebound.1, hrebound.2.1, by decide, hcleared.2.2.2.1, hcleared.2.2.2.2.2.2.2,
    hdropped.2.2⟩

end Debugger
end JSC

namespace JSC
namespace Debugger

/-! ### The scope of the paused state -/

/-- C33: the paused state of `pauseIfNeeded` is scoped.  For a call entered with
`m_isPaused` false: `m_isPaused` is true once the scope guards are built; from
any debugger in which it is true it is still true on the debugger the
evaluator runs a condition on and after every operation a script or the client
performs, after the evaluation of a condition, of an action and of the actions
of a breakpoint, after the loop over the deferred breakpoints, after the
deferral test, during and after the nested event loop and after `handlePause`,
so it is true when the guards are destroyed; `m_isPaused` is false when
`pauseIfNeeded` returns, on every path; and the cached debugger call frame is
null on return: the destructor of the scope drops it whenever the guards were
built, and on the paths that return before, on which the cache is not touched,
it is null as it was on entry. -/
theorem paused_state_is_scoped (env : Env) (g : Option GlobalObject) (d : Debugger)
    (hpaused : d.m_isPaused = false) :
    (guardedEntry d).m_isPaused = true ∧
    (∀ x : Debugger, x.m_isPaused = true →
      (∀ breakpoint : Breakpoint,
        (currentDebuggerCallFrame x).m_isPaused = true ∧
        (afterConditionEvaluation env breakpoint x).m_isPaused = true ∧
        (shouldPause env breakpoint g x).2.m_isPaused = true ∧
        (evaluateBreakpointActions env breakpoint g x).m_isPaused = true) ∧
      (∀ action : Action, (evaluateBreakpointAction env action g x).m_isPaused = true) ∧
      (∀ commands : List ClientCommand,
        (runCommands env commands x).m_isPaused = true ∧
        (runEventLoopWhilePaused env commands x).m_isPaused = true) ∧
      (∀ step : Bool, (evaluateDeferredBreakpoints env g step x).2.m_isPaused = true) ∧
      (∀ flags : BlackboxFlags, (shouldDeferPause flags x).2.m_isPaused = true) ∧
      (waitLoopEnded env g x).m_isPaused = true ∧
      (handlePause env g x).m_isPaused = true ∧
      (∀ after desired : Bool, (pauseNow env g after desired x).m_isPaused = true)) ∧
    (∀ (flags : BlackboxFlags) (after step : Bool),
      (pauseIfNeededGuarded env g flags after step d).m_isPaused = true) ∧
    (pauseIfNeeded env g d).m_isPaused = false ∧
    (∀ flags : BlackboxFlags,
      d.m_suppressAllPauses = false →
      relevantBlackboxFlags d (env.sourceIDForCallFrame d.m_currentCallFrame)
        (env.positionForCallFrame d.m_currentCallFrame) = some flags →
      (pauseRequested d
        || (didHitBreakpoint d (env.sourceIDForCallFrame d.m_currentCallFrame)
              (env.positionForCallFrame d.m_currentCallFrame)).isSome
        || d.m_specialBreakpoint.isSome) = true →
      (pauseIfNeeded env g d).m_currentDebuggerCallFrame = none) ∧
    (d.m_currentDebuggerCallFrame = none →
      (pauseIfNeeded env g d).m_currentDebuggerCallFrame = none) := by
  refine ⟨rfl, ?_, ?_, m_isPaused_pauseIfNeeded env g d hpaused, ?_, ?_⟩
  · intro x hx
    refine ⟨?_, ?_, ?_, ?_, ?_, ?_, ?_, ?_⟩
    · intro breakpoint
      refine ⟨?_, ?_, ?_, ?_⟩
      · rw [m_isPaused_currentDebuggerCallFrame]; exact hx
      · unfold afterConditionEvaluation
        rw [m_isPaused_evaluateWithScopeExtension, m_isPaused_currentDebuggerCallFrame]
        exact hx
      · rw [m_isPaused_shouldPause]; exact hx
      · rw [m_isPaused_evaluateBreakpointActions]; exact hx
    · intro action
      rw [m_isPaused_evaluateBreakpointAction]; exact hx
    · intro commands
      exact ⟨by rw [m_isPaused_runCommands]; exact hx,
        by rw [m_isPaused_runEventLoopWhilePaused]; exact hx⟩
    · intro step
      rw [m_isPaused_evaluateDeferredBreakpoints]; exact hx
    · intro flags
      rw [m_isPaused_shouldDeferPause]; exact hx
    · unfold waitLoopEnded
      simp only []
      rw [m_isPaused_runEventLoopWhilePaused]
      show (dispatchFunctionToObservers _ x).m_isPaused = true
      rw [← hx]
      refine Eq.trans (dispatchFunctionToObservers_preserves (fun y => y.m_isPaused) _ ?_ _) rfl
      intro o y
      show (currentDebuggerCallFrame y).m_isPaused = y.m_isPaused
      exact m_isPaused_currentDebuggerCallFrame y
    · rw [m_isPaused_handlePause]; exact hx
    · intro after desired
      rw [m_isPaused_pauseNow]; exact hx
  · intro flags after step
    rw [pauseIfNeededGuarded_eq, m_isPaused_pauseIfNeededEvaluate]
    rfl
  · intro flags hsuppress hflags htrigger
    rw [pauseIfNeeded_eq env g d flags hpaused hsuppress hflags, if_pos htrigger]
    rfl
  · intro hcache
    cases hsuppress : d.m_suppressAllPauses with
    | true => simp [pauseIfNeeded, hpaused, hsuppress, hcache]
    | false =>
      cases hflags : relevantBlackboxFlags d (env.sourceIDForCallFrame d.m_currentCallFrame)
          (env.positionForCallFrame d.m_currentCallFrame) with
      | none => simp [pauseIfNeeded, hpaused, hsuppress, hflags, hcache]
      | some flags =>
        rw [pauseIfNeeded_eq env g d flags hpaused hsuppress hflags]
        split
        · rfl
        · exact hcache

theorem paused_state_is_scoped_witness :
    onScriptSeven.m_isPaused = false ∧
    (evaluateDeferredBreakpoints (scriptEnv (TextPosition.mk 5 0)) (some 1) false
      (guardedEntry (atPauseTest onScriptSeven (some lineBreakpoint) 5))).2.m_isPaused = true ∧
    (atStatement (scriptEnv (TextPosition.mk 5 0)) (some 100)
      activatedWithLineBreakpoint).log.filter Event.isPause = [Event.hookDidPause (some 1)] ∧
    (pauseIfNeeded (scriptEnv (TextPosition.mk 5 0)) (some 1) onScriptSeven).m_isPaused
      = false ∧
    (pauseIfNeeded (scriptEnv (TextPosition.mk 5 0)) (some 1)
      onScriptSeven).m_currentDebuggerCallFrame = none :=
  have h := paused_state_is_scoped (scriptEnv (TextPosition.mk 5 0)) (some 1) onScriptSeven
    (by decide)
  ⟨by decide,
    (h.2.1 (guardedEntry (atPauseTest onScriptSeven (some lineBreakpoint) 5))
      (by decide)).2.2.2.1 false,
    by decide, h.2.2.2.1, h.2.2.2.2.1 {} (by decide) (by decide) (by decide)⟩

end Debugger
end JSC

namespace JSC
namespace Debugger

/-! ### The reason for a pause -/

theorem reportedState_runCommand (env : Env) (c : ClientCommand) (d : Debugger) :
    (runCommand env c d).reportedState = d.reportedState := by
  cases c with
  | schedulePauseAtNextOpportunity =>
    simp [runCommand, schedulePauseAtNextOpportunity, setSteppingMode_eq, reportedState]
  | schedulePauseForSpecialBreakpoint b =>
    simp only [runCommand, schedulePauseForSpecialBreakpoint, setSteppingMode_eq]
    split <;> rfl
  | stepNextExpression =>
    simp only [runCommand, stepNextExpression, setSteppingMode_eq]
    split <;> rfl
  | stepIntoStatement =>
    simp only [runCommand, stepIntoStatement, setSteppingMode_eq]
    split <;> rfl
  | stepOverStatement =>
    simp only [runCommand, stepOverStatement, setSteppingMode_eq]
    split <;> rfl
  | stepOutOfFunction =>
    simp only [runCommand, stepOutOfFunction, setSteppingMode_eq]
    split <;> rfl
  | continueProgram =>
    simp only [runCommand, continueProgram]
    split <;> rfl
  | cancelPauseAtNextOpportunity => rfl
  | cancelPauseForSpecialBreakpoint b =>
    simp only [runCommand, cancelPauseForSpecialBreakpoint]
    split <;> rfl
  | clearBreakpoints => rfl
  | detach g r =>
    simp only [runCommand, detach, continueProgram, clearParsedData]
    split <;> split <;> first
      | rfl
      | (split <;> rfl)
  | setBreakpoint b =>
    simp only [runCommand]; unfold setBreakpoint; simp only []; split <;> rfl
  | removeBreakpoint b =>
    simp only [runCommand]; unfold removeBreakpoint; split; rfl; split <;> rfl
  | setBreakpointsActivated a =>
    simp only [runCommand]; unfold setBreakpointsActivated; split <;> rfl
  | setBlackboxConfiguration s config =>
    simp only [runCommand]; unfold setBlackboxConfiguration; split <;> rfl
  | setBlackboxBreakpointEvaluations v => rfl
  | clearBlackbox => rfl
  | addObserver o =>
    simp only [runCommand]; unfold addObserver; simp only []; split <;> rfl
  | removeObserver o b =>
    simp only [runCommand]; unfold removeObserver; simp only []; split <;> rfl

theorem reportedState_runCommands (env : Env) (cs : List ClientCommand) (d : Debugger) :
    (runCommands env cs d).reportedState = d.reportedState :=
  foldl_preserves reportedState (runCommand env) (reportedState_runCommand env) cs d

theorem reportedState_runEventLoopWhilePaused (env : Env) (cs : List ClientCommand)
    (d : Debugger) :
    (runEventLoopWhilePaused env cs d).reportedState = d.reportedState := by
  induction cs generalizing d with
  | nil => rfl
  | cons c rest ih =>
    unfold runEventLoopWhilePaused
    split
    · rfl
    · rw [ih, reportedState_runCommand]

theorem reportedState_logEvent (e : Event) (d : Debugger) :
    (logEvent e d).reportedState = d.reportedState := rfl

theorem reportedState_currentDebuggerCallFrame (d : Debugger) :
    (currentDebuggerCallFrame d).reportedState = d.reportedState := by
  unfold currentDebuggerCallFrame; split <;> rfl

theorem reportedState_reportException (g : Option GlobalObject) (e : JSValue) (d : Debugger) :
    (reportException g e d).reportedState = d.reportedState := rfl

theorem reportedState_dispatchFunctionToObservers (func : Observer → Debugger → Debugger)
    (d : Debugger) (h : ∀ o x, (func o x).reportedState = x.reportedState) :
    (dispatchFunctionToObservers func d).reportedState = d.reportedState :=
  dispatchFunctionToObservers_preserves reportedState func h d

theorem reported_evaluateWithScopeExtension (env : Env) (v : ReasonForPause × BreakpointID)
    (s : String) (d : Debugger) (h : d.reportedState = v) :
    (evaluateWithScopeExtension env s d).2.reportedState = v := by
  rw [← h]
  exact reportedState_runCommands env _ _

end Debugger
end JSC

namespace JSC
namespace Debugger

theorem reported_evaluateBreakpointCondition (env : Env) (v : ReasonForPause × BreakpointID) (b : Breakpoint)
    (g : Option GlobalObject) (d : Debugger) (h : d.reportedState = v) :
    (evaluateBreakpointCondition env b g d).2.reportedState = v := by
  have hev := reported_evaluateWithScopeExtension env v b.condition (currentDebuggerCallFrame d)
    (by rw [reportedState_currentDebuggerCallFrame]; exact h)
  unfold evaluateBreakpointCondition
  simp only []
  split
  · exact h
  · split
    · exact hev
    · split
      · rw [reportedState_reportException]; exact hev
      · exact hev

theorem reported_shouldPause (env : Env) (v : ReasonForPause × BreakpointID) (b : Breakpoint)
    (g : Option GlobalObject) (d : Debugger) (h : d.reportedState = v) :
    (shouldPause env b g d).2.reportedState = v :=
  reported_evaluateBreakpointCondition env v b g d h

theorem reported_evaluateBreakpointAction (env : Env) (v : ReasonForPause × BreakpointID) (a : Action)
    (g : Option GlobalObject) (d : Debugger) (h : d.reportedState = v) :
    (evaluateBreakpointAction env a g d).reportedState = v := by
  unfold evaluateBreakpointAction
  simp only []
  have hwill : ∀ (x : Debugger), x.reportedState = v →
      (currentDebuggerCallFrame
        (if x.m_hasClient = true then logEvent (Event.clientWillEvaluate a) x else x)).reportedState
        = v := by
    intro x hx
    rw [reportedState_currentDebuggerCallFrame]
    split
    · exact hx
    · exact hx
  have hdid : ∀ (x : Debugger), x.reportedState = v →
      (if x.m_hasClient = true then logEvent (Event.clientDidEvaluate a) x else x).reportedState
        = v := by
    intro x hx
    split
    · exact hx
    · exact hx
  apply hdid
  cases a.type with
  | Log =>
    simp only []
    refine Eq.trans (reportedState_dispatchFunctionToObservers _ _ ?_) (hwill d h)
    intro o y; rfl
  | Evaluate =>
    simp only []
    have hev := reported_evaluateWithScopeExtension env v a.data _ (hwill d h)
    split
    · rw [reportedState_reportException]; exact hev
    · exact hev
  | Sound =>
    simp only []
    refine Eq.trans (reportedState_dispatchFunctionToObservers _ _ ?_) (hwill d h)
    intro o y; rfl
  | Probe =>
    simp only []
    have hev := reported_evaluateWithScopeExtension env v a.data _ (hwill d h)
    refine Eq.trans (reportedState_dispatchFunctionToObservers _ _ ?_) ?_
    · intro o y; rfl
    · split
      · rw [reportedState_reportException]; exact hev
      · exact hev

theorem reported_evaluateBreakpointActionsLoop (env : Env) (v : ReasonForPause × BreakpointID)
    (g : Option GlobalObject) (actions : List Action) (d : Debugger) (h : d.reportedState = v) :
    (evaluateBreakpointActionsLoop env g actions d).reportedState = v := by
  induction actions generalizing d with
  | nil => exact h
  | cons a rest ih =>
    unfold evaluateBreakpointActionsLoop
    simp only []
    split
    · exact reported_evaluateBreakpointAction env v a g d h
    · exact ih _ (reported_evaluateBreakpointAction env v a g d h)

theorem reported_evaluateBreakpointActions (env : Env) (v : ReasonForPause × BreakpointID) (b : Breakpoint)
    (g : Option GlobalObject) (d : Debugger) (h : d.reportedState = v) :
    (evaluateBreakpointActions env b g d).reportedState = v :=
  reported_evaluateBreakpointActionsLoop env v g b.actions _ h

theorem reported_deferredBreakpointsLoop (env : Env) (v : ReasonForPause × BreakpointID)
    (g : Option GlobalObject) (bps : List Breakpoint) (st : DeferredLoopState) (d : Debugger)
    (h : d.reportedState = v) :
    (deferredBreakpointsLoop env g bps st d).2.reportedState = v := by
  induction bps generalizing st d with
  | nil => exact h
  | cons b rest ih =>
    have h1 := reported_shouldPause env v b g d h
    have h2 := reported_evaluateBreakpointActions env v b g _ h1
    unfold deferredBreakpointsLoop
    simp only []
    split
    · exact h1
    · split
      · exact ih _ _ h1
      · split
        · exact h2
        · split <;> exact ih _ _ h2


end Debugger
end JSC


namespace JSC
namespace Debugger

/-- While the frame is tracked after the evaluation, `shouldPause` tells whether
the condition holds. -/
theorem shouldPause_fst_of_frame (env : Env) (b : Breakpoint) (g : Option GlobalObject)
    (d : Debugger) (hframe : (shouldPause env b g d).2.m_currentCallFrame.isNone = false) :
    (shouldPause env b g d).1 = conditionHolds env b := by
  unfold shouldPause evaluateBreakpointCondition at hframe ⊢
  unfold conditionHolds
  simp only [] at hframe ⊢
  have hout : (evaluateWithScopeExtension env b.condition (currentDebuggerCallFrame d)).1
      = env.evaluate b.condition := rfl
  cases hempty : b.condition.isEmpty with
  | true => simp [hempty]
  | false =>
    simp only [hempty, Bool.false_eq_true, if_false, Bool.false_or] at hframe ⊢
    split at hframe
    · rename_i hnone
      simp only [hnone] at hframe
      exact absurd hframe (by simp)
    · rename_i hnone
      rw [if_neg hnone]
      rw [hout]
      cases hex : (env.evaluate b.condition).exception <;> rfl

/-- When the loop over the deferred breakpoints runs through the list, its locals
are those that the conditions and the flags of the breakpoints determine. -/
theorem deferredBreakpointsLoop_fst (env : Env) (g : Option GlobalObject)
    (bps : List Breakpoint) (st s : DeferredLoopState) (d : Debugger)
    (h : (deferredBreakpointsLoop env g bps st d).1 = some s) :
    s = loopState env bps st := by
  induction bps generalizing st d with
  | nil =>
    simp only [deferredBreakpointsLoop, Option.some.injEq] at h
    exact h.symm
  | cons b rest ih =>
    unfold deferredBreakpointsLoop at h
    unfold loopState
    simp only [] at h ⊢
    cases hn1 : (shouldPause env b g d).2.m_currentCallFrame.isNone with
    | true =>
      rw [hn1] at h
      simp at h
    | false =>
      have hsp := shouldPause_fst_of_frame env b g d hn1
      rw [hn1, hsp] at h
      simp only [Bool.false_eq_true, if_false] at h
      cases hc : conditionHolds env b with
      | false =>
        rw [hc] at h
        simp only [Bool.not_false, if_true] at h ⊢
        exact ih _ _ h
      | true =>
        rw [hc] at h
        simp only [Bool.not_true, Bool.false_eq_true, if_false] at h ⊢
        cases hn2 : (evaluateBreakpointActions env b g
            (shouldPause env b g d).2).m_currentCallFrame.isNone with
        | true =>
          rw [hn2] at h
          simp at h
        | false =>
          rw [hn2] at h
          simp only [Bool.false_eq_true, if_false] at h
          split
          · rename_i ha
            rw [if_pos ha] at h
            exact ih _ _ h
          · rename_i ha
            rw [if_neg ha] at h
            exact ih _ _ h

theorem loopState_of_no_demand (env : Env) (bps : List Breakpoint) (st : DeferredLoopState)
    (h : ∀ b ∈ bps, demandsPause env b = false) : loopState env bps st = st := by
  induction bps generalizing st with
  | nil => rfl
  | cons b rest ih =>
    have hb := h b (List.mem_cons_self _ _)
    have hrest := ih st (fun x hx => h x (List.mem_cons_of_mem _ hx))
    unfold loopState
    simp only []
    unfold demandsPause at hb
    cases hc : conditionHolds env b with
    | false => simpa [hc] using hrest
    | true =>
      rw [hc] at hb
      have ha : b.isAutoContinue = true := by simpa using hb
      simpa [hc, ha] using hrest

theorem loopState_append (env : Env) (pre rest : List Breakpoint) (st : DeferredLoopState) :
    loopState env (pre ++ rest) st = loopState env rest (loopState env pre st) := by
  induction pre generalizing st with
  | nil => rfl
  | cons b more ih =>
    simp only [List.cons_append]
    rw [loopState, loopState]
    simp only []
    split
    · exact ih st
    · split
      · exact ih st
      · exact ih _

/-- No pausing breakpoint identifier is recorded once a special breakpoint has
demanded the pause first. -/
theorem loopState_after_special (env : Env) (bps : List Breakpoint) (st : DeferredLoopState)
    (hspecial : st.hasEvaluatedSpecialBreakpoint = true)
    (hnone : st.pausingBreakpointID = none) :
    (loopState env bps st).pausingBreakpointID = none := by
  induction bps generalizing st with
  | nil => exact hnone
  | cons b rest ih =>
    unfold loopState
    simp only []
    split
    · exact ih st hspecial hnone
    · split
      · exact ih st hspecial hnone
      · apply ih
        · split
          · rfl
          · split
            · rename_i hcontra
              simp [hspecial] at hcontra
            · exact hspecial
        · split
          · exact hnone
          · split
            · rename_i hcontra
              simp [hspecial] at hcontra
            · exact hnone

/-- The identifier the loop records: that of the first deferred breakpoint that
demands the pause, if it is a breakpoint of the source, and none if it is a
special breakpoint or if no breakpoint demands the pause. -/
theorem loopState_pausingBreakpointID (env : Env) (pre post : List Breakpoint)
    (B : Breakpoint) (hpre : ∀ b ∈ pre, demandsPause env b = false)
    (hdemand : demandsPause env B = true) :
    (B.isLinked = true →
      (loopState env (pre ++ B :: post) {}).pausingBreakpointID = some B.id) ∧
    (B.isLinked = false →
      (loopState env (pre ++ B :: post) {}).pausingBreakpointID = none) := by
  rw [loopState_append, loopState_of_no_demand env pre {} hpre]
  constructor
  · intro hlinked
    exact (loopState_first env B post hdemand hlinked).1
  · intro hlinked
    have hc : conditionHolds env B = true := by
      simp only [demandsPause, Bool.and_eq_true] at hdemand; exact hdemand.1
    have ha : B.isAutoContinue = false := by
      simp only [demandsPause, Bool.and_eq_true, Bool.not_eq_true'] at hdemand; exact hdemand.2
    unfold loopState
    simp only [hc, ha, hlinked, Bool.not_true, Bool.not_false, Bool.false_eq_true, if_false,
      if_true]
    exact loopState_after_special env post _ rfl rfl

theorem loopState_none_of_shouldContinue (env : Env) (bps : List Breakpoint)
    (h : (loopState env bps {}).shouldContinue = true) :
    (loopState env bps {}).pausingBreakpointID = none := by
  rw [loopState_shouldContinue] at h
  have hno : ∀ b ∈ bps, demandsPause env b = false := by
    intro b hb
    cases hd : demandsPause env b with
    | false => rfl
    | true =>
      have : bps.any (demandsPause env) = true := List.any_eq_true.2 ⟨b, hb, hd⟩
      rw [this] at h
      simp at h
  rw [loopState_of_no_demand env bps {} hno]

/-- What the block over the deferred breakpoints leaves when control goes on past
it: the declared reason is untouched, and the pausing breakpoint identifier is
the one the loop has recorded, if any. -/
theorem evaluateDeferredBreakpoints_reported (env : Env) (g : Option GlobalObject)
    (step : Bool) (d : Debugger)
    (hgo : (evaluateDeferredBreakpoints env g step d).1 = true) :
    (evaluateDeferredBreakpoints env g step d).2.m_reasonForPause = d.m_reasonForPause ∧
    (evaluateDeferredBreakpoints env g step d).2.m_pausingBreakpointID
      = (match (loopState env d.m_deferredBreakpoints {}).pausingBreakpointID with
         | some pausingBreakpointID => pausingBreakpointID
         | none => d.m_pausingBreakpointID) := by
  cases hempty : d.m_deferredBreakpoints.isEmpty with
  | true =>
    have hnil : d.m_deferredBreakpoints = [] := by simpa [List.isEmpty_iff] using hempty
    have heq : evaluateDeferredBreakpoints env g step d = (true, d) := by
      unfold evaluateDeferredBreakpoints
      rw [if_pos hempty]
    rw [heq]
    simp only [hnil, loopState]
    exact ⟨trivial, trivial⟩
  | false =>
    unfold evaluateDeferredBreakpoints at hgo ⊢
    simp only [hempty, Bool.false_eq_true, if_false] at hgo ⊢
    have hkept := reported_deferredBreakpointsLoop env d.reportedState g d.m_deferredBreakpoints
      {} { d with m_deferredBreakpoints := [] } rfl
    have hstate := deferredBreakpointsLoop_fst env g d.m_deferredBreakpoints {}
    have hnone := loopState_none_of_shouldContinue env d.m_deferredBreakpoints
    generalize loopState env d.m_deferredBreakpoints {} = final at hstate hnone
    generalize hr : deferredBreakpointsLoop env g d.m_deferredBreakpoints {}
      { d with m_deferredBreakpoints := [] } = r at hgo hkept hstate
    obtain ⟨state, x⟩ := r
    have hx1 : x.m_reasonForPause = d.m_reasonForPause := congrArg Prod.fst hkept
    have hx2 : x.m_pausingBreakpointID = d.m_pausingBreakpointID := congrArg Prod.snd hkept
    cases state with
    | none => simp at hgo
    | some s =>
      have hs : s = final := by
        have := hstate s { d with m_deferredBreakpoints := [] }
        rw [hr] at this
        exact this rfl
      subst hs
      simp only [] at hgo ⊢
      cases hcontinue : s.shouldContinue with
      | true =>
        rw [hcontinue] at hgo
        simp only [if_true] at hgo ⊢
        cases step with
        | false => simp at hgo
        | true =>
          simp only [Bool.not_true, Bool.false_eq_true, if_false]
          rw [hnone hcontinue]
          exact ⟨hx1, hx2⟩
      | false =>
        simp only [Bool.false_eq_true, if_false]
        cases hid : s.pausingBreakpointID with
        | none => exact ⟨hx1, hx2⟩
        | some id => exact ⟨hx1, rfl⟩

end Debugger
end JSC

namespace JSC
namespace Debugger

theorem notifications_shouldDeferPause (flags : BlackboxFlags) (d : Debugger) :
    (shouldDeferPause flags d).2.log.filter Event.isPauseOrResume
      = d.log.filter Event.isPauseOrResume := by
  unfold shouldDeferPause
  split
  · rfl
  · simp only [notifications_schedulePauseAtNextOpportunity]
    split <;> simp

/-- The four ways `pauseIfNeededEvaluate` ends, with the result of the block over
the deferred breakpoints. -/
theorem pauseIfNeededEvaluate_paths (env : Env) (g : Option GlobalObject)
    (flags : BlackboxFlags) (after step desired : Bool) (d : Debugger) :
    pauseIfNeededEvaluate env g flags after step desired d = (shouldDeferPause flags d).2 ∨
    ((evaluateDeferredBreakpoints env g step d).1 = false ∧
      pauseIfNeededEvaluate env g flags after step desired d
        = (evaluateDeferredBreakpoints env g step d).2) ∨
    pauseIfNeededEvaluate env g flags after step desired d
      = (shouldDeferPause flags (evaluateDeferredBreakpoints env g step d).2).2 ∨
    ((evaluateDeferredBreakpoints env g step d).1 = true ∧
      pauseIfNeededEvaluate env g flags after step desired d
        = pauseNow env g after desired (evaluateDeferredBreakpoints env g step d).2) := by
  by_cases hfirst : (d.m_blackboxBreakpointEvaluations = true
      ∧ flags.contains BlackboxFlag.Defer = true)
  · left
    have h1 := shouldDeferPause_fst flags d
    rw [hfirst.2] at h1
    unfold pauseIfNeededEvaluate
    simp [hfirst.1, h1]
  · right
    have hstart : (if d.m_blackboxBreakpointEvaluations = true then shouldDeferPause flags d
        else (false, d)) = (false, d) := by
      cases hbbe : d.m_blackboxBreakpointEvaluations with
      | false => simp
      | true =>
        have hdefer : flags.contains BlackboxFlag.Defer = false := by
          cases h : flags.contains BlackboxFlag.Defer with
          | false => rfl
          | true => exact absurd ⟨hbbe, h⟩ hfirst
        simp [shouldDeferPause_of_not_defer flags d hdefer]
    unfold pauseIfNeededEvaluate
    rw [hstart]
    simp only [Bool.false_eq_true, if_false]
    generalize evaluateDeferredBreakpoints env g step d = r
    obtain ⟨goOn, x⟩ := r
    cases goOn with
    | false => left; simp
    | true =>
      right
      simp only [Bool.not_true, Bool.false_eq_true, if_false]
      cases hdefer : flags.contains BlackboxFlag.Defer with
      | false =>
        right
        simp [shouldDeferPause_of_not_defer flags x hdefer]
      | true =>
        have h1 := shouldDeferPause_fst flags x
        rw [hdefer] at h1
        cases hbbe : x.m_blackboxBreakpointEvaluations with
        | false =>
          left
          simp [h1]
        | true =>
          right
          simp

theorem pauseNow_notifications (env : Env) (g : Option GlobalObject)
    (after desired : Bool) (d : Debugger) :
    (pauseNow env g after desired d).log.filter Event.isPauseOrResume
      = d.log.filter Event.isPauseOrResume
          ++ d.m_observers.map (fun observer => Event.observerDidPause observer
              (pauseEntry after desired d).m_reasonForPause)
          ++ [Event.hookDidPause g, Event.hookDidContinue g]
          ++ (waitLoopEnded env g (pauseEntry after desired d)).m_observers.map
              (fun observer => Event.observerDidContinue observer) := by
  have hentrylog : (pauseEntry after desired d).log = d.log := by
    unfold pauseEntry; simp only []; split <;> rfl
  have hentryobs : (pauseEntry after desired d).m_observers = d.m_observers := by
    unfold pauseEntry; simp only []; split <;> rfl
  have hlog : (pauseNow env g after desired d).log
      = (handlePause env g (pauseEntry after desired d)).log := by
    rw [pauseNow_eq]
    split
    · simp only [setSteppingMode_eq]
    · rfl
  rw [hlog, handlePause_notifications, hentrylog, hentryobs]

theorem pauseEntry_m_reasonForPause (after desired : Bool) (d : Debugger) :
    (pauseEntry after desired d).m_reasonForPause
      = if after = true then ReasonForPause.PausedAfterBlackboxedScript
        else if d.m_pausingBreakpointID ≠ 0 then ReasonForPause.PausedForBreakpoint
        else d.m_reasonForPause := by
  unfold pauseEntry
  simp only []
  cases desired <;> rfl

end Debugger
end JSC

namespace JSC
namespace Debugger

/-- C32 (as stated, refuted): `lineBreakpoint` is set at line 5 of script 7 and the
policy that pauses on `debugger` statements is active.  At a `debugger`
statement on line 5 both the line breakpoint and the special breakpoint demand
the pause; the line breakpoint is evaluated first, and the observer is told
`PausedForBreakpoint`, not the reason `PausedForDebuggerStatement` that the
callback declared.  At a `debugger` statement on line 6, where no breakpoint
is set, the observer is told `PausedForDebuggerStatement`. -/
theorem debugger_statement_on_breakpoint_reports_breakpoint :
    demandsPause (scriptEnv (TextPosition.mk 5 0)) lineBreakpoint = true ∧
    demandsPause (scriptEnv (TextPosition.mk 5 0)) debuggerStatementsBreakpoint = true ∧
    debuggerStatementsBreakpoint.isLinked = false ∧
    (didReachDebuggerStatement (scriptEnv (TextPosition.mk 5 0)) (some 100)
      pausingOnDebuggerStatements).log.filter Event.isPauseOrResume
      = [Event.observerDidPause 11 ReasonForPause.PausedForBreakpoint,
         Event.hookDidPause (some 1), Event.hookDidContinue (some 1),
         Event.observerDidContinue 11] ∧
    (didReachDebuggerStatement (scriptEnv (TextPosition.mk 6 0)) (some 100)
      pausingOnDebuggerStatements).log.filter Event.isPauseOrResume
      = [Event.observerDidPause 11 ReasonForPause.PausedForDebuggerStatement,
         Event.hookDidPause (some 1), Event.hookDidContinue (some 1),
         Event.observerDidContinue 11] := by
  decide

/-- C32 (amended): for a call of `pauseIfNeeded` on a debugger that is not paused,
with no pausing breakpoint identifier recorded, at a position that is not
ignored: either no observer is notified of a pause or a resume, or the
notifications are `didPause` to a list of observers, all with the same reason,
the two hooks, and `didContinue` to a list of observers.  The reason is
`PausedAfterBlackboxedScript` if the marker was set on entry; otherwise it
follows the order in which the deferred breakpoints are evaluated (those left
over, then the matched breakpoint, then the special breakpoint): if the first
deferred breakpoint that demands the pause is a breakpoint of the source, the
reason is `PausedForBreakpoint`, even when a special breakpoint demands the
pause as well; if it is a special breakpoint, the reason is the one the
callback declared, even when a breakpoint of the source demands the pause
after it; and if no deferred breakpoint demands the pause, the reason is the
one the callback declared. -/
theorem pause_reason_follows_evaluation_order (env : Env) (g : Option GlobalObject)
    (d : Debugger) (flags : BlackboxFlags) (hit : Option Breakpoint)
    (hpaused : d.m_isPaused = false) (hsuppress : d.m_suppressAllPauses = false)
    (hflags : relevantBlackboxFlags d (env.sourceIDForCallFrame d.m_currentCallFrame)
      (env.positionForCallFrame d.m_currentCallFrame) = some flags)
    (hhit : didHitBreakpoint d (env.sourceIDForCallFrame d.m_currentCallFrame)
      (env.positionForCallFrame d.m_currentCallFrame) = hit)
    (hid : d.m_pausingBreakpointID = noBreakpointID) :
    ((pauseIfNeeded env g d).log.filter Event.isPauseOrResume
        = d.log.filter Event.isPauseOrResume ∨
      ∃ notified resumed : List Observer,
        (pauseIfNeeded env g d).log.filter Event.isPauseOrResume
          = d.log.filter Event.isPauseOrResume
            ++ notified.map (fun observer => Event.observerDidPause observer
                (pauseReason env d.m_afterBlackboxedScript (deferredAtEntry d hit)
                  d.m_reasonForPause))
            ++ [Event.hookDidPause g, Event.hookDidContinue g]
            ++ resumed.map (fun observer => Event.observerDidContinue observer)) ∧
    (d.m_afterBlackboxedScript = true →
      pauseReason env d.m_afterBlackboxedScript (deferredAtEntry d hit) d.m_reasonForPause
        = ReasonForPause.PausedAfterBlackboxedScript) ∧
    (d.m_afterBlackboxedScript = false →
      (∀ (pre post : List Breakpoint) (B : Breakpoint),
        deferredAtEntry d hit = pre ++ B :: post →
        (∀ b ∈ pre, demandsPause env b = false) →
        demandsPause env B = true →
        (B.isLinked = true → B.id ≠ noBreakpointID →
          pauseReason env d.m_afterBlackboxedScript (deferredAtEntry d hit) d.m_reasonForPause
            = ReasonForPause.PausedForBreakpoint) ∧
        (B.isLinked = false →
          pauseReason env d.m_afterBlackboxedScript (deferredAtEntry d hit) d.m_reasonForPause
            = d.m_reasonForPause)) ∧
      ((∀ b ∈ deferredAtEntry d hit, demandsPause env b = false) →
        pauseReason env d.m_afterBlackboxedScript (deferredAtEntry d hit) d.m_reasonForPause
          = d.m_reasonForPause)) := by
  refine ⟨?_, ?_, ?_⟩
  · rw [pauseIfNeeded_eq env g d flags hpaused hsuppress hflags, hhit]
    split
    · generalize hline : toUnsigned (env.positionForCallFrame d.m_currentCallFrame).m_line = line
      have hlog0 : (guardedEntry (atPauseTest d hit line)).log = d.log := by
        rw [guardedEntry_log]; rfl
      have hdeferred : (guardedEntry (atPauseTest d hit line)).m_deferredBreakpoints
          = deferredAtEntry d hit := by
        rw [guardedEntry_m_deferredBreakpoints]; rfl
      have hreason0 : (guardedEntry (atPauseTest d hit line)).m_reasonForPause
          = d.m_reasonForPause := by
        unfold guardedEntry; simp only []; split <;> rfl
      have hid0 : (guardedEntry (atPauseTest d hit line)).m_pausingBreakpointID
          = noBreakpointID := by
        rw [← hid]
        unfold guardedEntry; simp only []; split <;> rfl
      have hleave : ∀ y : Debugger, (leavePausedScopes y).log = y.log := fun _ => rfl
      rw [hleave, pauseIfNeededGuarded_eq]
      generalize guardedEntry (atPauseTest d hit line) = x at hlog0 hdeferred hreason0 hid0
      generalize atDesiredCallFrame (atPauseTest d hit line) = desired
      rcases pauseIfNeededEvaluate_paths env g flags d.m_afterBlackboxedScript (stepPause d)
        desired x with heq | ⟨_, heq⟩ | heq | ⟨hgo, heq⟩
      · left
        rw [heq, notifications_shouldDeferPause, hlog0]
      · left
        rw [heq, notifications_evaluateDeferredBreakpoints, hlog0]
      · left
        rw [heq, notifications_shouldDeferPause, notifications_evaluateDeferredBreakpoints,
          hlog0]
      · right
        obtain ⟨hr1, hr2⟩ := evaluateDeferredBreakpoints_reported env g (stepPause d) x hgo
        refine ⟨(evaluateDeferredBreakpoints env g (stepPause d) x).2.m_observers,
          (waitLoopEnded env g (pauseEntry d.m_afterBlackboxedScript desired
            (evaluateDeferredBreakpoints env g (stepPause d) x).2)).m_observers, ?_⟩
        rw [heq, pauseNow_notifications, notifications_evaluateDeferredBreakpoints, hlog0,
          pauseEntry_m_reasonForPause, hr1, hr2, hreason0, hid0, hdeferred]
        have hsame : (if d.m_afterBlackboxedScript = true then
              ReasonForPause.PausedAfterBlackboxedScript
            else if (match (loopState env (deferredAtEntry d hit) {}).pausingBreakpointID with
                | some pausingBreakpointID => pausingBreakpointID
                | none => noBreakpointID) ≠ 0 then ReasonForPause.PausedForBreakpoint
            else d.m_reasonForPause)
            = pauseReason env d.m_afterBlackboxedScript (deferredAtEntry d hit)
                d.m_reasonForPause := by
          unfold pauseReason
          cases d.m_afterBlackboxedScript with
          | true => rfl
          | false =>
            simp only [Bool.false_eq_true, if_false]
            cases (loopState env (deferredAtEntry d hit) {}).pausingBreakpointID with
            | none => simp [noBreakpointID]
            | some id => rfl
        rw [hsame]
    · left
      rfl
  · intro hafter
    unfold pauseReason
    rw [if_pos hafter]
  · intro hafter
    refine ⟨?_, ?_⟩
    · intro pre post B hlist hpre hdemand
      obtain ⟨hlinked, hspecial⟩ := loopState_pausingBreakpointID env pre post B hpre hdemand
      constructor
      · intro hl hne
        unfold pauseReason
        rw [hafter, hlist, hlinked hl]
        simp [hne]
      · intro hl
        unfold pauseReason
        rw [hafter, hlist, hspecial hl]
        simp
    · intro hno
      unfold pauseReason
      rw [hafter, loopState_of_no_demand env _ {} hno]
      simp

theorem pause_reason_follows_evaluation_order_witness :
    atDebuggerStatement.m_reasonForPause = ReasonForPause.PausedForDebuggerStatement ∧
    deferredAtEntry atDebuggerStatement (some lineBreakpoint)
      = [lineBreakpoint, debuggerStatementsBreakpoint] ∧
    pauseReason (scriptEnv (TextPosition.mk 5 0)) atDebuggerStatement.m_afterBlackboxedScript
        (deferredAtEntry atDebuggerStatement (some lineBreakpoint))
        atDebuggerStatement.m_reasonForPause
      = ReasonForPause.PausedForBreakpoint :=
  ⟨by decide, by decide,
    (((pause_reason_follows_evaluation_order (scriptEnv (TextPosition.mk 5 0)) (some 1)
      atDebuggerStatement {} (some lineBreakpoint) (by decide) (by decide) (by decide)
      (by decide) (by decide)).2.2 (by decide)).1 [] [debuggerStatementsBreakpoint]
      lineBreakpoint (by decide) (by intro b hb; simp at hb) (by decide)).1
      (by decide) (by decide)⟩

end Debugger
end JSC
